import Mathlib

/-!
# SoundFont loader: preset list, generator loader and zone fixup

Shallow embedding of parts of `src/sfloader/fluid_defsfont.c` and
`src/sfloader/fluid_sffile.c`.

* C linked lists (`next` pointers, `fluid_list_t`) are Lean lists; a `NULL`
  list is `[]`, `fluid_list_append` adds at the end, `fluid_list_prepend` at
  the front, `fluid_list_last` is the last node and `fluid_list_nth` the node
  at a position (`NULL` past the end).
* `unsigned int` / `unsigned short` fields are `Nat`; only comparisons are
  made on them, so no wrap-around has to be modelled.
* Functions that only ever return `FLUID_OK` are embedded as the state
  transformer they perform; a function that can return `FALSE` returns an
  `Option`, `none` for `FALSE`.
* File input: a read past the end of the data fails, a seek does not fail.
  Memory allocation does not fail.
-/

namespace FluidSynth

/-! ## `fluid_defsfont.c`: the sorted preset list -/

/-- Runtime preset, `struct _fluid_defpreset_t`: the fields read by the preset
list operations (`next` is the list structure itself). -/
structure fluid_defpreset_t where
  name : String
  bank : Nat
  num : Nat
  deriving DecidableEq, Repr

/-- Runtime SoundFont, `struct _fluid_defsfont_t`: the chained list of presets. -/
structure fluid_defsfont_t where
  preset : List fluid_defpreset_t
  deriving DecidableEq, Repr

/-- The `while (cur != NULL)` loop of `fluid_defsfont_add_preset`: walk the
list, link `preset` in front of the first `cur` that is strictly greater in
(bank, num) order; when the walk reaches the end, link it after the last
node. -/
def add_preset_loop (preset : fluid_defpreset_t) :
    List fluid_defpreset_t → List fluid_defpreset_t
  | [] => [preset]
  | cur :: rest =>
    if preset.bank < cur.bank ∨ (preset.bank = cur.bank ∧ preset.num < cur.num) then
      preset :: cur :: rest
    else
      cur :: add_preset_loop preset rest

/-- Embedding of `fluid_defsfont_add_preset` (always returns `FLUID_OK`). -/
def fluid_defsfont_add_preset (sfont : fluid_defsfont_t) (preset : fluid_defpreset_t) :
    fluid_defsfont_t :=
  match sfont.preset with
  | [] => { sfont with preset := [preset] }
  | cur :: rest => { sfont with preset := add_preset_loop preset (cur :: rest) }

/-- The `while (preset != NULL)` loop of `fluid_defsfont_get_preset`. -/
def get_preset_loop (bank num : Nat) : List fluid_defpreset_t → Option fluid_defpreset_t
  | [] => none
  | preset :: next =>
    if preset.bank = bank ∧ preset.num = num then some preset
    else get_preset_loop bank num next

/-- Embedding of `fluid_defsfont_get_preset`; `none` is `NULL`. -/
def fluid_defsfont_get_preset (sfont : fluid_defsfont_t) (bank num : Nat) :
    Option fluid_defpreset_t :=
  get_preset_loop bank num sfont.preset

/-- Non-decreasing lexicographic (bank, num) order on presets. -/
def preset_le (p q : fluid_defpreset_t) : Prop :=
  p.bank < q.bank ∨ (p.bank = q.bank ∧ p.num ≤ q.num)

instance (p q : fluid_defpreset_t) : Decidable (preset_le p q) :=
  inferInstanceAs (Decidable (p.bank < q.bank ∨ (p.bank = q.bank ∧ p.num ≤ q.num)))

instance : IsTrans fluid_defpreset_t preset_le :=
  ⟨fun p q r h1 h2 => by unfold preset_le at *; omega⟩

/-- The SoundFont obtained from the empty one by adding the presets of `seq`
in order, first element first. -/
def add_presets (sfont : fluid_defsfont_t) (seq : List fluid_defpreset_t) : fluid_defsfont_t :=
  seq.foldl fluid_defsfont_add_preset sfont

/-! ## `fluid_sffile.c`: generator ids -/

def Gen_StartAddrOfs : Nat := 0
def Gen_EndAddrOfs : Nat := 1
def Gen_StartLoopAddrOfs : Nat := 2
def Gen_EndLoopAddrOfs : Nat := 3
def Gen_StartAddrCoarseOfs : Nat := 4
def Gen_EndAddrCoarseOfs : Nat := 12
def Gen_Unused1 : Nat := 14
def Gen_Pan : Nat := 17
def Gen_Unused2 : Nat := 18
def Gen_Unused3 : Nat := 19
def Gen_Unused4 : Nat := 20
def Gen_Instrument : Nat := 41
def Gen_Reserved1 : Nat := 42
def Gen_KeyRange : Nat := 43
def Gen_VelRange : Nat := 44
def Gen_StartLoopAddrCoarseOfs : Nat := 45
def Gen_Keynum : Nat := 46
def Gen_Velocity : Nat := 47
def Gen_Attenuation : Nat := 48
def Gen_Reserved2 : Nat := 49
def Gen_EndLoopAddrCoarseOfs : Nat := 50
def Gen_SampleId : Nat := 53
def Gen_SampleModes : Nat := 54
def Gen_Reserved3 : Nat := 55
def Gen_ExclusiveClass : Nat := 57
def Gen_OverrideRootKey : Nat := 58
def Gen_Dummy : Nat := 59

/-- The macro `Gen_MaxValid`, `Gen_Dummy - 1`. -/
def Gen_MaxValid : Nat := Gen_Dummy - 1

/-- The zero-terminated table `invalid_inst_gen`. -/
def invalid_inst_gen : List Nat :=
  [Gen_Unused1, Gen_Unused2, Gen_Unused3, Gen_Unused4,
   Gen_Reserved1, Gen_Reserved2, Gen_Reserved3, 0]

/-- The zero-terminated table `invalid_preset_gen`. -/
def invalid_preset_gen : List Nat :=
  [Gen_StartAddrOfs, Gen_EndAddrOfs, Gen_StartLoopAddrOfs, Gen_EndLoopAddrOfs,
   Gen_StartAddrCoarseOfs, Gen_EndAddrCoarseOfs, Gen_StartLoopAddrCoarseOfs,
   Gen_Keynum, Gen_Velocity, Gen_EndLoopAddrCoarseOfs, Gen_SampleModes,
   Gen_ExclusiveClass, Gen_OverrideRootKey, 0]

/-- The scan `while (table[i] && table[i] != genid) i++; return table[i] == 0`
over a zero-terminated table, started at the entry at the head of the list.
Running off the list does not happen for a table that ends in 0; that case
is given the value `false`. -/
def scan_invalid_table (genid : Nat) : List Nat → Bool
  | [] => false
  | e :: rest =>
    if e ≠ 0 ∧ e ≠ genid then scan_invalid_table genid rest
    else decide (e = 0)

/-- Embedding of `valid_inst_genid`. -/
def valid_inst_genid (genid : Nat) : Bool :=
  if genid > Gen_MaxValid then false
  else scan_invalid_table genid invalid_inst_gen

/-- Embedding of `valid_preset_genid`. -/
def valid_preset_genid (genid : Nat) : Bool :=
  if ¬ valid_inst_genid genid then false
  else scan_invalid_table genid invalid_preset_gen

/-- The 13 generators that the SoundFont specification forbids at preset
level. -/
def preset_illegal_gens : List Nat := [0, 1, 2, 3, 4, 12, 45, 46, 47, 50, 54, 57, 58]

/-- The seven unused / reserved generator ids. -/
def unused_reserved_gens : List Nat := [14, 18, 19, 20, 42, 49, 55]

/-! ## `fluid_sffile.c`: the intermediate tree -/

/-- Modelled from the spec: the union `SFGenAmount` of `fluid_sffile.h`, which
is not among the sources; the spec's `union{ sword:i16, uword:u16,
range:{lo:u8,hi:u8} }`, kept with the member that was last written. -/
inductive SFGenAmount where
  | sword (v : Int)
  | uword (v : Nat)
  | range (lo hi : Nat)
  deriving DecidableEq, Repr

/-- Reading the `uword` member of the union: the 16-bit word that holds the
amount (for `range`, `lo` is the low byte). -/
def SFGenAmount.as_uword : SFGenAmount → Nat
  | .sword v => (v % 65536).toNat
  | .uword v => v
  | .range lo hi => lo + 256 * hi

/-- Modelled from the spec: `SFGen` of `fluid_sffile.h`, the spec's
`Gen { id:u16, amount }`, a generator of a zone. -/
structure SFGen where
  id : Nat
  amount : SFGenAmount
  deriving DecidableEq, Repr

/-- Modelled from the spec: `SFMod` of `fluid_sffile.h`, the spec's
`Mod { src:u16, dest:u16, amount:i16, amt_src:u16, transform:u16 }`, a
modulator of a zone. -/
structure SFMod where
  src : Nat
  dest : Nat
  amount : Int
  amtsrc : Nat
  trans : Nat
  deriving DecidableEq, Repr

/-- Modelled from the spec: `SFPresetZone` and `SFInstZone` of
`fluid_sffile.h`, the spec's `PZone` and `IZone`, with the fields the loaders
use. The two have the same fields up to the name of the reference: `ref` is
`inst` in a preset zone (a pointer to an element of `sf->inst`) and `sample`
in an instrument zone (a pointer to an element of `sf->sample`). The pointer
is kept as the position of the element in that list; `none` is `NULL`. -/
structure SFZone where
  gen : List SFGen
  mod : List SFMod
  gen_idx : Nat
  gen_count : Nat
  mod_idx : Nat
  mod_count : Nat
  ref : Option Nat
  deriving DecidableEq, Repr

abbrev SFPresetZone := SFZone
abbrev SFInstZone := SFZone

/-- Modelled from the spec: `SFPreset` of `fluid_sffile.h`, the spec's
`PHeader`, a preset header of the intermediate tree. -/
structure SFPreset where
  name : String
  prenum : Nat
  bank : Nat
  pbag_idx : Nat
  pbag_count : Nat
  zone : List SFPresetZone
  deriving DecidableEq, Repr

/-- Modelled from the spec: `SFInst` of `fluid_sffile.h`, the spec's `IHeader`,
an instrument header of the intermediate tree. -/
structure SFInst where
  name : String
  idx : Nat
  ibag_idx : Nat
  ibag_count : Nat
  zone : List SFInstZone
  deriving DecidableEq, Repr

/-- Modelled from the spec: `SFSample` of `fluid_sffile.h`, the spec's
`SHeader`, a sample header of the intermediate tree (`end_` is the C field
`end`). -/
structure SFSample where
  name : String
  idx : Nat
  start : Nat
  end_ : Nat
  loopstart : Nat
  loopend : Nat
  samplerate : Nat
  origpitch : Nat
  pitchadj : Int
  sampletype : Nat
  deriving DecidableEq, Repr

/-- Modelled from the spec: `SFData` of `fluid_sffile.h`, the spec's `SfFile`:
the three lists the loaders and fixups work on. -/
structure SFData where
  preset : List SFPreset
  inst : List SFInst
  sample : List SFSample
  deriving DecidableEq, Repr

/-! ## `fluid_sffile.c`: the generator loader -/

/-- One 4-byte PGEN / IGEN record as it lies in the file: the little-endian
generator id, then the two amount bytes. -/
structure GenRecord where
  genid : Nat
  b0 : Nat
  b1 : Nat
  deriving DecidableEq, Repr

/-- The value `READW` stores into a `signed short` from the two bytes. -/
def read_sword (b0 b1 : Nat) : Int :=
  let w := (b0 + 256 * b1) % 65536
  if w < 32768 then (w : Int) else (w : Int) - 65536

/-- The value `READW` stores into an `unsigned short` from the two bytes. -/
def read_uword (b0 b1 : Nat) : Nat :=
  (b0 + 256 * b1) % 65536

/-- Embedding of `find_gen_by_id`: the position of the first node of the list
whose generator has the id, `none` for `NULL`. -/
def find_gen_by_id (genid : Nat) : List SFGen → Option Nat
  | [] => none
  | g :: p => if g.id = genid then some 0 else (find_gen_by_id genid p).map (· + 1)

/-- The assignment `gen->amount = genval` through a pointer to the node at
position `k` of the list. -/
def set_gen_amount (genval : SFGenAmount) : Nat → List SFGen → List SFGen
  | _, [] => []
  | 0, g :: p => { g with amount := genval } :: p
  | k + 1, g :: p => g :: set_gen_amount genval k p

/-- The local variables of `load_preset_generators` / `load_inst_generators`
that live across loop iterations, zones and presets, with the file position:
`pos` counts 4-byte records from `pgen_pos` (`igen_pos`), `gen_set` is
`gen != NULL`, `duplicate_gen` is the node found by `find_gen_by_id`. -/
structure GenLoaderVars where
  pos : Nat
  gen_set : Bool
  duplicate_gen : Option Nat
  deriving DecidableEq, Repr

/-- The state on entry of `load_preset_generators` / `load_inst_generators`:
`gen = NULL`, `duplicate_gen = NULL`; the file position `pos` is wherever the
previous loader left it. -/
def GenLoaderVars.init (pos : Nat) : GenLoaderVars :=
  { pos := pos, gen_set := false, duplicate_gen := none }

/-- The tail of the loop body, from `if (duplicate_gen != NULL)` to
`gen->amount = genval`: overwrite the duplicate, or append a new generator. -/
def store_gen (ld : GenLoaderVars) (genid : Nat) (genval : SFGenAmount) (zgen : List SFGen) :
    GenLoaderVars × List SFGen :=
  match ld.duplicate_gen with
  | some k => ({ ld with gen_set := true, duplicate_gen := none }, set_gen_amount genval k zgen)
  | none => ({ ld with gen_set := true }, zgen ++ [{ id := genid, amount := genval }])

/-- The record an iteration reads, after
`if (gen == NULL) FSEEK(sf, sf->pgen_pos + (zone->gen_idx * SF_GEN_SIZE));`:
the current position once a generator has been stored, the zone's first
record as long as none has. -/
def read_pos (gen_idx : Nat) (ld : GenLoaderVars) : Nat :=
  if ld.gen_set then ld.pos else gen_idx

/-- The ids of a generator list, in list order. -/
def gen_ids (zgen : List SFGen) : List Nat :=
  zgen.map (fun g => g.id)

/-- The amount stored for an id in a generator list: the amount of the node
that `find_gen_by_id` returns. -/
def stored_amount (genid : Nat) (zgen : List SFGen) : Option SFGenAmount :=
  (zgen.find? (fun g => decide (g.id = genid))).map (fun g => g.amount)

/-- One iteration of the `for (i = 0; i < zone->gen_count; i++)` loop of
`load_preset_generators` (`terminal = Gen_Instrument`,
`valid = valid_preset_genid`) and of `load_inst_generators`
(`terminal = Gen_SampleId`, `valid = valid_inst_genid`).

`chunk` is the file from `pgen_pos` (`igen_pos`) on, in 4-byte records; a read
past its end is a failing `fread` and makes the loader return `FALSE`
(`none`). The result is the new loader variables, the new `level` and the new
`zone->gen`. -/
def load_gen_record (terminal : Nat) (valid : Nat → Bool) (chunk : List GenRecord)
    (gen_idx : Nat) (ld : GenLoaderVars) (level : Nat) (zgen : List SFGen) :
    Option (GenLoaderVars × Nat × List SFGen) :=
  let pos := read_pos gen_idx ld
  -- READW(sf, genid); the two amount bytes are read or skipped in every branch
  match chunk.get? pos with
  | none => none
  | some r =>
    let ld := { ld with pos := pos + 1 }
    if (level = 0 ∧ r.genid = Gen_KeyRange) ∨ (level ≤ 1 ∧ r.genid = Gen_VelRange) then
      let (ld, zgen) := store_gen ld r.genid (.range r.b0 r.b1) zgen
      some (ld, level + 1, zgen)
    else if level < 3 ∧ r.genid = terminal then
      let (ld, zgen) := store_gen ld r.genid (.uword (read_uword r.b0 r.b1)) zgen
      some (ld, 3, zgen)
    else if level ≤ 2 ∧ valid r.genid = true then
      let ld := { ld with duplicate_gen := find_gen_by_id r.genid zgen }
      let (ld, zgen) := store_gen ld r.genid (.sword (read_sword r.b0 r.b1)) zgen
      some (ld, 2, zgen)
    else
      -- FSKIP(sf, 2); continue;
      some (ld, level, zgen)

/-- The `for (i = 0; i < zone->gen_count; i++)` loop with `n` iterations to
go. -/
def load_zone_loop (terminal : Nat) (valid : Nat → Bool) (chunk : List GenRecord)
    (gen_idx : Nat) : Nat → GenLoaderVars → Nat → List SFGen →
    Option (GenLoaderVars × Nat × List SFGen)
  | 0, ld, level, zgen => some (ld, level, zgen)
  | n + 1, ld, level, zgen =>
    match load_gen_record terminal valid chunk gen_idx ld level zgen with
    | none => none
    | some (ld, level, zgen) => load_zone_loop terminal valid chunk gen_idx n ld level zgen

/-- The body of the `while (zone_list)` loop for one zone: `level = 0`, then
the generator loop; the zone gets the resulting list. -/
def load_zone_generators (terminal : Nat) (valid : Nat → Bool) (chunk : List GenRecord)
    (ld : GenLoaderVars) (zone : SFZone) : Option (GenLoaderVars × SFZone) :=
  match load_zone_loop terminal valid chunk zone.gen_idx zone.gen_count ld 0 zone.gen with
  | none => none
  | some (ld, _, zgen) => some (ld, { zone with gen := zgen })

/-- The `while (zone_list)` loop over the zones of one preset / instrument. -/
def load_zone_list_generators (terminal : Nat) (valid : Nat → Bool) (chunk : List GenRecord) :
    GenLoaderVars → List SFZone → Option (GenLoaderVars × List SFZone)
  | ld, [] => some (ld, [])
  | ld, zone :: zone_list =>
    match load_zone_generators terminal valid chunk ld zone with
    | none => none
    | some (ld, zone) =>
      match load_zone_list_generators terminal valid chunk ld zone_list with
      | none => none
      | some (ld, zones) => some (ld, zone :: zones)

/-- The loop `while (preset_list && num_presets > 0)` of
`load_preset_generators`. -/
def load_preset_list_generators (pgen : List GenRecord) :
    GenLoaderVars → List SFPreset → Nat → Option (GenLoaderVars × List SFPreset)
  | ld, [], _ => some (ld, [])
  | ld, preset_list, 0 => some (ld, preset_list)
  | ld, preset :: preset_list, num_presets + 1 =>
    match load_zone_list_generators Gen_Instrument valid_preset_genid pgen ld preset.zone with
    | none => none
    | some (ld, zones) =>
      match load_preset_list_generators pgen ld preset_list num_presets with
      | none => none
      | some (ld, presets) => some (ld, { preset with zone := zones } :: presets)

/-- Embedding of `load_preset_generators(sf, sf->preset, num_presets)`. `pgen`
is the file from `sf->pgen_pos` on and `pos` the file position on entry;
`none` is the return value `FALSE`. -/
def load_preset_generators (sf : SFData) (pgen : List GenRecord) (pos : Nat)
    (num_presets : Nat) : Option SFData :=
  match load_preset_list_generators pgen (GenLoaderVars.init pos) sf.preset num_presets with
  | none => none
  | some (_, presets) => some { sf with preset := presets }

/-- The loop `while (inst_list && num_insts > 0)` of `load_inst_generators`. -/
def load_inst_list_generators (igen : List GenRecord) :
    GenLoaderVars → List SFInst → Nat → Option (GenLoaderVars × List SFInst)
  | ld, [], _ => some (ld, [])
  | ld, inst_list, 0 => some (ld, inst_list)
  | ld, inst :: inst_list, num_insts + 1 =>
    match load_zone_list_generators Gen_SampleId valid_inst_genid igen ld inst.zone with
    | none => none
    | some (ld, zones) =>
      match load_inst_list_generators igen ld inst_list num_insts with
      | none => none
      | some (ld, insts) => some (ld, { inst with zone := zones } :: insts)

/-- Embedding of `load_inst_generators(sf, sf->inst, num_insts)`. `igen` is the
file from `sf->igen_pos` on and `pos` the file position on entry; `none` is
the return value `FALSE`. -/
def load_inst_generators (sf : SFData) (igen : List GenRecord) (pos : Nat)
    (num_insts : Nat) : Option SFData :=
  match load_inst_list_generators igen (GenLoaderVars.init pos) sf.inst num_insts with
  | none => none
  | some (_, insts) => some { sf with inst := insts }

/-- Where the terminal generator can be: nowhere in the list below level 3,
exactly at its end at level 3. -/
def TerminalInv (terminal : Nat) (level : Nat) (zgen : List SFGen) : Prop :=
  level ≤ 3 ∧ (level < 3 → terminal ∉ gen_ids zgen) ∧
  (level = 3 → ∃ init, gen_ids zgen = init ++ [terminal] ∧ terminal ∉ init)

/-! ## `fluid_sffile.c`: zone fixup

The zone list of a preset / instrument holds pointers to zones, and the fixup
compares, removes and re-inserts zones by pointer. A zone pointer is modelled
as the position the zone had in the list on entry, so a list node is a pair
`(pointer, zone)`. -/

/-- Pair every zone of a list with its pointer, counting from `p`. -/
def tag_zones : Nat → List SFZone → List (Nat × SFZone)
  | _, [] => []
  | p, zone :: rest => (p, zone) :: tag_zones (p + 1) rest

/-- Modelled from the spec: `fluid_list_remove(list, zone)` of the list module,
which is not among the sources; the "mid-list removal" of the spec's ordered
sequence: unlink the first node whose data pointer is `zone`. -/
def zone_list_remove (zone : Nat) : List (Nat × SFZone) → List (Nat × SFZone)
  | [] => []
  | node :: rest => if node.1 = zone then rest else node :: zone_list_remove zone rest

/-- The writes `zone->inst = ...; zone->gen = ...` through the pointer `zone`,
seen from the list that holds the pointer. -/
def zone_list_store (zone : Nat) (val : SFZone) : List (Nat × SFZone) → List (Nat × SFZone)
  | [] => []
  | node :: rest =>
    if node.1 = zone then (zone, val) :: rest else node :: zone_list_store zone val rest

/-- The test `first_zone->inst != NULL` (`first_zone->sample != NULL`). When
`first_zone` is no longer in the list it has been freed by `delete_preset_zone`
(`delete_inst_zone`), and the read is a read of freed memory: `freed_nonnull`
says what that read yields. -/
def first_zone_ref_nonnull (freed_nonnull : Bool) (zones : List (Nat × SFZone))
    (first_zone : Nat) : Bool :=
  match zones.find? (fun node => node.1 = first_zone) with
  | some node => node.2.ref.isSome
  | none => freed_nonnull

/-- The index `gen->amount.uword` of the last generator of a zone (0 when the
zone has no generator, a case in which it is not used). -/
def last_gen_uword (z : SFZone) : Nat :=
  (z.gen.getLast?.map (fun gen => gen.amount.as_uword)).getD 0

/-- The zone after `zone->inst = <element gen->amount.uword of sf->inst>;
zone->gen = fluid_list_remove(zone->gen, gen);` for its last generator `gen`
(`zone->sample`, `sf->sample` in an instrument zone). -/
def resolve_zone (z : SFZone) : SFZone :=
  { z with ref := some (last_gen_uword z), gen := z.gen.dropLast }

/-- The inner loop `while (zone_list)` of `fixup_preset_zones`
(`terminal = Gen_Instrument`, `nrefs` the length of `sf->inst`) and of
`fixup_inst_zones` (`terminal = Gen_SampleId`, `nrefs` the length of
`sf->sample`).

The first list is `zone_list`, the nodes still to visit; `zones` is
`preset->zone` (`inst->zone`); `first_zone` is the pointer of that name. The
result is the final `preset->zone`, or `none` for `return FALSE`. -/
def fixup_zone_loop (terminal : Nat) (nrefs : Nat) (freed_nonnull : Bool) :
    List (Nat × SFZone) → List (Nat × SFZone) → Nat → Option (List (Nat × SFZone))
  | [], zones, _ => some zones
  | (zone, z) :: zone_list, zones, first_zone =>
    -- gen = fluid_list_get(fluid_list_last(zone->gen));
    if z.gen.getLast? = none ∧ z.mod = [] then
      -- zone without modulators or generators: remove and delete
      fixup_zone_loop terminal nrefs freed_nonnull zone_list (zone_list_remove zone zones)
        first_zone
    else if z.gen.getLast?.map (fun gen => gen.id) = some terminal then
      -- zone->inst = fluid_list_get(fluid_list_nth(sf->inst, gen->amount.uword));
      if last_gen_uword z < nrefs then
        fixup_zone_loop terminal nrefs freed_nonnull zone_list
          (zone_list_store zone (resolve_zone z) zones) first_zone
      else none
    else if zone ≠ first_zone then
      if first_zone_ref_nonnull freed_nonnull (zone_list_remove zone zones) first_zone then
        fixup_zone_loop terminal nrefs freed_nonnull zone_list
          ((zone, z) :: zone_list_remove zone zones) zone
      else
        -- discarding additional global zone
        fixup_zone_loop terminal nrefs freed_nonnull zone_list (zone_list_remove zone zones)
          first_zone
    else
      fixup_zone_loop terminal nrefs freed_nonnull zone_list zones first_zone

/-- The body of the outer loop for one preset / instrument:
`zone_list = preset->zone; first_zone = fluid_list_get(zone_list);` and the
inner loop, which the empty list does not enter. The result is the new
`preset->zone`. -/
def fixup_zone_list (terminal : Nat) (nrefs : Nat) (freed_nonnull : Bool)
    (zone : List SFZone) : Option (List SFZone) :=
  match tag_zones 0 zone with
  | [] => some []
  | node :: rest =>
    (fixup_zone_loop terminal nrefs freed_nonnull (node :: rest) (node :: rest) node.1).map
      (List.map Prod.snd)

/-- Pointer-free description of the inner loop after its first iteration, used
in the proofs. `kept` is the part of the zone list that has been visited,
`freed` says that `first_zone` points to a deleted zone; otherwise
`first_zone` is the head of `kept`. -/
def plain_fixup_loop (terminal : Nat) (nrefs : Nat) (freed_nonnull : Bool) :
    List SFZone → List SFZone → Bool → Option (List SFZone)
  | [], kept, _ => some kept
  | z :: todo, kept, freed =>
    if z.gen.getLast? = none ∧ z.mod = [] then
      plain_fixup_loop terminal nrefs freed_nonnull todo kept freed
    else if z.gen.getLast?.map (fun gen => gen.id) = some terminal then
      if last_gen_uword z < nrefs then
        plain_fixup_loop terminal nrefs freed_nonnull todo (kept ++ [resolve_zone z]) freed
      else none
    else if (if freed then freed_nonnull
        else (kept.head?.map (fun h => h.ref.isSome)).getD freed_nonnull) then
      plain_fixup_loop terminal nrefs freed_nonnull todo (z :: kept) false
    else
      plain_fixup_loop terminal nrefs freed_nonnull todo kept freed

/-- Pointer-free description of `fixup_zone_list`: the first iteration, in
which the zone is `first_zone`, then `plain_fixup_loop`. -/
def plain_fixup_list (terminal : Nat) (nrefs : Nat) (freed_nonnull : Bool) :
    List SFZone → Option (List SFZone)
  | [] => some []
  | z :: todo =>
    if z.gen.getLast? = none ∧ z.mod = [] then
      plain_fixup_loop terminal nrefs freed_nonnull todo [] true
    else if z.gen.getLast?.map (fun gen => gen.id) = some terminal then
      if last_gen_uword z < nrefs then
        plain_fixup_loop terminal nrefs freed_nonnull todo [resolve_zone z] false
      else none
    else
      plain_fixup_loop terminal nrefs freed_nonnull todo [z] false

/-- The test `gen == NULL && zone->mod == NULL` of the fixup, `gen` being the
last generator of the zone: the zone has neither generators nor modulators. -/
def zone_empty (z : SFZone) : Prop :=
  z.gen.getLast? = none ∧ z.mod = []

instance (z : SFZone) : Decidable (zone_empty z) :=
  inferInstanceAs (Decidable (z.gen.getLast? = none ∧ z.mod = []))

/-- The test `gen && gen->id == Gen_Instrument` (`Gen_SampleId`) of the fixup,
`gen` being the last generator of the zone. -/
def zone_terminal (terminal : Nat) (z : SFZone) : Prop :=
  z.gen.getLast?.map (fun gen => gen.id) = some terminal

instance (terminal : Nat) (z : SFZone) : Decidable (zone_terminal terminal z) :=
  inferInstanceAs (Decidable (z.gen.getLast?.map (fun gen => gen.id) = some terminal))

/-- The loop `while (preset_list && num_presets > 0)` of `fixup_preset_zones`;
`num_presets` is not decremented in it. -/
def fixup_preset_list (ninst : Nat) (freed_nonnull : Bool) (num_presets : Nat) :
    List SFPreset → Option (List SFPreset)
  | [] => some []
  | preset :: preset_list =>
    if 0 < num_presets then
      match fixup_zone_list Gen_Instrument ninst freed_nonnull preset.zone with
      | none => none
      | some zones =>
        (fixup_preset_list ninst freed_nonnull num_presets preset_list).map
          (fun presets => { preset with zone := zones } :: presets)
    else some (preset :: preset_list)

/-- Embedding of `fixup_preset_zones(sf, sf->preset, num_presets)`; `none` is
the return value `FALSE`. -/
def fixup_preset_zones (freed_nonnull : Bool) (sf : SFData) (num_presets : Nat) :
    Option SFData :=
  (fixup_preset_list sf.inst.length freed_nonnull num_presets sf.preset).map
    (fun presets => { sf with preset := presets })

/-- The loop `while (inst_list && num_insts > 0)` of `fixup_inst_zones`. -/
def fixup_inst_list (nsample : Nat) (freed_nonnull : Bool) :
    List SFInst → Nat → Option (List SFInst)
  | [], _ => some []
  | inst_list, 0 => some inst_list
  | inst :: inst_list, num_insts + 1 =>
    match fixup_zone_list Gen_SampleId nsample freed_nonnull inst.zone with
    | none => none
    | some zones =>
      (fixup_inst_list nsample freed_nonnull inst_list num_insts).map
        (fun insts => { inst with zone := zones } :: insts)

/-- Embedding of `fixup_inst_zones(sf, sf->inst, num_insts)`; `none` is the
return value `FALSE`. -/
def fixup_inst_zones (freed_nonnull : Bool) (sf : SFData) (num_insts : Nat) :
    Option SFData :=
  (fixup_inst_list sf.sample.length freed_nonnull sf.inst num_insts).map
    (fun insts => { sf with inst := insts })

/-! ## `fluid_sffile.c`: sample fixup -/

/-- Modelled from the spec: bit `FLUID_SAMPLETYPE_OGG_VORBIS` of the sample
type, from a header that is not among the sources (the spec's "Ogg-compressed"
flag of `sample_type`). -/
def FLUID_SAMPLETYPE_OGG_VORBIS : Nat := 0x10

/-- Modelled from the spec: bit `FLUID_SAMPLETYPE_ROM` of the sample type, from
a header that is not among the sources (the spec's `sample_type & ROM`). -/
def FLUID_SAMPLETYPE_ROM : Nat := 0x8000

/-- The difference `a - b` of two `unsigned int` (32 bits), which wraps
around. -/
def u32_sub (a b : Nat) : Nat :=
  (a % 4294967296 + 4294967296 - b % 4294967296) % 4294967296

/-- The assignment `sam->start = sam->end = sam->loopstart = sam->loopend = 0`. -/
def zero_sample (sam : SFSample) : SFSample :=
  { sam with start := 0, end_ := 0, loopstart := 0, loopend := 0 }

/-- The bound `max_end` of `fixup_samples`: `total_bytes = sf->samplesize` for
an Ogg Vorbis sample, `total_samples = total_bytes / sizeof(short)`
otherwise. -/
def sample_max_end (samplesize : Nat) (sam : SFSample) : Nat :=
  let total_bytes := samplesize
  let total_samples := total_bytes / 2
  if sam.sampletype &&& FLUID_SAMPLETYPE_OGG_VORBIS ≠ 0 then total_bytes else total_samples

/-- The body of the loop of `fixup_samples` for one sample; `samplesize` is
`sf->samplesize`, the size of the sample data in bytes. The fields `start`,
`end`, `loopstart`, `loopend` are `unsigned int` (the spec's 32-bit unsigned
sample offsets). The flag `invalid_loops`, which only decides a log message,
is left out. -/
def fixup_sample (samplesize : Nat) (sam : SFSample) : SFSample :=
  let max_end := sample_max_end samplesize sam
  if sam.sampletype &&& FLUID_SAMPLETYPE_ROM ≠ 0 then
    zero_sample sam
  else if sam.end_ > max_end ∨ sam.start > u32_sub sam.end_ 4 then
    zero_sample sam
  else
    let invalid_loopstart : Bool :=
      decide (sam.loopstart < sam.start) || decide (sam.loopstart ≥ sam.loopend)
    let invalid_loopend : Bool :=
      decide (sam.loopend > max_end) || decide (sam.loopstart ≥ sam.loopend)
    let loopend_end_mismatch : Bool := decide (sam.loopend > sam.end_)
    let sam :=
      if sam.sampletype &&& FLUID_SAMPLETYPE_OGG_VORBIS ≠ 0 then sam
      else if invalid_loopstart || invalid_loopend || loopend_end_mismatch then
        let sam := if invalid_loopstart then { sam with loopstart := sam.start } else sam
        if invalid_loopend then { sam with loopend := sam.end_ } else sam
      else sam
    -- convert sample end, loopstart, loopend to offsets from sam->start
    { sam with
      end_ := u32_sub sam.end_ (sam.start + 1)
      loopstart := u32_sub sam.loopstart sam.start
      loopend := u32_sub sam.loopend sam.start }

/-- The loop `while (sample_list && num_samples > 0)` of `fixup_samples`. -/
def fixup_sample_list (samplesize : Nat) : List SFSample → Nat → List SFSample
  | [], _ => []
  | sample_list, 0 => sample_list
  | sam :: sample_list, num_samples + 1 =>
    fixup_sample samplesize sam :: fixup_sample_list samplesize sample_list num_samples

/-- Embedding of `fixup_samples(sf, sf->sample, num_samples)`, which always
returns `TRUE`; `samplesize` is `sf->samplesize`. -/
def fixup_samples (samplesize : Nat) (sf : SFData) (num_samples : Nat) : SFData :=
  { sf with sample := fixup_sample_list samplesize sf.sample num_samples }

/-! ## `fluid_defsfont.c`: import of zones into the runtime graph

Memory allocation does not fail in the embedding, so the import functions,
which return `FLUID_FAILED` only when it does, are embedded as the object they
build. The argument `sfont` is used for `sfont->sample` only, which is passed
in its place; pointers of the intermediate tree are followed in `sf`. -/

/-- The struct `_fluid_zone_range_t` of `fluid_defsfont.h`. -/
structure fluid_zone_range_t where
  keylo : Int
  keyhi : Int
  vello : Int
  velhi : Int
  ignore : Bool
  deriving DecidableEq, Repr

/-- Modelled from the spec: `GEN_KEYRANGE` of the generator header, which is
not among the sources; the spec's `KeyRange=43`. -/
def GEN_KEYRANGE : Nat := 43

/-- Modelled from the spec: `GEN_VELRANGE`, the spec's `VelRange=44`. -/
def GEN_VELRANGE : Nat := 44

/-- Modelled from the spec: `GEN_ATTENUATION`, the spec's `Attenuation=48`. -/
def GEN_ATTENUATION : Nat := 48

/-- Modelled from the spec: `GEN_LAST`, the spec's `Count GEN_LAST=59`. -/
def GEN_LAST : Nat := 59

/-- Modelled from the spec: the flag `GEN_UNUSED` of a generator slot (the
spec's "default" of "default-or-set"). -/
def GEN_UNUSED : Nat := 0

/-- Modelled from the spec: the flag `GEN_SET` of a generator slot (the spec's
`flag := SET`). -/
def GEN_SET : Nat := 1

/-- Modelled from the spec: a value of type `fluid_real_t` in a generator
slot, kept as the expression that computes it: the default put there by
`fluid_gen_set_default_values`, `(fluid_real_t) sword`, or
`(fluid_real_t) sword * EMU_ATTENUATION_FACTOR`. The number it stands for is
given by `fluid_real_t.value` below. -/
inductive fluid_real_t where
  | default_value (gen : Nat)
  | of_sword (sword : Int)
  | attenuation (sword : Int)
  deriving DecidableEq, Repr

/-- Modelled from the spec: `fluid_gen_t`, a generator slot of a runtime zone,
the spec's `gens[GEN_LAST] (default-or-set)`. -/
structure fluid_gen_t where
  flags : Nat
  val : fluid_real_t
  deriving DecidableEq, Repr

/-- Modelled from the spec: the flags of a modulator source, which
`fluid_mod_t.flags1` and `flags2` hold OR-ed together; their bit values are
in a header that is not among the sources. -/
inductive fluid_mod_flags where
  | FLUID_MOD_CC
  | FLUID_MOD_GC
  | FLUID_MOD_NEGATIVE
  | FLUID_MOD_POSITIVE
  | FLUID_MOD_BIPOLAR
  | FLUID_MOD_UNIPOLAR
  | FLUID_MOD_LINEAR
  | FLUID_MOD_CONCAVE
  | FLUID_MOD_CONVEX
  | FLUID_MOD_SWITCH
  deriving DecidableEq, Repr

/-- Modelled from the spec: `fluid_mod_t`, the spec's
`Modulator { src1:(index, flags), src2:(index, flags), dest, amount, transform }`.
`flags1` and `flags2` are the flags OR-ed into 0, in the order of the `|=`. -/
structure fluid_mod_t where
  dest : Nat
  src1 : Nat
  flags1 : List fluid_mod_flags
  src2 : Nat
  flags2 : List fluid_mod_flags
  amount : Int
  deriving DecidableEq, Repr

/-- Modelled from the spec: `fluid_sample_t`, the spec's runtime `Sample`. -/
structure fluid_sample_t where
  name : String
  idx : Nat
  start : Nat
  end_ : Nat
  loopstart : Nat
  loopend : Nat
  samplerate : Nat
  origpitch : Nat
  pitchadj : Int
  sampletype : Nat
  refcount : Nat
  deriving DecidableEq, Repr

/-- The struct `_fluid_inst_zone_t` of `fluid_defsfont.h` (`next` is the list
structure of `fluid_inst_t.zone`); `sample` points into `sfont->sample`. -/
structure fluid_inst_zone_t where
  name : String
  sample : Option fluid_sample_t
  range : fluid_zone_range_t
  gen : List fluid_gen_t
  mod : List fluid_mod_t
  deriving DecidableEq, Repr

/-- The struct `_fluid_inst_t` of `fluid_defsfont.h`. -/
structure fluid_inst_t where
  name : String
  global_zone : Option fluid_inst_zone_t
  zone : List fluid_inst_zone_t
  deriving DecidableEq, Repr

/-- The struct `_fluid_preset_zone_t` of `fluid_defsfont.h` (`next` is the list
structure of the preset's zone list). -/
structure fluid_preset_zone_t where
  name : String
  inst : Option fluid_inst_t
  range : fluid_zone_range_t
  gen : List fluid_gen_t
  mod : List fluid_mod_t
  deriving DecidableEq, Repr

/-- Reading the `sword` member of the union `SFGenAmount`. -/
def SFGenAmount.as_sword : SFGenAmount → Int
  | .sword v => v
  | .uword v => read_sword (v % 256) (v / 256)
  | .range lo hi => read_sword lo hi

/-- Reading `range.lo` of the union `SFGenAmount` (the low byte of the word
when another member was written). -/
def SFGenAmount.range_lo : SFGenAmount → Nat
  | .sword v => (v % 65536).toNat % 256
  | .uword v => v % 256
  | .range lo _ => lo

/-- Reading `range.hi` of the union `SFGenAmount` (the high byte of the word
when another member was written). -/
def SFGenAmount.range_hi : SFGenAmount → Nat
  | .sword v => (v % 65536).toNat / 256
  | .uword v => v / 256 % 256
  | .range _ hi => hi

/-- Modelled from the spec: `fluid_gen_set_default_values`, which is not among
the sources: every slot is flagged unused and gets its default value. -/
def fluid_gen_set_default_values : List fluid_gen_t :=
  (List.range GEN_LAST).map (fun i => { flags := GEN_UNUSED, val := .default_value i })

/-- Embedding of `new_fluid_preset_zone`. -/
def new_fluid_preset_zone (name : String) : fluid_preset_zone_t :=
  { name := name, inst := none,
    range := { keylo := 0, keyhi := 128, vello := 0, velhi := 128, ignore := false },
    gen := fluid_gen_set_default_values, mod := [] }

/-- Embedding of `new_fluid_inst_zone`. -/
def new_fluid_inst_zone (name : String) : fluid_inst_zone_t :=
  { name := name, sample := none,
    range := { keylo := 0, keyhi := 128, vello := 0, velhi := 128, ignore := false },
    gen := fluid_gen_set_default_values, mod := [] }

/-- Embedding of `new_fluid_inst`. -/
def new_fluid_inst : fluid_inst_t :=
  { name := "", global_zone := none, zone := [] }

/-- The body of the loop over `sfzone->gen`, the same in
`fluid_preset_zone_import_sfont` and `fluid_inst_zone_import_sfont`: the
`switch (sfgen->id)` on the zone's range and generator slots. A write to
`zone->gen[sfgen->id]` with an id past the array is left out. -/
def zone_import_gen (zone : fluid_zone_range_t × List fluid_gen_t) (sfgen : SFGen) :
    fluid_zone_range_t × List fluid_gen_t :=
  if sfgen.id = GEN_KEYRANGE then
    ({ zone.1 with keylo := sfgen.amount.range_lo, keyhi := sfgen.amount.range_hi }, zone.2)
  else if sfgen.id = GEN_VELRANGE then
    ({ zone.1 with vello := sfgen.amount.range_lo, velhi := sfgen.amount.range_hi }, zone.2)
  else if sfgen.id = GEN_ATTENUATION then
    (zone.1, zone.2.set sfgen.id { flags := GEN_SET, val := .attenuation sfgen.amount.as_sword })
  else
    (zone.1, zone.2.set sfgen.id { flags := GEN_SET, val := .of_sword sfgen.amount.as_sword })

/-- The loop `for (count = 0, r = sfzone->gen; r != NULL; count++)`. -/
def zone_import_gens (range : fluid_zone_range_t) (gen : List fluid_gen_t)
    (sfgens : List SFGen) : fluid_zone_range_t × List fluid_gen_t :=
  sfgens.foldl zone_import_gen (range, gen)

/-- The flags OR-ed into `flags1` (`flags2`) for a source word `src`
(`amtsrc`): bit 7, bit 8, bit 9, then the type in bits 10 to 15, for which an
unknown value adds no flag. -/
def import_mod_flags (src : Nat) : List fluid_mod_flags :=
  [if src &&& (1 <<< 7) ≠ 0 then .FLUID_MOD_CC else .FLUID_MOD_GC,
   if src &&& (1 <<< 8) ≠ 0 then .FLUID_MOD_NEGATIVE else .FLUID_MOD_POSITIVE,
   if src &&& (1 <<< 9) ≠ 0 then .FLUID_MOD_BIPOLAR else .FLUID_MOD_UNIPOLAR] ++
  (if (src >>> 10) &&& 63 = 0 then [.FLUID_MOD_LINEAR]
   else if (src >>> 10) &&& 63 = 1 then [.FLUID_MOD_CONCAVE]
   else if (src >>> 10) &&& 63 = 2 then [.FLUID_MOD_CONVEX]
   else if (src >>> 10) &&& 63 = 3 then [.FLUID_MOD_SWITCH]
   else [])

/-- The body of the loop over `sfzone->mod` up to the store, the same in
both import functions: the modulator `mod_dest` built from the record
`mod_src`.
The amount is set to 0 for an unknown type of `src`, for an unknown type of
`amtsrc` and for a transform other than 0. -/
def import_mod (mod_src : SFMod) : fluid_mod_t :=
  let amount := mod_src.amount
  let amount := if (mod_src.src >>> 10) &&& 63 ≤ 3 then amount else 0
  let amount := if (mod_src.amtsrc >>> 10) &&& 63 ≤ 3 then amount else 0
  let amount := if mod_src.trans ≠ 0 then 0 else amount
  { dest := mod_src.dest
    src1 := mod_src.src &&& 127
    flags1 := import_mod_flags mod_src.src
    src2 := mod_src.amtsrc &&& 127
    flags2 := import_mod_flags mod_src.amtsrc
    amount := amount }

/-- The loop `for (count = 0, r = sfzone->mod; r != NULL; count++)`: the first
modulator becomes `zone->mod`, every later one is linked behind the last. -/
def zone_import_mods : List fluid_mod_t → List SFMod → Nat → List fluid_mod_t
  | zone_mod, [], _ => zone_mod
  | zone_mod, mod_src :: r, count =>
    zone_import_mods
      (if count = 0 then [import_mod mod_src] else zone_mod ++ [import_mod mod_src])
      r (count + 1)

/-- Embedding of `fluid_defsfont_sample_by_idx` on the list `sfont->sample`;
the parameter `idx` is an `unsigned short`. -/
def fluid_defsfont_sample_by_idx (sfont_sample : List fluid_sample_t) (idx : Nat) :
    Option fluid_sample_t :=
  sfont_sample.find? (fun sample => decide (sample.idx = idx % 65536))

/-- The range adjustment of `fluid_inst_zone_import_sfont`: the four
`if (preset_zone->range... ) zone->range... = preset_zone->range...`. -/
def integrate_range (preset_range range : fluid_zone_range_t) : fluid_zone_range_t :=
  let range := if preset_range.keylo > range.keylo then
    { range with keylo := preset_range.keylo } else range
  let range := if preset_range.keyhi < range.keyhi then
    { range with keyhi := preset_range.keyhi } else range
  let range := if preset_range.vello > range.vello then
    { range with vello := preset_range.vello } else range
  if preset_range.velhi < range.velhi then
    { range with velhi := preset_range.velhi } else range

/-- Embedding of `fluid_inst_zone_import_sfont`. `sfzone->sample` is followed
in `sf_sample` (the list `sf->sample`); a reference past the list, which the
fixup does not leave, counts as `NULL`. -/
def fluid_inst_zone_import_sfont (preset_zone : fluid_preset_zone_t)
    (zone : fluid_inst_zone_t) (sfzone : SFInstZone) (sf_sample : List SFSample)
    (sfont_sample : List fluid_sample_t) : fluid_inst_zone_t :=
  let imported := zone_import_gens zone.range zone.gen sfzone.gen
  let range := integrate_range preset_zone.range imported.1
  let sample :=
    match sfzone.ref.bind (fun k => sf_sample.get? k) with
    | some sfsample => fluid_defsfont_sample_by_idx sfont_sample sfsample.idx
    | none => zone.sample
  { zone with
    range := range
    gen := imported.2
    sample := sample
    mod := zone_import_mods zone.mod sfzone.mod 0 }

/-- Embedding of `fluid_inst_add_zone`: the zone is linked in front. -/
def fluid_inst_add_zone (inst : fluid_inst_t) (zone : fluid_inst_zone_t) : fluid_inst_t :=
  { inst with zone := zone :: inst.zone }

/-- Embedding of `fluid_inst_set_global_zone`. -/
def fluid_inst_set_global_zone (inst : fluid_inst_t) (zone : fluid_inst_zone_t) :
    fluid_inst_t :=
  { inst with global_zone := some zone }

/-- The loop `while (p != NULL)` of `fluid_inst_import_sfont`. -/
def fluid_inst_import_zones (zonePZ : fluid_preset_zone_t) (sf_sample : List SFSample)
    (sfont_sample : List fluid_sample_t) :
    fluid_inst_t → List SFInstZone → Nat → fluid_inst_t
  | inst, [], _ => inst
  | inst, sfzone :: p, count =>
    let zone_name := inst.name ++ "/" ++ toString count
    let zone := fluid_inst_zone_import_sfont zonePZ (new_fluid_inst_zone zone_name) sfzone
      sf_sample sfont_sample
    let inst :=
      if count = 0 ∧ zone.sample = none then fluid_inst_set_global_zone inst zone
      else fluid_inst_add_zone inst zone
    fluid_inst_import_zones zonePZ sf_sample sfont_sample inst p (count + 1)

/-- Embedding of `fluid_inst_import_sfont`. -/
def fluid_inst_import_sfont (zonePZ : fluid_preset_zone_t) (inst : fluid_inst_t)
    (sfinst : SFInst) (sf_sample : List SFSample) (sfont_sample : List fluid_sample_t) :
    fluid_inst_t :=
  let inst := { inst with name := if sfinst.name.length > 0 then sfinst.name else "<untitled>" }
  fluid_inst_import_zones zonePZ sf_sample sfont_sample inst sfinst.zone 0

/-- Embedding of `fluid_preset_zone_import_sfont`. `sfzone->inst` is followed
in `sf->inst`; a reference past the list, which the fixup does not leave,
counts as `NULL`. -/
def fluid_preset_zone_import_sfont (zone : fluid_preset_zone_t) (sfzone : SFPresetZone)
    (sf : SFData) (sfont_sample : List fluid_sample_t) : fluid_preset_zone_t :=
  let imported := zone_import_gens zone.range zone.gen sfzone.gen
  let zone := { zone with range := imported.1, gen := imported.2 }
  let zone :=
    match sfzone.ref.bind (fun k => sf.inst.get? k) with
    | some sfinst =>
      { zone with
        inst := some (fluid_inst_import_sfont zone new_fluid_inst sfinst sf.sample sfont_sample) }
    | none => zone
  { zone with mod := zone_import_mods zone.mod sfzone.mod 0 }

/-- The test of `fluid_zone_inside_range` without the `ignore` flag. -/
def range_contains (range : fluid_zone_range_t) (key vel : Int) : Prop :=
  range.keylo ≤ key ∧ range.keyhi ≥ key ∧ range.vello ≤ vel ∧ range.velhi ≥ vel

instance (range : fluid_zone_range_t) (key vel : Int) : Decidable (range_contains range key vel) :=
  inferInstanceAs (Decidable
    (range.keylo ≤ key ∧ range.keyhi ≥ key ∧ range.vello ≤ vel ∧ range.velhi ≥ vel))

/-- Embedding of `fluid_zone_inside_range`: the range with its `ignore`
request reset, and the return value. -/
def fluid_zone_inside_range (range : fluid_zone_range_t) (key vel : Int) :
    fluid_zone_range_t × Bool :=
  let ignore_zone := range.ignore
  ({ range with ignore := false }, !ignore_zone && decide (range_contains range key vel))

/-! ## `fluid_defsfont.c`: note on

`fluid_defpreset_noteon` talks to the synthesizer through
`fluid_synth_alloc_voice_LOCAL`, `fluid_voice_gen_set`, `fluid_voice_gen_incr`,
`fluid_voice_add_mod` and `fluid_synth_start_voice`, which are not among the
sources. The embedding records the calls in the order they are made; a voice
is named by the number of voices allocated before it in the call, and the
answers of the allocator (a voice or `NULL`) are a parameter. The function
reads `preset->global_zone` and `preset->zone` only, which are passed in the
place of `preset`; the array `mod_list` is taken long enough for the
modulators of the two zones. -/

/-- Modelled from the spec: the constants `FLUID_OK` and `FLUID_FAILED`, the
two values `fluid_defpreset_noteon` returns. -/
inductive fluid_status where
  | FLUID_OK
  | FLUID_FAILED
  deriving DecidableEq, Repr

/-- Modelled from the spec: the mode argument of `fluid_voice_add_mod`, the
spec's `OVERWRITE` and `ADD`. -/
inductive fluid_voice_add_mod_mode where
  | FLUID_VOICE_OVERWRITE
  | FLUID_VOICE_ADD
  deriving DecidableEq, Repr

/-- A call made to the synthesizer, with its arguments. The last argument of
`fluid_synth_alloc_voice_LOCAL`, `&inst_zone->range`, is kept as the range it
points to at the time of the call. -/
inductive synth_request where
  | fluid_synth_alloc_voice_LOCAL (sample : fluid_sample_t) (chan key vel : Int)
      (zone_range : fluid_zone_range_t)
  | fluid_voice_gen_set (voice : Nat) (i : Nat) (val : fluid_real_t)
  | fluid_voice_gen_incr (voice : Nat) (i : Nat) (val : fluid_real_t)
  | fluid_voice_add_mod (voice : Nat) (mod : fluid_mod_t) (mode : fluid_voice_add_mod_mode)
  | fluid_synth_start_voice (voice : Nat)
  deriving DecidableEq, Repr

/-- Modelled from the spec: the generators `fluid_defpreset_noteon` ignores at
preset level, `GEN_STARTADDROFS` ... `GEN_OVERRIDEROOTKEY` of the generator
header, which is not among the sources; the spec's `StartAddrOfs=0`. -/
def GEN_STARTADDROFS : Nat := 0

/-- Modelled from the spec: `EndAddrOfs=1`. -/
def GEN_ENDADDROFS : Nat := 1

/-- Modelled from the spec: `StartLoopAddrOfs=2`. -/
def GEN_STARTLOOPADDROFS : Nat := 2

/-- Modelled from the spec: `EndLoopAddrOfs=3`. -/
def GEN_ENDLOOPADDROFS : Nat := 3

/-- Modelled from the spec: `StartAddrCoarseOfs=4`. -/
def GEN_STARTADDRCOARSEOFS : Nat := 4

/-- Modelled from the spec: `EndAddrCoarseOfs=12`. -/
def GEN_ENDADDRCOARSEOFS : Nat := 12

/-- Modelled from the spec: `StartLoopAddrCoarseOfs=45`. -/
def GEN_STARTLOOPADDRCOARSEOFS : Nat := 45

/-- Modelled from the spec: `Keynum=46`. -/
def GEN_KEYNUM : Nat := 46

/-- Modelled from the spec: `Velocity=47`. -/
def GEN_VELOCITY : Nat := 47

/-- Modelled from the spec: `EndLoopAddrCoarseOfs=50`. -/
def GEN_ENDLOOPADDRCOARSEOFS : Nat := 50

/-- Modelled from the spec: `SampleModes=54`. -/
def GEN_SAMPLEMODE : Nat := 54

/-- Modelled from the spec: `ExclusiveClass=57`. -/
def GEN_EXCLUSIVECLASS : Nat := 57

/-- Modelled from the spec: `OverrideRootKey=58`. -/
def GEN_OVERRIDEROOTKEY : Nat := 58

/-- The array access `zone->gen[i]`. The array has `GEN_LAST` slots; in a list
that is too short the missing slot reads as unused. -/
def gen_slot (gen : List fluid_gen_t) (i : Nat) : fluid_gen_t :=
  gen.getD i { flags := GEN_UNUSED, val := .default_value i }

/-- Embedding of `fluid_sample_in_rom`, which returns
`sample->sampletype & FLUID_SAMPLETYPE_ROM`: the value as the truth value the
caller tests. -/
def fluid_sample_in_rom (sample : fluid_sample_t) : Bool :=
  decide (sample.sampletype &&& FLUID_SAMPLETYPE_ROM ≠ 0)

/-- Modelled from the spec: `fluid_mod_test_identity`, which is not among the
sources: modulators are identical when they agree on the destination, the two
sources and their flags; the amount is not compared. -/
def fluid_mod_test_identity (mod1 mod2 : fluid_mod_t) : Bool :=
  decide (mod1.dest = mod2.dest ∧ mod1.src1 = mod2.src1 ∧ mod1.src2 = mod2.src2 ∧
    mod1.flags1 = mod2.flags1 ∧ mod1.flags2 = mod2.flags2)

/-- One round of the first `for (i = 0; i < GEN_LAST; i++)` of
`fluid_defpreset_noteon` (instrument level, generators): the call it makes, if
any. -/
def noteon_inst_gen (voice : Nat) (global_inst_zone : Option fluid_inst_zone_t)
    (inst_zone : fluid_inst_zone_t) (i : Nat) : Option synth_request :=
  if (gen_slot inst_zone.gen i).flags ≠ 0 then
    some (.fluid_voice_gen_set voice i (gen_slot inst_zone.gen i).val)
  else
    match global_inst_zone with
    | some global_inst_zone =>
      if (gen_slot global_inst_zone.gen i).flags ≠ 0 then
        some (.fluid_voice_gen_set voice i (gen_slot global_inst_zone.gen i).val)
      else none
    | none => none

/-- The first `for (i = 0; i < GEN_LAST; i++)` of `fluid_defpreset_noteon`. -/
def noteon_inst_gens (voice : Nat) (global_inst_zone : Option fluid_inst_zone_t)
    (inst_zone : fluid_inst_zone_t) : List synth_request :=
  (List.range GEN_LAST).filterMap (noteon_inst_gen voice global_inst_zone inst_zone)

/-- The loop `for (i = 0; i < mod_list_count; i++)` that sets the entries of
`mod_list` identical to `mod` to `NULL`. -/
def mod_list_kick (mod : fluid_mod_t) (mod_list : List (Option fluid_mod_t)) :
    List (Option fluid_mod_t) :=
  mod_list.map (fun entry =>
    match entry with
    | some m => if fluid_mod_test_identity mod m then none else some m
    | none => none)

/-- The loop `while (mod)` over the modulators of the local zone: kick the
identical entries out of `mod_list`, then store `mod` at the end. -/
def mod_list_add_local : List (Option fluid_mod_t) → List fluid_mod_t →
    List (Option fluid_mod_t)
  | mod_list, [] => mod_list
  | mod_list, mod :: next => mod_list_add_local (mod_list_kick mod mod_list ++ [some mod]) next

/-- The array `mod_list` after the modulators of the global zone (none when
the zone is `NULL`) and of the local zone were put in. -/
def noteon_mod_list (global_mod : Option (List fluid_mod_t)) (local_mod : List fluid_mod_t) :
    List (Option fluid_mod_t) :=
  mod_list_add_local
    (match global_mod with
     | some mod => mod.map some
     | none => []) local_mod

/-- Instrument level, modulators: every entry of `mod_list` that is not `NULL`
is added with `FLUID_VOICE_OVERWRITE`. -/
def noteon_inst_mods (voice : Nat) (global_inst_zone : Option fluid_inst_zone_t)
    (inst_zone : fluid_inst_zone_t) : List synth_request :=
  (noteon_mod_list (global_inst_zone.map (fun z => z.mod)) inst_zone.mod).filterMap
    (fun entry =>
      match entry with
      | some mod => some (.fluid_voice_add_mod voice mod .FLUID_VOICE_OVERWRITE)
      | none => none)

/-- One round of the second `for (i = 0; i < GEN_LAST; i++)` of
`fluid_defpreset_noteon` (preset level, generators). -/
def noteon_preset_gen (voice : Nat) (global_preset_zone : Option fluid_preset_zone_t)
    (preset_zone : fluid_preset_zone_t) (i : Nat) : Option synth_request :=
  if i ≠ GEN_STARTADDROFS ∧ i ≠ GEN_ENDADDROFS ∧ i ≠ GEN_STARTLOOPADDROFS ∧
      i ≠ GEN_ENDLOOPADDROFS ∧ i ≠ GEN_STARTADDRCOARSEOFS ∧ i ≠ GEN_ENDADDRCOARSEOFS ∧
      i ≠ GEN_STARTLOOPADDRCOARSEOFS ∧ i ≠ GEN_KEYNUM ∧ i ≠ GEN_VELOCITY ∧
      i ≠ GEN_ENDLOOPADDRCOARSEOFS ∧ i ≠ GEN_SAMPLEMODE ∧ i ≠ GEN_EXCLUSIVECLASS ∧
      i ≠ GEN_OVERRIDEROOTKEY then
    if (gen_slot preset_zone.gen i).flags ≠ 0 then
      some (.fluid_voice_gen_incr voice i (gen_slot preset_zone.gen i).val)
    else
      match global_preset_zone with
      | some global_preset_zone =>
        if (gen_slot global_preset_zone.gen i).flags ≠ 0 then
          some (.fluid_voice_gen_incr voice i (gen_slot global_preset_zone.gen i).val)
        else none
      | none => none
  else none

/-- The second `for (i = 0; i < GEN_LAST; i++)` of `fluid_defpreset_noteon`. -/
def noteon_preset_gens (voice : Nat) (global_preset_zone : Option fluid_preset_zone_t)
    (preset_zone : fluid_preset_zone_t) : List synth_request :=
  (List.range GEN_LAST).filterMap (noteon_preset_gen voice global_preset_zone preset_zone)

/-- Preset level, modulators: every entry of `mod_list` that is not `NULL` and
has an amount other than 0 is added with `FLUID_VOICE_ADD`. -/
def noteon_preset_mods (voice : Nat) (global_preset_zone : Option fluid_preset_zone_t)
    (preset_zone : fluid_preset_zone_t) : List synth_request :=
  (noteon_mod_list (global_preset_zone.map (fun z => z.mod)) preset_zone.mod).filterMap
    (fun entry =>
      match entry with
      | some mod =>
        if mod.amount ≠ 0 then some (.fluid_voice_add_mod voice mod .FLUID_VOICE_ADD) else none
      | none => none)

/-- The calls `fluid_defpreset_noteon` makes for a voice between its
allocation and the end of the round of the instrument zone loop. -/
def noteon_voice (voice : Nat) (global_preset_zone : Option fluid_preset_zone_t)
    (preset_zone : fluid_preset_zone_t) (global_inst_zone : Option fluid_inst_zone_t)
    (inst_zone : fluid_inst_zone_t) : List synth_request :=
  noteon_inst_gens voice global_inst_zone inst_zone ++
  noteon_inst_mods voice global_inst_zone inst_zone ++
  noteon_preset_gens voice global_preset_zone preset_zone ++
  noteon_preset_mods voice global_preset_zone preset_zone ++
  [.fluid_synth_start_voice voice]

/-- The calls made by a loop of `fluid_defpreset_noteon`, the number of voices
allocated so far, and whether the loop left the function with
`return FLUID_FAILED`. -/
structure noteon_calls where
  requests : List synth_request
  voices : Nat
  failed : Bool
  deriving DecidableEq, Repr

/-- The loop `while (inst_zone != NULL)` of `fluid_defpreset_noteon`, started
with `voices` voices allocated: the zones with the `ignore` requests reset by
`fluid_zone_inside_range`, and the calls made. `alloc n` tells whether the
allocation asked for when `n` voices are allocated gives a voice. -/
def noteon_inst_loop (alloc : Nat → Bool) (chan key vel : Int)
    (global_preset_zone : Option fluid_preset_zone_t) (preset_zone : fluid_preset_zone_t)
    (global_inst_zone : Option fluid_inst_zone_t) :
    Nat → List fluid_inst_zone_t → List fluid_inst_zone_t × noteon_calls
  | voices, [] => ([], { requests := [], voices := voices, failed := false })
  | voices, inst_zone :: next =>
    match inst_zone.sample with
    | none =>
      let rest := noteon_inst_loop alloc chan key vel global_preset_zone preset_zone
        global_inst_zone voices next
      (inst_zone :: rest.1, rest.2)
    | some sample =>
      if fluid_sample_in_rom sample then
        let rest := noteon_inst_loop alloc chan key vel global_preset_zone preset_zone
          global_inst_zone voices next
        (inst_zone :: rest.1, rest.2)
      else
        let inside := fluid_zone_inside_range inst_zone.range key vel
        let tested := { inst_zone with range := inside.1 }
        if inside.2 then
          if alloc voices then
            let rest := noteon_inst_loop alloc chan key vel global_preset_zone preset_zone
              global_inst_zone (voices + 1) next
            (tested :: rest.1,
              { rest.2 with
                requests := .fluid_synth_alloc_voice_LOCAL sample chan key vel inside.1 ::
                  (noteon_voice voices global_preset_zone preset_zone global_inst_zone
                    inst_zone ++ rest.2.requests) })
          else
            (tested :: next,
              { requests := [.fluid_synth_alloc_voice_LOCAL sample chan key vel inside.1],
                voices := voices, failed := true })
        else
          let rest := noteon_inst_loop alloc chan key vel global_preset_zone preset_zone
            global_inst_zone voices next
          (tested :: rest.1, rest.2)

/-- The loop `while (preset_zone != NULL)` of `fluid_defpreset_noteon`. A
preset zone in range whose instrument is `NULL` makes the function read
through a null pointer: no result (`none`). -/
def noteon_preset_loop (alloc : Nat → Bool) (chan key vel : Int)
    (global_preset_zone : Option fluid_preset_zone_t) :
    Nat → List fluid_preset_zone_t → Option (List fluid_preset_zone_t × noteon_calls)
  | voices, [] => some ([], { requests := [], voices := voices, failed := false })
  | voices, preset_zone :: next =>
    let inside := fluid_zone_inside_range preset_zone.range key vel
    if inside.2 then
      match preset_zone.inst with
      | none => none
      | some inst =>
        let zones := noteon_inst_loop alloc chan key vel global_preset_zone preset_zone
          inst.global_zone voices inst.zone
        let tested := { preset_zone with
          range := inside.1, inst := some { inst with zone := zones.1 } }
        if zones.2.failed then some (tested :: next, zones.2)
        else
          match noteon_preset_loop alloc chan key vel global_preset_zone zones.2.voices next with
          | none => none
          | some rest =>
            some (tested :: rest.1,
              { rest.2 with requests := zones.2.requests ++ rest.2.requests })
    else
      match noteon_preset_loop alloc chan key vel global_preset_zone voices next with
      | none => none
      | some rest => some ({ preset_zone with range := inside.1 } :: rest.1, rest.2)

/-- What a call of `fluid_defpreset_noteon` leaves: the value returned, the
calls made to the synthesizer, the number of voices allocated, and the list
`preset->zone` (in which `ignore` requests were reset). -/
structure noteon_result where
  ret : fluid_status
  requests : List synth_request
  voices : Nat
  zone : List fluid_preset_zone_t
  deriving DecidableEq, Repr

/-- Embedding of `fluid_defpreset_noteon`, for the preset with the global zone
`global_zone` and the zone list `zone`. -/
def fluid_defpreset_noteon (global_zone : Option fluid_preset_zone_t)
    (zone : List fluid_preset_zone_t) (alloc : Nat → Bool) (chan key vel : Int) :
    Option noteon_result :=
  match noteon_preset_loop alloc chan key vel global_zone 0 zone with
  | none => none
  | some done =>
    some { ret := if done.2.failed then .FLUID_FAILED else .FLUID_OK,
           requests := done.2.requests, voices := done.2.voices, zone := done.1 }

/-! ## `fluid_sffile.c`: the header loaders

The PHDR and IHDR chunks are kept as the list of the records that lie in the
file from `sf->phdr_pos` (`sf->ihdr_pos`) on; reading record number `k` fails
when the list has no element `k`. `pbag_count` and `ibag_count` are the signed
differences the code tests with `< 0`. A pointer into `sf->preset` or
`sf->inst` is the position of the node. -/

/-- One 38-byte PHDR record as it lies in the file: name, `prenum`, `bank`
and `pbag_idx` (the 12 bytes of `libr`, `genre` and `morph` are read and not
used). -/
structure PhdrRecord where
  name : String
  prenum : Nat
  bank : Nat
  pbag_idx : Nat
  deriving DecidableEq, Repr

/-- One 22-byte IHDR record as it lies in the file: name and `ibag_idx`. -/
structure IhdrRecord where
  name : String
  ibag_idx : Nat
  deriving DecidableEq, Repr

/-- The loop `for (i = 0; i < num_records; i++)` of `load_preset_headers`:
`n` rounds are left, the next record is number `k`. The result is
`sf->preset`, `prev_preset` and the number of the record that follows;
`none` is `return FALSE`. -/
def load_preset_headers_loop (phdr : List PhdrRecord) :
    Nat → Nat → List SFPreset → Option Nat → Option (List SFPreset × Option Nat × Nat)
  | 0, k, sf_preset, prev_preset => some (sf_preset, prev_preset, k)
  | n + 1, k, sf_preset, prev_preset =>
    match phdr.get? k with
    | none => none
    | some record =>
      let preset : SFPreset :=
        { name := record.name, prenum := record.prenum, bank := record.bank,
          pbag_idx := record.pbag_idx, pbag_count := 0, zone := [] }
      let sf_preset := sf_preset ++ [preset]
      match prev_preset with
      | some p =>
        match sf_preset.get? p with
        | none => none
        | some prev =>
          let pbag_count : Int := (preset.pbag_idx : Int) - (prev.pbag_idx : Int)
          if pbag_count < 0 then none
          else
            load_preset_headers_loop phdr n (k + 1)
              (sf_preset.set p { prev with pbag_count := pbag_count.toNat })
              (some (sf_preset.length - 1))
      | none =>
        load_preset_headers_loop phdr n (k + 1) sf_preset (some (sf_preset.length - 1))

/-- Embedding of `load_preset_headers`; `phdr` is the list of the records at
`sf->phdr_pos`. -/
def load_preset_headers (sf : SFData) (phdr : List PhdrRecord) (start_idx num_records : Nat) :
    Option SFData :=
  match load_preset_headers_loop phdr num_records start_idx sf.preset none with
  | none => none
  | some (sf_preset, prev_preset, k) =>
    match prev_preset with
    | some p =>
      match phdr.get? k, sf_preset.get? p with
      | some record, some prev =>
        let pbag_count : Int := (record.pbag_idx : Int) - (prev.pbag_idx : Int)
        if pbag_count < 0 then none
        else some { sf with
          preset := sf_preset.set p { prev with pbag_count := pbag_count.toNat } }
      | _, _ => none
    | none => some { sf with preset := sf_preset }

/-- The loop `for (i = 0; i < num_records; i++)` of `load_inst_headers`; the
record number `k` is `start_idx + i`. -/
def load_inst_headers_loop (ihdr : List IhdrRecord) :
    Nat → Nat → List SFInst → Option Nat → Option (List SFInst × Option Nat × Nat)
  | 0, k, sf_inst, prev_inst => some (sf_inst, prev_inst, k)
  | n + 1, k, sf_inst, prev_inst =>
    match ihdr.get? k with
    | none => none
    | some record =>
      let inst : SFInst :=
        { name := record.name, idx := k, ibag_idx := record.ibag_idx, ibag_count := 0,
          zone := [] }
      let sf_inst := sf_inst ++ [inst]
      match prev_inst with
      | some p =>
        match sf_inst.get? p with
        | none => none
        | some prev =>
          let ibag_count : Int := (inst.ibag_idx : Int) - (prev.ibag_idx : Int)
          if ibag_count < 0 then none
          else
            load_inst_headers_loop ihdr n (k + 1)
              (sf_inst.set p { prev with ibag_count := ibag_count.toNat })
              (some (sf_inst.length - 1))
      | none =>
        load_inst_headers_loop ihdr n (k + 1) sf_inst (some (sf_inst.length - 1))

/-- Embedding of `load_inst_headers`; `ihdr` is the list of the records at
`sf->ihdr_pos`. -/
def load_inst_headers (sf : SFData) (ihdr : List IhdrRecord) (start_idx num_records : Nat) :
    Option SFData :=
  match load_inst_headers_loop ihdr num_records start_idx sf.inst none with
  | none => none
  | some (sf_inst, prev_inst, k) =>
    match prev_inst with
    | some p =>
      match ihdr.get? k, sf_inst.get? p with
      | some record, some prev =>
        let ibag_count : Int := (record.ibag_idx : Int) - (prev.ibag_idx : Int)
        if ibag_count < 0 then none
        else some { sf with
          inst := sf_inst.set p { prev with ibag_count := ibag_count.toNat } }
      | _, _ => none
    | none => some { sf with inst := sf_inst }

/-! ## `fluid_sffile.c`: chunks, the INFO list and the sample data list

The file behind `sf->sffd` is the list of its bytes, read at a position. The
callback `fread` fails when fewer bytes are left than asked for; `fseek` and
`ftell` do not fail. The fields of `sf` a function writes are returned, with
the position in the file, in the place of `sf`. -/

/-- The callback `sf->fcbs->fread` for `n` bytes at `pos`. -/
def fread (sffd : List Nat) (pos n : Nat) : Option (List Nat) :=
  if pos + n ≤ sffd.length then some (((sffd.drop pos).take n).map (fun b => b % 256)) else none

/-- Modelled from the spec: the macro `FLUID_LE32TOH` on the four bytes read:
the value of a little-endian 32-bit word. -/
def FLUID_LE32TOH (b : List Nat) : Nat :=
  b.getD 0 0 + 256 * b.getD 1 0 + 65536 * b.getD 2 0 + 16777216 * b.getD 3 0

/-- Modelled from the spec: the macro `FLUID_LE16TOH` on the two bytes read. -/
def FLUID_LE16TOH (b : List Nat) : Nat :=
  b.getD 0 0 + 256 * b.getD 1 0

/-- Modelled from the spec: `SFChunk` of `fluid_sffile.h`, a chunk header: the
four bytes of the id as they lie in the file, and the size. -/
structure SFChunk where
  id : List Nat
  size : Nat
  deriving DecidableEq, Repr

/-- Modelled from the spec: `SFVersion` of `fluid_sffile.h`, the spec's
`version:{major,minor}`. -/
structure SFVersion where
  major : Nat
  minor : Nat
  deriving DecidableEq, Repr

/-- The macro `READCHUNK`: the chunk header at `pos` and the position behind
it. -/
def READCHUNK (sffd : List Nat) (pos : Nat) : Option (SFChunk × Nat) :=
  match fread sffd pos 8 with
  | none => none
  | some b => some ({ id := b.take 4, size := FLUID_LE32TOH (b.drop 4) }, pos + 8)

/-- The macro `READW`: the 16-bit word at `pos` and the position behind it. -/
def READW (sffd : List Nat) (pos : Nat) : Option (Nat × Nat) :=
  match fread sffd pos 2 with
  | none => none
  | some b => some (FLUID_LE16TOH b, pos + 2)

/-- The chunk id `UNKN_ID` of the `enum` of chunk ids. -/
def UNKN_ID : Nat := 0

/-- The chunk id `IFIL_ID`. -/
def IFIL_ID : Nat := 7

/-- The chunk id `IVER_ID`. -/
def IVER_ID : Nat := 11

/-- The chunk id `ICMT_ID`. -/
def ICMT_ID : Nat := 16

/-- The chunk id `SMPL_ID`. -/
def SMPL_ID : Nat := 19

/-- The chunk id `SM24_ID`. -/
def SM24_ID : Nat := 29

/-- The array `idlist`: the characters of the string and the terminating 0. -/
def idlist : List Nat :=
  ("RIFFLISTsfbkINFOsdtapdtaifilisngINAMiromiverICRDIENGIPRD" ++
    "ICOPICMTISFTsnamsmplphdrpbagpmodpgeninstibagimodigenshdrsm24").toList.map Char.toNat ++ [0]

/-- The loop of `chunkid`, with `n` words of `idlist` left from word `i` on. -/
def chunkid_loop (id : List Nat) : Nat → Nat → Nat
  | 0, _ => UNKN_ID
  | n + 1, i => if (idlist.drop (4 * i)).take 4 = id then i + 1 else chunkid_loop id n (i + 1)

/-- Embedding of `chunkid`. -/
def chunkid (id : List Nat) : Nat :=
  chunkid_loop id (idlist.length / 4) 0

/-- The fields of `sf` that `process_sdta` writes; all are 0 before, from the
`memset` of `fluid_sffile_load`. -/
structure sdta_fields where
  samplepos : Nat
  samplesize : Nat
  sample24pos : Nat
  sample24size : Nat
  deriving DecidableEq, Repr

/-- The conversion of an `unsigned int` to `int`. -/
def to_int (n : Nat) : Int :=
  if n % 4294967296 < 2147483648 then (n % 4294967296 : Nat) else (n % 4294967296 : Nat) - 4294967296

/-- Embedding of `process_sdta`, called at position `pos` of the file with the
size of the sdta list: the fields written and the position reached; `none`
is `return FALSE`. The label `ret` is the `FSKIP (sf, size)` that ends every
successful branch. -/
def process_sdta (version : SFVersion) (sffd : List Nat) (pos size : Nat) :
    Option (sdta_fields × Nat) :=
  if size = 0 then some (⟨0, 0, 0, 0⟩, pos)
  else
    match READCHUNK sffd pos with
    | none => none
    | some (chunk, pos) =>
      let size := u32_sub size 8
      if chunkid chunk.id ≠ SMPL_ID then none
      else if chunk.size > size then none
      else
        let samplepos := pos
        let samplesize := chunk.size
        let pos := pos + chunk.size
        let size := u32_sub size chunk.size
        if version.major ≥ 2 ∧ version.minor ≥ 4 then
          if size > 8 then
            match READCHUNK sffd pos with
            | none => none
            | some (chunk, pos) =>
              let size := u32_sub size 8
              if chunkid chunk.id = SM24_ID then
                if chunk.size > size then some (⟨samplepos, samplesize, 0, 0⟩, pos + size)
                else
                  let sdtahalfsize : Int := to_int (samplesize / 2)
                  let sdtahalfsize := sdtahalfsize + sdtahalfsize % 2
                  let sm24size : Int := to_int chunk.size
                  if sdtahalfsize ≠ sm24size then
                    some (⟨samplepos, samplesize, 0, 0⟩, pos + size)
                  else
                    some (⟨samplepos, samplesize, pos, sm24size.toNat⟩, pos + size)
              else some (⟨samplepos, samplesize, 0, 0⟩, pos + size)
          else some (⟨samplepos, samplesize, 0, 0⟩, pos + size)
        else some (⟨samplepos, samplesize, 0, 0⟩, pos + size)

/-- The fields of `sf` that `read_info_subchunks` writes: the two versions and
the list of INFO items (each the id byte followed by the text). -/
structure info_fields where
  version : SFVersion
  romver : SFVersion
  info : List (List Nat)
  deriving DecidableEq, Repr

/-- One round of the loop `while (size > 0)` of `read_info_subchunks`:
the fields, the position and `size` after it; `none` is `return FALSE`.
`LIBSNDFILE_SUPPORT` is the compile-time switch of that name. Where
`size -= chunk.size` is reached `chunk.size` is at most 65536, so the
subtraction in `int` is exact. -/
def read_info_subchunk (LIBSNDFILE_SUPPORT : Bool) (sffd : List Nat) (sf : info_fields)
    (pos : Nat) (size : Int) : Option (info_fields × Nat × Int) :=
  match READCHUNK sffd pos with
  | none => none
  | some (chunk, pos) =>
    let size := size - 8
    let id := chunkid chunk.id
    if id = IFIL_ID then
      if chunk.size ≠ 4 then none
      else
        match READW sffd pos with
        | none => none
        | some (major, pos) =>
          match READW sffd pos with
          | none => none
          | some (minor, pos) =>
            let sf := { sf with version := { major := major, minor := minor } }
            if sf.version.major < 2 then none
            else if sf.version.major = 3 then
              if !LIBSNDFILE_SUPPORT then none
              else some (sf, pos, size - chunk.size)
            else if sf.version.major > 2 then none
            else some (sf, pos, size - chunk.size)
    else if id = IVER_ID then
      if chunk.size ≠ 4 then none
      else
        match READW sffd pos with
        | none => none
        | some (major, pos) =>
          match READW sffd pos with
          | none => none
          | some (minor, pos) =>
            some ({ sf with romver := { major := major, minor := minor } }, pos,
              size - chunk.size)
    else if id ≠ UNKN_ID then
      if (id ≠ ICMT_ID ∧ chunk.size > 256) ∨ chunk.size > 65536 ∨ chunk.size % 2 ≠ 0 then none
      else
        match fread sffd pos chunk.size with
        | none => none
        | some text =>
          let item := (id :: text).set chunk.size 0
          some ({ sf with info := sf.info ++ [item] }, pos + chunk.size, size - chunk.size)
    else none

/-- The loop `while (size > 0)` of `read_info_subchunks` and the test that
follows it; `fuel` bounds the number of rounds. -/
def read_info_loop (LIBSNDFILE_SUPPORT : Bool) (sffd : List Nat) :
    Nat → info_fields → Nat → Int → Option (info_fields × Nat)
  | 0, sf, pos, size => if size > 0 then none else if size < 0 then none else some (sf, pos)
  | fuel + 1, sf, pos, size =>
    if size > 0 then
      match read_info_subchunk LIBSNDFILE_SUPPORT sffd sf pos size with
      | none => none
      | some (sf, pos, size) => read_info_loop LIBSNDFILE_SUPPORT sffd fuel sf pos size
    else if size < 0 then none
    else some (sf, pos)

/-- Embedding of `read_info_subchunks`. Every round takes at least 8 from
`size`, so `size` rounds are enough. -/
def read_info_subchunks (LIBSNDFILE_SUPPORT : Bool) (sffd : List Nat) (sf : info_fields)
    (pos : Nat) (size : Int) : Option (info_fields × Nat) :=
  read_info_loop LIBSNDFILE_SUPPORT sffd size.toNat sf pos size

/-! ### Description of a note on, used to state what the calls are -/

/-- The voice a call is made for; `none` for an allocation. -/
def synth_request.voice : synth_request → Option Nat
  | .fluid_synth_alloc_voice_LOCAL _ _ _ _ _ => none
  | .fluid_voice_gen_set voice _ _ => some voice
  | .fluid_voice_gen_incr voice _ _ => some voice
  | .fluid_voice_add_mod voice _ _ => some voice
  | .fluid_synth_start_voice voice => some voice

/-- The allocations among the calls, in order. -/
def alloc_calls (requests : List synth_request) : List synth_request :=
  requests.filter (fun q => q.voice.isNone)

/-- The pairs (index, value) of the `fluid_voice_gen_set` calls made for
`voice`, in order. -/
def gen_set_calls (voice : Nat) (requests : List synth_request) : List (Nat × fluid_real_t) :=
  requests.filterMap (fun q =>
    match q with
    | .fluid_voice_gen_set v i val => if v = voice then some (i, val) else none
    | _ => none)

/-- The pairs (index, value) of the `fluid_voice_gen_incr` calls made for
`voice`, in order. -/
def gen_incr_calls (voice : Nat) (requests : List synth_request) : List (Nat × fluid_real_t) :=
  requests.filterMap (fun q =>
    match q with
    | .fluid_voice_gen_incr v i val => if v = voice then some (i, val) else none
    | _ => none)

/-- The modulators of the `fluid_voice_add_mod` calls made for `voice` with
the mode `mode`, in order. -/
def add_mod_calls (voice : Nat) (mode : fluid_voice_add_mod_mode)
    (requests : List synth_request) : List fluid_mod_t :=
  requests.filterMap (fun q =>
    match q with
    | .fluid_voice_add_mod v mod m => if v = voice ∧ m = mode then some mod else none
    | _ => none)

/-- The instrument zones of a preset zone that a note on asks a voice for,
each with the preset zone, the global instrument zone and its sample: the
zones with a sample that is not in ROM for which `fluid_zone_inside_range`
answers yes. -/
def noteon_inst_pairs (key vel : Int) (preset_zone : fluid_preset_zone_t)
    (global_inst_zone : Option fluid_inst_zone_t) (zones : List fluid_inst_zone_t) :
    List (fluid_preset_zone_t × Option fluid_inst_zone_t × fluid_inst_zone_t × fluid_sample_t) :=
  zones.filterMap (fun inst_zone =>
    match inst_zone.sample with
    | some sample =>
      if !fluid_sample_in_rom sample && (fluid_zone_inside_range inst_zone.range key vel).2 then
        some (preset_zone, global_inst_zone, inst_zone, sample)
      else none
    | none => none)

/-- The zone pairs of a preset that a note on asks a voice for, in the order
of the two loops. -/
def noteon_pairs (key vel : Int) : List fluid_preset_zone_t →
    List (fluid_preset_zone_t × Option fluid_inst_zone_t × fluid_inst_zone_t × fluid_sample_t)
  | [] => []
  | preset_zone :: next =>
    (if (fluid_zone_inside_range preset_zone.range key vel).2 then
      match preset_zone.inst with
      | some inst => noteon_inst_pairs key vel preset_zone inst.global_zone inst.zone
      | none => []
    else []) ++ noteon_pairs key vel next

/-- The calls of a note on, told pair by pair: for every pair the allocation
and, when it gives a voice, the calls for that voice; an allocation that
gives `NULL` is the last call. -/
def pairs_calls (alloc : Nat → Bool) (chan key vel : Int)
    (global_preset_zone : Option fluid_preset_zone_t) :
    Nat → List (fluid_preset_zone_t × Option fluid_inst_zone_t × fluid_inst_zone_t ×
      fluid_sample_t) → noteon_calls
  | voices, [] => { requests := [], voices := voices, failed := false }
  | voices, (preset_zone, global_inst_zone, inst_zone, sample) :: next =>
    if alloc voices then
      { pairs_calls alloc chan key vel global_preset_zone (voices + 1) next with
        requests :=
          .fluid_synth_alloc_voice_LOCAL sample chan key vel
              (fluid_zone_inside_range inst_zone.range key vel).1 ::
            (noteon_voice voices global_preset_zone preset_zone global_inst_zone inst_zone ++
              (pairs_calls alloc chan key vel global_preset_zone (voices + 1) next).requests) }
    else
      { requests := [.fluid_synth_alloc_voice_LOCAL sample chan key vel
          (fluid_zone_inside_range inst_zone.range key vel).1],
        voices := voices, failed := true }

/-- No `ignore` request is set in the ranges of the zones. -/
def no_ignore (zone : List fluid_preset_zone_t) : Prop :=
  ∀ preset_zone ∈ zone, preset_zone.range.ignore = false ∧
    ∀ inst, preset_zone.inst = some inst →
      ∀ inst_zone ∈ inst.zone, inst_zone.range.ignore = false

/-- The modulators of a zone without those that a later modulator of the zone
is identical to. -/
def drop_superseded : List fluid_mod_t → List fluid_mod_t
  | [] => []
  | mod :: next =>
    if next.any (fun later => fluid_mod_test_identity later mod) then drop_superseded next
    else mod :: drop_superseded next

/-- The modulators of the global zone (none when there is no global zone) that
no modulator of the local zone is identical to, followed by the modulators of
the local zone that no later modulator of it is identical to. -/
def merged_mods (global_mod : Option (List fluid_mod_t)) (local_mod : List fluid_mod_t) :
    List fluid_mod_t :=
  ((match global_mod with
    | some mod => mod
    | none => []).filter
      (fun g => !local_mod.any (fun l => fluid_mod_test_identity l g))) ++
    drop_superseded local_mod

/-- The slot `i` of a zone's generator array is set. -/
def gen_is_set (gen : List fluid_gen_t) (i : Nat) : Prop :=
  (gen_slot gen i).flags ≠ 0

instance (gen : List fluid_gen_t) (i : Nat) : Decidable (gen_is_set gen i) :=
  inferInstanceAs (Decidable ((gen_slot gen i).flags ≠ 0))

/-! ### A small preset, used as an instance -/

/-- A sample that is not in ROM. -/
def demo_sample : fluid_sample_t :=
  { name := "s", idx := 0, start := 0, end_ := 100, loopstart := 10, loopend := 90,
    samplerate := 44100, origpitch := 60, pitchadj := 0, sampletype := 1, refcount := 0 }

/-- A modulator with the given amount; all modulators built with the same
`dest` are identical. -/
def demo_mod (dest : Nat) (amount : Int) : fluid_mod_t :=
  { dest := dest, src1 := 2, flags1 := [.FLUID_MOD_GC, .FLUID_MOD_LINEAR], src2 := 0,
    flags2 := [.FLUID_MOD_GC, .FLUID_MOD_LINEAR], amount := amount }

/-- A global instrument zone: generators 8 and 17 set, one modulator of
amount 100. -/
def demo_global_inst_zone : fluid_inst_zone_t :=
  { name := "i/0", sample := none,
    range := { keylo := 0, keyhi := 128, vello := 0, velhi := 128, ignore := false },
    gen := (fluid_gen_set_default_values.set 8 { flags := GEN_SET, val := .of_sword 7 }).set 17
      { flags := GEN_SET, val := .of_sword 9 },
    mod := [demo_mod 48 100] }

/-- An instrument zone for the keys 48 to 72: generators 17 and 48 set, one
modulator identical to the one of the global zone, of amount 50. -/
def demo_inst_zone : fluid_inst_zone_t :=
  { name := "i/1", sample := some demo_sample,
    range := { keylo := 48, keyhi := 72, vello := 0, velhi := 128, ignore := false },
    gen := (fluid_gen_set_default_values.set 17 { flags := GEN_SET, val := .of_sword 5 }).set 48
      { flags := GEN_SET, val := .attenuation 100 },
    mod := [demo_mod 48 50] }

/-- A global preset zone: generator 8 set, two modulators that are not
identical, of amounts 30 and 40. -/
def demo_global_preset_zone : fluid_preset_zone_t :=
  { name := "p/0", inst := none,
    range := { keylo := 0, keyhi := 128, vello := 0, velhi := 128, ignore := false },
    gen := fluid_gen_set_default_values.set 8 { flags := GEN_SET, val := .of_sword 2 },
    mod := [demo_mod 48 30, demo_mod 17 40] }

/-- A preset zone for the keys 36 to 72: generators 17 and 54 set, one
modulator of amount 0 identical to the first one of the global zone. -/
def demo_preset_zone : fluid_preset_zone_t :=
  { name := "p/1",
    inst := some { name := "i", global_zone := some demo_global_inst_zone,
                   zone := [demo_inst_zone] },
    range := { keylo := 36, keyhi := 72, vello := 0, velhi := 128, ignore := false },
    gen := (fluid_gen_set_default_values.set 17 { flags := GEN_SET, val := .of_sword 3 }).set 54
      { flags := GEN_SET, val := .of_sword 1 },
    mod := [demo_mod 48 0] }

/-- The pairs of a note on as the specification words them: for every preset
zone whose range contains the key and the velocity, the zones of its
instrument that have a sample, not in ROM, and whose range contains the key
and the velocity; each pair comes with the global instrument zone and the
sample. -/
def pairs_in_range (key vel : Int) : List fluid_preset_zone_t →
    List (fluid_preset_zone_t × Option fluid_inst_zone_t × fluid_inst_zone_t × fluid_sample_t)
  | [] => []
  | preset_zone :: next =>
    (if range_contains preset_zone.range key vel then
      match preset_zone.inst with
      | some inst =>
        inst.zone.filterMap (fun inst_zone =>
          match inst_zone.sample with
          | some sample =>
            if fluid_sample_in_rom sample = false ∧ range_contains inst_zone.range key vel then
              some (preset_zone, inst.global_zone, inst_zone, sample)
            else none
          | none => none)
      | none => []
    else []) ++ pairs_in_range key vel next

/-- The allocation a note on asks for a pair, in a zone without `ignore`
request. -/
def pair_alloc_call (chan key vel : Int)
    (p : fluid_preset_zone_t × Option fluid_inst_zone_t × fluid_inst_zone_t × fluid_sample_t) :
    synth_request :=
  .fluid_synth_alloc_voice_LOCAL p.2.2.2 chan key vel p.2.2.1.range

/-! ## `fluid_defsfont.c`: destruction and iteration of a SoundFont -/

/-- Modelled from the spec: `fluid_preset_t`, the public preset object, with
its field `data`, the preset of this loader it stands for; `none` is `NULL`. -/
structure fluid_preset_t where
  data : Option fluid_defpreset_t
  deriving DecidableEq, Repr

/-- The struct `_fluid_defsfont_t` with the fields that `delete_fluid_defsfont`
and the iteration functions read or write, beside the list of presets kept in
`fluid_defsfont_t`. The pointer `iter_cur` into the list of presets is the part
of the list that starts at the preset pointed to, `[]` for `NULL`;
`preset_stack` is the list of the `preset_stack_size` entries of the array. -/
structure fluid_defsfont_data extends fluid_defsfont_t where
  filename : Option String
  sampledata : Option (List Int)
  sample : List fluid_sample_t
  iter_cur : List fluid_defpreset_t
  preset_stack : List fluid_preset_t
  deriving DecidableEq, Repr

/-- The loop "Check that no samples are currently used" of
`delete_fluid_defsfont`: `true` when it comes to a sample with
`refcount != 0`, where the function returns `FLUID_FAILED`. -/
def sample_in_use : List fluid_sample_t → Bool
  | [] => false
  | sample :: list => if sample.refcount ≠ 0 then true else sample_in_use list

/-- Embedding of `delete_fluid_defsfont`: the return value and the SoundFont
after the call, `none` when it was freed (a `NULL` argument stays `NULL`).
Past the check of the samples the function frees the file name, the samples
and their list, the sample data, the entries of the preset stack and the
stack, the presets, and at last the SoundFont itself. -/
def delete_fluid_defsfont (sfont : Option fluid_defsfont_data) :
    fluid_status × Option fluid_defsfont_data :=
  match sfont with
  | none => (.FLUID_OK, none)
  | some sfont =>
    if sample_in_use sfont.sample then (.FLUID_FAILED, some sfont)
    else (.FLUID_OK, none)

/-- Embedding of `fluid_defsfont_iteration_start`. -/
def fluid_defsfont_iteration_start (sfont : fluid_defsfont_data) : fluid_defsfont_data :=
  { sfont with iter_cur := sfont.preset }

/-- Embedding of `fluid_defsfont_iteration_next`: the SoundFont and the preset
object after the call, and the return value. -/
def fluid_defsfont_iteration_next (sfont : fluid_defsfont_data) (preset : fluid_preset_t) :
    fluid_defsfont_data × fluid_preset_t × Int :=
  match sfont.iter_cur with
  | [] => (sfont, preset, 0)
  | cur :: next => ({ sfont with iter_cur := next }, { preset with data := some cur }, 1)

/-- The return values and the presets handed out by `n` successive calls of
`fluid_defsfont_iteration_next`, each with a preset object whose `data` is
`NULL` before the call, and the SoundFont after them. -/
def iteration_calls : Nat → fluid_defsfont_data →
    List (Int × Option fluid_defpreset_t) × fluid_defsfont_data
  | 0, sfont => ([], sfont)
  | n + 1, sfont =>
    let r := fluid_defsfont_iteration_next sfont { data := none }
    let rest := iteration_calls n r.1
    ((r.2.2, r.2.1.data) :: rest.1, rest.2)

/-! ## `fluid_defsfont.c`: import of a preset -/

/-- The struct `_fluid_defpreset_t` with its global zone and its chained list
of zones, beside the fields kept in `fluid_defpreset_t`. -/
structure fluid_defpreset_data extends fluid_defpreset_t where
  global_zone : Option fluid_preset_zone_t
  zone : List fluid_preset_zone_t
  deriving DecidableEq, Repr

/-- Embedding of `new_fluid_defpreset`. -/
def new_fluid_defpreset : fluid_defpreset_data :=
  { name := "", bank := 0, num := 0, global_zone := none, zone := [] }

/-- Embedding of `fluid_defpreset_set_global_zone`. -/
def fluid_defpreset_set_global_zone (preset : fluid_defpreset_data)
    (zone : fluid_preset_zone_t) : fluid_defpreset_data :=
  { preset with global_zone := some zone }

/-- Embedding of `fluid_defpreset_add_zone`: the zone is linked in front. -/
def fluid_defpreset_add_zone (preset : fluid_defpreset_data) (zone : fluid_preset_zone_t) :
    fluid_defpreset_data :=
  { preset with zone := zone :: preset.zone }

/-- The loop `while (p != NULL)` of `fluid_defpreset_import_sfont`. -/
def fluid_defpreset_import_zones (sf : SFData) (sfont_sample : List fluid_sample_t) :
    fluid_defpreset_data → List SFPresetZone → Nat → fluid_defpreset_data
  | preset, [], _ => preset
  | preset, sfzone :: p, count =>
    let zone_name := preset.name ++ "/" ++ toString count
    let zone := fluid_preset_zone_import_sfont (new_fluid_preset_zone zone_name) sfzone sf
      sfont_sample
    let preset :=
      if count = 0 ∧ zone.inst = none then fluid_defpreset_set_global_zone preset zone
      else fluid_defpreset_add_zone preset zone
    fluid_defpreset_import_zones sf sfont_sample preset p (count + 1)

/-- Embedding of `fluid_defpreset_import_sfont`. -/
def fluid_defpreset_import_sfont (preset : fluid_defpreset_data) (sfpreset : SFPreset)
    (sf : SFData) (sfont_sample : List fluid_sample_t) : fluid_defpreset_data :=
  let preset := { preset with
    name := if sfpreset.name.length > 0 then sfpreset.name
      else "Bank" ++ toString sfpreset.bank ++ ",Pre" ++ toString sfpreset.prenum }
  let preset := { preset with bank := sfpreset.bank, num := sfpreset.prenum }
  fluid_defpreset_import_zones sf sfont_sample preset sfpreset.zone 0

/-- The indices `sfgen->id` of the writes to `zone->gen[sfgen->id]` in the
loop over `sfzone->gen` of the two zone import functions: the ids of the
generators that are not a key range or a velocity range, in the order of the
list. -/
def zone_import_gen_writes (sfgens : List SFGen) : List Nat :=
  (sfgens.filter (fun sfgen => sfgen.id ≠ GEN_KEYRANGE ∧ sfgen.id ≠ GEN_VELRANGE)).map
    (fun sfgen => sfgen.id)

/-! ## `fluid_defsfont.c`: the writes to `mod_list` in a note on -/

/-- The loop `while (mod)` over the modulators of the global zone, with the
indices written: `mod_list[mod_list_count++] = mod`. The array is the list of
its first `mod_list_count` entries, so that the index of the store is the
length of the list. -/
def mod_list_put_global : List (Option fluid_mod_t) × List Nat → List fluid_mod_t →
    List (Option fluid_mod_t) × List Nat
  | st, [] => st
  | st, mod :: next => mod_list_put_global (st.1 ++ [some mod], st.2 ++ [st.1.length]) next

/-- The indices `i < mod_list_count` at which the loop that kicks the entries
identical to `mod` writes `mod_list[i] = NULL`. -/
def mod_list_kicked (mod : fluid_mod_t) (mod_list : List (Option fluid_mod_t)) : List Nat :=
  (List.range mod_list.length).filter (fun i =>
    match mod_list.getD i none with
    | some m => fluid_mod_test_identity mod m
    | none => false)

/-- The loop `while (mod)` over the modulators of the local zone, with the
indices written: those of the entries set to `NULL`, then the index of
`mod_list[mod_list_count++] = mod`. -/
def mod_list_put_local : List (Option fluid_mod_t) × List Nat → List fluid_mod_t →
    List (Option fluid_mod_t) × List Nat
  | st, [] => st
  | st, mod :: next =>
    mod_list_put_local
      (mod_list_kick mod st.1 ++ [some mod], st.2 ++ mod_list_kicked mod st.1 ++ [st.1.length])
      next

/-- The array `mod_list` after the merge of the modulators of a global zone
(none when the zone is `NULL`) and of a local zone, from `mod_list_count = 0`
on, and the indices of the array written on the way. -/
def mod_list_writes (global_mod : Option (List fluid_mod_t)) (local_mod : List fluid_mod_t) :
    List (Option fluid_mod_t) × List Nat :=
  mod_list_put_local
    (mod_list_put_global ([], [])
      (match global_mod with
       | some mod => mod
       | none => []))
    local_mod

/-! ## `fluid_sffile.c`: the sub-chunks of the pdta list -/

/-- The chunk id `PHDR_ID`. -/
def PHDR_ID : Nat := 20

/-- The chunk id `PBAG_ID`. -/
def PBAG_ID : Nat := 21

/-- The chunk id `PMOD_ID`. -/
def PMOD_ID : Nat := 22

/-- The chunk id `PGEN_ID`. -/
def PGEN_ID : Nat := 23

/-- The chunk id `IHDR_ID`. -/
def IHDR_ID : Nat := 24

/-- The chunk id `IBAG_ID`. -/
def IBAG_ID : Nat := 25

/-- The chunk id `IMOD_ID`. -/
def IMOD_ID : Nat := 26

/-- The chunk id `IGEN_ID`. -/
def IGEN_ID : Nat := 27

/-- The chunk id `SHDR_ID`. -/
def SHDR_ID : Nat := 28

/-- The macro `SF_PHDR_SIZE`, the size of a preset header record. -/
def SF_PHDR_SIZE : Nat := 38

/-- The macro `SF_BAG_SIZE`, the size of a bag record. -/
def SF_BAG_SIZE : Nat := 4

/-- The macro `SF_MOD_SIZE`, the size of a modulator record. -/
def SF_MOD_SIZE : Nat := 10

/-- The macro `SF_GEN_SIZE`, the size of a generator record. -/
def SF_GEN_SIZE : Nat := 4

/-- The macro `SF_IHDR_SIZE`, the size of an instrument header record. -/
def SF_IHDR_SIZE : Nat := 22

/-- The macro `SF_SHDR_SIZE`, the size of a sample header record. -/
def SF_SHDR_SIZE : Nat := 46

/-- The value of an `int` after `-=` with an `unsigned int`: the difference is
taken in `unsigned int` and converted back to `int`. -/
def int_sub_unsigned (a : Int) (b : Nat) : Int :=
  to_int ((a - (b : Int)) % 4294967296).toNat

/-- What a successful call of `pdtahelper` leaves: `*chunk_pos`,
`*record_count`, `*available_size`, and the position in the file. -/
structure pdta_chunk where
  chunk_pos : Nat
  record_count : Int
  available_size : Int
  pos : Nat
  deriving DecidableEq, Repr

/-- Embedding of `pdtahelper`, called at position `pos` of the file with
`*available_size = available_size`; `none` is `return FALSE`. The first
subtraction is in `int`, and exact as long as `available_size` is not within 8
of the least `int`. -/
def pdtahelper (sffd : List Nat) (pos : Nat) (chunk_id record_size : Nat)
    (min_record_count : Int) (available_size : Int) : Option pdta_chunk :=
  match READCHUNK sffd pos with
  | none => none
  | some (chunk, pos) =>
    let available_size := available_size - 8
    if chunkid chunk.id ≠ chunk_id then none
    else if chunk.size % record_size ≠ 0 then none
    else
      let record_count := to_int (chunk.size / record_size)
      if record_count < min_record_count then none
      else
        let available_size := int_sub_unsigned available_size chunk.size
        if available_size < 0 then none
        else
          some { chunk_pos := pos, record_count := record_count,
                 available_size := available_size, pos := pos + chunk.size }

/-- The fields of `sf` that `process_pdta` writes. -/
structure pdta_fields where
  phdr_pos : Nat
  phdr_count : Int
  pbag_pos : Nat
  pbag_count : Int
  pmod_pos : Nat
  pmod_count : Int
  pgen_pos : Nat
  pgen_count : Int
  ihdr_pos : Nat
  ihdr_count : Int
  ibag_pos : Nat
  ibag_count : Int
  imod_pos : Nat
  imod_count : Int
  igen_pos : Nat
  igen_count : Int
  shdr_pos : Nat
  shdr_count : Int
  deriving DecidableEq, Repr

/-- Embedding of `process_pdta`, called at position `pos` of the file with the
size of the pdta list: the fields written and the position reached; `none`
is `return FALSE`. -/
def process_pdta (sffd : List Nat) (pos : Nat) (size : Int) : Option (pdta_fields × Nat) :=
  (pdtahelper sffd pos PHDR_ID SF_PHDR_SIZE 1 size).bind fun phdr =>
  (pdtahelper sffd phdr.pos PBAG_ID SF_BAG_SIZE 1 phdr.available_size).bind fun pbag =>
  (pdtahelper sffd pbag.pos PMOD_ID SF_MOD_SIZE 0 pbag.available_size).bind fun pmod =>
  (pdtahelper sffd pmod.pos PGEN_ID SF_GEN_SIZE 0 pmod.available_size).bind fun pgen =>
  (pdtahelper sffd pgen.pos IHDR_ID SF_IHDR_SIZE 1 pgen.available_size).bind fun ihdr =>
  (pdtahelper sffd ihdr.pos IBAG_ID SF_BAG_SIZE 1 ihdr.available_size).bind fun ibag =>
  (pdtahelper sffd ibag.pos IMOD_ID SF_MOD_SIZE 0 ibag.available_size).bind fun imod =>
  (pdtahelper sffd imod.pos IGEN_ID SF_GEN_SIZE 0 imod.available_size).bind fun igen =>
  (pdtahelper sffd igen.pos SHDR_ID SF_SHDR_SIZE 1 igen.available_size).bind fun shdr =>
  some (⟨phdr.chunk_pos, phdr.record_count, pbag.chunk_pos, pbag.record_count,
      pmod.chunk_pos, pmod.record_count, pgen.chunk_pos, pgen.record_count,
      ihdr.chunk_pos, ihdr.record_count, ibag.chunk_pos, ibag.record_count,
      imod.chunk_pos, imod.record_count, igen.chunk_pos, igen.record_count,
      shdr.chunk_pos, shdr.record_count⟩, shdr.pos)

/-- The sub-chunks of the pdta list as the specification lists them: the id,
the size of a record and the least number of records of each, in order. -/
def pdta_subchunks : List (Nat × Nat × Int) :=
  [(PHDR_ID, 38, 1), (PBAG_ID, 4, 1), (PMOD_ID, 10, 0), (PGEN_ID, 4, 0), (IHDR_ID, 22, 1),
   (IBAG_ID, 4, 1), (IMOD_ID, 10, 0), (IGEN_ID, 4, 0), (SHDR_ID, 46, 1)]

/-- The specification's reading of `process_pdta`: `pdtahelper` is applied to
the sub-chunks of a list in order, each at the position and with the size the
one before left, and the whole fails as soon as one is rejected. -/
def pdta_apply (sffd : List Nat) : List (Nat × Nat × Int) → Nat → Int →
    Option (List pdta_chunk × Nat)
  | [], pos, _ => some ([], pos)
  | (chunk_id, record_size, min_record_count) :: rest, pos, size =>
    match pdtahelper sffd pos chunk_id record_size min_record_count size with
    | none => none
    | some c =>
      match pdta_apply sffd rest c.pos c.available_size with
      | none => none
      | some (cs, pos) => some (c :: cs, pos)

/-! ### Descriptions used in the statements on the preset list and on the
modulators of an imported zone -/

/-- Strictly smaller in (bank, num) order: the test by which
`fluid_defsfont_add_preset` finds the place of a preset. -/
def preset_lt (p q : fluid_defpreset_t) : Prop :=
  p.bank < q.bank ∨ (p.bank = q.bank ∧ p.num < q.num)

instance (p q : fluid_defpreset_t) : Decidable (preset_lt p q) :=
  inferInstanceAs (Decidable (p.bank < q.bank ∨ (p.bank = q.bank ∧ p.num < q.num)))

/-- The decoding of a modulator source word as the specification words it:
the index in bits 0 to 6, then one flag of each pair for bit 7, bit 8 and
bit 9, then the curve for the value of bits 10 to 15, none for a value above
3. -/
def decode_source (w : Nat) : Nat × List fluid_mod_flags :=
  (w % 128,
   [if w / 128 % 2 = 1 then .FLUID_MOD_CC else .FLUID_MOD_GC,
    if w / 256 % 2 = 1 then .FLUID_MOD_NEGATIVE else .FLUID_MOD_POSITIVE,
    if w / 512 % 2 = 1 then .FLUID_MOD_BIPOLAR else .FLUID_MOD_UNIPOLAR] ++
   (match w / 1024 % 64 with
    | 0 => [.FLUID_MOD_LINEAR]
    | 1 => [.FLUID_MOD_CONCAVE]
    | 2 => [.FLUID_MOD_CONVEX]
    | 3 => [.FLUID_MOD_SWITCH]
    | _ => []))

/-- A SoundFont with three presets, in (bank, num) order, for instances. -/
def demo_sfont : fluid_defsfont_data :=
  { preset := [⟨"a", 0, 0⟩, ⟨"b", 0, 5⟩, ⟨"c", 1, 2⟩],
    filename := some "demo.sf2", sampledata := none,
    sample := [demo_sample], iter_cur := [], preset_stack := [] }

/-! ### Description of the zones of an imported instrument or preset -/

/-- The zones imported from the zones of an intermediate instrument, in the
order of the intermediate list: the zone at position `count` is imported into
a new zone named after the instrument and `count`. -/
def imported_inst_zones (zonePZ : fluid_preset_zone_t) (name : String)
    (sf_sample : List SFSample) (sfont_sample : List fluid_sample_t)
    (zones : List SFInstZone) : List fluid_inst_zone_t :=
  zones.enum.map (fun p =>
    fluid_inst_zone_import_sfont zonePZ (new_fluid_inst_zone (name ++ "/" ++ toString p.1)) p.2
      sf_sample sfont_sample)

/-- The zones imported from the zones of an intermediate preset, in the order
of the intermediate list. -/
def imported_preset_zones (name : String) (sf : SFData) (sfont_sample : List fluid_sample_t)
    (zones : List SFPresetZone) : List fluid_preset_zone_t :=
  zones.enum.map (fun p =>
    fluid_preset_zone_import_sfont (new_fluid_preset_zone (name ++ "/" ++ toString p.1)) p.2 sf
      sfont_sample)

/-- The fields of `sf` for the nine sub-chunks of the pdta list, from what
`pdtahelper` left for each, in the order of `pdta_subchunks`. -/
def pdta_fields_of : List pdta_chunk → Option pdta_fields
  | [phdr, pbag, pmod, pgen, ihdr, ibag, imod, igen, shdr] =>
    some ⟨phdr.chunk_pos, phdr.record_count, pbag.chunk_pos, pbag.record_count,
      pmod.chunk_pos, pmod.record_count, pgen.chunk_pos, pgen.record_count,
      ihdr.chunk_pos, ihdr.record_count, ibag.chunk_pos, ibag.record_count,
      imod.chunk_pos, imod.record_count, igen.chunk_pos, igen.record_count,
      shdr.chunk_pos, shdr.record_count⟩
  | _ => none

/-- A chunk header: the four characters of the id and the size in
little-endian order. -/
def chunk_header (id : String) (size : Nat) : List Nat :=
  id.toList.map Char.toNat ++
    [size % 256, size / 256 % 256, size / 65536 % 256, size / 16777216 % 256]

/-- A pdta list for instances: the nine sub-chunks with one record each where
one is needed and none otherwise, all bytes of the records 0; the size of the
list is 186. -/
def demo_pdta : List Nat :=
  chunk_header "phdr" 38 ++ List.replicate 38 0 ++
  chunk_header "pbag" 4 ++ List.replicate 4 0 ++
  chunk_header "pmod" 0 ++
  chunk_header "pgen" 0 ++
  chunk_header "inst" 22 ++ List.replicate 22 0 ++
  chunk_header "ibag" 4 ++ List.replicate 4 0 ++
  chunk_header "imod" 0 ++
  chunk_header "igen" 0 ++
  chunk_header "shdr" 46 ++ List.replicate 46 0

/-- The pdta list `demo_pdta` cut behind the header of its last sub-chunk,
which is given the size 4294967284; the size of the list stays 186. -/
def demo_pdta_oversized : List Nat :=
  demo_pdta.take 132 ++ chunk_header "shdr" 4294967284

/-! ### The numbers in the generator slots -/

end FluidSynth

/-! # Theorems -/

namespace FluidSynth

/-! ## Preset list: lookup and sorted insertion -/

theorem get_preset_loop_some {bank num : Nat} {p : fluid_defpreset_t} :
    ∀ {l : List fluid_defpreset_t}, get_preset_loop bank num l = some p →
      p ∈ l ∧ p.bank = bank ∧ p.num = num := by
  intro l
  induction l with
  | nil => intro h; simp [get_preset_loop] at h
  | cons q rest ih =>
    intro h
    unfold get_preset_loop at h
    split at h
    · rename_i hq
      cases h
      exact ⟨List.mem_cons_self _ _, hq.1, hq.2⟩
    · obtain ⟨hm, hb, hn⟩ := ih h
      exact ⟨List.mem_cons_of_mem _ hm, hb, hn⟩

theorem get_preset_loop_none {bank num : Nat} :
    ∀ {l : List fluid_defpreset_t}, get_preset_loop bank num l = none ↔
      ∀ p ∈ l, ¬ (p.bank = bank ∧ p.num = num) := by
  intro l
  induction l with
  | nil => simp [get_preset_loop]
  | cons q rest ih =>
    unfold get_preset_loop
    by_cases hq : q.bank = bank ∧ q.num = num
    · rw [if_pos hq]
      constructor
      · intro h; cases h
      · intro h; exact absurd hq (h q (List.mem_cons_self _ _))
    · rw [if_neg hq, ih]
      constructor
      · intro h x hx
        rcases List.mem_cons.mp hx with rfl | hx
        · exact hq
        · exact h x hx
      · intro h x hx
        exact h x (List.mem_cons_of_mem _ hx)

theorem get_preset_loop_eq_find (bank num : Nat) (l : List fluid_defpreset_t) :
    get_preset_loop bank num l = l.find? (fun p => decide (p.bank = bank ∧ p.num = num)) := by
  induction l with
  | nil => rfl
  | cons q rest ih =>
    unfold get_preset_loop
    by_cases hq : q.bank = bank ∧ q.num = num
    · simp [hq]
    · simp only [hq, if_false, ih, List.find?_cons, decide_False]

theorem preset_le_trans {p q r : fluid_defpreset_t} (h1 : preset_le p q) (h2 : preset_le q r) :
    preset_le p r := by
  unfold preset_le at *
  omega

theorem mem_add_preset_loop {p x : fluid_defpreset_t} :
    ∀ {l : List fluid_defpreset_t}, x ∈ add_preset_loop p l ↔ x = p ∨ x ∈ l := by
  intro l
  induction l with
  | nil => simp [add_preset_loop]
  | cons cur rest ih =>
    unfold add_preset_loop
    split
    · simp
    · simp only [List.mem_cons, ih]
      tauto

theorem add_preset_loop_pairwise (p : fluid_defpreset_t) :
    ∀ {l : List fluid_defpreset_t}, l.Pairwise preset_le →
      (add_preset_loop p l).Pairwise preset_le := by
  intro l
  induction l with
  | nil => intro _; simp [add_preset_loop]
  | cons cur rest ih =>
    intro h
    have hcur := (List.pairwise_cons.mp h).1
    have hrest := (List.pairwise_cons.mp h).2
    unfold add_preset_loop
    split
    · rename_i hlt
      refine List.pairwise_cons.mpr ⟨?_, h⟩
      intro x hx
      have hpc : preset_le p cur := by unfold preset_le; omega
      rcases List.mem_cons.mp hx with rfl | hx
      · exact hpc
      · exact preset_le_trans hpc (hcur x hx)
    · rename_i hlt
      refine List.pairwise_cons.mpr ⟨?_, ih hrest⟩
      intro x hx
      rcases mem_add_preset_loop.mp hx with rfl | hx
      · unfold preset_le; omega
      · exact hcur x hx

theorem add_preset_eq_loop (sfont : fluid_defsfont_t) (p : fluid_defpreset_t) :
    (fluid_defsfont_add_preset sfont p).preset = add_preset_loop p sfont.preset := by
  unfold fluid_defsfont_add_preset
  cases h : sfont.preset with
  | nil => simp [add_preset_loop]
  | cons cur rest => simp

theorem add_preset_pairwise (sfont : fluid_defsfont_t) (p : fluid_defpreset_t)
    (h : sfont.preset.Pairwise preset_le) :
    (fluid_defsfont_add_preset sfont p).preset.Pairwise preset_le := by
  rw [add_preset_eq_loop]
  exact add_preset_loop_pairwise p h

theorem add_presets_pairwise (seq : List fluid_defpreset_t) :
    ∀ (sfont : fluid_defsfont_t), sfont.preset.Pairwise preset_le →
      (add_presets sfont seq).preset.Pairwise preset_le := by
  induction seq with
  | nil => intro sfont h; simpa [add_presets] using h
  | cons p rest ih =>
    intro sfont h
    have := ih (fluid_defsfont_add_preset sfont p) (add_preset_pairwise sfont p h)
    simpa [add_presets] using this

/-- Looking a key up after an insertion into a sorted list: an entry that was
found before is still the one found; otherwise the new preset is found when
it has the key. -/
theorem get_preset_loop_add (bank num : Nat) (p : fluid_defpreset_t) :
    ∀ {l : List fluid_defpreset_t}, l.Pairwise preset_le →
      get_preset_loop bank num (add_preset_loop p l) =
        (get_preset_loop bank num l).orElse
          (fun _ => if p.bank = bank ∧ p.num = num then some p else none) := by
  intro l
  induction l with
  | nil => intro _; simp [add_preset_loop, get_preset_loop]
  | cons cur rest ih =>
    intro h
    have hcur := (List.pairwise_cons.mp h).1
    have hrest := (List.pairwise_cons.mp h).2
    unfold add_preset_loop
    split
    · rename_i hlt
      by_cases hp : p.bank = bank ∧ p.num = num
      · -- nothing from `cur` on has the key of `p`
        have hnone : get_preset_loop bank num (cur :: rest) = none := by
          rw [get_preset_loop_none]
          intro x hx hkey
          have hle : preset_le cur x := by
            rcases List.mem_cons.mp hx with rfl | hx
            · unfold preset_le; omega
            · exact hcur x hx
          unfold preset_le at hle
          omega
        rw [hnone]
        simp [get_preset_loop, hp]
      · have : get_preset_loop bank num (p :: cur :: rest) =
            get_preset_loop bank num (cur :: rest) := by
          conv_lhs => unfold get_preset_loop
          simp [hp]
        rw [this]
        cases get_preset_loop bank num (cur :: rest) <;> simp [hp]
    · rename_i hlt
      by_cases hc : cur.bank = bank ∧ cur.num = num
      · simp [get_preset_loop, hc]
      · have e1 : get_preset_loop bank num (cur :: add_preset_loop p rest) =
            get_preset_loop bank num (add_preset_loop p rest) := by
          conv_lhs => unfold get_preset_loop
          simp [hc]
        have e2 : get_preset_loop bank num (cur :: rest) = get_preset_loop bank num rest := by
          conv_lhs => unfold get_preset_loop
          simp [hc]
        rw [e1, e2, ih hrest]

theorem get_preset_add_presets (bank num : Nat) (seq : List fluid_defpreset_t) :
    ∀ (sfont : fluid_defsfont_t), sfont.preset.Pairwise preset_le →
      fluid_defsfont_get_preset (add_presets sfont seq) bank num =
        (fluid_defsfont_get_preset sfont bank num).orElse
          (fun _ => seq.find? (fun p => decide (p.bank = bank ∧ p.num = num))) := by
  induction seq with
  | nil =>
    intro sfont _
    cases h : fluid_defsfont_get_preset sfont bank num <;> simp [add_presets, h]
  | cons p rest ih =>
    intro sfont h
    have hs := add_preset_pairwise sfont p h
    have := ih (fluid_defsfont_add_preset sfont p) hs
    simp only [add_presets, List.foldl_cons] at this ⊢
    rw [this]
    unfold fluid_defsfont_get_preset
    rw [add_preset_eq_loop, get_preset_loop_add bank num p h]
    cases get_preset_loop bank num sfont.preset with
    | some x => simp
    | none =>
      by_cases hp : p.bank = bank ∧ p.num = num
      · simp [hp]
      · simp [hp]

/-- C1: for every preset list and every (bank, num), `fluid_defsfont_get_preset`
returns either a preset of the list whose bank is `bank` and whose num is
`num`, or `NULL`; it returns `NULL` if and only if no preset of the list has
that (bank, num). -/
theorem get_preset_match_or_null (sfont : fluid_defsfont_t) (bank num : Nat) :
    (∀ p, fluid_defsfont_get_preset sfont bank num = some p →
        p ∈ sfont.preset ∧ p.bank = bank ∧ p.num = num) ∧
    (fluid_defsfont_get_preset sfont bank num = none ↔
        ∀ p ∈ sfont.preset, ¬ (p.bank = bank ∧ p.num = num)) :=
  ⟨fun _ h => get_preset_loop_some h, get_preset_loop_none⟩

/-- C2: sortedness is an invariant of `fluid_defsfont_add_preset`: a preset
list whose consecutive elements are in non-decreasing (bank, num) order is
still so after the call, whatever preset is inserted; hence the list built
from the empty SoundFont by any sequence of calls is sorted. -/
theorem add_preset_keeps_sorted :
    (∀ (sfont : fluid_defsfont_t) (preset : fluid_defpreset_t),
        sfont.preset.Chain' preset_le →
        (fluid_defsfont_add_preset sfont preset).preset.Chain' preset_le) ∧
    (∀ seq : List fluid_defpreset_t, (add_presets ⟨[]⟩ seq).preset.Chain' preset_le) := by
  constructor
  · intro sfont preset h
    rw [List.chain'_iff_pairwise] at h ⊢
    exact add_preset_pairwise sfont preset h
  · intro seq
    rw [List.chain'_iff_pairwise]
    exact add_presets_pairwise seq ⟨[]⟩ List.Pairwise.nil

/-- Instance of C2 on a concrete list: inserting (0, 5) into
[(0, 1), (0, 9), (1, 0)]. -/
theorem add_preset_keeps_sorted_witness :
    (fluid_defsfont_add_preset ⟨[⟨"a", 0, 1⟩, ⟨"b", 0, 9⟩, ⟨"c", 1, 0⟩]⟩ ⟨"n", 0, 5⟩).preset
        = [⟨"a", 0, 1⟩, ⟨"n", 0, 5⟩, ⟨"b", 0, 9⟩, ⟨"c", 1, 0⟩] ∧
    (fluid_defsfont_add_preset ⟨[⟨"a", 0, 1⟩, ⟨"b", 0, 9⟩, ⟨"c", 1, 0⟩]⟩
        ⟨"n", 0, 5⟩).preset.Chain' preset_le :=
  ⟨by decide, add_preset_keeps_sorted.1 _ _ (by simp [preset_le])⟩

/-- C3: first-found wins. After any sequence of `fluid_defsfont_add_preset`
calls on the empty SoundFont, `fluid_defsfont_get_preset(bank, num)` returns
the preset that was added first among those with that (bank, num). So when
`A` and `B` have the same (bank, num), `A` is added before `B` and `A` is the
first preset added with that (bank, num), the lookup returns `A`, whatever
else is added before, between or after. -/
theorem get_preset_first_added :
    (∀ (seq : List fluid_defpreset_t) (bank num : Nat),
        fluid_defsfont_get_preset (add_presets ⟨[]⟩ seq) bank num =
          seq.find? (fun p => decide (p.bank = bank ∧ p.num = num))) ∧
    (∀ (pre mid post : List fluid_defpreset_t) (A B : fluid_defpreset_t),
        A.bank = B.bank → A.num = B.num →
        (∀ p ∈ pre, ¬ (p.bank = A.bank ∧ p.num = A.num)) →
        fluid_defsfont_get_preset (add_presets ⟨[]⟩ (pre ++ A :: (mid ++ B :: post)))
          B.bank B.num = some A) := by
  have key : ∀ (seq : List fluid_defpreset_t) (bank num : Nat),
      fluid_defsfont_get_preset (add_presets ⟨[]⟩ seq) bank num =
        seq.find? (fun p => decide (p.bank = bank ∧ p.num = num)) := by
    intro seq bank num
    rw [get_preset_add_presets bank num seq ⟨[]⟩ List.Pairwise.nil]
    simp [fluid_defsfont_get_preset, get_preset_loop]
  refine ⟨key, ?_⟩
  intro pre mid post A B hb hn hpre
  rw [key, List.find?_append]
  have h1 : pre.find? (fun p => decide (p.bank = B.bank ∧ p.num = B.num)) = none := by
    rw [List.find?_eq_none]
    intro p hp
    have := hpre p hp
    rw [hb, hn] at this
    simpa using this
  rw [h1]
  simp [hb, hn]

/-- Instance of C3: two presets "A" and "B" at (0, 7), added in that order
among presets at (0, 3), (1, 2), (0, 9) and a later third one at (0, 7). -/
theorem get_preset_first_added_witness :
    fluid_defsfont_get_preset
      (add_presets ⟨[]⟩ ([⟨"x", 1, 2⟩, ⟨"y", 0, 9⟩] ++
        (⟨"A", 0, 7⟩ : fluid_defpreset_t) :: ([⟨"z", 0, 3⟩] ++ ⟨"B", 0, 7⟩ :: [⟨"C", 0, 7⟩])))
      0 7 = some ⟨"A", 0, 7⟩ :=
  get_preset_first_added.2 [⟨"x", 1, 2⟩, ⟨"y", 0, 9⟩] [⟨"z", 0, 3⟩] [⟨"C", 0, 7⟩]
    ⟨"A", 0, 7⟩ ⟨"B", 0, 7⟩ rfl rfl (by decide)

/-- C4 (what the code does): the scan of `invalid_preset_gen` stops at its
first entry, `Gen_StartAddrOfs` = 0, which is also the table's terminator, so
`valid_preset_genid` accepts exactly what `valid_inst_genid` accepts: each of
the 13 preset-illegal generators is accepted, and `load_preset_generators`
stores such a generator (here `Gen_EndAddrOfs` with amount 5) in the zone. -/
theorem valid_preset_genid_accepts_illegal :
    (∀ g, valid_preset_genid g = valid_inst_genid g) ∧
    (∀ g ∈ preset_illegal_gens, valid_preset_genid g = true) ∧
    load_preset_generators
        ⟨[⟨"p", 0, 0, 0, 1, [⟨[], [], 0, 1, 0, 0, none⟩]⟩], [], []⟩
        [⟨Gen_EndAddrOfs, 5, 0⟩] 0 1 =
      some ⟨[⟨"p", 0, 0, 0, 1, [⟨[⟨Gen_EndAddrOfs, .sword 5⟩], [], 0, 1, 0, 0, none⟩]⟩],
        [], []⟩ := by
  refine ⟨?_, by decide, by decide⟩
  intro g
  unfold valid_preset_genid
  cases valid_inst_genid g <;>
    simp [scan_invalid_table, invalid_preset_gen, Gen_StartAddrOfs]

/-- C5 (as amended): `valid_inst_genid(g)` is true if and only if
g ≤ `Gen_MaxValid` = `Gen_Dummy` − 1 = 58 and g is not one of the unused /
reserved ids 14, 18, 19, 20, 42, 49, 55. -/
theorem valid_inst_genid_iff (g : Nat) :
    valid_inst_genid g = true ↔ g ≤ 58 ∧ g ∉ unused_reserved_gens := by
  by_cases h : g ≤ 58
  · have hall : ∀ k, k < 59 → (valid_inst_genid k = true ↔ k ≤ 58 ∧ k ∉ unused_reserved_gens) := by
      decide
    exact hall g (by omega)
  · have : valid_inst_genid g = false := by
      unfold valid_inst_genid Gen_MaxValid Gen_Dummy
      simp; omega
    simp [this, h]

/-- C5 fails as stated at g = `Gen_Dummy` = 59: that id is at most `Gen_Dummy`
and is not unused or reserved, and `valid_inst_genid` rejects it. -/
theorem valid_inst_genid_rejects_Gen_Dummy :
    ¬ (valid_inst_genid 59 = true ↔ 59 ≤ Gen_Dummy ∧ 59 ∉ unused_reserved_gens) := by
  decide

/-! ## Generator loader: one record -/

theorem set_gen_amount_ids (v : SFGenAmount) :
    ∀ (k : Nat) (l : List SFGen), gen_ids (set_gen_amount v k l) = gen_ids l := by
  intro k l
  induction l generalizing k with
  | nil => cases k <;> rfl
  | cons g p ih =>
    cases k with
    | zero => rfl
    | succ k =>
      have := ih k
      simp only [gen_ids] at this ⊢
      simp [set_gen_amount, this]

theorem set_gen_amount_length (v : SFGenAmount) (k : Nat) (l : List SFGen) :
    (set_gen_amount v k l).length = l.length := by
  have := congrArg List.length (set_gen_amount_ids v k l)
  simpa [gen_ids] using this

/-- What `store_gen` does to the list of ids: nothing when a duplicate is
pending, else the id is appended. -/
theorem store_gen_ids (ld : GenLoaderVars) (genid : Nat) (v : SFGenAmount) (zgen : List SFGen) :
    gen_ids (store_gen ld genid v zgen).2 =
      if ld.duplicate_gen = none then gen_ids zgen ++ [genid] else gen_ids zgen := by
  unfold store_gen
  cases h : ld.duplicate_gen with
  | none => simp [gen_ids]
  | some k => simp [set_gen_amount_ids]

theorem store_gen_dup (ld : GenLoaderVars) (genid : Nat) (v : SFGenAmount) (zgen : List SFGen) :
    (store_gen ld genid v zgen).1.duplicate_gen = none := by
  unfold store_gen
  cases h : ld.duplicate_gen with
  | none => simp [h]
  | some k => simp

theorem store_gen_pos (ld : GenLoaderVars) (genid : Nat) (v : SFGenAmount) (zgen : List SFGen) :
    (store_gen ld genid v zgen).1.pos = ld.pos ∧ (store_gen ld genid v zgen).1.gen_set = true := by
  unfold store_gen
  cases h : ld.duplicate_gen <;> simp

/-- Case analysis of one iteration. -/
theorem load_gen_record_cases (terminal : Nat) (valid : Nat → Bool) (chunk : List GenRecord)
    (gen_idx : Nat) (ld : GenLoaderVars) (level : Nat) (zgen : List SFGen) :
    (chunk.get? (read_pos gen_idx ld) = none ∧
      load_gen_record terminal valid chunk gen_idx ld level zgen = none) ∨
    ∃ r, chunk.get? (read_pos gen_idx ld) = some r ∧
      (((level = 0 ∧ r.genid = Gen_KeyRange) ∨ (level ≤ 1 ∧ r.genid = Gen_VelRange)) ∧
        load_gen_record terminal valid chunk gen_idx ld level zgen =
          some ((store_gen { ld with pos := read_pos gen_idx ld + 1 } r.genid
                  (.range r.b0 r.b1) zgen).1, level + 1,
                (store_gen { ld with pos := read_pos gen_idx ld + 1 } r.genid
                  (.range r.b0 r.b1) zgen).2)
      ∨ (¬ ((level = 0 ∧ r.genid = Gen_KeyRange) ∨ (level ≤ 1 ∧ r.genid = Gen_VelRange)) ∧
          (level < 3 ∧ r.genid = terminal) ∧
        load_gen_record terminal valid chunk gen_idx ld level zgen =
          some ((store_gen { ld with pos := read_pos gen_idx ld + 1 } r.genid
                  (.uword (read_uword r.b0 r.b1)) zgen).1, 3,
                (store_gen { ld with pos := read_pos gen_idx ld + 1 } r.genid
                  (.uword (read_uword r.b0 r.b1)) zgen).2))
      ∨ (¬ ((level = 0 ∧ r.genid = Gen_KeyRange) ∨ (level ≤ 1 ∧ r.genid = Gen_VelRange)) ∧
          ¬ (level < 3 ∧ r.genid = terminal) ∧ (level ≤ 2 ∧ valid r.genid = true) ∧
        load_gen_record terminal valid chunk gen_idx ld level zgen =
          some ((store_gen { pos := read_pos gen_idx ld + 1, gen_set := ld.gen_set,
                             duplicate_gen := find_gen_by_id r.genid zgen } r.genid
                  (.sword (read_sword r.b0 r.b1)) zgen).1, 2,
                (store_gen { pos := read_pos gen_idx ld + 1, gen_set := ld.gen_set,
                             duplicate_gen := find_gen_by_id r.genid zgen } r.genid
                  (.sword (read_sword r.b0 r.b1)) zgen).2))
      ∨ (¬ ((level = 0 ∧ r.genid = Gen_KeyRange) ∨ (level ≤ 1 ∧ r.genid = Gen_VelRange)) ∧
          ¬ (level < 3 ∧ r.genid = terminal) ∧ ¬ (level ≤ 2 ∧ valid r.genid = true) ∧
        load_gen_record terminal valid chunk gen_idx ld level zgen =
          some ({ ld with pos := read_pos gen_idx ld + 1 }, level, zgen))) := by
  unfold load_gen_record
  cases hr : chunk.get? (read_pos gen_idx ld) with
  | none => left; exact ⟨rfl, by simp only [hr]⟩
  | some r =>
    right
    refine ⟨r, rfl, ?_⟩
    by_cases h1 : (level = 0 ∧ r.genid = Gen_KeyRange) ∨ (level ≤ 1 ∧ r.genid = Gen_VelRange)
    · left; exact ⟨h1, by simp only [hr, if_pos h1]⟩
    · right
      by_cases h2 : level < 3 ∧ r.genid = terminal
      · left; exact ⟨h1, h2, by simp only [hr, if_neg h1, if_pos h2]⟩
      · right
        by_cases h3 : level ≤ 2 ∧ valid r.genid = true
        · left; exact ⟨h1, h2, h3, by simp only [hr, if_neg h1, if_neg h2, if_pos h3]⟩
        · right; exact ⟨h1, h2, h3, by simp only [hr, if_neg h1, if_neg h2, if_neg h3]⟩

/-! ## Generator loader: invariants of the zone loop -/

/-- An iteration entered with `duplicate_gen = NULL` leaves it `NULL`. -/
theorem load_gen_record_dup {terminal : Nat} {valid : Nat → Bool} {chunk : List GenRecord}
    {gen_idx : Nat} {ld ld' : GenLoaderVars} {level level' : Nat} {zgen zgen' : List SFGen}
    (hd : ld.duplicate_gen = none)
    (h : load_gen_record terminal valid chunk gen_idx ld level zgen = some (ld', level', zgen')) :
    ld'.duplicate_gen = none := by
  rcases load_gen_record_cases terminal valid chunk gen_idx ld level zgen with
    ⟨_, hn⟩ | ⟨r, _, hc⟩
  · rw [hn] at h; cases h
  · rcases hc with ⟨_, e⟩ | ⟨_, _, e⟩ | ⟨_, _, _, e⟩ | ⟨_, _, _, e⟩
    all_goals
      rw [e] at h
      simp only [Option.some.injEq, Prod.mk.injEq] at h
      obtain ⟨h1, -, -⟩ := h
      subst h1
    · exact store_gen_dup _ _ _ _
    · exact store_gen_dup _ _ _ _
    · exact store_gen_dup _ _ _ _
    · exact hd

theorem load_zone_loop_dup {terminal : Nat} {valid : Nat → Bool} {chunk : List GenRecord}
    {gen_idx : Nat} :
    ∀ (n : Nat) {ld ld' : GenLoaderVars} {level level' : Nat} {zgen zgen' : List SFGen},
      ld.duplicate_gen = none →
      load_zone_loop terminal valid chunk gen_idx n ld level zgen = some (ld', level', zgen') →
      ld'.duplicate_gen = none := by
  intro n
  induction n with
  | zero =>
    intro ld ld' level level' zgen zgen' hd h
    simp only [load_zone_loop, Option.some.injEq, Prod.mk.injEq] at h
    rw [← h.1]; exact hd
  | succ n ih =>
    intro ld ld' level level' zgen zgen' hd h
    unfold load_zone_loop at h
    cases hs : load_gen_record terminal valid chunk gen_idx ld level zgen with
    | none => rw [hs] at h; cases h
    | some res =>
      obtain ⟨ld1, level1, zgen1⟩ := res
      rw [hs] at h
      exact ih (load_gen_record_dup hd hs) h

/-- At level 3 an iteration skips its record: level and list are unchanged. -/
theorem load_gen_record_level3 {terminal : Nat} {valid : Nat → Bool} {chunk : List GenRecord}
    {gen_idx : Nat} {ld ld' : GenLoaderVars} {level' : Nat} {zgen zgen' : List SFGen}
    (h : load_gen_record terminal valid chunk gen_idx ld 3 zgen = some (ld', level', zgen')) :
    level' = 3 ∧ zgen' = zgen ∧ ld' = { ld with pos := read_pos gen_idx ld + 1 } := by
  rcases load_gen_record_cases terminal valid chunk gen_idx ld 3 zgen with
    ⟨_, hn⟩ | ⟨r, _, hc⟩
  · rw [hn] at h; cases h
  · rcases hc with ⟨c, _⟩ | ⟨_, c, _⟩ | ⟨_, _, c, _⟩ | ⟨_, _, _, e⟩
    · omega
    · omega
    · omega
    · rw [e] at h
      simp only [Option.some.injEq, Prod.mk.injEq] at h
      exact ⟨h.2.1.symm, h.2.2.symm, h.1.symm⟩

theorem load_zone_loop_level3 {terminal : Nat} {valid : Nat → Bool} {chunk : List GenRecord}
    {gen_idx : Nat} :
    ∀ (n : Nat) {ld ld' : GenLoaderVars} {level' : Nat} {zgen zgen' : List SFGen},
      load_zone_loop terminal valid chunk gen_idx n ld 3 zgen = some (ld', level', zgen') →
      level' = 3 ∧ zgen' = zgen := by
  intro n
  induction n with
  | zero =>
    intro ld ld' level' zgen zgen' h
    simp only [load_zone_loop, Option.some.injEq, Prod.mk.injEq] at h
    exact ⟨h.2.1.symm, h.2.2.symm⟩
  | succ n ih =>
    intro ld ld' level' zgen zgen' h
    unfold load_zone_loop at h
    cases hs : load_gen_record terminal valid chunk gen_idx ld 3 zgen with
    | none => rw [hs] at h; cases h
    | some res =>
      obtain ⟨ld1, level1, zgen1⟩ := res
      rw [hs] at h
      obtain ⟨e1, e2, -⟩ := load_gen_record_level3 hs
      subst e1 e2
      exact ih h

theorem load_gen_record_terminal_inv {terminal : Nat} {valid : Nat → Bool}
    {chunk : List GenRecord} {gen_idx : Nat} {ld ld' : GenLoaderVars} {level level' : Nat}
    {zgen zgen' : List SFGen}
    (hk : terminal ≠ Gen_KeyRange) (hv : terminal ≠ Gen_VelRange)
    (hd : ld.duplicate_gen = none) (hi : TerminalInv terminal level zgen)
    (h : load_gen_record terminal valid chunk gen_idx ld level zgen = some (ld', level', zgen')) :
    TerminalInv terminal level' zgen' := by
  obtain ⟨hle, hlt, heq⟩ := hi
  rcases load_gen_record_cases terminal valid chunk gen_idx ld level zgen with
    ⟨_, hn⟩ | ⟨r, _, hc⟩
  · rw [hn] at h; cases h
  · rcases hc with ⟨c1, e⟩ | ⟨c1, c2, e⟩ | ⟨c1, c2, c3, e⟩ | ⟨c1, c2, c3, e⟩
    all_goals
      rw [e] at h
      simp only [Option.some.injEq, Prod.mk.injEq] at h
      obtain ⟨-, h2, h3⟩ := h
      subst h2 h3
    · -- range rule
      have hl : level ≤ 1 := by omega
      have hid : r.genid ≠ terminal := by
        rcases c1 with ⟨_, c⟩ | ⟨_, c⟩ <;> rw [c] <;> exact fun e => by simp_all
      refine ⟨by omega, fun _ => ?_, fun e3 => by omega⟩
      rw [store_gen_ids]
      simp only [hd, if_true]
      intro hm
      rcases List.mem_append.mp hm with hm | hm
      · exact hlt (by omega) hm
      · simp at hm; exact hid hm.symm
    · -- terminal rule
      refine ⟨le_refl _, fun c => by omega, fun _ => ⟨gen_ids zgen, ?_, hlt c2.1⟩⟩
      rw [store_gen_ids]
      simp only [hd, if_true, c2.2]
    · -- valid-id rule
      have hid : r.genid ≠ terminal := fun e => c2 ⟨by omega, e⟩
      refine ⟨by omega, fun _ => ?_, fun e3 => by omega⟩
      rw [store_gen_ids]
      split
      · intro hm
        rcases List.mem_append.mp hm with hm | hm
        · exact hlt (by omega) hm
        · simp at hm; exact hid hm.symm
      · exact hlt (by omega)
    · exact ⟨hle, hlt, heq⟩

theorem load_zone_loop_terminal_inv {terminal : Nat} {valid : Nat → Bool}
    {chunk : List GenRecord} {gen_idx : Nat}
    (hk : terminal ≠ Gen_KeyRange) (hv : terminal ≠ Gen_VelRange) :
    ∀ (n : Nat) {ld ld' : GenLoaderVars} {level level' : Nat} {zgen zgen' : List SFGen},
      ld.duplicate_gen = none → TerminalInv terminal level zgen →
      load_zone_loop terminal valid chunk gen_idx n ld level zgen = some (ld', level', zgen') →
      TerminalInv terminal level' zgen' := by
  intro n
  induction n with
  | zero =>
    intro ld ld' level level' zgen zgen' _ hi h
    simp only [load_zone_loop, Option.some.injEq, Prod.mk.injEq] at h
    rw [← h.2.1, ← h.2.2]; exact hi
  | succ n ih =>
    intro ld ld' level level' zgen zgen' hd hi h
    unfold load_zone_loop at h
    cases hs : load_gen_record terminal valid chunk gen_idx ld level zgen with
    | none => rw [hs] at h; cases h
    | some res =>
      obtain ⟨ld1, level1, zgen1⟩ := res
      rw [hs] at h
      exact ih (load_gen_record_dup hd hs) (load_gen_record_terminal_inv hk hv hd hi hs) h

/-- The terminal generator occurs at most once in a list that satisfies the
invariant, and when it occurs it is the last element. -/
theorem terminal_inv_last {terminal level : Nat} {zgen : List SFGen}
    (hi : TerminalInv terminal level zgen) :
    (gen_ids zgen).count terminal ≤ 1 ∧
    (terminal ∈ gen_ids zgen → (gen_ids zgen).getLast? = some terminal) := by
  obtain ⟨hle, hlt, heq⟩ := hi
  by_cases h3 : level = 3
  · obtain ⟨init, e, hn⟩ := heq h3
    rw [e]
    refine ⟨?_, fun _ => by simp⟩
    rw [List.count_append, List.count_eq_zero_of_not_mem hn]
    simp
  · have hn := hlt (by omega)
    exact ⟨by rw [List.count_eq_zero_of_not_mem hn]; omega, fun hm => absurd hm hn⟩

/-! ## Generator loader: from the zone loop to the whole function -/

/-- A property of the generator list that every run of the zone loop from an
empty list establishes holds of every zone of a zone list after loading. -/
theorem load_zone_list_generators_forall {terminal : Nat} {valid : Nat → Bool}
    {chunk : List GenRecord} (P : List SFGen → Prop)
    (hP : ∀ (gen_idx n : Nat) (ld ld' : GenLoaderVars) (level' : Nat) (zgen' : List SFGen),
      ld.duplicate_gen = none →
      load_zone_loop terminal valid chunk gen_idx n ld 0 [] = some (ld', level', zgen') →
      P zgen') :
    ∀ (zones : List SFZone) {ld ld' : GenLoaderVars} {zones' : List SFZone},
      ld.duplicate_gen = none → (∀ z ∈ zones, z.gen = []) →
      load_zone_list_generators terminal valid chunk ld zones = some (ld', zones') →
      ld'.duplicate_gen = none ∧ ∀ z ∈ zones', P z.gen := by
  intro zones
  induction zones with
  | nil =>
    intro ld ld' zones' hd _ h
    simp only [load_zone_list_generators, Option.some.injEq, Prod.mk.injEq] at h
    rw [← h.1, ← h.2]
    exact ⟨hd, fun z hz => by cases hz⟩
  | cons zone rest ih =>
    intro ld ld' zones' hd hnil h
    unfold load_zone_list_generators at h
    cases hz : load_zone_generators terminal valid chunk ld zone with
    | none => rw [hz] at h; cases h
    | some res =>
      obtain ⟨ld1, zone1⟩ := res
      rw [hz] at h
      simp only at h
      cases hr : load_zone_list_generators terminal valid chunk ld1 rest with
      | none => rw [hr] at h; cases h
      | some res2 =>
        obtain ⟨ld2, zones2⟩ := res2
        rw [hr] at h
        simp only [Option.some.injEq, Prod.mk.injEq] at h
        unfold load_zone_generators at hz
        cases hl : load_zone_loop terminal valid chunk zone.gen_idx zone.gen_count ld 0
            zone.gen with
        | none => rw [hl] at hz; cases hz
        | some res3 =>
          obtain ⟨ld3, level3, zgen3⟩ := res3
          rw [hl] at hz
          simp only [Option.some.injEq, Prod.mk.injEq] at hz
          have hg : zone.gen = [] := hnil zone (List.mem_cons_self _ _)
          rw [hg] at hl
          have hd1 : ld1.duplicate_gen = none := by
            rw [← hz.1]; exact load_zone_loop_dup _ hd hl
          obtain ⟨hd2, hall⟩ := ih hd1 (fun z hz => hnil z (List.mem_cons_of_mem _ hz)) hr
          rw [← h.1, ← h.2]
          refine ⟨hd2, ?_⟩
          intro z hz'
          rcases List.mem_cons.mp hz' with rfl | hz'
          · rw [← hz.2]
            exact hP _ _ _ _ _ _ hd hl
          · exact hall z hz'

theorem load_preset_list_generators_forall {pgen : List GenRecord} (P : List SFGen → Prop)
    (hP : ∀ (gen_idx n : Nat) (ld ld' : GenLoaderVars) (level' : Nat) (zgen' : List SFGen),
      ld.duplicate_gen = none →
      load_zone_loop Gen_Instrument valid_preset_genid pgen gen_idx n ld 0 [] =
        some (ld', level', zgen') →
      P zgen') :
    ∀ (presets : List SFPreset) (num_presets : Nat) {ld ld' : GenLoaderVars}
      {presets' : List SFPreset},
      ld.duplicate_gen = none → (∀ p ∈ presets, ∀ z ∈ p.zone, z.gen = []) →
      load_preset_list_generators pgen ld presets num_presets = some (ld', presets') →
      ∀ p ∈ presets', ∀ z ∈ p.zone, P z.gen := by
  have hnil : P [] := hP 0 0 (GenLoaderVars.init 0) (GenLoaderVars.init 0) 0 [] rfl rfl
  intro presets
  induction presets with
  | nil =>
    intro n ld ld' presets' _ _ h
    simp only [load_preset_list_generators, Option.some.injEq, Prod.mk.injEq] at h
    rw [← h.2]
    intro p hp; cases hp
  | cons preset rest ih =>
    intro n ld ld' presets' hd hall h
    cases n with
    | zero =>
      simp only [load_preset_list_generators, Option.some.injEq, Prod.mk.injEq] at h
      rw [← h.2]
      intro p hp z hz
      rw [hall p hp z hz]; exact hnil
    | succ n =>
      unfold load_preset_list_generators at h
      cases hz : load_zone_list_generators Gen_Instrument valid_preset_genid pgen ld
          preset.zone with
      | none => rw [hz] at h; cases h
      | some res =>
        obtain ⟨ld1, zones1⟩ := res
        rw [hz] at h
        simp only at h
        cases hr : load_preset_list_generators pgen ld1 rest n with
        | none => rw [hr] at h; cases h
        | some res2 =>
          obtain ⟨ld2, presets2⟩ := res2
          rw [hr] at h
          simp only [Option.some.injEq, Prod.mk.injEq] at h
          obtain ⟨hd1, hzs⟩ := load_zone_list_generators_forall P hP preset.zone hd
            (hall preset (List.mem_cons_self _ _)) hz
          have hrest := ih n hd1 (fun p hp => hall p (List.mem_cons_of_mem _ hp)) hr
          rw [← h.2]
          intro p hp
          rcases List.mem_cons.mp hp with rfl | hp
          · exact hzs
          · exact hrest p hp

theorem load_inst_list_generators_forall {igen : List GenRecord} (P : List SFGen → Prop)
    (hP : ∀ (gen_idx n : Nat) (ld ld' : GenLoaderVars) (level' : Nat) (zgen' : List SFGen),
      ld.duplicate_gen = none →
      load_zone_loop Gen_SampleId valid_inst_genid igen gen_idx n ld 0 [] =
        some (ld', level', zgen') →
      P zgen') :
    ∀ (insts : List SFInst) (num_insts : Nat) {ld ld' : GenLoaderVars}
      {insts' : List SFInst},
      ld.duplicate_gen = none → (∀ p ∈ insts, ∀ z ∈ p.zone, z.gen = []) →
      load_inst_list_generators igen ld insts num_insts = some (ld', insts') →
      ∀ p ∈ insts', ∀ z ∈ p.zone, P z.gen := by
  have hnil : P [] := hP 0 0 (GenLoaderVars.init 0) (GenLoaderVars.init 0) 0 [] rfl rfl
  intro insts
  induction insts with
  | nil =>
    intro n ld ld' insts' _ _ h
    simp only [load_inst_list_generators, Option.some.injEq, Prod.mk.injEq] at h
    rw [← h.2]
    intro p hp; cases hp
  | cons inst rest ih =>
    intro n ld ld' insts' hd hall h
    cases n with
    | zero =>
      simp only [load_inst_list_generators, Option.some.injEq, Prod.mk.injEq] at h
      rw [← h.2]
      intro p hp z hz
      rw [hall p hp z hz]; exact hnil
    | succ n =>
      unfold load_inst_list_generators at h
      cases hz : load_zone_list_generators Gen_SampleId valid_inst_genid igen ld
          inst.zone with
      | none => rw [hz] at h; cases h
      | some res =>
        obtain ⟨ld1, zones1⟩ := res
        rw [hz] at h
        simp only at h
        cases hr : load_inst_list_generators igen ld1 rest n with
        | none => rw [hr] at h; cases h
        | some res2 =>
          obtain ⟨ld2, insts2⟩ := res2
          rw [hr] at h
          simp only [Option.some.injEq, Prod.mk.injEq] at h
          obtain ⟨hd1, hzs⟩ := load_zone_list_generators_forall P hP inst.zone hd
            (hall inst (List.mem_cons_self _ _)) hz
          have hrest := ih n hd1 (fun p hp => hall p (List.mem_cons_of_mem _ hp)) hr
          rw [← h.2]
          intro p hp
          rcases List.mem_cons.mp hp with rfl | hp
          · exact hzs
          · exact hrest p hp

/-- Zone-loop properties carry over to `load_preset_generators`. -/
theorem load_preset_generators_forall {pgen : List GenRecord} (P : List SFGen → Prop)
    (hP : ∀ (gen_idx n : Nat) (ld ld' : GenLoaderVars) (level' : Nat) (zgen' : List SFGen),
      ld.duplicate_gen = none →
      load_zone_loop Gen_Instrument valid_preset_genid pgen gen_idx n ld 0 [] =
        some (ld', level', zgen') →
      P zgen')
    {sf sf' : SFData} {pos num_presets : Nat}
    (hall : ∀ p ∈ sf.preset, ∀ z ∈ p.zone, z.gen = [])
    (h : load_preset_generators sf pgen pos num_presets = some sf') :
    ∀ p ∈ sf'.preset, ∀ z ∈ p.zone, P z.gen := by
  unfold load_preset_generators at h
  cases hr : load_preset_list_generators pgen (GenLoaderVars.init pos) sf.preset
      num_presets with
  | none => rw [hr] at h; cases h
  | some res =>
    obtain ⟨ld1, presets1⟩ := res
    rw [hr] at h
    simp only [Option.some.injEq] at h
    rw [← h]
    exact load_preset_list_generators_forall P hP sf.preset num_presets rfl hall hr

/-- Zone-loop properties carry over to `load_inst_generators`. -/
theorem load_inst_generators_forall {igen : List GenRecord} (P : List SFGen → Prop)
    (hP : ∀ (gen_idx n : Nat) (ld ld' : GenLoaderVars) (level' : Nat) (zgen' : List SFGen),
      ld.duplicate_gen = none →
      load_zone_loop Gen_SampleId valid_inst_genid igen gen_idx n ld 0 [] =
        some (ld', level', zgen') →
      P zgen')
    {sf sf' : SFData} {pos num_insts : Nat}
    (hall : ∀ p ∈ sf.inst, ∀ z ∈ p.zone, z.gen = [])
    (h : load_inst_generators sf igen pos num_insts = some sf') :
    ∀ p ∈ sf'.inst, ∀ z ∈ p.zone, P z.gen := by
  unfold load_inst_generators at h
  cases hr : load_inst_list_generators igen (GenLoaderVars.init pos) sf.inst num_insts with
  | none => rw [hr] at h; cases h
  | some res =>
    obtain ⟨ld1, insts1⟩ := res
    rw [hr] at h
    simp only [Option.some.injEq] at h
    rw [← h]
    exact load_inst_list_generators_forall P hP sf.inst num_insts rfl hall hr

/-! ## Generator loader: duplicate replacement -/

theorem find_gen_by_id_none {genid : Nat} :
    ∀ {l : List SFGen}, find_gen_by_id genid l = none ↔ genid ∉ gen_ids l := by
  intro l
  induction l with
  | nil => simp [find_gen_by_id, gen_ids]
  | cons g p ih =>
    unfold find_gen_by_id
    by_cases hg : g.id = genid
    · simp [hg, gen_ids]
    · have hg' : ¬ genid = g.id := fun e => hg e.symm
      simp only [gen_ids] at ih
      simp [hg, hg', gen_ids, ih]

theorem stored_amount_cons_ne {genid : Nat} {g : SFGen} (p : List SFGen) (h : g.id ≠ genid) :
    stored_amount genid (g :: p) = stored_amount genid p := by
  simp [stored_amount, List.find?_cons, h]

theorem stored_amount_cons_eq {genid : Nat} {g : SFGen} (p : List SFGen) (h : g.id = genid) :
    stored_amount genid (g :: p) = some g.amount := by
  simp [stored_amount, List.find?_cons, h]

/-- After the overwrite through the pointer that `find_gen_by_id` returned,
the amount stored for the id is the new amount. -/
theorem stored_amount_set_same {genid : Nat} (v : SFGenAmount) :
    ∀ {l : List SFGen} {k : Nat}, find_gen_by_id genid l = some k →
      stored_amount genid (set_gen_amount v k l) = some v := by
  intro l
  induction l with
  | nil => intro k h; simp [find_gen_by_id] at h
  | cons g p ih =>
    intro k h
    unfold find_gen_by_id at h
    by_cases hg : g.id = genid
    · rw [if_pos hg] at h
      cases h
      simp only [set_gen_amount]
      exact stored_amount_cons_eq (g := { g with amount := v }) p hg
    · rw [if_neg hg] at h
      cases hf : find_gen_by_id genid p with
      | none => rw [hf] at h; cases h
      | some j =>
        rw [hf] at h
        simp only [Option.map_some', Option.some.injEq] at h
        subst h
        simp only [set_gen_amount]
        rw [stored_amount_cons_ne _ hg]
        exact ih hf

/-- The overwrite for one id leaves the amounts stored for the other ids. -/
theorem stored_amount_set_other {genid other : Nat} (v : SFGenAmount) (hne : genid ≠ other) :
    ∀ {l : List SFGen} {k : Nat}, find_gen_by_id genid l = some k →
      stored_amount other (set_gen_amount v k l) = stored_amount other l := by
  intro l
  induction l with
  | nil => intro k h; simp [find_gen_by_id] at h
  | cons g p ih =>
    intro k h
    unfold find_gen_by_id at h
    by_cases hg : g.id = genid
    · rw [if_pos hg] at h
      cases h
      simp only [set_gen_amount]
      have ho : g.id ≠ other := fun e => hne (hg.symm.trans e)
      rw [stored_amount_cons_ne (g := { g with amount := v }) p ho, stored_amount_cons_ne p ho]
    · rw [if_neg hg] at h
      cases hf : find_gen_by_id genid p with
      | none => rw [hf] at h; cases h
      | some j =>
        rw [hf] at h
        simp only [Option.map_some', Option.some.injEq] at h
        subst h
        simp only [set_gen_amount]
        by_cases ho : g.id = other
        · rw [stored_amount_cons_eq _ ho, stored_amount_cons_eq _ ho]
        · rw [stored_amount_cons_ne _ ho, stored_amount_cons_ne _ ho]
          exact ih hf

theorem stored_amount_append_some {genid : Nat} {a : SFGenAmount} (tl : List SFGen) :
    ∀ {l : List SFGen}, stored_amount genid l = some a →
      stored_amount genid (l ++ tl) = some a := by
  intro l
  induction l with
  | nil => intro h; simp [stored_amount] at h
  | cons g p ih =>
    intro h
    by_cases hg : g.id = genid
    · rw [stored_amount_cons_eq _ hg] at h
      rw [List.cons_append, stored_amount_cons_eq _ hg, h]
    · rw [stored_amount_cons_ne _ hg] at h
      rw [List.cons_append, stored_amount_cons_ne _ hg]
      exact ih h

theorem stored_amount_append_new {genid : Nat} (v : SFGenAmount) :
    ∀ {l : List SFGen}, genid ∉ gen_ids l →
      stored_amount genid (l ++ [{ id := genid, amount := v }]) = some v := by
  intro l
  induction l with
  | nil => intro _; simp [stored_amount]
  | cons g p ih =>
    intro h
    have hg : g.id ≠ genid := fun e => h (by simp [gen_ids, e])
    rw [List.cons_append, stored_amount_cons_ne _ hg]
    exact ih (fun hm => h (by simp only [gen_ids, List.map_cons, List.mem_cons] at hm ⊢
                              exact Or.inr hm))

/-- What `store_gen` leaves as the amount of an id that had one, when the
pending duplicate (if any) is a generator of another id. -/
theorem store_gen_keeps_other {ld : GenLoaderVars} {genid other : Nat} {v a : SFGenAmount}
    {zgen : List SFGen} (hne : genid ≠ other)
    (hd : ld.duplicate_gen = none ∨ ld.duplicate_gen = find_gen_by_id genid zgen)
    (ha : stored_amount other zgen = some a) :
    stored_amount other (store_gen ld genid v zgen).2 = some a := by
  unfold store_gen
  cases h : ld.duplicate_gen with
  | none => exact stored_amount_append_some _ ha
  | some k =>
    rcases hd with hd | hd
    · rw [hd] at h; cases h
    · simp only
      rw [stored_amount_set_other v hne (hd ▸ h), ha]

/-- An iteration that reads a record of another id leaves the amount stored
for an id. -/
theorem load_gen_record_keeps_other {terminal : Nat} {valid : Nat → Bool}
    {chunk : List GenRecord} {gen_idx : Nat} {ld ld' : GenLoaderVars} {level level' : Nat}
    {zgen zgen' : List SFGen} {g : Nat} {a : SFGenAmount}
    (hd : ld.duplicate_gen = none) (ha : stored_amount g zgen = some a)
    (hr : ∀ r, chunk.get? (read_pos gen_idx ld) = some r → r.genid ≠ g)
    (h : load_gen_record terminal valid chunk gen_idx ld level zgen = some (ld', level', zgen')) :
    stored_amount g zgen' = some a := by
  rcases load_gen_record_cases terminal valid chunk gen_idx ld level zgen with
    ⟨_, hn⟩ | ⟨r, hget, hc⟩
  · rw [hn] at h; cases h
  · have hne := hr r hget
    rcases hc with ⟨c1, e⟩ | ⟨c1, c2, e⟩ | ⟨c1, c2, c3, e⟩ | ⟨c1, c2, c3, e⟩
    all_goals
      rw [e] at h
      simp only [Option.some.injEq, Prod.mk.injEq] at h
      obtain ⟨-, -, h3⟩ := h
      subst h3
    · exact store_gen_keeps_other hne (Or.inl hd) ha
    · exact store_gen_keeps_other hne (Or.inl hd) ha
    · exact store_gen_keeps_other hne (Or.inr rfl) ha
    · exact ha

/-- Position and `gen != NULL` after an iteration that started with
`gen != NULL`: the position advances by one record. -/
theorem load_gen_record_pos {terminal : Nat} {valid : Nat → Bool}
    {chunk : List GenRecord} {gen_idx : Nat} {ld ld' : GenLoaderVars} {level level' : Nat}
    {zgen zgen' : List SFGen} (hs : ld.gen_set = true)
    (h : load_gen_record terminal valid chunk gen_idx ld level zgen = some (ld', level', zgen')) :
    ld'.gen_set = true ∧ ld'.pos = ld.pos + 1 := by
  have hp : read_pos gen_idx ld = ld.pos := by simp [read_pos, hs]
  rcases load_gen_record_cases terminal valid chunk gen_idx ld level zgen with
    ⟨_, hn⟩ | ⟨r, hget, hc⟩
  · rw [hn] at h; cases h
  · rcases hc with ⟨c1, e⟩ | ⟨c1, c2, e⟩ | ⟨c1, c2, c3, e⟩ | ⟨c1, c2, c3, e⟩
    all_goals
      rw [e] at h
      simp only [Option.some.injEq, Prod.mk.injEq] at h
      obtain ⟨h1, -, -⟩ := h
      subst h1
    · have := store_gen_pos { ld with pos := read_pos gen_idx ld + 1 } r.genid
        (.range r.b0 r.b1) zgen
      exact ⟨this.2, by rw [this.1, hp]⟩
    · have := store_gen_pos { ld with pos := read_pos gen_idx ld + 1 } r.genid
        (.uword (read_uword r.b0 r.b1)) zgen
      exact ⟨this.2, by rw [this.1, hp]⟩
    · have := store_gen_pos ⟨read_pos gen_idx ld + 1, ld.gen_set, find_gen_by_id r.genid zgen⟩
        r.genid (.sword (read_sword r.b0 r.b1)) zgen
      exact ⟨this.2, by rw [this.1, hp]⟩
    · exact ⟨hs, by simp [hp]⟩

/-- Records of other ids do not change the amount stored for an id, however
many of them the zone loop reads. -/
theorem load_zone_loop_keeps_other {terminal : Nat} {valid : Nat → Bool}
    {chunk : List GenRecord} {gen_idx : Nat} {g : Nat} {a : SFGenAmount} :
    ∀ (n : Nat) {ld ld' : GenLoaderVars} {level level' : Nat} {zgen zgen' : List SFGen},
      ld.duplicate_gen = none → ld.gen_set = true → stored_amount g zgen = some a →
      (∀ i, i < n → ∀ r, chunk.get? (ld.pos + i) = some r → r.genid ≠ g) →
      load_zone_loop terminal valid chunk gen_idx n ld level zgen = some (ld', level', zgen') →
      stored_amount g zgen' = some a := by
  intro n
  induction n with
  | zero =>
    intro ld ld' level level' zgen zgen' _ _ ha _ h
    simp only [load_zone_loop, Option.some.injEq, Prod.mk.injEq] at h
    rw [← h.2.2]; exact ha
  | succ n ih =>
    intro ld ld' level level' zgen zgen' hd hs ha hr h
    unfold load_zone_loop at h
    cases hst : load_gen_record terminal valid chunk gen_idx ld level zgen with
    | none => rw [hst] at h; cases h
    | some res =>
      obtain ⟨ld1, level1, zgen1⟩ := res
      rw [hst] at h
      have hp : read_pos gen_idx ld = ld.pos := by simp [read_pos, hs]
      have ha1 : stored_amount g zgen1 = some a :=
        load_gen_record_keeps_other hd ha
          (fun r hget => hr 0 (by omega) r (by rw [hp] at hget; simpa using hget)) hst
      obtain ⟨hs1, hp1⟩ := load_gen_record_pos hs hst
      refine ih (load_gen_record_dup hd hst) hs1 ha1 ?_ h
      intro i hi r hget
      refine hr (i + 1) (by omega) r ?_
      rw [hp1] at hget
      rw [← hget]; congr 1; omega

/-! ## Generator loader: the claims on the ordering state machine -/

/-- C6 (what the code does): the range rule does `level++`, so a VelRange
record read at level 0 leaves the level at 1, not 2, and a second VelRange
record is accepted by the range rule again: for the zone records
[VelRange(0,127), VelRange(10,20)] both `load_preset_generators` and
`load_inst_generators` keep two VelRange entries. -/
theorem velrange_accepted_twice :
    (∀ (terminal : Nat) (valid : Nat → Bool) (chunk : List GenRecord) (gen_idx : Nat)
        (ld : GenLoaderVars) (zgen : List SFGen) (r : GenRecord),
        chunk.get? (read_pos gen_idx ld) = some r → r.genid = Gen_VelRange →
        ∃ ld' zgen',
          load_gen_record terminal valid chunk gen_idx ld 0 zgen = some (ld', 1, zgen')) ∧
    load_preset_generators
        ⟨[⟨"p", 0, 0, 0, 1, [⟨[], [], 0, 2, 0, 0, none⟩]⟩], [], []⟩
        [⟨Gen_VelRange, 0, 127⟩, ⟨Gen_VelRange, 10, 20⟩] 0 1 =
      some ⟨[⟨"p", 0, 0, 0, 1,
        [⟨[⟨Gen_VelRange, .range 0 127⟩, ⟨Gen_VelRange, .range 10 20⟩], [], 0, 2, 0, 0, none⟩]⟩],
        [], []⟩ ∧
    load_inst_generators
        ⟨[], [⟨"i", 0, 0, 1, [⟨[], [], 0, 2, 0, 0, none⟩]⟩], []⟩
        [⟨Gen_VelRange, 0, 127⟩, ⟨Gen_VelRange, 10, 20⟩] 0 1 =
      some ⟨[], [⟨"i", 0, 0, 1,
        [⟨[⟨Gen_VelRange, .range 0 127⟩, ⟨Gen_VelRange, .range 10 20⟩], [], 0, 2, 0, 0, none⟩]⟩],
        []⟩ := by
  refine ⟨?_, by decide, by decide⟩
  intro terminal valid chunk gen_idx ld zgen r hget hid
  rcases load_gen_record_cases terminal valid chunk gen_idx ld 0 zgen with
    ⟨hn, _⟩ | ⟨r', hget', hc⟩
  · rw [hn] at hget; cases hget
  · rw [hget] at hget'
    cases hget'
    rcases hc with ⟨_, e⟩ | ⟨c1, _⟩ | ⟨c1, _⟩ | ⟨c1, _⟩
    · exact ⟨_, _, e⟩
    · exact absurd (Or.inr ⟨by omega, hid⟩) c1
    · exact absurd (Or.inr ⟨by omega, hid⟩) c1
    · exact absurd (Or.inr ⟨by omega, hid⟩) c1

/-- C7 fails as stated: in the second zone of this preset the KeyRange record
is the second record of its zone (after a record with the unused id 14, which
is skipped), and `load_preset_generators` appends it to the zone's list. -/
theorem keyrange_after_skipped_record_kept :
    load_preset_generators
        ⟨[⟨"p", 0, 0, 0, 2, [⟨[], [], 0, 1, 0, 0, none⟩, ⟨[], [], 1, 2, 0, 0, none⟩]⟩], [], []⟩
        [⟨Gen_Pan, 0, 0⟩, ⟨Gen_Unused1, 0, 0⟩, ⟨Gen_KeyRange, 36, 72⟩] 0 1 =
      some ⟨[⟨"p", 0, 0, 0, 2,
        [⟨[⟨Gen_Pan, .sword 0⟩], [], 0, 1, 0, 0, none⟩,
         ⟨[⟨Gen_KeyRange, .range 36 72⟩], [], 1, 2, 0, 0, none⟩]⟩], [], []⟩ := by
  decide

/-- The levels the amended C7 leaves out: a KeyRange record read at level 1
falls through to the valid-id rule, which overwrites the amount of the
KeyRange entry with the record's two bytes read as a signed word
(1 + 256 * 2 = 513). -/
theorem keyrange_at_level_1_overwrites :
    load_preset_generators
        ⟨[⟨"p", 0, 0, 0, 1, [⟨[], [], 0, 2, 0, 0, none⟩]⟩], [], []⟩
        [⟨Gen_KeyRange, 36, 72⟩, ⟨Gen_KeyRange, 1, 2⟩] 0 1 =
      some ⟨[⟨"p", 0, 0, 0, 1,
        [⟨[⟨Gen_KeyRange, .sword 513⟩], [], 0, 2, 0, 0, none⟩]⟩], [], []⟩ := by
  decide

/-- C7 (as amended): in both loaders a KeyRange record that is read while the
zone's level is 0, that is before any record of the zone has been accepted and
whatever number of records has been skipped, is accepted by the range rule (it
is appended with its two range bytes and the level becomes 1); a KeyRange
record that is read at level 3, after the terminal generator, is skipped and
changes neither the level nor the list. -/
theorem keyrange_level_gate (terminal : Nat) (valid : Nat → Bool) (chunk : List GenRecord)
    (gen_idx : Nat) (ld : GenLoaderVars) (zgen : List SFGen) (r : GenRecord)
    (hd : ld.duplicate_gen = none) (hget : chunk.get? (read_pos gen_idx ld) = some r)
    (hid : r.genid = Gen_KeyRange) :
    load_gen_record terminal valid chunk gen_idx ld 0 zgen =
      some ({ pos := read_pos gen_idx ld + 1, gen_set := true, duplicate_gen := none }, 1,
            zgen ++ [{ id := Gen_KeyRange, amount := .range r.b0 r.b1 }]) ∧
    load_gen_record terminal valid chunk gen_idx ld 3 zgen =
      some ({ ld with pos := read_pos gen_idx ld + 1 }, 3, zgen) := by
  constructor
  · rcases load_gen_record_cases terminal valid chunk gen_idx ld 0 zgen with
      ⟨hn, _⟩ | ⟨r', hget', hc⟩
    · rw [hn] at hget; cases hget
    · rw [hget] at hget'
      cases hget'
      rcases hc with ⟨_, e⟩ | ⟨c1, _⟩ | ⟨c1, _⟩ | ⟨c1, _⟩
      · rw [e]
        simp [store_gen, hd, hid]
      · exact absurd (Or.inl ⟨rfl, hid⟩) c1
      · exact absurd (Or.inl ⟨rfl, hid⟩) c1
      · exact absurd (Or.inl ⟨rfl, hid⟩) c1
  · rcases load_gen_record_cases terminal valid chunk gen_idx ld 3 zgen with
      ⟨hn, _⟩ | ⟨r', hget', hc⟩
    · rw [hn] at hget; cases hget
    · rcases hc with ⟨c, _⟩ | ⟨_, c, _⟩ | ⟨_, _, c, _⟩ | ⟨_, _, _, e⟩
      · omega
      · omega
      · omega
      · exact e

/-- Instance of the amended C7 in the preset loader: the record at the read
position is KeyRange(36, 72), the list holds nothing yet. -/
theorem keyrange_level_gate_witness :
    load_gen_record Gen_Instrument valid_preset_genid
        [⟨Gen_Unused1, 0, 0⟩, ⟨Gen_KeyRange, 36, 72⟩] 0 ⟨1, true, none⟩ 0 [] =
      some (⟨2, true, none⟩, 1, [⟨Gen_KeyRange, .range 36 72⟩]) ∧
    load_gen_record Gen_Instrument valid_preset_genid
        [⟨Gen_Unused1, 0, 0⟩, ⟨Gen_KeyRange, 36, 72⟩] 0 ⟨1, true, none⟩ 3 [] =
      some (⟨2, true, none⟩, 3, []) :=
  keyrange_level_gate Gen_Instrument valid_preset_genid
    [⟨Gen_Unused1, 0, 0⟩, ⟨Gen_KeyRange, 36, 72⟩] 0 ⟨1, true, none⟩ [] ⟨Gen_KeyRange, 36, 72⟩
    rfl rfl rfl

/-- At level 3, with `gen != NULL` and `n` more records in the file, the zone
loop reads the `n` records and stores none of them. -/
theorem load_zone_loop_level3_skip (terminal : Nat) (valid : Nat → Bool)
    (chunk : List GenRecord) (gen_idx : Nat) :
    ∀ (n : Nat) (ld : GenLoaderVars) (zgen : List SFGen),
      ld.gen_set = true → ld.pos + n ≤ chunk.length →
      load_zone_loop terminal valid chunk gen_idx n ld 3 zgen =
        some ({ ld with pos := ld.pos + n }, 3, zgen) := by
  intro n
  induction n with
  | zero => intro ld zgen _ _; rfl
  | succ n ih =>
    intro ld zgen hs hlen
    have hp : read_pos gen_idx ld = ld.pos := by simp [read_pos, hs]
    unfold load_zone_loop
    rcases load_gen_record_cases terminal valid chunk gen_idx ld 3 zgen with
      ⟨hn, _⟩ | ⟨r, _, hc⟩
    · rw [hp, List.get?_eq_none] at hn
      omega
    · rcases hc with ⟨c, _⟩ | ⟨_, c, _⟩ | ⟨_, _, c, _⟩ | ⟨_, _, _, e⟩
      · omega
      · omega
      · omega
      · rw [e, hp]
        simp only
        rw [ih ⟨ld.pos + 1, ld.gen_set, ld.duplicate_gen⟩ zgen hs (by simp only; omega)]
        simp only [Option.some.injEq, Prod.mk.injEq, and_true]
        congr 1
        omega

/-- C8: the terminal generator ends the zone. In `load_preset_generators`
(resp. `load_inst_generators`) an Instrument (resp. SampleID) record read
below level 3 is appended and sets the level to 3; at level 3 every further
record of the zone is read and skipped, leaving level and list as they are
(and with `n` more records in the file the loop does get through `n`
iterations); so in every
zone of the result (the zones' lists being empty on entry, as the zone loader
leaves them) the Instrument (resp. SampleID) id occurs at most once, and when
it occurs it is the last element of the list. -/
theorem terminal_generator_is_last :
    (∀ (sf sf' : SFData) (pgen : List GenRecord) (pos num_presets : Nat),
        (∀ p ∈ sf.preset, ∀ z ∈ p.zone, z.gen = []) →
        load_preset_generators sf pgen pos num_presets = some sf' →
        ∀ p ∈ sf'.preset, ∀ z ∈ p.zone,
          (gen_ids z.gen).count Gen_Instrument ≤ 1 ∧
          (Gen_Instrument ∈ gen_ids z.gen →
            (gen_ids z.gen).getLast? = some Gen_Instrument)) ∧
    (∀ (sf sf' : SFData) (igen : List GenRecord) (pos num_insts : Nat),
        (∀ p ∈ sf.inst, ∀ z ∈ p.zone, z.gen = []) →
        load_inst_generators sf igen pos num_insts = some sf' →
        ∀ p ∈ sf'.inst, ∀ z ∈ p.zone,
          (gen_ids z.gen).count Gen_SampleId ≤ 1 ∧
          (Gen_SampleId ∈ gen_ids z.gen →
            (gen_ids z.gen).getLast? = some Gen_SampleId)) ∧
    (∀ (terminal : Nat) (valid : Nat → Bool) (chunk : List GenRecord) (gen_idx : Nat)
        (ld : GenLoaderVars) (level : Nat) (zgen : List SFGen) (r : GenRecord),
        terminal = Gen_Instrument ∨ terminal = Gen_SampleId →
        ld.duplicate_gen = none → chunk.get? (read_pos gen_idx ld) = some r →
        r.genid = terminal → level < 3 →
        load_gen_record terminal valid chunk gen_idx ld level zgen =
          some ({ pos := read_pos gen_idx ld + 1, gen_set := true, duplicate_gen := none }, 3,
                zgen ++ [{ id := terminal, amount := .uword (read_uword r.b0 r.b1) }])) ∧
    (∀ (terminal : Nat) (valid : Nat → Bool) (chunk : List GenRecord) (gen_idx n : Nat)
        (ld ld' : GenLoaderVars) (level' : Nat) (zgen zgen' : List SFGen),
        load_zone_loop terminal valid chunk gen_idx n ld 3 zgen = some (ld', level', zgen') →
        level' = 3 ∧ zgen' = zgen) ∧
    (∀ (terminal : Nat) (valid : Nat → Bool) (chunk : List GenRecord) (gen_idx n : Nat)
        (ld : GenLoaderVars) (zgen : List SFGen),
        ld.gen_set = true → ld.pos + n ≤ chunk.length →
        load_zone_loop terminal valid chunk gen_idx n ld 3 zgen =
          some ({ ld with pos := ld.pos + n }, 3, zgen)) := by
  refine ⟨?_, ?_, ?_, ?_, ?_⟩
  · intro sf sf' pgen pos num_presets hall h
    refine load_preset_generators_forall
      (fun zgen => (gen_ids zgen).count Gen_Instrument ≤ 1 ∧
        (Gen_Instrument ∈ gen_ids zgen → (gen_ids zgen).getLast? = some Gen_Instrument))
      ?_ hall h
    intro gen_idx n ld ld' level' zgen' hd hl
    exact terminal_inv_last
      (load_zone_loop_terminal_inv (by decide) (by decide) n hd
        ⟨by omega, fun _ => by simp [gen_ids], fun e => by omega⟩ hl)
  · intro sf sf' igen pos num_insts hall h
    refine load_inst_generators_forall
      (fun zgen => (gen_ids zgen).count Gen_SampleId ≤ 1 ∧
        (Gen_SampleId ∈ gen_ids zgen → (gen_ids zgen).getLast? = some Gen_SampleId))
      ?_ hall h
    intro gen_idx n ld ld' level' zgen' hd hl
    exact terminal_inv_last
      (load_zone_loop_terminal_inv (by decide) (by decide) n hd
        ⟨by omega, fun _ => by simp [gen_ids], fun e => by omega⟩ hl)
  · intro terminal valid chunk gen_idx ld level zgen r ht hd hget hid hlt
    have hk : r.genid ≠ Gen_KeyRange := by
      rw [hid]; rcases ht with e | e <;> rw [e] <;> decide
    have hv : r.genid ≠ Gen_VelRange := by
      rw [hid]; rcases ht with e | e <;> rw [e] <;> decide
    rcases load_gen_record_cases terminal valid chunk gen_idx ld level zgen with
      ⟨hn, _⟩ | ⟨r', hget', hc⟩
    · rw [hn] at hget; cases hget
    · rw [hget] at hget'
      cases hget'
      rcases hc with ⟨c1, _⟩ | ⟨_, _, e⟩ | ⟨_, c2, _⟩ | ⟨_, c2, _⟩
      · rcases c1 with ⟨_, c⟩ | ⟨_, c⟩
        · exact absurd c hk
        · exact absurd c hv
      · rw [e]
        simp [store_gen, hd, hid]
      · exact absurd ⟨hlt, hid⟩ c2
      · exact absurd ⟨hlt, hid⟩ c2
  · intro terminal valid chunk gen_idx n ld ld' level' zgen zgen' h
    exact load_zone_loop_level3 n h
  · intro terminal valid chunk gen_idx n ld zgen hs hlen
    exact load_zone_loop_level3_skip terminal valid chunk gen_idx n ld zgen hs hlen

/-- Instance of C8: a preset zone with the records
[Pan(1), Instrument(7), Pan(2), KeyRange(0, 127)] keeps [Pan(1), Instrument(7)]. -/
theorem terminal_generator_is_last_witness :
    load_preset_generators
        ⟨[⟨"p", 0, 0, 0, 1, [⟨[], [], 0, 4, 0, 0, none⟩]⟩], [], []⟩
        [⟨Gen_Pan, 1, 0⟩, ⟨Gen_Instrument, 7, 0⟩, ⟨Gen_Pan, 2, 0⟩, ⟨Gen_KeyRange, 0, 127⟩] 0 1 =
      some ⟨[⟨"p", 0, 0, 0, 1,
        [⟨[⟨Gen_Pan, .sword 1⟩, ⟨Gen_Instrument, .uword 7⟩], [], 0, 4, 0, 0, none⟩]⟩], [], []⟩ ∧
    ∀ p ∈ [(⟨"p", 0, 0, 0, 1,
        [⟨[⟨Gen_Pan, .sword 1⟩, ⟨Gen_Instrument, .uword 7⟩], [], 0, 4, 0, 0, none⟩]⟩ : SFPreset)],
      ∀ z ∈ p.zone,
        (gen_ids z.gen).count Gen_Instrument ≤ 1 ∧
        (Gen_Instrument ∈ gen_ids z.gen → (gen_ids z.gen).getLast? = some Gen_Instrument) :=
  ⟨by decide,
   terminal_generator_is_last.1
    ⟨[⟨"p", 0, 0, 0, 1, [⟨[], [], 0, 4, 0, 0, none⟩]⟩], [], []⟩
    ⟨[⟨"p", 0, 0, 0, 1,
        [⟨[⟨Gen_Pan, .sword 1⟩, ⟨Gen_Instrument, .uword 7⟩], [], 0, 4, 0, 0, none⟩]⟩], [], []⟩
    [⟨Gen_Pan, 1, 0⟩, ⟨Gen_Instrument, 7, 0⟩, ⟨Gen_Pan, 2, 0⟩, ⟨Gen_KeyRange, 0, 127⟩] 0 1
    (by decide) (by decide)⟩

/-- C9: duplicate replacement. In both loaders, a record that the valid-id
rule accepts (the range rule and the terminal rule do not apply, the level is
at most 2, the id is valid) is handled on its own: when `find_gen_by_id` finds
a generator of its id in the zone's list, the amount of that generator is
overwritten in place (same length, same ids in the same order); otherwise a
new generator is appended. Either way the amount stored for the id is then the
record's, the level is 2 and `duplicate_gen` is `NULL` again, so no iteration
sees a duplicate found by an earlier one. Records of other ids read later do
not change the amount stored for the id, so the stored amount is that of the
last accepted record of the id. For the records
[KeyRange(36,72), Pan(-500), Pan(+500), Instrument(0)] (the amount bytes of
-500 are 12, 254, those of +500 are 244, 1) the list is
[KeyRange(36,72), Pan(+500), Instrument(0)]. -/
theorem duplicate_generator_replaced :
    (∀ (terminal : Nat) (valid : Nat → Bool) (chunk : List GenRecord) (gen_idx : Nat)
        (ld : GenLoaderVars) (level : Nat) (zgen : List SFGen) (r : GenRecord),
        ld.duplicate_gen = none → chunk.get? (read_pos gen_idx ld) = some r →
        ¬ ((level = 0 ∧ r.genid = Gen_KeyRange) ∨ (level ≤ 1 ∧ r.genid = Gen_VelRange)) →
        ¬ (level < 3 ∧ r.genid = terminal) → level ≤ 2 → valid r.genid = true →
        ∃ zgen',
          load_gen_record terminal valid chunk gen_idx ld level zgen =
            some ({ pos := read_pos gen_idx ld + 1, gen_set := true, duplicate_gen := none },
                  2, zgen') ∧
          (∀ k, find_gen_by_id r.genid zgen = some k →
            zgen' = set_gen_amount (.sword (read_sword r.b0 r.b1)) k zgen ∧
            zgen'.length = zgen.length ∧ gen_ids zgen' = gen_ids zgen) ∧
          (find_gen_by_id r.genid zgen = none →
            zgen' = zgen ++ [{ id := r.genid, amount := .sword (read_sword r.b0 r.b1) }]) ∧
          (find_gen_by_id r.genid zgen = none ↔ r.genid ∉ gen_ids zgen) ∧
          stored_amount r.genid zgen' = some (.sword (read_sword r.b0 r.b1))) ∧
    (∀ (terminal : Nat) (valid : Nat → Bool) (chunk : List GenRecord) (gen_idx n : Nat)
        (ld ld' : GenLoaderVars) (level level' : Nat) (zgen zgen' : List SFGen),
        ld.duplicate_gen = none →
        load_zone_loop terminal valid chunk gen_idx n ld level zgen = some (ld', level', zgen') →
        ld'.duplicate_gen = none) ∧
    (∀ (terminal : Nat) (valid : Nat → Bool) (chunk : List GenRecord) (gen_idx n : Nat)
        (ld ld' : GenLoaderVars) (level level' : Nat) (zgen zgen' : List SFGen)
        (g : Nat) (a : SFGenAmount),
        ld.duplicate_gen = none → ld.gen_set = true → stored_amount g zgen = some a →
        (∀ i, i < n → ∀ r, chunk.get? (ld.pos + i) = some r → r.genid ≠ g) →
        load_zone_loop terminal valid chunk gen_idx n ld level zgen = some (ld', level', zgen') →
        stored_amount g zgen' = some a) ∧
    read_sword 12 254 = -500 ∧ read_sword 244 1 = 500 ∧
    load_preset_generators
        ⟨[⟨"p", 0, 0, 0, 1, [⟨[], [], 0, 4, 0, 0, none⟩]⟩], [], []⟩
        [⟨Gen_KeyRange, 36, 72⟩, ⟨Gen_Pan, 12, 254⟩, ⟨Gen_Pan, 244, 1⟩, ⟨Gen_Instrument, 0, 0⟩]
        0 1 =
      some ⟨[⟨"p", 0, 0, 0, 1,
        [⟨[⟨Gen_KeyRange, .range 36 72⟩, ⟨Gen_Pan, .sword 500⟩, ⟨Gen_Instrument, .uword 0⟩],
          [], 0, 4, 0, 0, none⟩]⟩], [], []⟩ := by
  refine ⟨?_, ?_, ?_, by decide, by decide, by decide⟩
  · intro terminal valid chunk gen_idx ld level zgen r hd hget c1 c2 hl hvalid
    rcases load_gen_record_cases terminal valid chunk gen_idx ld level zgen with
      ⟨hn, _⟩ | ⟨r', hget', hc⟩
    · rw [hn] at hget; cases hget
    · rw [hget] at hget'
      cases hget'
      rcases hc with ⟨c, _⟩ | ⟨_, c, _⟩ | ⟨_, _, _, e⟩ | ⟨_, _, c, _⟩
      · exact absurd c c1
      · exact absurd c c2
      · cases hf : find_gen_by_id r.genid zgen with
        | none =>
          refine ⟨zgen ++ [{ id := r.genid, amount := .sword (read_sword r.b0 r.b1) }],
            ?_, ?_, ?_, ?_, ?_⟩
          · rw [e]; simp [store_gen, hf]
          · intro k hk; cases hk
          · intro _; rfl
          · have hiff := @find_gen_by_id_none r.genid zgen
            rw [hf] at hiff; exact hiff
          · exact stored_amount_append_new _ (find_gen_by_id_none.mp hf)
        | some k =>
          refine ⟨set_gen_amount (.sword (read_sword r.b0 r.b1)) k zgen, ?_, ?_, ?_, ?_, ?_⟩
          · rw [e]; simp [store_gen, hf]
          · intro k' hk
            cases hk
            exact ⟨rfl, set_gen_amount_length _ _ _, set_gen_amount_ids _ _ _⟩
          · intro h; cases h
          · have hiff := @find_gen_by_id_none r.genid zgen
            rw [hf] at hiff; exact hiff
          · exact stored_amount_set_same _ hf
      · exact absurd ⟨hl, hvalid⟩ c
  · intro terminal valid chunk gen_idx n ld ld' level level' zgen zgen' hd h
    exact load_zone_loop_dup n hd h
  · intro terminal valid chunk gen_idx n ld ld' level level' zgen zgen' g a hd hs ha hr h
    exact load_zone_loop_keeps_other n hd hs ha hr h

/-- Instance of C9, first part: in a preset zone that holds
[KeyRange(36,72), Pan(-500)] at level 2, the record Pan(+500) overwrites the
Pan entry. -/
theorem duplicate_generator_replaced_witness :
    ∃ zgen',
      load_gen_record Gen_Instrument valid_preset_genid
          [⟨Gen_KeyRange, 36, 72⟩, ⟨Gen_Pan, 12, 254⟩, ⟨Gen_Pan, 244, 1⟩] 0 ⟨2, true, none⟩ 2
          [⟨Gen_KeyRange, .range 36 72⟩, ⟨Gen_Pan, .sword (-500)⟩] =
        some (⟨3, true, none⟩, 2, zgen') ∧
      stored_amount Gen_Pan zgen' = some (.sword 500) := by
  obtain ⟨zgen', h1, -, -, -, h5⟩ := duplicate_generator_replaced.1 Gen_Instrument
    valid_preset_genid [⟨Gen_KeyRange, 36, 72⟩, ⟨Gen_Pan, 12, 254⟩, ⟨Gen_Pan, 244, 1⟩] 0
    ⟨2, true, none⟩ 2 [⟨Gen_KeyRange, .range 36 72⟩, ⟨Gen_Pan, .sword (-500)⟩] ⟨Gen_Pan, 244, 1⟩
    rfl rfl (by decide) (by decide) (by decide) (by decide)
  exact ⟨zgen', h1, h5⟩

/-! ## Zone fixup: the pointer model against the pointer-free description -/

theorem tag_zones_snd : ∀ (p : Nat) (l : List SFZone), (tag_zones p l).map Prod.snd = l := by
  intro p l
  induction l generalizing p with
  | nil => rfl
  | cons z rest ih => simp [tag_zones, ih]

theorem tag_zones_fst_ge : ∀ (p : Nat) (l : List SFZone),
    ∀ q ∈ (tag_zones p l).map Prod.fst, p ≤ q := by
  intro p l
  induction l generalizing p with
  | nil => intro q hq; simp [tag_zones] at hq
  | cons z rest ih =>
    intro q hq
    simp only [tag_zones, List.map_cons, List.mem_cons] at hq
    rcases hq with rfl | hq
    · exact le_refl _
    · have := ih (p + 1) q hq; omega

/-- The pointers given to the zones of a list are pairwise different. -/
theorem tag_zones_nodup : ∀ (p : Nat) (l : List SFZone),
    ((tag_zones p l).map Prod.fst).Nodup := by
  intro p l
  induction l generalizing p with
  | nil => simp [tag_zones]
  | cons z rest ih =>
    simp only [tag_zones, List.map_cons, List.nodup_cons]
    refine ⟨fun hm => ?_, ih (p + 1)⟩
    have := tag_zones_fst_ge (p + 1) rest p hm
    omega

theorem zone_list_remove_append {p : Nat} {z : SFZone} (rest : List (Nat × SFZone)) :
    ∀ {kept : List (Nat × SFZone)}, p ∉ kept.map Prod.fst →
      zone_list_remove p (kept ++ (p, z) :: rest) = kept ++ rest := by
  intro kept
  induction kept with
  | nil => intro _; simp [zone_list_remove]
  | cons h t ih =>
    intro hp
    simp only [List.map_cons, List.mem_cons, not_or] at hp
    have hne : ¬ h.1 = p := fun e => hp.1 e.symm
    rw [List.cons_append]
    simp only [zone_list_remove, if_neg hne]
    rw [ih hp.2, List.cons_append]

theorem zone_list_store_append {p : Nat} {z v : SFZone} (rest : List (Nat × SFZone)) :
    ∀ {kept : List (Nat × SFZone)}, p ∉ kept.map Prod.fst →
      zone_list_store p v (kept ++ (p, z) :: rest) = kept ++ (p, v) :: rest := by
  intro kept
  induction kept with
  | nil => intro _; simp [zone_list_store]
  | cons h t ih =>
    intro hp
    simp only [List.map_cons, List.mem_cons, not_or] at hp
    have hne : ¬ h.1 = p := fun e => hp.1 e.symm
    rw [List.cons_append]
    simp only [zone_list_store, if_neg hne]
    rw [ih hp.2, List.cons_append]

theorem first_zone_ref_nonnull_freed (f : Bool) {fz : Nat} :
    ∀ {l : List (Nat × SFZone)}, fz ∉ l.map Prod.fst → first_zone_ref_nonnull f l fz = f := by
  intro l h
  have : l.find? (fun node => decide (node.1 = fz)) = none := by
    rw [List.find?_eq_none]
    intro x hx
    have hne : x.1 ≠ fz := fun e => h (e ▸ List.mem_map_of_mem Prod.fst hx)
    simpa using hne
  simp [first_zone_ref_nonnull, this]

theorem first_zone_ref_nonnull_head (f : Bool) (h : Nat × SFZone) (t : List (Nat × SFZone)) :
    first_zone_ref_nonnull f (h :: t) h.1 = h.2.ref.isSome := by
  simp [first_zone_ref_nonnull, List.find?_cons]

/-- The inner loop after its first iteration, on a list of which `kept` has
been visited and `todo` has not, does what the pointer-free description
says. -/
theorem fixup_zone_loop_plain (terminal nrefs : Nat) (f : Bool) :
    ∀ (todo kept : List (Nat × SFZone)) (fz : Nat) (freed : Bool),
      ((kept ++ todo).map Prod.fst).Nodup →
      (if freed then fz ∉ (kept ++ todo).map Prod.fst
        else kept.head?.map Prod.fst = some fz) →
      (fixup_zone_loop terminal nrefs f todo (kept ++ todo) fz).map (List.map Prod.snd) =
        plain_fixup_loop terminal nrefs f (todo.map Prod.snd) (kept.map Prod.snd) freed := by
  intro todo
  induction todo with
  | nil =>
    intro kept fz freed _ _
    simp [fixup_zone_loop, plain_fixup_loop]
  | cons node rest ih =>
    intro kept fz freed hnd hfz
    obtain ⟨p, z⟩ := node
    -- the pointer of the zone being visited occurs nowhere else
    have hnd' : ((kept ++ rest).map Prod.fst).Nodup := by
      have : ((kept ++ rest).map Prod.fst).Sublist ((kept ++ (p, z) :: rest).map Prod.fst) :=
        List.Sublist.map _ (List.Sublist.append_left (List.sublist_cons_self _ _) _)
      exact List.Nodup.sublist this hnd
    have hpk : p ∉ kept.map Prod.fst := by
      intro hm
      rw [List.map_append, List.nodup_append] at hnd
      exact hnd.2.2 hm (by simp)
    have hpr : p ∉ rest.map Prod.fst := by
      intro hm
      rw [List.map_append, List.nodup_append] at hnd
      have := hnd.2.1
      simp only [List.map_cons, List.nodup_cons] at this
      exact this.1 hm
    have hpfz : p ≠ fz := by
      intro e
      subst e
      cases freed with
      | true => simp at hfz
      | false =>
        simp only [Bool.false_eq_true, if_false] at hfz
        cases kept with
        | nil => simp at hfz
        | cons h t =>
          simp only [List.head?_cons, Option.map_some', Option.some.injEq] at hfz
          exact hpk (by simp [hfz])
    have hfz' : if freed then fz ∉ (kept ++ rest).map Prod.fst
        else kept.head?.map Prod.fst = some fz := by
      cases freed with
      | true =>
        simp only [if_true] at hfz ⊢
        intro hm
        apply hfz
        simp only [List.map_append, List.mem_append, List.map_cons, List.mem_cons] at hm ⊢
        tauto
      | false => simpa using hfz
    simp only [List.map_cons]
    unfold fixup_zone_loop plain_fixup_loop
    by_cases h1 : z.gen.getLast? = none ∧ z.mod = []
    · simp only [if_pos h1]
      rw [zone_list_remove_append rest hpk]
      exact ih kept fz freed hnd' hfz'
    · simp only [if_neg h1]
      by_cases h2 : z.gen.getLast?.map (fun gen => gen.id) = some terminal
      · simp only [if_pos h2]
        by_cases h3 : last_gen_uword z < nrefs
        · simp only [if_pos h3]
          rw [zone_list_store_append rest hpk]
          have e : kept ++ (p, resolve_zone z) :: rest = (kept ++ [(p, resolve_zone z)]) ++ rest := by
            simp
          rw [e]
          have := ih (kept ++ [(p, resolve_zone z)]) fz freed
            (by
              have hperm : ((kept ++ [(p, resolve_zone z)] ++ rest).map Prod.fst) =
                  ((kept ++ (p, z) :: rest).map Prod.fst) := by simp
              rw [hperm]; exact hnd)
            (by
              cases freed with
              | true =>
                simp only [if_true] at hfz ⊢
                intro hm
                apply hfz
                simp only [List.map_append, List.mem_append, List.map_cons, List.mem_cons,
                  List.map_nil, List.not_mem_nil, or_false] at hm ⊢
                tauto
              | false =>
                simp only [Bool.false_eq_true, if_false] at hfz ⊢
                cases kept with
                | nil => simp at hfz
                | cons h t => simpa using hfz)
          rw [this]
          simp
        · simp only [if_neg h3, Option.map_none']
      · simp only [if_neg h2, if_pos hpfz]
        rw [zone_list_remove_append rest hpk]
        have hnn : first_zone_ref_nonnull f (kept ++ rest) fz =
            (if freed then f else (((kept.map Prod.snd).head?).map (fun h => h.ref.isSome)).getD f) := by
          cases freed with
          | true =>
            simp only [if_true] at hfz' ⊢
            exact first_zone_ref_nonnull_freed f hfz'
          | false =>
            simp only [Bool.false_eq_true, if_false] at hfz ⊢
            cases kept with
            | nil => simp at hfz
            | cons h t =>
              simp only [List.head?_cons, Option.map_some', Option.some.injEq] at hfz
              subst hfz
              simp [first_zone_ref_nonnull_head]
        rw [hnn]
        by_cases h4 : (if freed then f else
            (((kept.map Prod.snd).head?).map (fun h => h.ref.isSome)).getD f) = true
        · simp only [if_pos h4]
          have e : (p, z) :: (kept ++ rest) = ((p, z) :: kept) ++ rest := by simp
          rw [e]
          have := ih ((p, z) :: kept) p false
            (by
              simp only [List.cons_append, List.map_cons, List.nodup_cons]
              refine ⟨?_, hnd'⟩
              simp only [List.map_append, List.mem_append]
              tauto)
            (by simp)
          rw [this]
          simp
        · simp only [if_neg h4]
          exact ih kept fz freed hnd' hfz'

/-- For every zone list the pointer model of the inner loop and the
pointer-free description give the same zones. -/
theorem fixup_zone_list_eq_plain (terminal nrefs : Nat) (f : Bool) (zones : List SFZone) :
    fixup_zone_list terminal nrefs f zones = plain_fixup_list terminal nrefs f zones := by
  cases zones with
  | nil => simp [fixup_zone_list, tag_zones, plain_fixup_list]
  | cons z rest =>
    have hnd := tag_zones_nodup 0 (z :: rest)
    simp only [tag_zones, List.map_cons, List.nodup_cons] at hnd
    have hsnd := tag_zones_snd (0 + 1) rest
    simp only [fixup_zone_list, tag_zones]
    unfold fixup_zone_loop plain_fixup_list
    by_cases h1 : z.gen.getLast? = none ∧ z.mod = []
    · simp only [if_pos h1]
      have := fixup_zone_loop_plain terminal nrefs f (tag_zones (0 + 1) rest) [] 0 true
        (by simpa using hnd.2) (by simpa using hnd.1)
      simp only [List.nil_append, List.map_nil, hsnd] at this
      simpa [zone_list_remove] using this
    · simp only [if_neg h1]
      by_cases h2 : z.gen.getLast?.map (fun gen => gen.id) = some terminal
      · simp only [if_pos h2]
        by_cases h3 : last_gen_uword z < nrefs
        · simp only [if_pos h3]
          have := fixup_zone_loop_plain terminal nrefs f (tag_zones (0 + 1) rest)
            [(0, resolve_zone z)] 0 false
            (by simpa using hnd) (by simp)
          simp only [List.map_cons, List.map_nil, hsnd] at this
          simpa [zone_list_store] using this
        · simp only [if_neg h3, Option.map_none']
      · simp only [if_neg h2]
        have := fixup_zone_loop_plain terminal nrefs f (tag_zones (0 + 1) rest)
          [(0, z)] 0 false
          (by simpa using hnd) (by simp)
        simp only [List.map_cons, List.map_nil, hsnd] at this
        simpa using this

/-! ## Zone fixup: at most one zone without reference -/

/-- In the visited part of the list every zone but the head has a reference,
and the head has one too while `first_zone` points to a deleted zone. -/
theorem plain_fixup_loop_refs (terminal nrefs : Nat) (f : Bool) :
    ∀ (todo kept : List SFZone) (freed : Bool) (res : List SFZone),
      (∀ z ∈ kept.tail, z.ref.isSome = true) →
      (freed = true → ∀ z ∈ kept, z.ref.isSome = true) →
      plain_fixup_loop terminal nrefs f todo kept freed = some res →
      ∀ z ∈ res.tail, z.ref.isSome = true := by
  intro todo
  induction todo with
  | nil =>
    intro kept freed res ht _ h
    simp only [plain_fixup_loop, Option.some.injEq] at h
    rw [← h]; exact ht
  | cons z rest ih =>
    intro kept freed res ht hf h
    unfold plain_fixup_loop at h
    by_cases h1 : z.gen.getLast? = none ∧ z.mod = []
    · simp only [if_pos h1] at h
      exact ih kept freed res ht hf h
    · simp only [if_neg h1] at h
      by_cases h2 : z.gen.getLast?.map (fun gen => gen.id) = some terminal
      · simp only [if_pos h2] at h
        by_cases h3 : last_gen_uword z < nrefs
        · simp only [if_pos h3] at h
          refine ih (kept ++ [resolve_zone z]) freed res ?_ ?_ h
          · intro x hx
            cases kept with
            | nil => simp at hx
            | cons k kt =>
              simp only [List.cons_append, List.tail_cons, List.mem_append,
                List.mem_singleton] at hx
              rcases hx with hx | hx
              · exact ht x (by simpa using hx)
              · rw [hx]; rfl
          · intro hfr x hx
            simp only [List.mem_append, List.mem_singleton] at hx
            rcases hx with hx | hx
            · exact hf hfr x hx
            · rw [hx]; rfl
        · simp only [if_neg h3] at h
          cases h
      · simp only [if_neg h2] at h
        by_cases h4 : (if freed then f else
            ((kept.head?).map (fun h => h.ref.isSome)).getD f) = true
        · simp only [if_pos h4] at h
          refine ih (z :: kept) false res ?_ (fun e => by cases e) h
          intro x hx
          simp only [List.tail_cons] at hx
          cases freed with
          | true => exact hf rfl x hx
          | false =>
            simp only [Bool.false_eq_true, if_false] at h4
            cases kept with
            | nil => cases hx
            | cons k kt =>
              simp only [List.head?_cons, Option.map_some', Option.getD_some] at h4
              rcases List.mem_cons.mp hx with rfl | hx
              · exact h4
              · exact ht x (by simpa using hx)
        · simp only [if_neg h4] at h
          exact ih kept freed res ht hf h

theorem fixup_zone_list_refs (terminal nrefs : Nat) (f : Bool) (zones res : List SFZone)
    (h : fixup_zone_list terminal nrefs f zones = some res) :
    ∀ z ∈ res.tail, z.ref.isSome = true := by
  rw [fixup_zone_list_eq_plain] at h
  cases zones with
  | nil =>
    simp only [plain_fixup_list, Option.some.injEq] at h
    rw [← h]; intro z hz; cases hz
  | cons z rest =>
    unfold plain_fixup_list at h
    by_cases h1 : z.gen.getLast? = none ∧ z.mod = []
    · simp only [if_pos h1] at h
      exact plain_fixup_loop_refs terminal nrefs f rest [] true res
        (fun x hx => by cases hx) (fun _ x hx => by cases hx) h
    · simp only [if_neg h1] at h
      by_cases h2 : z.gen.getLast?.map (fun gen => gen.id) = some terminal
      · simp only [if_pos h2] at h
        by_cases h3 : last_gen_uword z < nrefs
        · simp only [if_pos h3] at h
          exact plain_fixup_loop_refs terminal nrefs f rest [resolve_zone z] false res
            (fun x hx => by cases hx) (fun e => by cases e) h
        · simp only [if_neg h3] at h
          cases h
      · simp only [if_neg h2] at h
        exact plain_fixup_loop_refs terminal nrefs f rest [z] false res
          (fun x hx => by cases hx) (fun e => by cases e) h

/-- A list in which every zone but the first has a reference holds at most
one zone without reference, at position 0. -/
theorem one_unreferenced_of_tail {zones : List SFZone}
    (h : ∀ z ∈ zones.tail, z.ref.isSome = true) :
    (zones.filter (fun z => z.ref.isNone)).length ≤ 1 ∧
    (∀ (i : Nat) (z : SFZone), zones.get? i = some z → z.ref = none → i = 0) := by
  cases zones with
  | nil => exact ⟨by simp, fun i z hz => by simp at hz⟩
  | cons a t =>
    simp only [List.tail_cons] at h
    have ht : t.filter (fun z => z.ref.isNone) = [] := by
      rw [List.filter_eq_nil_iff]
      intro x hx
      have := h x hx
      cases hr : x.ref with
      | none => rw [hr] at this; cases this
      | some k => simp
    refine ⟨?_, ?_⟩
    · rw [List.filter_cons]
      split
      · rw [ht]; simp
      · rw [ht]; simp
    · intro i z hz hn
      cases i with
      | zero => rfl
      | succ j =>
        simp only [List.get?_cons_succ] at hz
        have := h z (List.get?_mem hz)
        rw [hn] at this
        cases this

theorem fixup_preset_list_refs (ninst : Nat) (f : Bool) (num_presets : Nat) :
    ∀ (presets res : List SFPreset), presets.length ≤ num_presets →
      fixup_preset_list ninst f num_presets presets = some res →
      ∀ p ∈ res, ∀ z ∈ p.zone.tail, z.ref.isSome = true := by
  intro presets
  induction presets with
  | nil =>
    intro res _ h
    simp only [fixup_preset_list, Option.some.injEq] at h
    rw [← h]; intro p hp; cases hp
  | cons preset rest ih =>
    intro res hlen h
    have hpos : 0 < num_presets := by
      simp only [List.length_cons] at hlen; omega
    unfold fixup_preset_list at h
    simp only [if_pos hpos] at h
    cases hz : fixup_zone_list Gen_Instrument ninst f preset.zone with
    | none => rw [hz] at h; cases h
    | some zones =>
      rw [hz] at h
      simp only at h
      cases hr : fixup_preset_list ninst f num_presets rest with
      | none => rw [hr] at h; cases h
      | some presets' =>
        rw [hr] at h
        simp only [Option.map_some', Option.some.injEq] at h
        rw [← h]
        intro p hp
        rcases List.mem_cons.mp hp with rfl | hp
        · exact fixup_zone_list_refs Gen_Instrument ninst f preset.zone zones hz
        · exact ih presets' (by simp only [List.length_cons] at hlen; omega) hr p hp

theorem fixup_inst_list_refs (nsample : Nat) (f : Bool) :
    ∀ (insts res : List SFInst) (num_insts : Nat), insts.length ≤ num_insts →
      fixup_inst_list nsample f insts num_insts = some res →
      ∀ p ∈ res, ∀ z ∈ p.zone.tail, z.ref.isSome = true := by
  intro insts
  induction insts with
  | nil =>
    intro res n _ h
    simp only [fixup_inst_list, Option.some.injEq] at h
    rw [← h]; intro p hp; cases hp
  | cons inst rest ih =>
    intro res n hlen h
    cases n with
    | zero => simp at hlen
    | succ n =>
      unfold fixup_inst_list at h
      cases hz : fixup_zone_list Gen_SampleId nsample f inst.zone with
      | none => rw [hz] at h; cases h
      | some zones =>
        rw [hz] at h
        simp only at h
        cases hr : fixup_inst_list nsample f rest n with
        | none => rw [hr] at h; cases h
        | some insts' =>
          rw [hr] at h
          simp only [Option.map_some', Option.some.injEq] at h
          rw [← h]
          intro p hp
          rcases List.mem_cons.mp hp with rfl | hp
          · exact fixup_zone_list_refs Gen_SampleId nsample f inst.zone zones hz
          · exact ih insts' n (by simp only [List.length_cons] at hlen; omega) hr p hp

/-- C10: after a successful `fixup_preset_zones` (resp. `fixup_inst_zones`),
called as the loader does with a count that covers the list, every preset
(resp. instrument) has at most one zone without instrument (resp. sample)
reference; such a zone is the first zone of the list; every zone other than
the first has a non-null reference. This holds whatever the read of a deleted
first zone yields. -/
theorem fixup_at_most_one_global :
    (∀ (freed_nonnull : Bool) (sf sf' : SFData) (num_presets : Nat),
        sf.preset.length ≤ num_presets →
        fixup_preset_zones freed_nonnull sf num_presets = some sf' →
        ∀ p ∈ sf'.preset,
          (p.zone.filter (fun z => z.ref.isNone)).length ≤ 1 ∧
          (∀ (i : Nat) (z : SFZone), p.zone.get? i = some z → z.ref = none → i = 0) ∧
          (∀ z ∈ p.zone.tail, z.ref ≠ none)) ∧
    (∀ (freed_nonnull : Bool) (sf sf' : SFData) (num_insts : Nat),
        sf.inst.length ≤ num_insts →
        fixup_inst_zones freed_nonnull sf num_insts = some sf' →
        ∀ p ∈ sf'.inst,
          (p.zone.filter (fun z => z.ref.isNone)).length ≤ 1 ∧
          (∀ (i : Nat) (z : SFZone), p.zone.get? i = some z → z.ref = none → i = 0) ∧
          (∀ z ∈ p.zone.tail, z.ref ≠ none)) := by
  constructor
  · intro f sf sf' num_presets hlen h
    unfold fixup_preset_zones at h
    cases hr : fixup_preset_list sf.inst.length f num_presets sf.preset with
    | none => rw [hr] at h; cases h
    | some presets =>
      rw [hr] at h
      simp only [Option.map_some', Option.some.injEq] at h
      rw [← h]
      intro p hp
      have ht := fixup_preset_list_refs sf.inst.length f num_presets sf.preset presets hlen hr
        p hp
      obtain ⟨c1, c2⟩ := one_unreferenced_of_tail ht
      refine ⟨c1, c2, fun z hz hn => ?_⟩
      have := ht z hz
      rw [hn] at this
      cases this
  · intro f sf sf' num_insts hlen h
    unfold fixup_inst_zones at h
    cases hr : fixup_inst_list sf.sample.length f sf.inst num_insts with
    | none => rw [hr] at h; cases h
    | some insts =>
      rw [hr] at h
      simp only [Option.map_some', Option.some.injEq] at h
      rw [← h]
      intro p hp
      have ht := fixup_inst_list_refs sf.sample.length f sf.inst insts num_insts hlen hr p hp
      obtain ⟨c1, c2⟩ := one_unreferenced_of_tail ht
      refine ⟨c1, c2, fun z hz hn => ?_⟩
      have := ht z hz
      rw [hn] at this
      cases this

/-- Instance of C10: a preset with the zones [Pan + Instrument(0); Pan; Pan]
and one instrument in the file: the first zone without instrument moves to the
front, the second one is discarded. -/
theorem fixup_at_most_one_global_witness :
    fixup_preset_zones false
        ⟨[⟨"p", 0, 0, 0, 3,
            [⟨[⟨Gen_Pan, .sword 1⟩, ⟨Gen_Instrument, .uword 0⟩], [], 0, 2, 0, 0, none⟩,
             ⟨[⟨Gen_Pan, .sword 2⟩], [], 2, 1, 0, 0, none⟩,
             ⟨[⟨Gen_Pan, .sword 3⟩], [], 3, 1, 0, 0, none⟩]⟩],
         [⟨"i", 0, 0, 0, []⟩], []⟩ 1 =
      some ⟨[⟨"p", 0, 0, 0, 3,
            [⟨[⟨Gen_Pan, .sword 2⟩], [], 2, 1, 0, 0, none⟩,
             ⟨[⟨Gen_Pan, .sword 1⟩], [], 0, 2, 0, 0, some 0⟩]⟩],
         [⟨"i", 0, 0, 0, []⟩], []⟩ ∧
    ∀ p ∈ [(⟨"p", 0, 0, 0, 3,
            [⟨[⟨Gen_Pan, .sword 2⟩], [], 2, 1, 0, 0, none⟩,
             ⟨[⟨Gen_Pan, .sword 1⟩], [], 0, 2, 0, 0, some 0⟩]⟩ : SFPreset)],
      (p.zone.filter (fun z => z.ref.isNone)).length ≤ 1 ∧
      (∀ (i : Nat) (z : SFZone), p.zone.get? i = some z → z.ref = none → i = 0) ∧
      (∀ z ∈ p.zone.tail, z.ref ≠ none) :=
  ⟨by decide,
   fixup_at_most_one_global.1 false
    ⟨[⟨"p", 0, 0, 0, 3,
        [⟨[⟨Gen_Pan, .sword 1⟩, ⟨Gen_Instrument, .uword 0⟩], [], 0, 2, 0, 0, none⟩,
         ⟨[⟨Gen_Pan, .sword 2⟩], [], 2, 1, 0, 0, none⟩,
         ⟨[⟨Gen_Pan, .sword 3⟩], [], 3, 1, 0, 0, none⟩]⟩],
     [⟨"i", 0, 0, 0, []⟩], []⟩
    ⟨[⟨"p", 0, 0, 0, 3,
        [⟨[⟨Gen_Pan, .sword 2⟩], [], 2, 1, 0, 0, none⟩,
         ⟨[⟨Gen_Pan, .sword 1⟩], [], 0, 2, 0, 0, some 0⟩]⟩],
     [⟨"i", 0, 0, 0, []⟩], []⟩
    1 (by decide) (by decide)⟩


/-! ## Zone fixup: which zones the result holds -/

theorem zone_empty_not_terminal {terminal : Nat} {z : SFZone} (h : zone_empty z) :
    ¬ zone_terminal terminal z := by
  unfold zone_empty at h
  unfold zone_terminal
  rw [h.1]
  simp

/-- The result of the loop is the visited part, in front of it the zones
without terminal generator that were moved to the front, behind it the zones
with terminal generator, resolved, in their order. -/
theorem plain_fixup_loop_shape (terminal nrefs : Nat) (f : Bool) :
    ∀ (todo kept : List SFZone) (freed : Bool) (res : List SFZone),
      plain_fixup_loop terminal nrefs f todo kept freed = some res →
      ∃ pre : List SFZone,
        (∀ g ∈ pre, g ∈ todo ∧ ¬ zone_empty g ∧ ¬ zone_terminal terminal g) ∧
        res = pre ++ kept ++
          (todo.filter (fun z => decide (zone_terminal terminal z))).map resolve_zone := by
  intro todo
  induction todo with
  | nil =>
    intro kept freed res h
    simp only [plain_fixup_loop, Option.some.injEq] at h
    exact ⟨[], fun g hg => absurd hg (List.not_mem_nil g), by rw [← h]; simp⟩
  | cons z rest ih =>
    intro kept freed res h
    unfold plain_fixup_loop at h
    by_cases h1 : z.gen.getLast? = none ∧ z.mod = []
    · simp only [if_pos h1] at h
      obtain ⟨pre, hpre, hres⟩ := ih kept freed res h
      have hnt : ¬ zone_terminal terminal z := zone_empty_not_terminal h1
      refine ⟨pre, fun g hg => ⟨List.mem_cons_of_mem _ (hpre g hg).1, (hpre g hg).2⟩, ?_⟩
      rw [hres, List.filter_cons_of_neg (by simpa using hnt)]
    · simp only [if_neg h1] at h
      by_cases h2 : z.gen.getLast?.map (fun gen => gen.id) = some terminal
      · simp only [if_pos h2] at h
        by_cases h3 : last_gen_uword z < nrefs
        · simp only [if_pos h3] at h
          obtain ⟨pre, hpre, hres⟩ := ih (kept ++ [resolve_zone z]) freed res h
          refine ⟨pre, fun g hg => ⟨List.mem_cons_of_mem _ (hpre g hg).1, (hpre g hg).2⟩, ?_⟩
          have ht : zone_terminal terminal z := h2
          rw [hres, List.filter_cons_of_pos (by simpa using ht)]
          simp
        · simp only [if_neg h3] at h
          cases h
      · simp only [if_neg h2] at h
        have hnt : ¬ zone_terminal terminal z := h2
        by_cases h4 : (if freed then f else
            ((kept.head?).map (fun h => h.ref.isSome)).getD f) = true
        · simp only [if_pos h4] at h
          obtain ⟨pre, hpre, hres⟩ := ih (z :: kept) false res h
          refine ⟨pre ++ [z], ?_, ?_⟩
          · intro g hg
            rcases List.mem_append.mp hg with hg | hg
            · exact ⟨List.mem_cons_of_mem _ (hpre g hg).1, (hpre g hg).2⟩
            · simp only [List.mem_singleton] at hg
              subst hg
              exact ⟨List.mem_cons_self _ _, h1, hnt⟩
          · rw [hres, List.filter_cons_of_neg (by simpa using hnt)]
            simp
        · simp only [if_neg h4] at h
          obtain ⟨pre, hpre, hres⟩ := ih kept freed res h
          refine ⟨pre, fun g hg => ⟨List.mem_cons_of_mem _ (hpre g hg).1, (hpre g hg).2⟩, ?_⟩
          rw [hres, List.filter_cons_of_neg (by simpa using hnt)]

theorem fixup_zone_list_shape (terminal nrefs : Nat) (f : Bool) (zones res : List SFZone)
    (h : fixup_zone_list terminal nrefs f zones = some res) :
    ∃ pre : List SFZone,
      (∀ g ∈ pre, g ∈ zones ∧ ¬ zone_empty g ∧ ¬ zone_terminal terminal g) ∧
      res = pre ++
        (zones.filter (fun z => decide (zone_terminal terminal z))).map resolve_zone := by
  rw [fixup_zone_list_eq_plain] at h
  cases zones with
  | nil =>
    simp only [plain_fixup_list, Option.some.injEq] at h
    exact ⟨[], fun g hg => absurd hg (List.not_mem_nil g), by rw [← h]; simp⟩
  | cons z rest =>
    unfold plain_fixup_list at h
    by_cases h1 : z.gen.getLast? = none ∧ z.mod = []
    · simp only [if_pos h1] at h
      obtain ⟨pre, hpre, hres⟩ := plain_fixup_loop_shape terminal nrefs f rest [] true res h
      have hnt : ¬ zone_terminal terminal z := zone_empty_not_terminal h1
      refine ⟨pre, fun g hg => ⟨List.mem_cons_of_mem _ (hpre g hg).1, (hpre g hg).2⟩, ?_⟩
      rw [hres, List.filter_cons_of_neg (by simpa using hnt)]
      simp
    · simp only [if_neg h1] at h
      by_cases h2 : z.gen.getLast?.map (fun gen => gen.id) = some terminal
      · simp only [if_pos h2] at h
        by_cases h3 : last_gen_uword z < nrefs
        · simp only [if_pos h3] at h
          obtain ⟨pre, hpre, hres⟩ :=
            plain_fixup_loop_shape terminal nrefs f rest [resolve_zone z] false res h
          refine ⟨pre, fun g hg => ⟨List.mem_cons_of_mem _ (hpre g hg).1, (hpre g hg).2⟩, ?_⟩
          have ht : zone_terminal terminal z := h2
          rw [hres, List.filter_cons_of_pos (by simpa using ht)]
          simp
        · simp only [if_neg h3] at h
          cases h
      · simp only [if_neg h2] at h
        have hnt : ¬ zone_terminal terminal z := h2
        obtain ⟨pre, hpre, hres⟩ := plain_fixup_loop_shape terminal nrefs f rest [z] false res h
        refine ⟨pre ++ [z], ?_, ?_⟩
        · intro g hg
          rcases List.mem_append.mp hg with hg | hg
          · exact ⟨List.mem_cons_of_mem _ (hpre g hg).1, (hpre g hg).2⟩
          · simp only [List.mem_singleton] at hg
            subst hg
            exact ⟨List.mem_cons_self _ _, h1, hnt⟩
        · rw [hres, List.filter_cons_of_neg (by simpa using hnt)]

/-- The loop fails exactly when a zone still to visit has a terminal
generator whose index is not below the length of the list it refers to. -/
theorem plain_fixup_loop_none (terminal nrefs : Nat) (f : Bool) :
    ∀ (todo kept : List SFZone) (freed : Bool),
      plain_fixup_loop terminal nrefs f todo kept freed = none ↔
        ∃ z ∈ todo, zone_terminal terminal z ∧ nrefs ≤ last_gen_uword z := by
  intro todo
  induction todo with
  | nil => intro kept freed; simp [plain_fixup_loop]
  | cons z rest ih =>
    intro kept freed
    unfold plain_fixup_loop
    by_cases h1 : z.gen.getLast? = none ∧ z.mod = []
    · simp only [if_pos h1]
      have hnt : ¬ zone_terminal terminal z := zone_empty_not_terminal h1
      rw [ih]
      constructor
      · rintro ⟨x, hx, hc⟩; exact ⟨x, List.mem_cons_of_mem _ hx, hc⟩
      · rintro ⟨x, hx, hc⟩
        rcases List.mem_cons.mp hx with rfl | hx
        · exact absurd hc.1 hnt
        · exact ⟨x, hx, hc⟩
    · simp only [if_neg h1]
      by_cases h2 : z.gen.getLast?.map (fun gen => gen.id) = some terminal
      · simp only [if_pos h2]
        by_cases h3 : last_gen_uword z < nrefs
        · simp only [if_pos h3]
          rw [ih]
          constructor
          · rintro ⟨x, hx, hc⟩; exact ⟨x, List.mem_cons_of_mem _ hx, hc⟩
          · rintro ⟨x, hx, hc⟩
            rcases List.mem_cons.mp hx with rfl | hx
            · omega
            · exact ⟨x, hx, hc⟩
        · simp only [if_neg h3]
          exact ⟨fun _ => ⟨z, List.mem_cons_self _ _, h2, by omega⟩, fun _ => trivial⟩
      · simp only [if_neg h2]
        have hnt : ¬ zone_terminal terminal z := h2
        have key : ∀ (k : List SFZone) (fr : Bool),
            (plain_fixup_loop terminal nrefs f rest k fr = none ↔
              ∃ x ∈ z :: rest, zone_terminal terminal x ∧ nrefs ≤ last_gen_uword x) := by
          intro k fr
          rw [ih]
          constructor
          · rintro ⟨x, hx, hc⟩; exact ⟨x, List.mem_cons_of_mem _ hx, hc⟩
          · rintro ⟨x, hx, hc⟩
            rcases List.mem_cons.mp hx with rfl | hx
            · exact absurd hc.1 hnt
            · exact ⟨x, hx, hc⟩
        by_cases h4 : (if freed then f else
            ((kept.head?).map (fun h => h.ref.isSome)).getD f) = true
        · simp only [if_pos h4]
          exact key _ _
        · simp only [if_neg h4]
          exact key _ _

theorem fixup_zone_list_none (terminal nrefs : Nat) (f : Bool) (zones : List SFZone) :
    fixup_zone_list terminal nrefs f zones = none ↔
      ∃ z ∈ zones, zone_terminal terminal z ∧ nrefs ≤ last_gen_uword z := by
  rw [fixup_zone_list_eq_plain]
  cases zones with
  | nil => simp [plain_fixup_list]
  | cons z rest =>
    unfold plain_fixup_list
    have key : ¬ zone_terminal terminal z → ∀ (k : List SFZone) (fr : Bool),
        (plain_fixup_loop terminal nrefs f rest k fr = none ↔
          ∃ x ∈ z :: rest, zone_terminal terminal x ∧ nrefs ≤ last_gen_uword x) := by
      intro hnt k fr
      rw [plain_fixup_loop_none]
      constructor
      · rintro ⟨x, hx, hc⟩; exact ⟨x, List.mem_cons_of_mem _ hx, hc⟩
      · rintro ⟨x, hx, hc⟩
        rcases List.mem_cons.mp hx with rfl | hx
        · exact absurd hc.1 hnt
        · exact ⟨x, hx, hc⟩
    by_cases h1 : z.gen.getLast? = none ∧ z.mod = []
    · simp only [if_pos h1]
      exact key (zone_empty_not_terminal h1) _ _
    · simp only [if_neg h1]
      by_cases h2 : z.gen.getLast?.map (fun gen => gen.id) = some terminal
      · simp only [if_pos h2]
        by_cases h3 : last_gen_uword z < nrefs
        · simp only [if_pos h3]
          rw [plain_fixup_loop_none]
          constructor
          · rintro ⟨x, hx, hc⟩; exact ⟨x, List.mem_cons_of_mem _ hx, hc⟩
          · rintro ⟨x, hx, hc⟩
            rcases List.mem_cons.mp hx with rfl | hx
            · omega
            · exact ⟨x, hx, hc⟩
        · simp only [if_neg h3]
          exact ⟨fun _ => ⟨z, List.mem_cons_self _ _, h2, by omega⟩, fun _ => trivial⟩
      · simp only [if_neg h2]
        exact key h2 _ _


/-! ## Zone fixup: from one zone list to the whole function -/

theorem fixup_preset_list_forall (ninst : Nat) (f : Bool) (num_presets : Nat) :
    ∀ (presets res : List SFPreset), presets.length ≤ num_presets →
      fixup_preset_list ninst f num_presets presets = some res →
      List.Forall₂ (fun p p' => ∃ zs,
        fixup_zone_list Gen_Instrument ninst f p.zone = some zs ∧ p' = { p with zone := zs })
        presets res := by
  intro presets
  induction presets with
  | nil =>
    intro res _ h
    simp only [fixup_preset_list, Option.some.injEq] at h
    rw [← h]; exact List.Forall₂.nil
  | cons preset rest ih =>
    intro res hlen h
    have hpos : 0 < num_presets := by
      simp only [List.length_cons] at hlen; omega
    unfold fixup_preset_list at h
    simp only [if_pos hpos] at h
    cases hz : fixup_zone_list Gen_Instrument ninst f preset.zone with
    | none => rw [hz] at h; cases h
    | some zones =>
      rw [hz] at h
      simp only at h
      cases hr : fixup_preset_list ninst f num_presets rest with
      | none => rw [hr] at h; cases h
      | some presets' =>
        rw [hr] at h
        simp only [Option.map_some', Option.some.injEq] at h
        rw [← h]
        exact List.Forall₂.cons ⟨zones, hz, rfl⟩
          (ih presets' (by simp only [List.length_cons] at hlen; omega) hr)

theorem fixup_preset_list_none (ninst : Nat) (f : Bool) (num_presets : Nat) :
    ∀ (presets : List SFPreset), presets.length ≤ num_presets →
      (fixup_preset_list ninst f num_presets presets = none ↔
        ∃ p ∈ presets, fixup_zone_list Gen_Instrument ninst f p.zone = none) := by
  intro presets
  induction presets with
  | nil => intro _; simp [fixup_preset_list]
  | cons preset rest ih =>
    intro hlen
    have hpos : 0 < num_presets := by
      simp only [List.length_cons] at hlen; omega
    have hrest := ih (by simp only [List.length_cons] at hlen; omega)
    unfold fixup_preset_list
    simp only [if_pos hpos]
    cases hz : fixup_zone_list Gen_Instrument ninst f preset.zone with
    | none =>
      simp only
      exact ⟨fun _ => ⟨preset, List.mem_cons_self _ _, hz⟩, fun _ => trivial⟩
    | some zones =>
      simp only [Option.map_eq_none']
      rw [hrest]
      constructor
      · rintro ⟨p, hp, hc⟩; exact ⟨p, List.mem_cons_of_mem _ hp, hc⟩
      · rintro ⟨p, hp, hc⟩
        rcases List.mem_cons.mp hp with rfl | hp
        · rw [hz] at hc; cases hc
        · exact ⟨p, hp, hc⟩

theorem fixup_inst_list_forall (nsample : Nat) (f : Bool) :
    ∀ (insts res : List SFInst) (num_insts : Nat), insts.length ≤ num_insts →
      fixup_inst_list nsample f insts num_insts = some res →
      List.Forall₂ (fun p p' => ∃ zs,
        fixup_zone_list Gen_SampleId nsample f p.zone = some zs ∧ p' = { p with zone := zs })
        insts res := by
  intro insts
  induction insts with
  | nil =>
    intro res n _ h
    simp only [fixup_inst_list, Option.some.injEq] at h
    rw [← h]; exact List.Forall₂.nil
  | cons inst rest ih =>
    intro res n hlen h
    cases n with
    | zero => simp at hlen
    | succ n =>
      unfold fixup_inst_list at h
      cases hz : fixup_zone_list Gen_SampleId nsample f inst.zone with
      | none => rw [hz] at h; cases h
      | some zones =>
        rw [hz] at h
        simp only at h
        cases hr : fixup_inst_list nsample f rest n with
        | none => rw [hr] at h; cases h
        | some insts' =>
          rw [hr] at h
          simp only [Option.map_some', Option.some.injEq] at h
          rw [← h]
          exact List.Forall₂.cons ⟨zones, hz, rfl⟩
            (ih insts' n (by simp only [List.length_cons] at hlen; omega) hr)

theorem fixup_inst_list_none (nsample : Nat) (f : Bool) :
    ∀ (insts : List SFInst) (num_insts : Nat), insts.length ≤ num_insts →
      (fixup_inst_list nsample f insts num_insts = none ↔
        ∃ p ∈ insts, fixup_zone_list Gen_SampleId nsample f p.zone = none) := by
  intro insts
  induction insts with
  | nil => intro n _; simp [fixup_inst_list]
  | cons inst rest ih =>
    intro n hlen
    cases n with
    | zero => simp at hlen
    | succ n =>
      have hrest := ih n (by simp only [List.length_cons] at hlen; omega)
      unfold fixup_inst_list
      cases hz : fixup_zone_list Gen_SampleId nsample f inst.zone with
      | none =>
        simp only
        exact ⟨fun _ => ⟨inst, List.mem_cons_self _ _, hz⟩, fun _ => trivial⟩
      | some zones =>
        simp only [Option.map_eq_none']
        rw [hrest]
        constructor
        · rintro ⟨p, hp, hc⟩; exact ⟨p, List.mem_cons_of_mem _ hp, hc⟩
        · rintro ⟨p, hp, hc⟩
          rcases List.mem_cons.mp hp with rfl | hp
          · rw [hz] at hc; cases hc
          · exact ⟨p, hp, hc⟩

/-- A property that every successful fixup of a zone list establishes between
the list and its result holds between every preset and its fixed-up preset. -/
theorem fixup_preset_zones_forall (P : List SFZone → List SFZone → Prop)
    {f : Bool} {sf sf' : SFData} {num_presets : Nat}
    (hP : ∀ zones res, fixup_zone_list Gen_Instrument sf.inst.length f zones = some res →
      P zones res)
    (hlen : sf.preset.length ≤ num_presets)
    (h : fixup_preset_zones f sf num_presets = some sf') :
    sf'.inst = sf.inst ∧ sf'.sample = sf.sample ∧
    List.Forall₂ (fun p p' => p' = { p with zone := p'.zone } ∧ P p.zone p'.zone)
      sf.preset sf'.preset := by
  unfold fixup_preset_zones at h
  cases hr : fixup_preset_list sf.inst.length f num_presets sf.preset with
  | none => rw [hr] at h; cases h
  | some presets =>
    rw [hr] at h
    simp only [Option.map_some', Option.some.injEq] at h
    rw [← h]
    refine ⟨rfl, rfl, ?_⟩
    refine List.Forall₂.imp ?_ (fixup_preset_list_forall _ _ _ _ _ hlen hr)
    rintro p p' ⟨zs, hz, rfl⟩
    exact ⟨rfl, hP _ _ hz⟩

/-- The same for instruments. -/
theorem fixup_inst_zones_forall (P : List SFZone → List SFZone → Prop)
    {f : Bool} {sf sf' : SFData} {num_insts : Nat}
    (hP : ∀ zones res, fixup_zone_list Gen_SampleId sf.sample.length f zones = some res →
      P zones res)
    (hlen : sf.inst.length ≤ num_insts)
    (h : fixup_inst_zones f sf num_insts = some sf') :
    sf'.preset = sf.preset ∧ sf'.sample = sf.sample ∧
    List.Forall₂ (fun p p' => p' = { p with zone := p'.zone } ∧ P p.zone p'.zone)
      sf.inst sf'.inst := by
  unfold fixup_inst_zones at h
  cases hr : fixup_inst_list sf.sample.length f sf.inst num_insts with
  | none => rw [hr] at h; cases h
  | some insts =>
    rw [hr] at h
    simp only [Option.map_some', Option.some.injEq] at h
    rw [← h]
    refine ⟨rfl, rfl, ?_⟩
    refine List.Forall₂.imp ?_ (fixup_inst_list_forall _ _ _ _ _ hlen hr)
    rintro p p' ⟨zs, hz, rfl⟩
    exact ⟨rfl, hP _ _ hz⟩


/-! ## Zone fixup: the claims on global, resolved and empty zones -/

/-- While `first_zone` is the head of a non-empty visited part, the loop does
not read a deleted zone: the result does not depend on `freed_nonnull`. -/
theorem plain_fixup_loop_no_freed_read (terminal nrefs : Nat) :
    ∀ (todo kept : List SFZone), kept ≠ [] →
      plain_fixup_loop terminal nrefs true todo kept false =
        plain_fixup_loop terminal nrefs false todo kept false := by
  intro todo
  induction todo with
  | nil => intro kept _; rfl
  | cons z rest ih =>
    intro kept hk
    obtain ⟨h, t, rfl⟩ := List.exists_cons_of_ne_nil hk
    unfold plain_fixup_loop
    by_cases h1 : z.gen.getLast? = none ∧ z.mod = []
    · simp only [if_pos h1]
      exact ih _ (by simp)
    · simp only [if_neg h1]
      by_cases h2 : z.gen.getLast?.map (fun gen => gen.id) = some terminal
      · simp only [if_pos h2]
        by_cases h3 : last_gen_uword z < nrefs
        · simp only [if_pos h3]
          exact ih _ (by simp)
        · simp only [if_neg h3]
      · simp only [if_neg h2, Bool.false_eq_true, if_false, List.head?_cons,
          Option.map_some', Option.getD_some]
        by_cases h4 : h.ref.isSome = true
        · simp only [if_pos h4]
          exact ih _ (by simp)
        · simp only [if_neg h4]
          exact ih _ (by simp)

/-- C11 (what the code does): when the first zone of a preset (instrument) is
empty it is deleted while `first_zone` keeps pointing to it, and the test
`first_zone->inst != NULL` for a later zone without terminal generator reads
the deleted zone. For the zones [empty; Pan; Instrument(0)] the Pan zone is
discarded when that read yields `NULL`, although no global zone has been set,
and moved to the front when it yields something else. When the first zone is
not empty no deleted zone is read and the result does not depend on the
read. -/
theorem fixup_reads_deleted_first_zone :
    fixup_preset_zones false
        ⟨[⟨"p", 0, 0, 0, 3,
            [⟨[], [], 0, 0, 0, 0, none⟩,
             ⟨[⟨Gen_Pan, .sword 1⟩], [], 0, 1, 0, 0, none⟩,
             ⟨[⟨Gen_Instrument, .uword 0⟩], [], 1, 1, 0, 0, none⟩]⟩],
         [⟨"i", 0, 0, 0, []⟩], []⟩ 1 =
      some ⟨[⟨"p", 0, 0, 0, 3, [⟨[], [], 1, 1, 0, 0, some 0⟩]⟩],
         [⟨"i", 0, 0, 0, []⟩], []⟩ ∧
    fixup_preset_zones true
        ⟨[⟨"p", 0, 0, 0, 3,
            [⟨[], [], 0, 0, 0, 0, none⟩,
             ⟨[⟨Gen_Pan, .sword 1⟩], [], 0, 1, 0, 0, none⟩,
             ⟨[⟨Gen_Instrument, .uword 0⟩], [], 1, 1, 0, 0, none⟩]⟩],
         [⟨"i", 0, 0, 0, []⟩], []⟩ 1 =
      some ⟨[⟨"p", 0, 0, 0, 3,
            [⟨[⟨Gen_Pan, .sword 1⟩], [], 0, 1, 0, 0, none⟩,
             ⟨[], [], 1, 1, 0, 0, some 0⟩]⟩],
         [⟨"i", 0, 0, 0, []⟩], []⟩ ∧
    fixup_inst_zones false
        ⟨[], [⟨"i", 0, 0, 3,
            [⟨[], [], 0, 0, 0, 0, none⟩,
             ⟨[⟨Gen_Pan, .sword 1⟩], [], 0, 1, 0, 0, none⟩,
             ⟨[⟨Gen_SampleId, .uword 0⟩], [], 1, 1, 0, 0, none⟩]⟩],
         [⟨"s", 0, 0, 0, 0, 0, 0, 0, 0, 0⟩]⟩ 1 =
      some ⟨[], [⟨"i", 0, 0, 3, [⟨[], [], 1, 1, 0, 0, some 0⟩]⟩],
         [⟨"s", 0, 0, 0, 0, 0, 0, 0, 0, 0⟩]⟩ ∧
    fixup_inst_zones true
        ⟨[], [⟨"i", 0, 0, 3,
            [⟨[], [], 0, 0, 0, 0, none⟩,
             ⟨[⟨Gen_Pan, .sword 1⟩], [], 0, 1, 0, 0, none⟩,
             ⟨[⟨Gen_SampleId, .uword 0⟩], [], 1, 1, 0, 0, none⟩]⟩],
         [⟨"s", 0, 0, 0, 0, 0, 0, 0, 0, 0⟩]⟩ 1 =
      some ⟨[], [⟨"i", 0, 0, 3,
            [⟨[⟨Gen_Pan, .sword 1⟩], [], 0, 1, 0, 0, none⟩,
             ⟨[], [], 1, 1, 0, 0, some 0⟩]⟩],
         [⟨"s", 0, 0, 0, 0, 0, 0, 0, 0, 0⟩]⟩ ∧
    (∀ (terminal nrefs : Nat) (z : SFZone) (rest : List SFZone), ¬ zone_empty z →
      fixup_zone_list terminal nrefs true (z :: rest) =
        fixup_zone_list terminal nrefs false (z :: rest)) := by
  refine ⟨by decide, by decide, by decide, by decide, ?_⟩
  intro terminal nrefs z rest hne
  rw [fixup_zone_list_eq_plain, fixup_zone_list_eq_plain]
  have h1 : ¬ (z.gen.getLast? = none ∧ z.mod = []) := hne
  unfold plain_fixup_list
  simp only [if_neg h1]
  by_cases h2 : z.gen.getLast?.map (fun gen => gen.id) = some terminal
  · simp only [if_pos h2]
    by_cases h3 : last_gen_uword z < nrefs
    · simp only [if_pos h3]
      exact plain_fixup_loop_no_freed_read terminal nrefs rest _ (by simp)
    · simp only [if_neg h3]
  · simp only [if_neg h2]
    exact plain_fixup_loop_no_freed_read terminal nrefs rest _ (by simp)

/-- What resolving does to a zone whose last generator is the terminal one:
the reference is the generator's `uword` amount, the generator is taken off
the end of the list and everything else stays. -/
theorem resolve_zone_spec (terminal : Nat) (z : SFZone) (h : zone_terminal terminal z) :
    ∃ g : SFGen, g.id = terminal ∧ z.gen = (resolve_zone z).gen ++ [g] ∧
      (resolve_zone z).ref = some g.amount.as_uword ∧
      last_gen_uword z = g.amount.as_uword ∧
      resolve_zone z = { z with ref := some g.amount.as_uword, gen := z.gen.dropLast } := by
  unfold zone_terminal at h
  cases hl : z.gen.getLast? with
  | none => rw [hl] at h; cases h
  | some g =>
    rw [hl] at h
    simp only [Option.map_some', Option.some.injEq] at h
    have hk : last_gen_uword z = g.amount.as_uword := by simp [last_gen_uword, hl]
    refine ⟨g, h, ?_, ?_, hk, ?_⟩
    · have hne : z.gen ≠ [] := by
        intro e; rw [e] at hl; cases hl
      have := List.dropLast_append_getLast hne
      rw [List.getLast?_eq_getLast _ hne] at hl
      simp only [Option.some.injEq] at hl
      rw [hl] at this
      simpa [resolve_zone] using this.symm
    · simp [resolve_zone, hk]
    · simp [resolve_zone, hk]

/-- C12: in `fixup_preset_zones` (resp. `fixup_inst_zones`), called with a
count that covers the list, a zone whose last generator is Instrument(k)
(resp. SampleID(k)) is in the result with its reference set to element k of
`sf->inst` (resp. `sf->sample`) and with that generator taken off the end of
its list, the other generators unchanged and in order; and the fixup returns
`FALSE` if and only if for some such zone k is not below the length of that
list. -/
theorem fixup_resolves_terminal :
    (∀ (terminal : Nat) (z : SFZone), zone_terminal terminal z →
      ∃ g : SFGen, g.id = terminal ∧ z.gen = (resolve_zone z).gen ++ [g] ∧
        (resolve_zone z).ref = some g.amount.as_uword ∧
        last_gen_uword z = g.amount.as_uword ∧
        resolve_zone z = { z with ref := some g.amount.as_uword, gen := z.gen.dropLast }) ∧
    (∀ (f : Bool) (sf : SFData) (num_presets : Nat), sf.preset.length ≤ num_presets →
      (fixup_preset_zones f sf num_presets = none ↔
        ∃ p ∈ sf.preset, ∃ z ∈ p.zone,
          zone_terminal Gen_Instrument z ∧ sf.inst.length ≤ last_gen_uword z) ∧
      (∀ sf', fixup_preset_zones f sf num_presets = some sf' →
        List.Forall₂ (fun p p' => p' = { p with zone := p'.zone } ∧
          ∀ z ∈ p.zone, zone_terminal Gen_Instrument z →
            resolve_zone z ∈ p'.zone ∧ last_gen_uword z < sf.inst.length)
          sf.preset sf'.preset)) ∧
    (∀ (f : Bool) (sf : SFData) (num_insts : Nat), sf.inst.length ≤ num_insts →
      (fixup_inst_zones f sf num_insts = none ↔
        ∃ p ∈ sf.inst, ∃ z ∈ p.zone,
          zone_terminal Gen_SampleId z ∧ sf.sample.length ≤ last_gen_uword z) ∧
      (∀ sf', fixup_inst_zones f sf num_insts = some sf' →
        List.Forall₂ (fun p p' => p' = { p with zone := p'.zone } ∧
          ∀ z ∈ p.zone, zone_terminal Gen_SampleId z →
            resolve_zone z ∈ p'.zone ∧ last_gen_uword z < sf.sample.length)
          sf.inst sf'.inst)) := by
  have hzone : ∀ (terminal nrefs : Nat) (f : Bool) (zones res : List SFZone),
      fixup_zone_list terminal nrefs f zones = some res →
      ∀ z ∈ zones, zone_terminal terminal z →
        resolve_zone z ∈ res ∧ last_gen_uword z < nrefs := by
    intro terminal nrefs f zones res h z hz ht
    obtain ⟨pre, -, hres⟩ := fixup_zone_list_shape terminal nrefs f zones res h
    refine ⟨?_, ?_⟩
    · rw [hres]
      apply List.mem_append_right
      apply List.mem_map_of_mem
      exact List.mem_filter.mpr ⟨hz, by simpa using ht⟩
    · by_contra hlt
      have hnone := (fixup_zone_list_none terminal nrefs f zones).mpr
        ⟨z, hz, ht, by omega⟩
      rw [hnone] at h
      cases h
  refine ⟨resolve_zone_spec, ?_, ?_⟩
  · intro f sf num_presets hlen
    refine ⟨?_, ?_⟩
    · unfold fixup_preset_zones
      rw [Option.map_eq_none', fixup_preset_list_none _ _ _ _ hlen]
      constructor
      · rintro ⟨p, hp, hn⟩
        obtain ⟨z, hz, hc⟩ := (fixup_zone_list_none _ _ _ _).mp hn
        exact ⟨p, hp, z, hz, hc⟩
      · rintro ⟨p, hp, z, hz, hc⟩
        exact ⟨p, hp, (fixup_zone_list_none _ _ _ _).mpr ⟨z, hz, hc⟩⟩
    · intro sf' h
      exact (fixup_preset_zones_forall
        (fun zones res => ∀ z ∈ zones, zone_terminal Gen_Instrument z →
          resolve_zone z ∈ res ∧ last_gen_uword z < sf.inst.length)
        (fun zones res hz => hzone _ _ _ zones res hz) hlen h).2.2
  · intro f sf num_insts hlen
    refine ⟨?_, ?_⟩
    · unfold fixup_inst_zones
      rw [Option.map_eq_none', fixup_inst_list_none _ _ _ _ hlen]
      constructor
      · rintro ⟨p, hp, hn⟩
        obtain ⟨z, hz, hc⟩ := (fixup_zone_list_none _ _ _ _).mp hn
        exact ⟨p, hp, z, hz, hc⟩
      · rintro ⟨p, hp, z, hz, hc⟩
        exact ⟨p, hp, (fixup_zone_list_none _ _ _ _).mpr ⟨z, hz, hc⟩⟩
    · intro sf' h
      exact (fixup_inst_zones_forall
        (fun zones res => ∀ z ∈ zones, zone_terminal Gen_SampleId z →
          resolve_zone z ∈ res ∧ last_gen_uword z < sf.sample.length)
        (fun zones res hz => hzone _ _ _ zones res hz) hlen h).2.2

/-- Instance of C12: with one instrument in the file, a preset zone
[Pan; Instrument(1)] makes `fixup_preset_zones` return `FALSE`, and a preset
zone [Pan; Instrument(0)] is resolved to element 0. -/
theorem fixup_resolves_terminal_witness :
    fixup_preset_zones false
        ⟨[⟨"p", 0, 0, 0, 1,
            [⟨[⟨Gen_Pan, .sword 1⟩, ⟨Gen_Instrument, .uword 1⟩], [], 0, 2, 0, 0, none⟩]⟩],
         [⟨"i", 0, 0, 0, []⟩], []⟩ 1 = none ∧
    fixup_preset_zones false
        ⟨[⟨"p", 0, 0, 0, 1,
            [⟨[⟨Gen_Pan, .sword 1⟩, ⟨Gen_Instrument, .uword 0⟩], [], 0, 2, 0, 0, none⟩]⟩],
         [⟨"i", 0, 0, 0, []⟩], []⟩ 1 =
      some ⟨[⟨"p", 0, 0, 0, 1, [⟨[⟨Gen_Pan, .sword 1⟩], [], 0, 2, 0, 0, some 0⟩]⟩],
         [⟨"i", 0, 0, 0, []⟩], []⟩ :=
  ⟨((fixup_resolves_terminal.2.1 false
      ⟨[⟨"p", 0, 0, 0, 1,
          [⟨[⟨Gen_Pan, .sword 1⟩, ⟨Gen_Instrument, .uword 1⟩], [], 0, 2, 0, 0, none⟩]⟩],
       [⟨"i", 0, 0, 0, []⟩], []⟩ 1 (by decide)).1).mpr
      ⟨_, List.mem_cons_self _ _, _, List.mem_cons_self _ _, by decide, by decide⟩,
   by decide⟩


/-- The result of the fixup of a zone list whose zones have no reference on
entry: no empty zone of the list, every zone with terminal generator
resolved, these in their order behind at most one zone without reference. -/
theorem fixup_zone_list_result (terminal nrefs : Nat) (f : Bool) (zones res : List SFZone)
    (h : fixup_zone_list terminal nrefs f zones = some res)
    (hnone : ∀ z ∈ zones, z.ref = none) :
    (∀ z ∈ zones, zone_empty z → z ∉ res) ∧
    (∀ z ∈ zones, zone_terminal terminal z → resolve_zone z ∈ res) ∧
    res.filter (fun z => z.ref.isSome) =
      (zones.filter (fun z => decide (zone_terminal terminal z))).map resolve_zone ∧
    (∃ pre : List SFZone, pre.length ≤ 1 ∧
      (∀ g ∈ pre, g ∈ zones ∧ ¬ zone_empty g ∧ ¬ zone_terminal terminal g) ∧
      res = pre ++
        (zones.filter (fun z => decide (zone_terminal terminal z))).map resolve_zone) := by
  obtain ⟨pre, hpre, hres⟩ := fixup_zone_list_shape terminal nrefs f zones res h
  have htail := fixup_zone_list_refs terminal nrefs f zones res h
  have hprenone : ∀ g ∈ pre, g.ref = none := fun g hg => hnone g (hpre g hg).1
  have hresolved : ∀ x ∈ (zones.filter (fun z => decide (zone_terminal terminal z))).map
      resolve_zone, x.ref.isSome = true := by
    intro x hx
    obtain ⟨y, -, rfl⟩ := List.mem_map.mp hx
    rfl
  have hlen : pre.length ≤ 1 := by
    cases pre with
    | nil => simp
    | cons a t =>
      cases t with
      | nil => simp
      | cons b t' =>
        exfalso
        have hb : b ∈ res.tail := by
          rw [hres]; simp
        have := htail b hb
        rw [hprenone b (by simp)] at this
        cases this
  refine ⟨?_, ?_, ?_, pre, hlen, hpre, hres⟩
  · intro z hz he hm
    rw [hres] at hm
    rcases List.mem_append.mp hm with hm | hm
    · exact (hpre z hm).2.1 he
    · have := hresolved z hm
      rw [hnone z hz] at this
      cases this
  · intro z hz ht
    rw [hres]
    apply List.mem_append_right
    apply List.mem_map_of_mem
    exact List.mem_filter.mpr ⟨hz, by simpa using ht⟩
  · rw [hres, List.filter_append]
    have h1 : pre.filter (fun z => z.ref.isSome) = [] := by
      rw [List.filter_eq_nil_iff]
      intro x hx
      rw [hprenone x hx]
      simp
    have h2 : ((zones.filter (fun z => decide (zone_terminal terminal z))).map
        resolve_zone).filter (fun z => z.ref.isSome) =
        (zones.filter (fun z => decide (zone_terminal terminal z))).map resolve_zone := by
      rw [List.filter_eq_self]
      exact hresolved
    rw [h1, h2, List.nil_append]

/-- C13: after a successful `fixup_preset_zones` (resp. `fixup_inst_zones`),
called with a count that covers the list, for every preset (resp. instrument)
whose zones have no reference on entry: no zone without generators and
modulators is left in the zone list; every zone whose last generator is a
resolvable Instrument (resp. SampleID) is in the list, resolved; and the zones
with a reference in the result are exactly these, in their original order
(behind at most one zone without reference). -/
theorem fixup_drops_empty_keeps_resolved :
    (∀ (f : Bool) (sf sf' : SFData) (num_presets : Nat), sf.preset.length ≤ num_presets →
      fixup_preset_zones f sf num_presets = some sf' →
      List.Forall₂ (fun p p' => p' = { p with zone := p'.zone } ∧
        ((∀ z ∈ p.zone, z.ref = none) →
          (∀ z ∈ p.zone, zone_empty z → z ∉ p'.zone) ∧
          (∀ z ∈ p.zone, zone_terminal Gen_Instrument z → resolve_zone z ∈ p'.zone) ∧
          p'.zone.filter (fun z => z.ref.isSome) =
            (p.zone.filter (fun z => decide (zone_terminal Gen_Instrument z))).map
              resolve_zone ∧
          (∃ pre : List SFZone, pre.length ≤ 1 ∧
            (∀ g ∈ pre, g ∈ p.zone ∧ ¬ zone_empty g ∧ ¬ zone_terminal Gen_Instrument g) ∧
            p'.zone = pre ++
              (p.zone.filter (fun z => decide (zone_terminal Gen_Instrument z))).map
                resolve_zone)))
        sf.preset sf'.preset) ∧
    (∀ (f : Bool) (sf sf' : SFData) (num_insts : Nat), sf.inst.length ≤ num_insts →
      fixup_inst_zones f sf num_insts = some sf' →
      List.Forall₂ (fun p p' => p' = { p with zone := p'.zone } ∧
        ((∀ z ∈ p.zone, z.ref = none) →
          (∀ z ∈ p.zone, zone_empty z → z ∉ p'.zone) ∧
          (∀ z ∈ p.zone, zone_terminal Gen_SampleId z → resolve_zone z ∈ p'.zone) ∧
          p'.zone.filter (fun z => z.ref.isSome) =
            (p.zone.filter (fun z => decide (zone_terminal Gen_SampleId z))).map
              resolve_zone ∧
          (∃ pre : List SFZone, pre.length ≤ 1 ∧
            (∀ g ∈ pre, g ∈ p.zone ∧ ¬ zone_empty g ∧ ¬ zone_terminal Gen_SampleId g) ∧
            p'.zone = pre ++
              (p.zone.filter (fun z => decide (zone_terminal Gen_SampleId z))).map
                resolve_zone)))
        sf.inst sf'.inst) := by
  constructor
  · intro f sf sf' num_presets hlen h
    exact (fixup_preset_zones_forall _
      (fun zones res hz hnone =>
        fixup_zone_list_result Gen_Instrument sf.inst.length f zones res hz hnone) hlen h).2.2
  · intro f sf sf' num_insts hlen h
    exact (fixup_inst_zones_forall _
      (fun zones res hz hnone =>
        fixup_zone_list_result Gen_SampleId sf.sample.length f zones res hz hnone) hlen h).2.2

/-- Instance of C13: a preset with the zones
[Pan + Instrument(0); empty; Pan; Instrument(1)] and two instruments in the
file. -/
theorem fixup_drops_empty_keeps_resolved_witness :
    fixup_preset_zones false
        ⟨[⟨"p", 0, 0, 0, 4,
            [⟨[⟨Gen_Pan, .sword 1⟩, ⟨Gen_Instrument, .uword 0⟩], [], 0, 2, 0, 0, none⟩,
             ⟨[], [], 2, 0, 0, 0, none⟩,
             ⟨[⟨Gen_Pan, .sword 2⟩], [], 2, 1, 0, 0, none⟩,
             ⟨[⟨Gen_Instrument, .uword 1⟩], [], 3, 1, 0, 0, none⟩]⟩],
         [⟨"i", 0, 0, 0, []⟩, ⟨"j", 1, 0, 0, []⟩], []⟩ 1 =
      some ⟨[⟨"p", 0, 0, 0, 4,
            [⟨[⟨Gen_Pan, .sword 2⟩], [], 2, 1, 0, 0, none⟩,
             ⟨[⟨Gen_Pan, .sword 1⟩], [], 0, 2, 0, 0, some 0⟩,
             ⟨[], [], 3, 1, 0, 0, some 1⟩]⟩],
         [⟨"i", 0, 0, 0, []⟩, ⟨"j", 1, 0, 0, []⟩], []⟩ ∧
    List.Forall₂ (fun p p' => p' = { p with zone := p'.zone } ∧
        ((∀ z ∈ p.zone, z.ref = none) →
          (∀ z ∈ p.zone, zone_empty z → z ∉ p'.zone) ∧
          (∀ z ∈ p.zone, zone_terminal Gen_Instrument z → resolve_zone z ∈ p'.zone) ∧
          p'.zone.filter (fun z => z.ref.isSome) =
            (p.zone.filter (fun z => decide (zone_terminal Gen_Instrument z))).map
              resolve_zone ∧
          (∃ pre : List SFZone, pre.length ≤ 1 ∧
            (∀ g ∈ pre, g ∈ p.zone ∧ ¬ zone_empty g ∧ ¬ zone_terminal Gen_Instrument g) ∧
            p'.zone = pre ++
              (p.zone.filter (fun z => decide (zone_terminal Gen_Instrument z))).map
                resolve_zone)))
      [(⟨"p", 0, 0, 0, 4,
            [⟨[⟨Gen_Pan, .sword 1⟩, ⟨Gen_Instrument, .uword 0⟩], [], 0, 2, 0, 0, none⟩,
             ⟨[], [], 2, 0, 0, 0, none⟩,
             ⟨[⟨Gen_Pan, .sword 2⟩], [], 2, 1, 0, 0, none⟩,
             ⟨[⟨Gen_Instrument, .uword 1⟩], [], 3, 1, 0, 0, none⟩]⟩ : SFPreset)]
      [(⟨"p", 0, 0, 0, 4,
            [⟨[⟨Gen_Pan, .sword 2⟩], [], 2, 1, 0, 0, none⟩,
             ⟨[⟨Gen_Pan, .sword 1⟩], [], 0, 2, 0, 0, some 0⟩,
             ⟨[], [], 3, 1, 0, 0, some 1⟩]⟩ : SFPreset)] :=
  ⟨by decide,
   fixup_drops_empty_keeps_resolved.1 false
    ⟨[⟨"p", 0, 0, 0, 4,
        [⟨[⟨Gen_Pan, .sword 1⟩, ⟨Gen_Instrument, .uword 0⟩], [], 0, 2, 0, 0, none⟩,
         ⟨[], [], 2, 0, 0, 0, none⟩,
         ⟨[⟨Gen_Pan, .sword 2⟩], [], 2, 1, 0, 0, none⟩,
         ⟨[⟨Gen_Instrument, .uword 1⟩], [], 3, 1, 0, 0, none⟩]⟩],
     [⟨"i", 0, 0, 0, []⟩, ⟨"j", 1, 0, 0, []⟩], []⟩
    ⟨[⟨"p", 0, 0, 0, 4,
        [⟨[⟨Gen_Pan, .sword 2⟩], [], 2, 1, 0, 0, none⟩,
         ⟨[⟨Gen_Pan, .sword 1⟩], [], 0, 2, 0, 0, some 0⟩,
         ⟨[], [], 3, 1, 0, 0, some 1⟩]⟩],
     [⟨"i", 0, 0, 0, []⟩, ⟨"j", 1, 0, 0, []⟩], []⟩
    1 (by decide) (by decide)⟩


/-! ## Sample fixup -/

theorem u32_sub_eq {a b : Nat} (hb : b ≤ a) (ha : a < 4294967296) : u32_sub a b = a - b := by
  unfold u32_sub
  omega

theorem fixup_sample_list_get (samplesize : Nat) :
    ∀ (samples : List SFSample) (num_samples i : Nat) (sam : SFSample),
      samples.get? i = some sam → i < num_samples →
      (fixup_sample_list samplesize samples num_samples).get? i =
        some (fixup_sample samplesize sam) := by
  intro samples
  induction samples with
  | nil => intro n i sam h; simp at h
  | cons s rest ih =>
    intro n i sam h hi
    cases n with
    | zero => omega
    | succ n =>
      cases i with
      | zero =>
        simp only [List.get?_cons_zero, Option.some.injEq] at h
        subst h
        simp [fixup_sample_list]
      | succ i =>
        simp only [List.get?_cons_succ] at h
        simp only [fixup_sample_list, List.get?_cons_succ]
        exact ih n i sam h (by omega)

/-- Every sample within the count is replaced by its fixed-up form. -/
theorem fixup_samples_get (samplesize : Nat) (sf : SFData) (num_samples i : Nat)
    (sam : SFSample) (h : sf.sample.get? i = some sam) (hi : i < num_samples) :
    (fixup_samples samplesize sf num_samples).sample.get? i =
      some (fixup_sample samplesize sam) := by
  unfold fixup_samples
  exact fixup_sample_list_get samplesize sf.sample num_samples i sam h hi

/-- A sample that is not in ROM and passes the start / end test, with an end
of at least 4: the loop points after the repair, then the rebase. -/
theorem fixup_sample_pass (samplesize : Nat) (sam : SFSample)
    (hrom : sam.sampletype &&& FLUID_SAMPLETYPE_ROM = 0)
    (h4 : sam.start + 4 ≤ sam.end_) (hmax : sam.end_ ≤ sample_max_end samplesize sam)
    (h32 : sam.end_ < 4294967296) :
    fixup_sample samplesize sam =
      { sam with
        end_ := sam.end_ - sam.start - 1
        loopstart := u32_sub
          (if sam.sampletype &&& FLUID_SAMPLETYPE_OGG_VORBIS = 0 ∧
              (sam.loopstart < sam.start ∨ sam.loopend ≤ sam.loopstart)
            then sam.start else sam.loopstart) sam.start
        loopend := u32_sub
          (if sam.sampletype &&& FLUID_SAMPLETYPE_OGG_VORBIS = 0 ∧
              (sample_max_end samplesize sam < sam.loopend ∨ sam.loopend ≤ sam.loopstart)
            then sam.end_ else sam.loopend) sam.start } := by
  have hsub : u32_sub sam.end_ 4 = sam.end_ - 4 := u32_sub_eq (by omega) h32
  have hend : u32_sub sam.end_ (sam.start + 1) = sam.end_ - sam.start - 1 := by
    rw [u32_sub_eq (by omega) h32]; omega
  have hcheck : ¬ (sam.end_ > sample_max_end samplesize sam ∨
      sam.start > u32_sub sam.end_ 4) := by
    rw [hsub]; omega
  unfold fixup_sample
  simp only [ne_eq, hrom, not_true_eq_false, if_false, hcheck]
  by_cases hogg : sam.sampletype &&& FLUID_SAMPLETYPE_OGG_VORBIS = 0
  · simp only [hogg, not_true_eq_false, if_false, true_and]
    by_cases hls : sam.loopstart < sam.start ∨ sam.loopend ≤ sam.loopstart
    · by_cases hle : sample_max_end samplesize sam < sam.loopend ∨ sam.loopend ≤ sam.loopstart
      · simp [hls, hle, hend]
      · simp [hls, hle, hend]
    · by_cases hle : sample_max_end samplesize sam < sam.loopend ∨ sam.loopend ≤ sam.loopstart
      · simp [hls, hle, hend]
      · by_cases hmm : sam.loopend > sam.end_
        · simp [hls, hle, hmm, hend]
        · simp [hls, hle, hmm, hend]
  · simp [hogg, hend]


/-- C14 (what the code does): the test is `sam->start > sam->end - 4` in
`unsigned int`, and `end - 4` wraps around for `end < 4`. A sample that is not
in ROM with start 0 and end 2 (sample data of 200 bytes) is not zeroed, nor is
one with start 3 and end 2, whose rebased end wraps to 2^32 - 2. From end = 4
on, the sample is zeroed exactly when `end > max_end` or `start + 4 > end`. -/
theorem fixup_sample_small_end_not_zeroed :
    (fixup_samples 200 ⟨[], [], [⟨"s", 0, 0, 2, 0, 2, 44100, 60, 0, 1⟩]⟩ 1).sample =
      [⟨"s", 0, 0, 1, 0, 2, 44100, 60, 0, 1⟩] ∧
    (fixup_samples 200 ⟨[], [], [⟨"s", 0, 3, 2, 3, 3, 44100, 60, 0, 1⟩]⟩ 1).sample =
      [⟨"s", 0, 3, 4294967294, 0, 4294967295, 44100, 60, 0, 1⟩] ∧
    (∀ (samplesize : Nat) (sam : SFSample),
      sam.sampletype &&& FLUID_SAMPLETYPE_ROM = 0 →
      sam.start < 4294967296 → sam.end_ < 4294967296 → 4 ≤ sam.end_ →
      (fixup_sample samplesize sam = zero_sample sam ↔
        (sam.end_ > sample_max_end samplesize sam ∨ sam.start + 4 > sam.end_))) := by
  refine ⟨by decide, by decide, ?_⟩
  intro samplesize sam hrom hs he h4
  have hsub : u32_sub sam.end_ 4 = sam.end_ - 4 := u32_sub_eq h4 he
  by_cases hc : sam.end_ > sample_max_end samplesize sam ∨ sam.start + 4 > sam.end_
  · have hcheck : sam.end_ > sample_max_end samplesize sam ∨
        sam.start > u32_sub sam.end_ 4 := by
      rw [hsub]; omega
    simp only [hc, iff_true]
    unfold fixup_sample
    simp only [ne_eq, hrom, not_true_eq_false, if_false, hcheck, if_true]
  · simp only [hc, iff_false]
    rw [fixup_sample_pass samplesize sam hrom (by omega) (by omega) he]
    intro h
    have := congrArg SFSample.end_ h
    simp only [zero_sample] at this
    omega

/-- C15 fails as stated: a sample that is not in ROM and not Ogg Vorbis, with
start 0, end 10, loop start 2 and loop end 20 in sample data of 100 words,
keeps its loop end ("using it anyway"): after `fixup_samples` its loop end is
20 and its end 9. -/
theorem fixup_samples_keeps_loopend_past_end :
    ¬ ∀ s ∈ (fixup_samples 200 ⟨[], [], [⟨"s", 0, 0, 10, 2, 20, 44100, 60, 0, 1⟩]⟩ 1).sample,
        0 ≤ s.loopstart ∧ s.loopstart ≤ s.loopend ∧ s.loopend ≤ s.end_ + 1 := by
  decide

/-- C15 (as amended): after `fixup_samples` every sample within the count
that is in ROM or fails the start / end test has start, end, loop start and
loop end 0; every other sample that is not Ogg Vorbis, with
start + 4 ≤ end ≤ max_end, satisfies
0 ≤ loopstart ≤ loopend ≤ end + 1 in the rebased offsets (end rebased to
end − start − 1 without wrap-around) when on input its loop is degenerate
(loopstart ≥ loopend, both points are replaced) or has loopstart ≤ end,
loopend ≥ start and loopend ≤ end or loopend > max_end. -/
theorem fixup_samples_loop_in_sample (samplesize : Nat) (sf : SFData) (num_samples i : Nat)
    (sam : SFSample) (hget : sf.sample.get? i = some sam) (hi : i < num_samples)
    (h32 : sam.start < 4294967296 ∧ sam.end_ < 4294967296 ∧
      sam.loopstart < 4294967296 ∧ sam.loopend < 4294967296) :
    ∃ r, (fixup_samples samplesize sf num_samples).sample.get? i = some r ∧
      ((sam.sampletype &&& FLUID_SAMPLETYPE_ROM ≠ 0 ∨
          sam.end_ > sample_max_end samplesize sam ∨ sam.start > u32_sub sam.end_ 4) →
        r.start = 0 ∧ r.end_ = 0 ∧ r.loopstart = 0 ∧ r.loopend = 0) ∧
      (sam.sampletype &&& FLUID_SAMPLETYPE_ROM = 0 →
        sam.sampletype &&& FLUID_SAMPLETYPE_OGG_VORBIS = 0 →
        sam.start + 4 ≤ sam.end_ → sam.end_ ≤ sample_max_end samplesize sam →
        (sam.loopend ≤ sam.loopstart ∨
          (sam.loopstart ≤ sam.end_ ∧ sam.start ≤ sam.loopend ∧
            (sam.loopend ≤ sam.end_ ∨ sample_max_end samplesize sam < sam.loopend))) →
        r.start = sam.start ∧ r.end_ + sam.start + 1 = sam.end_ ∧
        0 ≤ r.loopstart ∧ r.loopstart ≤ r.loopend ∧ r.loopend ≤ r.end_ + 1) := by
  refine ⟨fixup_sample samplesize sam, fixup_samples_get samplesize sf num_samples i sam hget hi,
    ?_, ?_⟩
  · intro hz
    unfold fixup_sample
    by_cases hrom : sam.sampletype &&& FLUID_SAMPLETYPE_ROM = 0
    · have hcheck : sam.end_ > sample_max_end samplesize sam ∨
          sam.start > u32_sub sam.end_ 4 := by
        rcases hz with hz | hz
        · exact absurd hrom hz
        · exact hz
      simp only [ne_eq, hrom, not_true_eq_false, if_false, hcheck, if_true, zero_sample,
        and_self]
    · simp only [ne_eq, hrom, not_false_eq_true, if_true, zero_sample, and_self]
  · intro hrom hogg h4 hmax hloop
    obtain ⟨hs, he, hls, hle⟩ := h32
    rw [fixup_sample_pass samplesize sam hrom h4 hmax he]
    refine ⟨rfl, by dsimp only; omega, Nat.zero_le _, ?_⟩
    dsimp only
    simp only [hogg, true_and]
    by_cases c1 : sam.loopstart < sam.start ∨ sam.loopend ≤ sam.loopstart
    · by_cases c2 : sample_max_end samplesize sam < sam.loopend ∨ sam.loopend ≤ sam.loopstart
      · simp only [if_pos c1, if_pos c2]
        rw [u32_sub_eq (le_refl _) hs, u32_sub_eq (by omega) he]
        omega
      · simp only [if_pos c1, if_neg c2]
        rw [u32_sub_eq (le_refl _) hs, u32_sub_eq (by omega) hle]
        omega
    · by_cases c2 : sample_max_end samplesize sam < sam.loopend ∨ sam.loopend ≤ sam.loopstart
      · simp only [if_neg c1, if_pos c2]
        rw [u32_sub_eq (by omega) hls, u32_sub_eq (by omega) he]
        omega
      · simp only [if_neg c1, if_neg c2]
        rw [u32_sub_eq (by omega) hls, u32_sub_eq (by omega) hle]
        omega

/-- Instance of the amended C15: start 10, end 20, loop start 2 (before the
start), loop end 18, in sample data of 100 words. -/
theorem fixup_samples_loop_in_sample_witness :
    ∃ r, (fixup_samples 200 ⟨[], [], [⟨"s", 0, 10, 20, 2, 18, 44100, 60, 0, 1⟩]⟩ 1).sample.get? 0
        = some r ∧
      r.start = 10 ∧ r.end_ + 10 + 1 = 20 ∧
      0 ≤ r.loopstart ∧ r.loopstart ≤ r.loopend ∧ r.loopend ≤ r.end_ + 1 := by
  obtain ⟨r, hr, -, h2⟩ := fixup_samples_loop_in_sample 200
    ⟨[], [], [⟨"s", 0, 10, 20, 2, 18, 44100, 60, 0, 1⟩]⟩ 1 0
    ⟨"s", 0, 10, 20, 2, 18, 44100, 60, 0, 1⟩ rfl (by decide) (by decide)
  exact ⟨r, hr, h2 (by decide) (by decide) (by decide) (by decide) (by decide)⟩

/-- C16 fails as stated: the sample of start 0, end 10, loop start 2, loop end
20 (not in ROM, not Ogg Vorbis, 100 words of sample data) passes the start /
end test and has loopend > end, and its rebased loop end is 20, not
end − start = 10. -/
theorem fixup_samples_loopend_not_clamped :
    ¬ ∀ s ∈ (fixup_samples 200 ⟨[], [], [⟨"s", 0, 0, 10, 2, 20, 44100, 60, 0, 1⟩]⟩ 1).sample,
        s.loopend = 10 - 0 := by
  decide

/-- C16 (as amended): for a sample within the count that is not in ROM and
not Ogg Vorbis, passes the start / end test (start + 4 ≤ end ≤ max_end) and
has loopend > end, `fixup_samples` does not zero the sample (the rebased end
is end − start − 1); it sets the loop end to the sample end, rebased
end − start, when the loop end is invalid, that is loopend > max_end or
loopstart ≥ loopend; a loop end with end < loopend ≤ max_end and
loopstart < loopend is kept, rebased loopend − start. -/
theorem fixup_samples_clamps_invalid_loopend (samplesize : Nat) (sf : SFData)
    (num_samples i : Nat) (sam : SFSample)
    (hget : sf.sample.get? i = some sam) (hi : i < num_samples)
    (hrom : sam.sampletype &&& FLUID_SAMPLETYPE_ROM = 0)
    (hogg : sam.sampletype &&& FLUID_SAMPLETYPE_OGG_VORBIS = 0)
    (h4 : sam.start + 4 ≤ sam.end_) (hmax : sam.end_ ≤ sample_max_end samplesize sam)
    (h32 : sam.end_ < 4294967296 ∧ sam.loopend < 4294967296)
    (hmm : sam.end_ < sam.loopend) :
    ∃ r, (fixup_samples samplesize sf num_samples).sample.get? i = some r ∧
      r.start = sam.start ∧ r.end_ + sam.start + 1 = sam.end_ ∧
      (sample_max_end samplesize sam < sam.loopend ∨ sam.loopend ≤ sam.loopstart →
        r.loopend + sam.start = sam.end_) ∧
      (sam.loopend ≤ sample_max_end samplesize sam ∧ sam.loopstart < sam.loopend →
        r.loopend + sam.start = sam.loopend) := by
  refine ⟨fixup_sample samplesize sam, fixup_samples_get samplesize sf num_samples i sam hget hi,
    ?_⟩
  rw [fixup_sample_pass samplesize sam hrom h4 hmax h32.1]
  refine ⟨rfl, by dsimp only; omega, ?_, ?_⟩
  · intro c
    dsimp only
    simp only [hogg, true_and, if_pos c]
    rw [u32_sub_eq (by omega) h32.1]
    omega
  · intro c
    have c' : ¬ (sample_max_end samplesize sam < sam.loopend ∨ sam.loopend ≤ sam.loopstart) := by
      omega
    dsimp only
    simp only [hogg, true_and, if_neg c']
    rw [u32_sub_eq (by omega) h32.2]
    omega

/-- Instance of the amended C16: start 0, end 10, loop start 2, loop end 150
in sample data of 100 words: the loop end becomes 10. -/
theorem fixup_samples_clamps_invalid_loopend_witness :
    ∃ r, (fixup_samples 200 ⟨[], [], [⟨"s", 0, 0, 10, 2, 150, 44100, 60, 0, 1⟩]⟩ 1).sample.get? 0
        = some r ∧ r.end_ = 9 ∧ r.loopend = 10 := by
  obtain ⟨r, hr, -, h2, h3, -⟩ := fixup_samples_clamps_invalid_loopend 200
    ⟨[], [], [⟨"s", 0, 0, 10, 2, 150, 44100, 60, 0, 1⟩]⟩ 1 0
    ⟨"s", 0, 0, 10, 2, 150, 44100, 60, 0, 1⟩ rfl (by decide) (by decide) (by decide)
    (by decide) (by decide) (by decide) (by decide)
  have h3' := h3 (Or.inl (by decide))
  simp only at h2 h3'
  exact ⟨r, hr, by omega, by omega⟩

/-- C17: for a sample within the count that is not in ROM (Ogg Vorbis or
not, so in particular for one that is not Ogg Vorbis), with
start + 4 ≤ end ≤ max_end and start ≤ loopstart < loopend ≤ end (32-bit
values), `fixup_samples` changes nothing but end, loop start and loop end,
which become end − start − 1, loopstart − start and loopend − start; none of
the three subtractions wraps around. -/
theorem fixup_samples_rebase (samplesize : Nat) (sf : SFData) (num_samples i : Nat)
    (sam : SFSample) (hget : sf.sample.get? i = some sam) (hi : i < num_samples)
    (hrom : sam.sampletype &&& FLUID_SAMPLETYPE_ROM = 0)
    (h4 : sam.start + 4 ≤ sam.end_) (hmax : sam.end_ ≤ sample_max_end samplesize sam)
    (h32 : sam.end_ < 4294967296)
    (hls : sam.start ≤ sam.loopstart) (hll : sam.loopstart < sam.loopend)
    (hle : sam.loopend ≤ sam.end_) :
    (fixup_samples samplesize sf num_samples).sample.get? i =
      some { sam with
        end_ := sam.end_ - sam.start - 1
        loopstart := sam.loopstart - sam.start
        loopend := sam.loopend - sam.start } ∧
    (sam.end_ - sam.start - 1) + sam.start + 1 = sam.end_ ∧
    (sam.loopstart - sam.start) + sam.start = sam.loopstart ∧
    (sam.loopend - sam.start) + sam.start = sam.loopend := by
  refine ⟨?_, by omega, by omega, by omega⟩
  rw [fixup_samples_get samplesize sf num_samples i sam hget hi,
    fixup_sample_pass samplesize sam hrom h4 hmax h32]
  have c1 : ¬ (sam.sampletype &&& FLUID_SAMPLETYPE_OGG_VORBIS = 0 ∧
      (sam.loopstart < sam.start ∨ sam.loopend ≤ sam.loopstart)) := by
    intro h; omega
  have c2 : ¬ (sam.sampletype &&& FLUID_SAMPLETYPE_OGG_VORBIS = 0 ∧
      (sample_max_end samplesize sam < sam.loopend ∨ sam.loopend ≤ sam.loopstart)) := by
    intro h; omega
  simp only [if_neg c1, if_neg c2]
  rw [u32_sub_eq hls (by omega), u32_sub_eq (by omega) (by omega)]

/-- Instance of C17: start 10, end 20, loop 12 to 18, in sample data of 100
words. -/
theorem fixup_samples_rebase_witness :
    (fixup_samples 200 ⟨[], [], [⟨"s", 0, 10, 20, 12, 18, 44100, 60, 0, 1⟩]⟩ 1).sample.get? 0 =
      some ⟨"s", 0, 10, 9, 2, 8, 44100, 60, 0, 1⟩ :=
  (fixup_samples_rebase 200 ⟨[], [], [⟨"s", 0, 10, 20, 12, 18, 44100, 60, 0, 1⟩]⟩ 1 0
    ⟨"s", 0, 10, 20, 12, 18, 44100, 60, 0, 1⟩ rfl (by decide) (by decide) (by decide)
    (by decide) (by decide) (by decide) (by decide) (by decide)).1

/-! ## Import of zones: ranges and modulators -/

theorem integrate_range_spec (p r : fluid_zone_range_t) :
    (integrate_range p r).keylo = max p.keylo r.keylo ∧
    (integrate_range p r).keyhi = min p.keyhi r.keyhi ∧
    (integrate_range p r).vello = max p.vello r.vello ∧
    (integrate_range p r).velhi = min p.velhi r.velhi ∧
    (integrate_range p r).ignore = r.ignore := by
  obtain ⟨pkl, pkh, pvl, pvh, pi⟩ := p
  obtain ⟨kl, kh, vl, vh, i⟩ := r
  unfold integrate_range
  dsimp only
  by_cases h1 : pkl > kl <;> by_cases h2 : pkh < kh <;> by_cases h3 : pvl > vl <;>
    by_cases h4 : pvh < vh <;>
    refine ⟨?_, ?_, ?_, ?_, ?_⟩ <;>
    simp only [h1, h2, h3, h4, if_true, if_false, max_def, min_def] <;>
    (try split_ifs) <;> (try omega)

theorem zone_import_gen_ignore (zone : fluid_zone_range_t × List fluid_gen_t) (g : SFGen) :
    (zone_import_gen zone g).1.ignore = zone.1.ignore := by
  unfold zone_import_gen
  split_ifs <;> rfl

theorem zone_import_gens_ignore (range : fluid_zone_range_t) (gen : List fluid_gen_t)
    (sfgens : List SFGen) :
    (zone_import_gens range gen sfgens).1.ignore = range.ignore := by
  unfold zone_import_gens
  have key : ∀ (zone : fluid_zone_range_t × List fluid_gen_t),
      (sfgens.foldl zone_import_gen zone).1.ignore = zone.1.ignore := by
    induction sfgens with
    | nil => intro zone; rfl
    | cons g rest ih =>
      intro zone
      rw [List.foldl_cons, ih, zone_import_gen_ignore]
  exact key (range, gen)

theorem zone_import_gen_ordered (zone : fluid_zone_range_t × List fluid_gen_t) (g : SFGen)
    (hk : zone.1.keylo ≤ zone.1.keyhi) (hv : zone.1.vello ≤ zone.1.velhi)
    (hg : g.id = GEN_KEYRANGE ∨ g.id = GEN_VELRANGE → g.amount.range_lo ≤ g.amount.range_hi) :
    (zone_import_gen zone g).1.keylo ≤ (zone_import_gen zone g).1.keyhi ∧
    (zone_import_gen zone g).1.vello ≤ (zone_import_gen zone g).1.velhi := by
  unfold zone_import_gen
  by_cases h1 : g.id = GEN_KEYRANGE
  · simp only [if_pos h1]
    exact ⟨by exact_mod_cast hg (Or.inl h1), hv⟩
  · simp only [if_neg h1]
    by_cases h2 : g.id = GEN_VELRANGE
    · simp only [if_pos h2]
      exact ⟨hk, by exact_mod_cast hg (Or.inr h2)⟩
    · simp only [if_neg h2]
      split_ifs <;> exact ⟨hk, hv⟩

/-- The generator loop keeps a range ordered when the KeyRange and VelRange
generators it reads are ordered. -/
theorem zone_import_gens_ordered (sfgens : List SFGen)
    (range : fluid_zone_range_t) (gen : List fluid_gen_t)
    (hk : range.keylo ≤ range.keyhi) (hv : range.vello ≤ range.velhi)
    (hall : ∀ g ∈ sfgens, g.id = GEN_KEYRANGE ∨ g.id = GEN_VELRANGE →
        g.amount.range_lo ≤ g.amount.range_hi) :
    (zone_import_gens range gen sfgens).1.keylo ≤ (zone_import_gens range gen sfgens).1.keyhi ∧
    (zone_import_gens range gen sfgens).1.vello ≤ (zone_import_gens range gen sfgens).1.velhi := by
  unfold zone_import_gens
  have key : ∀ (zone : fluid_zone_range_t × List fluid_gen_t),
      zone.1.keylo ≤ zone.1.keyhi → zone.1.vello ≤ zone.1.velhi →
      (sfgens.foldl zone_import_gen zone).1.keylo ≤ (sfgens.foldl zone_import_gen zone).1.keyhi ∧
      (sfgens.foldl zone_import_gen zone).1.vello ≤
        (sfgens.foldl zone_import_gen zone).1.velhi := by
    induction sfgens with
    | nil => intro zone h1 h2; exact ⟨h1, h2⟩
    | cons g rest ih =>
      intro zone h1 h2
      rw [List.foldl_cons]
      have hstep := zone_import_gen_ordered zone g h1 h2 (hall g (List.mem_cons_self _ _))
      exact ih (fun x hx => hall x (List.mem_cons_of_mem _ hx)) _ hstep.1 hstep.2
  exact key (range, gen) hk hv

theorem zone_import_mods_succ :
    ∀ (mods : List SFMod) (zone_mod : List fluid_mod_t) (count : Nat),
      zone_import_mods zone_mod mods (count + 1) = zone_mod ++ mods.map import_mod := by
  intro mods
  induction mods with
  | nil => intro zm c; simp [zone_import_mods]
  | cons m rest ih =>
    intro zm c
    simp only [zone_import_mods, Nat.add_one_ne_zero, if_false, ih, List.map_cons,
      List.append_assoc, List.singleton_append]

/-- The modulator loop started with `count = 0`: the zone's list becomes the
list of the imported modulators, in the order of the records. -/
theorem zone_import_mods_zero (mods : List SFMod) (zone_mod : List fluid_mod_t) :
    zone_import_mods zone_mod mods 0 =
      if mods = [] then zone_mod else mods.map import_mod := by
  cases mods with
  | nil => simp [zone_import_mods]
  | cons m rest =>
    simp only [zone_import_mods, if_true, zone_import_mods_succ]
    simp

theorem source_type_eq (src : Nat) : (src >>> 10) &&& 63 = src / 1024 % 64 := by
  have h := Nat.and_pow_two_sub_one_eq_mod (src >>> 10) 6
  rw [Nat.shiftRight_eq_div_pow] at h ⊢
  simpa using h

theorem fluid_inst_zone_import_sfont_range (preset_zone : fluid_preset_zone_t)
    (zone : fluid_inst_zone_t) (sfzone : SFInstZone) (sf_sample : List SFSample)
    (sfont_sample : List fluid_sample_t) :
    (fluid_inst_zone_import_sfont preset_zone zone sfzone sf_sample sfont_sample).range =
      integrate_range preset_zone.range (zone_import_gens zone.range zone.gen sfzone.gen).1 :=
  rfl

theorem fluid_inst_zone_import_sfont_mod (preset_zone : fluid_preset_zone_t)
    (zone : fluid_inst_zone_t) (sfzone : SFInstZone) (sf_sample : List SFSample)
    (sfont_sample : List fluid_sample_t) :
    (fluid_inst_zone_import_sfont preset_zone zone sfzone sf_sample sfont_sample).mod =
      zone_import_mods zone.mod sfzone.mod 0 :=
  rfl

theorem fluid_preset_zone_import_sfont_range (zone : fluid_preset_zone_t)
    (sfzone : SFPresetZone) (sf : SFData) (sfont_sample : List fluid_sample_t) :
    (fluid_preset_zone_import_sfont zone sfzone sf sfont_sample).range =
      (zone_import_gens zone.range zone.gen sfzone.gen).1 := by
  unfold fluid_preset_zone_import_sfont
  dsimp only
  split <;> rfl

theorem fluid_preset_zone_import_sfont_mod (zone : fluid_preset_zone_t)
    (sfzone : SFPresetZone) (sf : SFData) (sfont_sample : List fluid_sample_t) :
    (fluid_preset_zone_import_sfont zone sfzone sf sfont_sample).mod =
      zone_import_mods zone.mod sfzone.mod 0 := by
  unfold fluid_preset_zone_import_sfont
  dsimp only
  split <;> rfl

theorem range_contains_integrate (p r : fluid_zone_range_t) (key vel : Int) :
    range_contains (integrate_range p r) key vel ↔
      range_contains p key vel ∧ range_contains r key vel := by
  obtain ⟨h1, h2, h3, h4, _⟩ := integrate_range_spec p r
  unfold range_contains
  rw [h1, h2, h3, h4]
  simp only [ge_iff_le, max_le_iff, le_min_iff]
  tauto

/-- C18: after `fluid_inst_zone_import_sfont` the instrument zone's range is
the intersection of the preset zone's range with the zone's own range (the
range the zone's generators gave it): `keylo` is the larger of the two
`keylo`, `keyhi` the smaller of the two `keyhi`, likewise for velocity; so the
stored range contains a key and velocity exactly when both ranges do, and
`fluid_zone_inside_range` answers for both at once. Preset zone keys [36,72]
and instrument zone keys [48,96] give [48,72], and key 40 is inside the preset
zone's range but not inside the imported zone's. -/
theorem inst_zone_import_range_intersection :
    (∀ (preset_zone : fluid_preset_zone_t) (zone : fluid_inst_zone_t) (sfzone : SFInstZone)
        (sf_sample : List SFSample) (sfont_sample : List fluid_sample_t),
      let own := (zone_import_gens zone.range zone.gen sfzone.gen).1
      let r := (fluid_inst_zone_import_sfont preset_zone zone sfzone sf_sample sfont_sample).range
      r.keylo = max preset_zone.range.keylo own.keylo ∧
      r.keyhi = min preset_zone.range.keyhi own.keyhi ∧
      r.vello = max preset_zone.range.vello own.vello ∧
      r.velhi = min preset_zone.range.velhi own.velhi ∧
      ∀ key vel : Int,
        (range_contains r key vel ↔
          range_contains preset_zone.range key vel ∧ range_contains own key vel) ∧
        ((fluid_zone_inside_range r key vel).2 = true ↔
          zone.range.ignore = false ∧
            range_contains preset_zone.range key vel ∧ range_contains own key vel)) ∧
    (let preset_zone := fluid_preset_zone_import_sfont (new_fluid_preset_zone "p")
        ⟨[⟨GEN_KEYRANGE, .range 36 72⟩], [], 0, 1, 0, 0, none⟩ ⟨[], [], []⟩ []
     let zone := fluid_inst_zone_import_sfont preset_zone (new_fluid_inst_zone "z")
        ⟨[⟨GEN_KEYRANGE, .range 48 96⟩], [], 0, 1, 0, 0, none⟩ [] []
     (preset_zone.range.keylo, preset_zone.range.keyhi) = (36, 72) ∧
     (zone.range.keylo, zone.range.keyhi, zone.range.vello, zone.range.velhi) =
       (48, 72, 0, 128) ∧
     (fluid_zone_inside_range preset_zone.range 40 100).2 = true ∧
     (fluid_zone_inside_range zone.range 40 100).2 = false ∧
     (fluid_zone_inside_range zone.range 60 100).2 = true) := by
  refine ⟨?_, ?_⟩
  · intro preset_zone zone sfzone sf_sample sfont_sample
    simp only [fluid_inst_zone_import_sfont_range]
    obtain ⟨h1, h2, h3, h4, h5⟩ :=
      integrate_range_spec preset_zone.range (zone_import_gens zone.range zone.gen sfzone.gen).1
    refine ⟨h1, h2, h3, h4, fun key vel => ⟨range_contains_integrate _ _ key vel, ?_⟩⟩
    unfold fluid_zone_inside_range
    simp only [Bool.and_eq_true, Bool.not_eq_true', decide_eq_true_eq, h5,
      zone_import_gens_ignore, range_contains_integrate]
  · decide

/-- C19 (counterexample): the import copies a KeyRange generator's two bytes
as they are, so the generator (72, 36) gives a preset zone with
`keylo = 72 > keyhi = 36`; and an instrument zone with keys [60,72] under a
preset zone with keys [36,48], both ordered, gets `keylo = 60 > keyhi = 48`. -/
theorem import_keeps_unordered_range :
    (let zone := fluid_preset_zone_import_sfont (new_fluid_preset_zone "p")
        ⟨[⟨GEN_KEYRANGE, .range 72 36⟩], [], 0, 1, 0, 0, none⟩ ⟨[], [], []⟩ []
     (zone.range.keylo, zone.range.keyhi) = (72, 36) ∧ ¬ zone.range.keylo ≤ zone.range.keyhi) ∧
    (let preset_zone := fluid_preset_zone_import_sfont (new_fluid_preset_zone "p")
        ⟨[⟨GEN_KEYRANGE, .range 36 48⟩], [], 0, 1, 0, 0, none⟩ ⟨[], [], []⟩ []
     let zone := fluid_inst_zone_import_sfont preset_zone (new_fluid_inst_zone "z")
        ⟨[⟨GEN_KEYRANGE, .range 60 72⟩], [], 0, 1, 0, 0, none⟩ [] []
     (preset_zone.range.keylo, preset_zone.range.keyhi) = (36, 48) ∧
     (zone.range.keylo, zone.range.keyhi) = (60, 48) ∧ ¬ zone.range.keylo ≤ zone.range.keyhi) := by
  decide

/-- C19: a preset zone whose range was ordered before the import (as the range
[0,128] of a new zone is) has `keylo ≤ keyhi` and `vello ≤ velhi` after
`fluid_preset_zone_import_sfont` when every KeyRange and VelRange generator of
the parsed zone has `lo ≤ hi`; and after `fluid_inst_zone_import_sfont` an
instrument zone has `keylo ≤ keyhi` exactly when the preset zone's key range
and the zone's own key range are both ordered and overlap, likewise for
velocity. -/
theorem import_range_ordered (zone : fluid_preset_zone_t) (sfzone : SFPresetZone)
    (sf : SFData) (sfont_sample : List fluid_sample_t)
    (hk : zone.range.keylo ≤ zone.range.keyhi) (hv : zone.range.vello ≤ zone.range.velhi)
    (hall : ∀ g ∈ sfzone.gen, g.id = GEN_KEYRANGE ∨ g.id = GEN_VELRANGE →
      g.amount.range_lo ≤ g.amount.range_hi) :
    ((fluid_preset_zone_import_sfont zone sfzone sf sfont_sample).range.keylo ≤
        (fluid_preset_zone_import_sfont zone sfzone sf sfont_sample).range.keyhi ∧
      (fluid_preset_zone_import_sfont zone sfzone sf sfont_sample).range.vello ≤
        (fluid_preset_zone_import_sfont zone sfzone sf sfont_sample).range.velhi) ∧
    ∀ (preset_zone : fluid_preset_zone_t) (izone : fluid_inst_zone_t) (isfzone : SFInstZone)
        (sf_sample : List SFSample),
      let own := (zone_import_gens izone.range izone.gen isfzone.gen).1
      let r := (fluid_inst_zone_import_sfont preset_zone izone isfzone sf_sample
        sfont_sample).range
      (r.keylo ≤ r.keyhi ↔
        preset_zone.range.keylo ≤ preset_zone.range.keyhi ∧ own.keylo ≤ own.keyhi ∧
          preset_zone.range.keylo ≤ own.keyhi ∧ own.keylo ≤ preset_zone.range.keyhi) ∧
      (r.vello ≤ r.velhi ↔
        preset_zone.range.vello ≤ preset_zone.range.velhi ∧ own.vello ≤ own.velhi ∧
          preset_zone.range.vello ≤ own.velhi ∧ own.vello ≤ preset_zone.range.velhi) := by
  refine ⟨?_, ?_⟩
  · rw [fluid_preset_zone_import_sfont_range]
    exact zone_import_gens_ordered sfzone.gen zone.range zone.gen hk hv hall
  · intro preset_zone izone isfzone sf_sample
    simp only [fluid_inst_zone_import_sfont_range]
    obtain ⟨h1, h2, h3, h4, _⟩ :=
      integrate_range_spec preset_zone.range
        (zone_import_gens izone.range izone.gen isfzone.gen).1
    rw [h1, h2, h3, h4]
    simp only [max_le_iff, le_min_iff]
    constructor <;> tauto

/-- Witness of C19 on a new preset zone with the generators KeyRange (36, 72),
Pan and VelRange (10, 100). -/
theorem import_range_ordered_witness :
    ((fluid_preset_zone_import_sfont (new_fluid_preset_zone "p")
        ⟨[⟨GEN_KEYRANGE, .range 36 72⟩, ⟨Gen_Pan, .sword 5⟩, ⟨GEN_VELRANGE, .range 10 100⟩],
          [], 0, 3, 0, 0, none⟩ ⟨[], [], []⟩ []).range.keylo ≤
        (fluid_preset_zone_import_sfont (new_fluid_preset_zone "p")
        ⟨[⟨GEN_KEYRANGE, .range 36 72⟩, ⟨Gen_Pan, .sword 5⟩, ⟨GEN_VELRANGE, .range 10 100⟩],
          [], 0, 3, 0, 0, none⟩ ⟨[], [], []⟩ []).range.keyhi ∧
      (fluid_preset_zone_import_sfont (new_fluid_preset_zone "p")
        ⟨[⟨GEN_KEYRANGE, .range 36 72⟩, ⟨Gen_Pan, .sword 5⟩, ⟨GEN_VELRANGE, .range 10 100⟩],
          [], 0, 3, 0, 0, none⟩ ⟨[], [], []⟩ []).range.vello ≤
        (fluid_preset_zone_import_sfont (new_fluid_preset_zone "p")
        ⟨[⟨GEN_KEYRANGE, .range 36 72⟩, ⟨Gen_Pan, .sword 5⟩, ⟨GEN_VELRANGE, .range 10 100⟩],
          [], 0, 3, 0, 0, none⟩ ⟨[], [], []⟩ []).range.velhi) ∧
    (fluid_preset_zone_import_sfont (new_fluid_preset_zone "p")
        ⟨[⟨GEN_KEYRANGE, .range 36 72⟩, ⟨Gen_Pan, .sword 5⟩, ⟨GEN_VELRANGE, .range 10 100⟩],
          [], 0, 3, 0, 0, none⟩ ⟨[], [], []⟩ []).range.keyhi = 72 :=
  ⟨(import_range_ordered (new_fluid_preset_zone "p")
      ⟨[⟨GEN_KEYRANGE, .range 36 72⟩, ⟨Gen_Pan, .sword 5⟩, ⟨GEN_VELRANGE, .range 10 100⟩],
        [], 0, 3, 0, 0, none⟩ ⟨[], [], []⟩ [] (by decide) (by decide) (by decide)).1,
    by decide⟩

/-- C20: the imported modulator's amount is the record's amount when the type
of `src` (bits 10 to 15) is at most 3, the type of `amtsrc` is at most 3 and
`trans` is 0, and 0 otherwise; and the import of a preset zone or of an
instrument zone with modulator records leaves in the zone's list one modulator
for every record, disabled or not, in the order of the records (for a new zone,
whose list is empty, also when there is no record). Of four records with
amounts 100, 50, 7 and 9, where the second has type 4 in `src`, the third
`trans = 1` and the fourth type 5 in `amtsrc`, all four are kept in order with
the amounts 100, 0, 0 and 0. -/
theorem import_mod_amount_and_order :
    (∀ mod_src : SFMod,
      (import_mod mod_src).amount =
        if mod_src.src / 1024 % 64 ≤ 3 ∧ mod_src.amtsrc / 1024 % 64 ≤ 3 ∧ mod_src.trans = 0
        then mod_src.amount else 0) ∧
    (∀ (zone : fluid_preset_zone_t) (sfzone : SFPresetZone) (sf : SFData)
        (sfont_sample : List fluid_sample_t),
      (fluid_preset_zone_import_sfont zone sfzone sf sfont_sample).mod =
        if sfzone.mod = [] then zone.mod else sfzone.mod.map import_mod) ∧
    (∀ (preset_zone : fluid_preset_zone_t) (zone : fluid_inst_zone_t) (sfzone : SFInstZone)
        (sf_sample : List SFSample) (sfont_sample : List fluid_sample_t),
      (fluid_inst_zone_import_sfont preset_zone zone sfzone sf_sample sfont_sample).mod =
        if sfzone.mod = [] then zone.mod else sfzone.mod.map import_mod) ∧
    (∀ (name : String) (sfzone : SFPresetZone) (sf : SFData)
        (sfont_sample : List fluid_sample_t),
      (fluid_preset_zone_import_sfont (new_fluid_preset_zone name) sfzone sf sfont_sample).mod =
        sfzone.mod.map import_mod) ∧
    (∀ (name : String) (preset_zone : fluid_preset_zone_t) (sfzone : SFInstZone)
        (sf_sample : List SFSample) (sfont_sample : List fluid_sample_t),
      (fluid_inst_zone_import_sfont preset_zone (new_fluid_inst_zone name) sfzone sf_sample
        sfont_sample).mod = sfzone.mod.map import_mod) ∧
    ((fluid_inst_zone_import_sfont (new_fluid_preset_zone "p") (new_fluid_inst_zone "z")
        ⟨[], [⟨2, 48, 100, 0, 0⟩, ⟨4096 + 2, 48, 50, 0, 0⟩, ⟨2, 48, 7, 0, 1⟩,
          ⟨2, 48, 9, 5120, 0⟩], 0, 0, 0, 4, none⟩ [] []).mod.map
        (fun m => (m.src1, m.amount)) = [(2, 100), (2, 0), (2, 0), (2, 0)]) := by
  refine ⟨?_, ?_, ?_, ?_, ?_, by decide⟩
  · intro mod_src
    unfold import_mod
    simp only [source_type_eq]
    by_cases h1 : mod_src.src / 1024 % 64 ≤ 3 <;>
      by_cases h2 : mod_src.amtsrc / 1024 % 64 ≤ 3 <;>
      by_cases h3 : mod_src.trans = 0 <;>
      simp [h1, h2, h3]
  · intro zone sfzone sf sfont_sample
    rw [fluid_preset_zone_import_sfont_mod, zone_import_mods_zero]
  · intro preset_zone zone sfzone sf_sample sfont_sample
    rw [fluid_inst_zone_import_sfont_mod, zone_import_mods_zero]
  · intro name sfzone sf sfont_sample
    rw [fluid_preset_zone_import_sfont_mod, zone_import_mods_zero]
    by_cases h : sfzone.mod = []
    · simp [h, new_fluid_preset_zone]
    · simp [h]
  · intro name preset_zone sfzone sf_sample sfont_sample
    rw [fluid_inst_zone_import_sfont_mod, zone_import_mods_zero]
    by_cases h : sfzone.mod = []
    · simp [h, new_fluid_inst_zone]
    · simp [h]

/-! ## Header loaders: differencing of the bag indices -/

theorem take_drop_succ {α : Type} (l : List α) (k n : Nat) (r : α) (h : l.get? k = some r) :
    (l.drop k).take (n + 1) = r :: (l.drop (k + 1)).take n := by
  have hk : k < l.length := by
    by_contra hc
    rw [List.get?_eq_none.mpr (by omega)] at h
    cases h
  rw [List.drop_eq_getElem_cons hk, List.take_succ_cons]
  rw [List.get?_eq_getElem?, List.getElem?_eq_getElem hk] at h
  cases h
  rfl

theorem get?_append_length {α : Type} (pre : List α) (a : α) (rest : List α) :
    (pre ++ a :: rest).get? pre.length = some a := by
  rw [List.get?_eq_getElem?, List.getElem?_append_right (Nat.le_refl _)]
  simp

theorem getLast?_getD_cons {α : Type} (a d : α) (l : List α) :
    (a :: l).getLast?.getD d = l.getLast?.getD a := by
  cases l with
  | nil => rfl
  | cons b t =>
    rw [List.getLast?_cons_cons]
    cases h : (b :: t).getLast? with
    | none => simp at h
    | some x => rfl

/-- The loop of `load_preset_headers` once a first header is stored: it
succeeds when the records are there and their bag indices do not decrease,
and stores the differences. -/
theorem load_preset_headers_loop_prev (phdr : List PhdrRecord) :
    ∀ (n k : Nat) (pre : List SFPreset) (r : PhdrRecord),
      load_preset_headers_loop phdr n k
          (pre ++ [⟨r.name, r.prenum, r.bank, r.pbag_idx, 0, []⟩]) (some pre.length) =
        if n ≤ phdr.length - k ∧
            List.Chain (· ≤ ·) r.pbag_idx (((phdr.drop k).take n).map (fun x => x.pbag_idx)) then
          some (pre ++
              List.zipWith
                (fun a b => (⟨a.name, a.prenum, a.bank, a.pbag_idx,
                  b.pbag_idx - a.pbag_idx, []⟩ : SFPreset))
                (r :: (phdr.drop k).take n) ((phdr.drop k).take n) ++
              [⟨(((phdr.drop k).take n).getLastD r).name,
                (((phdr.drop k).take n).getLastD r).prenum,
                (((phdr.drop k).take n).getLastD r).bank,
                (((phdr.drop k).take n).getLastD r).pbag_idx, 0, []⟩],
            some (pre.length + n), k + n)
        else none := by
  intro n
  induction n with
  | zero =>
    intro k pre r
    simp [load_preset_headers_loop]
  | succ n ih =>
    intro k pre r
    unfold load_preset_headers_loop
    cases hk : phdr.get? k with
    | none =>
      have hlen : phdr.length ≤ k := List.get?_eq_none.mp hk
      have : ¬ (n + 1 ≤ phdr.length - k) := by omega
      simp [this]
    | some rec =>
      have hklt : k < phdr.length := by
        by_contra hc
        rw [List.get?_eq_none.mpr (by omega)] at hk
        cases hk
      rw [take_drop_succ phdr k n rec hk]
      simp only [List.append_assoc, List.singleton_append, get?_append_length]
      by_cases hlt : (rec.pbag_idx : Int) - (r.pbag_idx : Int) < 0
      · have hnle : ¬ r.pbag_idx ≤ rec.pbag_idx := by omega
        simp [hlt, hnle]
      · have hle : r.pbag_idx ≤ rec.pbag_idx := by omega
        simp only [hlt, if_false]
        have hnat : ((rec.pbag_idx : Int) - (r.pbag_idx : Int)).toNat =
            rec.pbag_idx - r.pbag_idx := by omega
        have hset : (pre ++ [(⟨r.name, r.prenum, r.bank, r.pbag_idx, 0, []⟩ : SFPreset),
              ⟨rec.name, rec.prenum, rec.bank, rec.pbag_idx, 0, []⟩]).set pre.length
            ⟨r.name, r.prenum, r.bank, r.pbag_idx,
              ((rec.pbag_idx : Int) - (r.pbag_idx : Int)).toNat, []⟩ =
            (pre ++ [(⟨r.name, r.prenum, r.bank, r.pbag_idx,
              rec.pbag_idx - r.pbag_idx, []⟩ : SFPreset)]) ++
              [⟨rec.name, rec.prenum, rec.bank, rec.pbag_idx, 0, []⟩] := by
          simp [hnat]
        have hlen : (pre ++ [(⟨r.name, r.prenum, r.bank, r.pbag_idx, 0, []⟩ : SFPreset),
              ⟨rec.name, rec.prenum, rec.bank, rec.pbag_idx, 0, []⟩]).length - 1 =
            (pre ++ [(⟨r.name, r.prenum, r.bank, r.pbag_idx,
              rec.pbag_idx - r.pbag_idx, []⟩ : SFPreset)]).length := by
          simp
        rw [hset, hlen, ih (k + 1)]
        by_cases hc : n ≤ phdr.length - (k + 1) ∧
            List.Chain (· ≤ ·) rec.pbag_idx
              (((phdr.drop (k + 1)).take n).map (fun x => x.pbag_idx))
        · have hc2 : n + 1 ≤ phdr.length - k ∧
              List.Chain (· ≤ ·) r.pbag_idx
                ((rec :: (phdr.drop (k + 1)).take n).map (fun x => x.pbag_idx)) := by
            refine ⟨by omega, ?_⟩
            simp only [List.map_cons, List.chain_cons]
            exact ⟨hle, hc.2⟩
          rw [if_pos hc, if_pos hc2]
          simp [getLast?_getD_cons, Nat.add_assoc, Nat.add_comm 1 n]
        · have hc2 : ¬ (n + 1 ≤ phdr.length - k ∧
              List.Chain (· ≤ ·) r.pbag_idx
                ((rec :: (phdr.drop (k + 1)).take n).map (fun x => x.pbag_idx))) := by
            intro h
            apply hc
            refine ⟨by omega, ?_⟩
            have := h.2
            simp only [List.map_cons, List.chain_cons] at this
            exact this.2
          rw [if_neg hc, if_neg hc2]

theorem zipWith_snoc_last {α β : Type} (f : α → α → β) :
    ∀ (l : List α) (a z : α),
      List.zipWith f (a :: (l ++ [z])) (l ++ [z]) =
        List.zipWith f (a :: l) l ++ [f (l.getLast?.getD a) z] := by
  intro l
  induction l with
  | nil => intro a z; rfl
  | cons b t ih =>
    intro a z
    simp only [List.cons_append, List.zipWith_cons_cons, getLast?_getD_cons]
    rw [ih b z]

theorem chain_le_snoc {α : Type} (g : α → Nat) :
    ∀ (l : List α) (a z : α),
      List.Chain (· ≤ ·) (g a) ((l ++ [z]).map g) ↔
        List.Chain (· ≤ ·) (g a) (l.map g) ∧ g (l.getLast?.getD a) ≤ g z := by
  intro l
  induction l with
  | nil => intro a z; simp
  | cons b t ih =>
    intro a z
    simp only [List.cons_append, List.map_cons, List.chain_cons, getLast?_getD_cons]
    rw [ih b z]
    tauto

theorem take_drop_snoc {α : Type} (l : List α) (k n : Nat) (r : α) (h : l.get? (k + n) = some r) :
    (l.drop k).take (n + 1) = (l.drop k).take n ++ [r] := by
  rw [List.take_succ]
  congr 1
  rw [List.getElem?_drop, ← List.get?_eq_getElem?, h]
  rfl

theorem length_take_drop {α : Type} (l : List α) (k n : Nat) (h : n ≤ l.length - k) :
    ((l.drop k).take n).length = n := by
  simp only [List.length_take, List.length_drop]
  omega

/-- Closed form of `load_preset_headers`. -/
theorem load_preset_headers_eq (sf : SFData) (phdr : List PhdrRecord) (start_idx n : Nat) :
    load_preset_headers sf phdr start_idx n =
      if n = 0 then some sf
      else if n + 1 ≤ phdr.length - start_idx ∧
          List.Chain' (· ≤ ·) (((phdr.drop start_idx).take (n + 1)).map (fun x => x.pbag_idx)) then
        some { sf with
          preset := sf.preset ++
            List.zipWith
              (fun a b => (⟨a.name, a.prenum, a.bank, a.pbag_idx,
                b.pbag_idx - a.pbag_idx, []⟩ : SFPreset))
              ((phdr.drop start_idx).take (n + 1)) ((phdr.drop start_idx).take (n + 1)).tail }
      else none := by
  cases n with
  | zero =>
    simp [load_preset_headers, load_preset_headers_loop]
  | succ m =>
    simp only [Nat.add_one_ne_zero, if_false]
    unfold load_preset_headers
    unfold load_preset_headers_loop
    cases h0 : phdr.get? start_idx with
    | none =>
      have hlen : phdr.length ≤ start_idx := List.get?_eq_none.mp h0
      have : ¬ (m + 1 + 1 ≤ phdr.length - start_idx) := by omega
      simp [this]
    | some r0 =>
      have hs : start_idx < phdr.length := by
        by_contra hc
        rw [List.get?_eq_none.mpr (by omega)] at h0
        cases h0
      have hl1 : (sf.preset ++ [(⟨r0.name, r0.prenum, r0.bank, r0.pbag_idx, 0, []⟩ : SFPreset)]).length
          - 1 = sf.preset.length := by simp
      simp only [hl1]
      rw [load_preset_headers_loop_prev phdr m (start_idx + 1) sf.preset r0]
      rw [take_drop_succ phdr start_idx (m + 1) r0 h0]
      by_cases hlen2 : m + 1 + 1 ≤ phdr.length - start_idx
      · have hflt : start_idx + 1 + m < phdr.length := by omega
        have hf : phdr.get? (start_idx + 1 + m) = some (phdr.get ⟨start_idx + 1 + m, hflt⟩) :=
          List.get?_eq_get hflt
        generalize phdr.get ⟨start_idx + 1 + m, hflt⟩ = rf at hf
        rw [take_drop_snoc phdr (start_idx + 1) m rf hf]
        have hm : m ≤ phdr.length - (start_idx + 1) := by omega
        have hch : List.Chain' (· ≤ ·) (List.map (fun x => x.pbag_idx)
              (r0 :: ((phdr.drop (start_idx + 1)).take m ++ [rf]))) ↔
            List.Chain (· ≤ ·) r0.pbag_idx
              (((phdr.drop (start_idx + 1)).take m).map (fun x => x.pbag_idx)) ∧
            (((phdr.drop (start_idx + 1)).take m).getLast?.getD r0).pbag_idx ≤ rf.pbag_idx := by
          rw [List.map_cons]
          exact chain_le_snoc (fun x => x.pbag_idx) _ r0 rf
        simp only [List.tail_cons]
        rw [zipWith_snoc_last]
        by_cases hc : List.Chain (· ≤ ·) r0.pbag_idx
            (((phdr.drop (start_idx + 1)).take m).map (fun x => x.pbag_idx))
        · rw [if_pos ⟨hm, hc⟩]
          simp only [List.getLastD_eq_getLast?]
          have hzl : (List.zipWith
                (fun a b => (⟨a.name, a.prenum, a.bank, a.pbag_idx,
                  b.pbag_idx - a.pbag_idx, []⟩ : SFPreset))
                (r0 :: (phdr.drop (start_idx + 1)).take m)
                ((phdr.drop (start_idx + 1)).take m)).length = m := by
            simp only [List.length_zipWith, List.length_cons,
              length_take_drop phdr (start_idx + 1) m hm]
            omega
          have hget : ∀ (x : SFPreset), (sf.preset ++
                List.zipWith
                  (fun a b => (⟨a.name, a.prenum, a.bank, a.pbag_idx,
                    b.pbag_idx - a.pbag_idx, []⟩ : SFPreset))
                  (r0 :: (phdr.drop (start_idx + 1)).take m)
                  ((phdr.drop (start_idx + 1)).take m) ++ [x]).get? (sf.preset.length + m) =
                some x := by
            intro x
            rw [List.append_assoc]
            rw [List.get?_eq_getElem?, List.getElem?_append_right (by omega)]
            rw [List.getElem?_append_right (by omega)]
            simp [hzl]
          have hsetl : ∀ (x y : SFPreset), (sf.preset ++
                List.zipWith
                  (fun a b => (⟨a.name, a.prenum, a.bank, a.pbag_idx,
                    b.pbag_idx - a.pbag_idx, []⟩ : SFPreset))
                  (r0 :: (phdr.drop (start_idx + 1)).take m)
                  ((phdr.drop (start_idx + 1)).take m) ++ [x]).set (sf.preset.length + m) y =
                sf.preset ++
                (List.zipWith
                  (fun a b => (⟨a.name, a.prenum, a.bank, a.pbag_idx,
                    b.pbag_idx - a.pbag_idx, []⟩ : SFPreset))
                  (r0 :: (phdr.drop (start_idx + 1)).take m)
                  ((phdr.drop (start_idx + 1)).take m) ++ [y]) := by
            intro x y
            rw [List.append_assoc]
            rw [List.set_append_right _ _ (by omega)]
            rw [List.set_append_right _ _ (by omega)]
            simp [hzl]
          simp only [hget, hf, hsetl]
          by_cases hlt : (rf.pbag_idx : Int) -
              ((((phdr.drop (start_idx + 1)).take m).getLast?.getD r0).pbag_idx : Int) < 0
          · have hn : ¬ (m + 1 + 1 ≤ phdr.length - start_idx ∧
                List.Chain' (· ≤ ·) (List.map (fun x => x.pbag_idx)
                  (r0 :: ((phdr.drop (start_idx + 1)).take m ++ [rf])))) := by
              rw [hch]
              intro h
              omega
            rw [if_pos hlt, if_neg hn]
          · have hp : m + 1 + 1 ≤ phdr.length - start_idx ∧
                List.Chain' (· ≤ ·) (List.map (fun x => x.pbag_idx)
                  (r0 :: ((phdr.drop (start_idx + 1)).take m ++ [rf]))) :=
              ⟨hlen2, hch.mpr ⟨hc, by omega⟩⟩
            have hnat : ((rf.pbag_idx : Int) -
                ((((phdr.drop (start_idx + 1)).take m).getLast?.getD r0).pbag_idx : Int)).toNat =
                rf.pbag_idx -
                  (((phdr.drop (start_idx + 1)).take m).getLast?.getD r0).pbag_idx := by
              omega
            rw [if_neg hlt, if_pos hp, hnat]
        · have hn : ¬ (m + 1 + 1 ≤ phdr.length - start_idx ∧
              List.Chain' (· ≤ ·) (List.map (fun x => x.pbag_idx)
                (r0 :: ((phdr.drop (start_idx + 1)).take m ++ [rf])))) := by
            rw [hch]
            intro h
            exact hc h.2.1
          have hn2 : ¬ (m ≤ phdr.length - (start_idx + 1) ∧
              List.Chain (· ≤ ·) r0.pbag_idx
                (((phdr.drop (start_idx + 1)).take m).map (fun x => x.pbag_idx))) :=
            fun h => hc h.2
          rw [if_neg hn2, if_neg hn]
      · have hn : ¬ (m + 1 + 1 ≤ phdr.length - start_idx ∧
            List.Chain' (· ≤ ·) (List.map (fun x => x.pbag_idx)
              (r0 :: (phdr.drop (start_idx + 1)).take (m + 1)))) := fun h => hlen2 h.1
        rw [if_neg hn]
        by_cases hc : m ≤ phdr.length - (start_idx + 1) ∧
            List.Chain (· ≤ ·) r0.pbag_idx
              (((phdr.drop (start_idx + 1)).take m).map (fun x => x.pbag_idx))
        · rw [if_pos hc]
          have hf : phdr.get? (start_idx + 1 + m) = none :=
            List.get?_eq_none.mpr (by omega)
          simp only [hf]
        · rw [if_neg hc]

theorem get?_enumFrom_zero {α : Type} (l : List α) (k : Nat) :
    (l.enumFrom 0).get? k = (l.get? k).map (fun a => (k, a)) := by
  rw [List.get?_eq_getElem?, List.getElem?_enumFrom, List.get?_eq_getElem?]
  simp

/-- The loop of `load_inst_headers` once a first header is stored; the records
are taken with their numbers. -/
theorem load_inst_headers_loop_prev (ihdr : List IhdrRecord) :
    ∀ (n k : Nat) (pre : List SFInst) (r : Nat × IhdrRecord),
      load_inst_headers_loop ihdr n k
          (pre ++ [⟨r.2.name, r.1, r.2.ibag_idx, 0, []⟩]) (some pre.length) =
        if n ≤ ihdr.length - k ∧
            List.Chain (· ≤ ·) r.2.ibag_idx
              ((((ihdr.enumFrom 0).drop k).take n).map (fun x => x.2.ibag_idx)) then
          some (pre ++
              List.zipWith
                (fun a b => (⟨a.2.name, a.1, a.2.ibag_idx,
                  b.2.ibag_idx - a.2.ibag_idx, []⟩ : SFInst))
                (r :: ((ihdr.enumFrom 0).drop k).take n) (((ihdr.enumFrom 0).drop k).take n) ++
              [⟨((((ihdr.enumFrom 0).drop k).take n).getLastD r).2.name,
                ((((ihdr.enumFrom 0).drop k).take n).getLastD r).1,
                ((((ihdr.enumFrom 0).drop k).take n).getLastD r).2.ibag_idx, 0, []⟩],
            some (pre.length + n), k + n)
        else none := by
  intro n
  induction n with
  | zero =>
    intro k pre r
    simp [load_inst_headers_loop]
  | succ n ih =>
    intro k pre r
    unfold load_inst_headers_loop
    cases hk : ihdr.get? k with
    | none =>
      have hlen : ihdr.length ≤ k := List.get?_eq_none.mp hk
      have : ¬ (n + 1 ≤ ihdr.length - k) := by omega
      simp [this]
    | some rec =>
      have hklt : k < ihdr.length := by
        by_contra hc
        rw [List.get?_eq_none.mpr (by omega)] at hk
        cases hk
      have hke : (ihdr.enumFrom 0).get? k = some (k, rec) := by
        rw [get?_enumFrom_zero, hk]
        rfl
      rw [take_drop_succ (ihdr.enumFrom 0) k n (k, rec) hke]
      simp only [List.append_assoc, List.singleton_append, get?_append_length]
      by_cases hlt : (rec.ibag_idx : Int) - (r.2.ibag_idx : Int) < 0
      · have hnle : ¬ r.2.ibag_idx ≤ rec.ibag_idx := by omega
        simp [hlt, hnle]
      · have hle : r.2.ibag_idx ≤ rec.ibag_idx := by omega
        simp only [hlt, if_false]
        have hnat : ((rec.ibag_idx : Int) - (r.2.ibag_idx : Int)).toNat =
            rec.ibag_idx - r.2.ibag_idx := by omega
        have hset : (pre ++ [(⟨r.2.name, r.1, r.2.ibag_idx, 0, []⟩ : SFInst),
              ⟨rec.name, k, rec.ibag_idx, 0, []⟩]).set pre.length
            ⟨r.2.name, r.1, r.2.ibag_idx,
              ((rec.ibag_idx : Int) - (r.2.ibag_idx : Int)).toNat, []⟩ =
            (pre ++ [(⟨r.2.name, r.1, r.2.ibag_idx,
              rec.ibag_idx - r.2.ibag_idx, []⟩ : SFInst)]) ++
              [⟨(k, rec).2.name, (k, rec).1, (k, rec).2.ibag_idx, 0, []⟩] := by
          simp [hnat]
        have hlen : (pre ++ [(⟨r.2.name, r.1, r.2.ibag_idx, 0, []⟩ : SFInst),
              ⟨rec.name, k, rec.ibag_idx, 0, []⟩]).length - 1 =
            (pre ++ [(⟨r.2.name, r.1, r.2.ibag_idx,
              rec.ibag_idx - r.2.ibag_idx, []⟩ : SFInst)]).length := by
          simp
        rw [hset, hlen, ih (k + 1) _ (k, rec)]
        by_cases hc : n ≤ ihdr.length - (k + 1) ∧
            List.Chain (· ≤ ·) rec.ibag_idx
              ((((ihdr.enumFrom 0).drop (k + 1)).take n).map (fun x => x.2.ibag_idx))
        · have hc2 : n + 1 ≤ ihdr.length - k ∧
              List.Chain (· ≤ ·) r.2.ibag_idx
                (((k, rec) :: ((ihdr.enumFrom 0).drop (k + 1)).take n).map
                  (fun x => x.2.ibag_idx)) := by
            refine ⟨by omega, ?_⟩
            simp only [List.map_cons, List.chain_cons]
            exact ⟨hle, hc.2⟩
          rw [if_pos hc, if_pos hc2]
          simp [getLast?_getD_cons, Nat.add_assoc, Nat.add_comm 1 n]
        · have hc2 : ¬ (n + 1 ≤ ihdr.length - k ∧
              List.Chain (· ≤ ·) r.2.ibag_idx
                (((k, rec) :: ((ihdr.enumFrom 0).drop (k + 1)).take n).map
                  (fun x => x.2.ibag_idx))) := by
            intro h
            apply hc
            refine ⟨by omega, ?_⟩
            have := h.2
            simp only [List.map_cons, List.chain_cons] at this
            exact this.2
          rw [if_neg hc, if_neg hc2]

/-- Closed form of `load_inst_headers`; the records are taken with their
numbers. -/
theorem load_inst_headers_eq (sf : SFData) (ihdr : List IhdrRecord) (start_idx n : Nat) :
    load_inst_headers sf ihdr start_idx n =
      if n = 0 then some sf
      else if n + 1 ≤ ihdr.length - start_idx ∧
          List.Chain' (· ≤ ·)
            ((((ihdr.enumFrom 0).drop start_idx).take (n + 1)).map (fun x => x.2.ibag_idx)) then
        some { sf with
          inst := sf.inst ++
            List.zipWith
              (fun a b => (⟨a.2.name, a.1, a.2.ibag_idx,
                b.2.ibag_idx - a.2.ibag_idx, []⟩ : SFInst))
              (((ihdr.enumFrom 0).drop start_idx).take (n + 1))
              (((ihdr.enumFrom 0).drop start_idx).take (n + 1)).tail }
      else none := by
  cases n with
  | zero =>
    simp [load_inst_headers, load_inst_headers_loop]
  | succ m =>
    simp only [Nat.add_one_ne_zero, if_false]
    unfold load_inst_headers
    unfold load_inst_headers_loop
    cases h0 : ihdr.get? start_idx with
    | none =>
      have hlen : ihdr.length ≤ start_idx := List.get?_eq_none.mp h0
      have : ¬ (m + 1 + 1 ≤ ihdr.length - start_idx) := by omega
      simp [this]
    | some r0 =>
      have hs : start_idx < ihdr.length := by
        by_contra hc
        rw [List.get?_eq_none.mpr (by omega)] at h0
        cases h0
      have h0e : (ihdr.enumFrom 0).get? start_idx = some (start_idx, r0) := by
        rw [get?_enumFrom_zero, h0]
        rfl
      have hl1 : (sf.inst ++ [(⟨r0.name, start_idx, r0.ibag_idx, 0, []⟩ : SFInst)]).length
          - 1 = sf.inst.length := by simp
      simp only [hl1]
      rw [load_inst_headers_loop_prev ihdr m (start_idx + 1) sf.inst (start_idx, r0)]
      rw [take_drop_succ (ihdr.enumFrom 0) start_idx (m + 1) (start_idx, r0) h0e]
      by_cases hlen2 : m + 1 + 1 ≤ ihdr.length - start_idx
      · have hflt : start_idx + 1 + m < ihdr.length := by omega
        have hf : ihdr.get? (start_idx + 1 + m) = some (ihdr.get ⟨start_idx + 1 + m, hflt⟩) :=
          List.get?_eq_get hflt
        generalize ihdr.get ⟨start_idx + 1 + m, hflt⟩ = rf at hf
        have hfe : (ihdr.enumFrom 0).get? (start_idx + 1 + m) = some (start_idx + 1 + m, rf) := by
          rw [get?_enumFrom_zero, hf]
          rfl
        rw [take_drop_snoc (ihdr.enumFrom 0) (start_idx + 1) m (start_idx + 1 + m, rf) hfe]
        have hm : m ≤ ihdr.length - (start_idx + 1) := by omega
        have hme : m ≤ (ihdr.enumFrom 0).length - (start_idx + 1) := by
          rw [List.enumFrom_length]
          exact hm
        have hch : List.Chain' (· ≤ ·) (List.map (fun x => x.2.ibag_idx)
              ((start_idx, r0) :: (((ihdr.enumFrom 0).drop (start_idx + 1)).take m ++
                [(start_idx + 1 + m, rf)]))) ↔
            List.Chain (· ≤ ·) r0.ibag_idx
              ((((ihdr.enumFrom 0).drop (start_idx + 1)).take m).map (fun x => x.2.ibag_idx)) ∧
            ((((ihdr.enumFrom 0).drop (start_idx + 1)).take m).getLast?.getD
              (start_idx, r0)).2.ibag_idx ≤ rf.ibag_idx := by
          rw [List.map_cons]
          exact chain_le_snoc (fun x : Nat × IhdrRecord => x.2.ibag_idx) _ (start_idx, r0)
            (start_idx + 1 + m, rf)
        simp only [List.tail_cons]
        rw [zipWith_snoc_last]
        by_cases hc : List.Chain (· ≤ ·) r0.ibag_idx
            ((((ihdr.enumFrom 0).drop (start_idx + 1)).take m).map (fun x => x.2.ibag_idx))
        · rw [if_pos ⟨hm, hc⟩]
          simp only [List.getLastD_eq_getLast?]
          have hzl : (List.zipWith
                (fun a b => (⟨a.2.name, a.1, a.2.ibag_idx,
                  b.2.ibag_idx - a.2.ibag_idx, []⟩ : SFInst))
                ((start_idx, r0) :: ((ihdr.enumFrom 0).drop (start_idx + 1)).take m)
                (((ihdr.enumFrom 0).drop (start_idx + 1)).take m)).length = m := by
            simp only [List.length_zipWith, List.length_cons,
              length_take_drop (ihdr.enumFrom 0) (start_idx + 1) m hme]
            omega
          have hget : ∀ (x : SFInst), (sf.inst ++
                List.zipWith
                  (fun a b => (⟨a.2.name, a.1, a.2.ibag_idx,
                    b.2.ibag_idx - a.2.ibag_idx, []⟩ : SFInst))
                  ((start_idx, r0) :: ((ihdr.enumFrom 0).drop (start_idx + 1)).take m)
                  (((ihdr.enumFrom 0).drop (start_idx + 1)).take m) ++ [x]).get?
                    (sf.inst.length + m) = some x := by
            intro x
            rw [List.append_assoc]
            rw [List.get?_eq_getElem?, List.getElem?_append_right (by omega)]
            rw [List.getElem?_append_right (by omega)]
            simp [hzl]
          have hsetl : ∀ (x y : SFInst), (sf.inst ++
                List.zipWith
                  (fun a b => (⟨a.2.name, a.1, a.2.ibag_idx,
                    b.2.ibag_idx - a.2.ibag_idx, []⟩ : SFInst))
                  ((start_idx, r0) :: ((ihdr.enumFrom 0).drop (start_idx + 1)).take m)
                  (((ihdr.enumFrom 0).drop (start_idx + 1)).take m) ++ [x]).set
                    (sf.inst.length + m) y =
                sf.inst ++
                (List.zipWith
                  (fun a b => (⟨a.2.name, a.1, a.2.ibag_idx,
                    b.2.ibag_idx - a.2.ibag_idx, []⟩ : SFInst))
                  ((start_idx, r0) :: ((ihdr.enumFrom 0).drop (start_idx + 1)).take m)
                  (((ihdr.enumFrom 0).drop (start_idx + 1)).take m) ++ [y]) := by
            intro x y
            rw [List.append_assoc]
            rw [List.set_append_right _ _ (by omega)]
            rw [List.set_append_right _ _ (by omega)]
            simp [hzl]
          simp only [hget, hf, hsetl]
          by_cases hlt : (rf.ibag_idx : Int) -
              (((((ihdr.enumFrom 0).drop (start_idx + 1)).take m).getLast?.getD
                (start_idx, r0)).2.ibag_idx : Int) < 0
          · have hn : ¬ (m + 1 + 1 ≤ ihdr.length - start_idx ∧
                List.Chain' (· ≤ ·) (List.map (fun x => x.2.ibag_idx)
                  ((start_idx, r0) :: (((ihdr.enumFrom 0).drop (start_idx + 1)).take m ++
                    [(start_idx + 1 + m, rf)])))) := by
              rw [hch]
              intro h
              omega
            rw [if_pos hlt, if_neg hn]
          · have hp : m + 1 + 1 ≤ ihdr.length - start_idx ∧
                List.Chain' (· ≤ ·) (List.map (fun x => x.2.ibag_idx)
                  ((start_idx, r0) :: (((ihdr.enumFrom 0).drop (start_idx + 1)).take m ++
                    [(start_idx + 1 + m, rf)]))) :=
              ⟨hlen2, hch.mpr ⟨hc, by omega⟩⟩
            have hnat : ((rf.ibag_idx : Int) -
                (((((ihdr.enumFrom 0).drop (start_idx + 1)).take m).getLast?.getD
                  (start_idx, r0)).2.ibag_idx : Int)).toNat =
                rf.ibag_idx -
                  ((((ihdr.enumFrom 0).drop (start_idx + 1)).take m).getLast?.getD
                    (start_idx, r0)).2.ibag_idx := by
              omega
            rw [if_neg hlt, if_pos hp, hnat]
        · have hn : ¬ (m + 1 + 1 ≤ ihdr.length - start_idx ∧
              List.Chain' (· ≤ ·) (List.map (fun x => x.2.ibag_idx)
                ((start_idx, r0) :: (((ihdr.enumFrom 0).drop (start_idx + 1)).take m ++
                  [(start_idx + 1 + m, rf)])))) := by
            rw [hch]
            intro h
            exact hc h.2.1
          have hn2 : ¬ (m ≤ ihdr.length - (start_idx + 1) ∧
              List.Chain (· ≤ ·) r0.ibag_idx
                ((((ihdr.enumFrom 0).drop (start_idx + 1)).take m).map
                  (fun x => x.2.ibag_idx))) :=
            fun h => hc h.2
          rw [if_neg hn2, if_neg hn]
      · have hn : ¬ (m + 1 + 1 ≤ ihdr.length - start_idx ∧
            List.Chain' (· ≤ ·) (List.map (fun x => x.2.ibag_idx)
              ((start_idx, r0) :: ((ihdr.enumFrom 0).drop (start_idx + 1)).take (m + 1)))) :=
          fun h => hlen2 h.1
        rw [if_neg hn]
        by_cases hc : m ≤ ihdr.length - (start_idx + 1) ∧
            List.Chain (· ≤ ·) r0.ibag_idx
              ((((ihdr.enumFrom 0).drop (start_idx + 1)).take m).map (fun x => x.2.ibag_idx))
        · rw [if_pos hc]
          have hf : ihdr.get? (start_idx + 1 + m) = none :=
            List.get?_eq_none.mpr (by omega)
          simp only [hf]
        · rw [if_neg hc]

theorem zipWith_tail_get? {α β : Type} (f : α → α → β) :
    ∀ (l : List α) (i : Nat), i + 1 < l.length →
      ∃ a b, l.get? i = some a ∧ l.get? (i + 1) = some b ∧
        (List.zipWith f l l.tail).get? i = some (f a b) := by
  intro l
  induction l with
  | nil => intro i h; simp at h
  | cons x t ih =>
    intro i h
    cases t with
    | nil => simp at h
    | cons y t2 =>
      cases i with
      | zero => exact ⟨x, y, rfl, rfl, rfl⟩
      | succ j =>
        obtain ⟨a, b, h1, h2, h3⟩ := ih j (by simpa using h)
        exact ⟨a, b, by simpa using h1, by simpa using h2, by simpa using h3⟩

theorem chain'_le_get? {α : Type} (g : α → Nat) :
    ∀ (l : List α), List.Chain' (· ≤ ·) (l.map g) →
      ∀ (i : Nat) (a b : α), l.get? i = some a → l.get? (i + 1) = some b → g a ≤ g b := by
  intro l
  induction l with
  | nil => intro _ i a b h; simp at h
  | cons x t ih =>
    intro hch i a b h1 h2
    cases t with
    | nil => simp at h2
    | cons y t2 =>
      simp only [List.map_cons, List.chain'_cons] at hch
      cases i with
      | zero =>
        simp at h1 h2
        subst h1 h2
        exact hch.1
      | succ j =>
        exact ih (by simpa using hch.2) j a b (by simpa using h1) (by simpa using h2)

theorem sum_zipWith_tail {α : Type} (g : α → Nat) :
    ∀ (l : List α), List.Chain' (· ≤ ·) (l.map g) →
      ∀ (first last : α), l.head? = some first → l.getLast? = some last →
        (List.zipWith (fun a b => g b - g a) l l.tail).sum + g first = g last := by
  intro l
  induction l with
  | nil => intro _ first last h; simp at h
  | cons x t ih =>
    intro hch first last h1 h2
    cases t with
    | nil =>
      simp at h1 h2
      subst h1 h2
      simp
    | cons y t2 =>
      simp only [List.map_cons, List.chain'_cons] at hch
      simp only [List.head?_cons, Option.some.injEq] at h1
      subst h1
      rw [List.getLast?_cons_cons] at h2
      have := ih (by simpa using hch.2) y last rfl h2
      simp only [List.tail_cons, List.zipWith_cons_cons, List.sum_cons] at this ⊢
      have hxy := hch.1
      omega

/-- C28: for N ≥ 1 header records followed by a terminal record,
`load_preset_headers` (resp. `load_inst_headers`), called as the loader calls
it with `start_idx = 0` and `num_records = N`, succeeds if and only if the bag
indices of the N + 1 records do not decrease; on success it leaves the other
lists alone and appends exactly N headers to `sf->preset` (`sf->inst`), header
i built from record i with the zone count `bag_idx[i+1] − bag_idx[i]`, which
is not negative (an instrument also gets `idx = i`); the counts sum to
`bag_idx[N] − bag_idx[0]`. With N = 0 it succeeds and stores nothing. Records
with the bag indices 0, 2, 5 give the counts 2 and 3; the bag indices 3, 1 make
the loader fail. -/
theorem header_differencing :
    (∀ (sf : SFData) (phdr : List PhdrRecord) (N : Nat), 1 ≤ N → phdr.length = N + 1 →
      ((load_preset_headers sf phdr 0 N).isSome ↔
        List.Chain' (· ≤ ·) (phdr.map (fun x => x.pbag_idx))) ∧
      ∀ sf', load_preset_headers sf phdr 0 N = some sf' →
        sf'.inst = sf.inst ∧ sf'.sample = sf.sample ∧
        ∃ stored, sf'.preset = sf.preset ++ stored ∧ stored.length = N ∧
          (∀ i, i < N → ∃ a b, phdr.get? i = some a ∧ phdr.get? (i + 1) = some b ∧
            a.pbag_idx ≤ b.pbag_idx ∧
            stored.get? i =
              some ⟨a.name, a.prenum, a.bank, a.pbag_idx, b.pbag_idx - a.pbag_idx, []⟩) ∧
          ∀ first last, phdr.head? = some first → phdr.getLast? = some last →
            (stored.map (fun p => p.pbag_count)).sum + first.pbag_idx = last.pbag_idx) ∧
    (∀ (sf : SFData) (phdr : List PhdrRecord), load_preset_headers sf phdr 0 0 = some sf) ∧
    (∀ (sf : SFData) (ihdr : List IhdrRecord) (N : Nat), 1 ≤ N → ihdr.length = N + 1 →
      ((load_inst_headers sf ihdr 0 N).isSome ↔
        List.Chain' (· ≤ ·) (ihdr.map (fun x => x.ibag_idx))) ∧
      ∀ sf', load_inst_headers sf ihdr 0 N = some sf' →
        sf'.preset = sf.preset ∧ sf'.sample = sf.sample ∧
        ∃ stored, sf'.inst = sf.inst ++ stored ∧ stored.length = N ∧
          (∀ i, i < N → ∃ a b, ihdr.get? i = some a ∧ ihdr.get? (i + 1) = some b ∧
            a.ibag_idx ≤ b.ibag_idx ∧
            stored.get? i = some ⟨a.name, i, a.ibag_idx, b.ibag_idx - a.ibag_idx, []⟩) ∧
          ∀ first last, ihdr.head? = some first → ihdr.getLast? = some last →
            (stored.map (fun p => p.ibag_count)).sum + first.ibag_idx = last.ibag_idx) ∧
    (∀ (sf : SFData) (ihdr : List IhdrRecord), load_inst_headers sf ihdr 0 0 = some sf) ∧
    load_preset_headers ⟨[], [], []⟩ [⟨"a", 0, 0, 0⟩, ⟨"b", 1, 0, 2⟩, ⟨"EOP", 0, 0, 5⟩] 0 2 =
      some ⟨[⟨"a", 0, 0, 0, 2, []⟩, ⟨"b", 1, 0, 2, 3, []⟩], [], []⟩ ∧
    load_preset_headers ⟨[], [], []⟩ [⟨"a", 0, 0, 3⟩, ⟨"EOP", 0, 0, 1⟩] 0 1 = none ∧
    load_inst_headers ⟨[], [], []⟩ [⟨"a", 0⟩, ⟨"b", 2⟩, ⟨"EOI", 5⟩] 0 2 =
      some ⟨[], [⟨"a", 0, 0, 2, []⟩, ⟨"b", 1, 2, 3, []⟩], []⟩ ∧
    load_inst_headers ⟨[], [], []⟩ [⟨"a", 3⟩, ⟨"EOI", 1⟩] 0 1 = none := by
  refine ⟨?_, ?_, ?_, ?_, by decide, by decide, by decide, by decide⟩
  · intro sf phdr N hN hlen
    have hN0 : N ≠ 0 := by omega
    have htake : (phdr.drop 0).take (N + 1) = phdr := by
      rw [List.drop_zero, List.take_of_length_le (by omega)]
    have hcond : N + 1 ≤ phdr.length - 0 := by omega
    rw [load_preset_headers_eq, if_neg hN0, htake]
    by_cases hch : List.Chain' (· ≤ ·) (phdr.map (fun x => x.pbag_idx))
    · rw [if_pos ⟨hcond, hch⟩]
      refine ⟨by simp [hch], ?_⟩
      intro sf' hsf
      cases hsf
      refine ⟨rfl, rfl, _, rfl, ?_, ?_, ?_⟩
      · simp only [List.length_zipWith, List.length_tail]
        omega
      · intro i hi
        obtain ⟨a, b, h1, h2, h3⟩ := zipWith_tail_get?
          (fun a b : PhdrRecord => (⟨a.name, a.prenum, a.bank, a.pbag_idx,
            b.pbag_idx - a.pbag_idx, []⟩ : SFPreset)) phdr i (by omega)
        exact ⟨a, b, h1, h2, chain'_le_get? (fun x => x.pbag_idx) phdr hch i a b h1 h2, h3⟩
      · intro first last hf hl
        rw [List.map_zipWith]
        exact sum_zipWith_tail (fun x => x.pbag_idx) phdr hch first last hf hl
    · have hn : ¬ (N + 1 ≤ phdr.length - 0 ∧
          List.Chain' (· ≤ ·) (phdr.map (fun x => x.pbag_idx))) := fun h => hch h.2
      rw [if_neg hn]
      refine ⟨by simp [hch], ?_⟩
      intro sf' hsf
      cases hsf
  · intro sf phdr
    rw [load_preset_headers_eq, if_pos rfl]
  · intro sf ihdr N hN hlen
    have hN0 : N ≠ 0 := by omega
    have htake : ((ihdr.enumFrom 0).drop 0).take (N + 1) = ihdr.enumFrom 0 := by
      rw [List.drop_zero, List.take_of_length_le (by rw [List.enumFrom_length]; omega)]
    have hcond : N + 1 ≤ ihdr.length - 0 := by omega
    have hmap : (ihdr.enumFrom 0).map (fun x => x.2.ibag_idx) =
        ihdr.map (fun x => x.ibag_idx) := by
      have : (fun x : Nat × IhdrRecord => x.2.ibag_idx) =
          (fun x : IhdrRecord => x.ibag_idx) ∘ Prod.snd := rfl
      rw [this, ← List.map_map, List.enumFrom_map_snd]
    rw [load_inst_headers_eq, if_neg hN0, htake, hmap]
    by_cases hch : List.Chain' (· ≤ ·) (ihdr.map (fun x => x.ibag_idx))
    · rw [if_pos ⟨hcond, hch⟩]
      refine ⟨by simp [hch], ?_⟩
      intro sf' hsf
      cases hsf
      have hchE : List.Chain' (· ≤ ·)
          ((ihdr.enumFrom 0).map (fun x => x.2.ibag_idx)) := by
        rw [hmap]
        exact hch
      refine ⟨rfl, rfl, _, rfl, ?_, ?_, ?_⟩
      · simp only [List.length_zipWith, List.length_tail, List.enumFrom_length]
        omega
      · intro i hi
        obtain ⟨a, b, h1, h2, h3⟩ := zipWith_tail_get?
          (fun a b : Nat × IhdrRecord => (⟨a.2.name, a.1, a.2.ibag_idx,
            b.2.ibag_idx - a.2.ibag_idx, []⟩ : SFInst)) (ihdr.enumFrom 0) i
          (by rw [List.enumFrom_length]; omega)
        have hle := chain'_le_get? (fun x : Nat × IhdrRecord => x.2.ibag_idx)
          (ihdr.enumFrom 0) hchE i a b h1 h2
        rw [get?_enumFrom_zero] at h1 h2
        cases ha : ihdr.get? i with
        | none => rw [ha] at h1; cases h1
        | some a' =>
          cases hb : ihdr.get? (i + 1) with
          | none => rw [hb] at h2; cases h2
          | some b' =>
            rw [ha] at h1
            rw [hb] at h2
            cases h1
            cases h2
            exact ⟨a', b', rfl, rfl, hle, h3⟩
      · intro first last hf hl
        rw [List.map_zipWith]
        have hfE : (ihdr.enumFrom 0).head? = some (0, first) := by
          cases ihdr with
          | nil => cases hf
          | cons x t =>
            simp only [List.head?_cons, Option.some.injEq] at hf
            subst hf
            rfl
        have hlE : ∃ j, (ihdr.enumFrom 0).getLast? = some (j, last) := by
          have h1 : ((ihdr.enumFrom 0).map Prod.snd).getLast? = some last := by
            rw [List.enumFrom_map_snd]
            exact hl
          rw [List.getLast?_map] at h1
          cases hE : (ihdr.enumFrom 0).getLast? with
          | none => rw [hE] at h1; cases h1
          | some p =>
            rw [hE] at h1
            simp only [Option.map_some', Option.some.injEq] at h1
            exact ⟨p.1, by rw [← h1]⟩
        obtain ⟨j, hlE⟩ := hlE
        exact sum_zipWith_tail (fun x : Nat × IhdrRecord => x.2.ibag_idx) (ihdr.enumFrom 0)
          hchE (0, first) (j, last) hfE hlE
    · have hn : ¬ (N + 1 ≤ ihdr.length - 0 ∧
          List.Chain' (· ≤ ·) (ihdr.map (fun x => x.ibag_idx))) := fun h => hch h.2
      rw [if_neg hn]
      refine ⟨by simp [hch], ?_⟩
      intro sf' hsf
      cases hsf
  · intro sf ihdr
    rw [load_inst_headers_eq, if_pos rfl]

/-! ## The sample data list: the sm24 chunk -/

theorem to_int_eq {n : Nat} (h : n < 2147483648) : to_int n = (n : Int) := by
  unfold to_int
  have h1 : n % 4294967296 = n := Nat.mod_eq_of_lt (by omega)
  rw [h1, if_pos h]

theorem to_int_neg {n : Nat} (h1 : 2147483648 ≤ n) (h2 : n < 4294967296) : to_int n < 0 := by
  unfold to_int
  have h3 : n % 4294967296 = n := Nat.mod_eq_of_lt h2
  rw [h3, if_neg (by omega)]
  omega

/-- C29 fails as stated: in a file of version 2.4 with a smpl chunk of 5 bytes,
an sm24 chunk of 2 bytes is recorded although ceil(5 / 2) rounded up to even
is 4, and an sm24 chunk of 4 bytes is not recorded. -/
theorem sm24_size_is_half_rounded_down :
    process_sdta ⟨2, 4⟩
        ("smpl".toList.map Char.toNat ++ [5, 0, 0, 0, 1, 2, 3, 4, 5] ++
          "sm24".toList.map Char.toNat ++ [2, 0, 0, 0, 9, 9]) 0 23 =
      some (⟨8, 5, 21, 2⟩, 23) ∧
    process_sdta ⟨2, 4⟩
        ("smpl".toList.map Char.toNat ++ [5, 0, 0, 0, 1, 2, 3, 4, 5] ++
          "sm24".toList.map Char.toNat ++ [4, 0, 0, 0, 9, 9, 9, 9]) 0 25 =
      some (⟨8, 5, 0, 0⟩, 25) := by
  decide

/-- C29 (as amended): in a file of major version 2 whose sdta list starts with
a smpl chunk that fits in the list, `process_sdta` records the position and
size of the smpl data, and looks for an sm24 chunk only when the minor version
is at least 4 and more than 8 bytes of the list are left behind the smpl data.
It then returns `FALSE` when no chunk header can be read there, and otherwise
records the sm24 chunk (`sample24pos` the position behind its header,
`sample24size` its size) if and only if the id is sm24, the size is not more
than what is left of the list, and the size is `smpl_size / 2` (rounded down)
rounded up to even; in every other case `sample24pos` and `sample24size` stay
0 and the function returns `TRUE`. -/
theorem process_sdta_sm24 (version : SFVersion) (sffd : List Nat) (pos size p1 : Nat)
    (smpl : SFChunk)
    (hmajor : version.major = 2)
    (hsize : 8 ≤ size ∧ size < 4294967296)
    (hread : READCHUNK sffd pos = some (smpl, p1))
    (hid : chunkid smpl.id = SMPL_ID)
    (hfit : smpl.size ≤ size - 8) :
    (version.minor < 4 ∨ size - 8 - smpl.size ≤ 8 →
      process_sdta version sffd pos size =
        some (⟨p1, smpl.size, 0, 0⟩, p1 + smpl.size + (size - 8 - smpl.size))) ∧
    (4 ≤ version.minor → 8 < size - 8 - smpl.size →
      READCHUNK sffd (p1 + smpl.size) = none →
      process_sdta version sffd pos size = none) ∧
    (4 ≤ version.minor → 8 < size - 8 - smpl.size →
      ∀ (chunk : SFChunk) (p2 : Nat), READCHUNK sffd (p1 + smpl.size) = some (chunk, p2) →
        process_sdta version sffd pos size =
          if chunkid chunk.id = SM24_ID ∧ chunk.size ≤ size - 8 - smpl.size - 8 ∧
              chunk.size = smpl.size / 2 + smpl.size / 2 % 2 then
            some (⟨p1, smpl.size, p2, chunk.size⟩, p2 + (size - 8 - smpl.size - 8))
          else
            some (⟨p1, smpl.size, 0, 0⟩, p2 + (size - 8 - smpl.size - 8))) := by
  have hs0 : size ≠ 0 := by omega
  have hu1 : u32_sub size 8 = size - 8 := u32_sub_eq hsize.1 hsize.2
  have hu2 : u32_sub (size - 8) smpl.size = size - 8 - smpl.size :=
    u32_sub_eq hfit (by omega)
  have hnfit : ¬ smpl.size > size - 8 := by omega
  refine ⟨?_, ?_, ?_⟩
  · intro h
    unfold process_sdta
    simp only [hs0, if_false, hread, hu1, hid, ne_eq, not_true_eq_false, hnfit, hu2]
    by_cases hm : 4 ≤ version.minor
    · have hvt : version.major ≥ 2 ∧ version.minor ≥ 4 := ⟨by omega, hm⟩
      have h8 : ¬ size - 8 - smpl.size > 8 := by omega
      rw [if_pos hvt, if_neg h8]
    · have hvt : ¬ (version.major ≥ 2 ∧ version.minor ≥ 4) := fun h => hm h.2
      rw [if_neg hvt]
  · intro hm h8 hnone
    have hvt : version.major ≥ 2 ∧ version.minor ≥ 4 := ⟨by omega, hm⟩
    have h8g : size - 8 - smpl.size > 8 := h8
    unfold process_sdta
    simp only [hs0, if_false, hread, hu1, hid, ne_eq, not_true_eq_false, hnfit, hu2]
    rw [if_pos hvt, if_pos h8g]
    simp only [hnone]
  · intro hm h8 chunk p2 h2
    have hvt : version.major ≥ 2 ∧ version.minor ≥ 4 := ⟨by omega, hm⟩
    have h8g : size - 8 - smpl.size > 8 := h8
    have hu3 : u32_sub (size - 8 - smpl.size) 8 = size - 8 - smpl.size - 8 :=
      u32_sub_eq (by omega) (by omega)
    have hhalf : to_int (smpl.size / 2) = ((smpl.size / 2 : Nat) : Int) :=
      to_int_eq (by omega)
    unfold process_sdta
    simp only [hs0, if_false, hread, hu1, hid, ne_eq, not_true_eq_false, hnfit, hu2]
    rw [if_pos hvt, if_pos h8g]
    simp only [h2, hu3, hhalf]
    by_cases hsm : chunkid chunk.id = SM24_ID
    · simp only [hsm, if_true, true_and]
      by_cases hbig : chunk.size > size - 8 - smpl.size - 8
      · have hcond : ¬ (chunk.size ≤ size - 8 - smpl.size - 8 ∧
            chunk.size = smpl.size / 2 + smpl.size / 2 % 2) := fun h => by omega
        rw [if_pos hbig, if_neg hcond]
      · have hc31 : chunk.size < 4294967296 := by omega
        simp only [hbig, if_false]
        by_cases hlow : chunk.size < 2147483648
        · rw [to_int_eq hlow]
          by_cases heq : chunk.size = smpl.size / 2 + smpl.size / 2 % 2
          · have hcond : chunk.size ≤ size - 8 - smpl.size - 8 ∧
                chunk.size = smpl.size / 2 + smpl.size / 2 % 2 := ⟨by omega, heq⟩
            have hne : ¬ ¬ (((smpl.size / 2 : Nat) : Int) + ((smpl.size / 2 : Nat) : Int) % 2 =
                (chunk.size : Int)) := by omega
            rw [if_neg hne, if_pos hcond, Int.toNat_ofNat]
          · have hcond : ¬ (chunk.size ≤ size - 8 - smpl.size - 8 ∧
                chunk.size = smpl.size / 2 + smpl.size / 2 % 2) := fun h => heq h.2
            have hne : ¬ (((smpl.size / 2 : Nat) : Int) + ((smpl.size / 2 : Nat) : Int) % 2 =
                (chunk.size : Int)) := by omega
            rw [if_pos hne, if_neg hcond]
        · have hneg := to_int_neg (n := chunk.size) (by omega) hc31
          have hcond : ¬ (chunk.size ≤ size - 8 - smpl.size - 8 ∧
              chunk.size = smpl.size / 2 + smpl.size / 2 % 2) := by omega
          have hne : ¬ (((smpl.size / 2 : Nat) : Int) + ((smpl.size / 2 : Nat) : Int) % 2 =
              to_int chunk.size) := by omega
          rw [if_pos hne, if_neg hcond]
    · simp only [hsm, if_false, false_and]

/-- Instance of C29: version 2.4, a smpl chunk of 4 bytes followed by an sm24
chunk of 2 bytes. -/
theorem process_sdta_sm24_witness :
    process_sdta ⟨2, 4⟩
        ("smpl".toList.map Char.toNat ++ [4, 0, 0, 0, 1, 2, 3, 4] ++
          "sm24".toList.map Char.toNat ++ [2, 0, 0, 0, 9, 9]) 0 22 =
      some (⟨8, 4, 20, 2⟩, 22) :=
  ((process_sdta_sm24 ⟨2, 4⟩
      ("smpl".toList.map Char.toNat ++ [4, 0, 0, 0, 1, 2, 3, 4] ++
        "sm24".toList.map Char.toNat ++ [2, 0, 0, 0, 9, 9]) 0 22 8
      ⟨"smpl".toList.map Char.toNat, 4⟩ rfl (by decide) (by decide) (by decide)
      (by decide)).2.2 (by decide) (by decide) ⟨"sm24".toList.map Char.toNat, 2⟩ 20
      (by decide)).trans (by decide)

/-! ## The INFO list: version gate -/

theorem read_info_subchunk_size {L : Bool} {sffd : List Nat} {sf sf2 : info_fields}
    {pos pos2 : Nat} {size size2 : Int}
    (h : read_info_subchunk L sffd sf pos size = some (sf2, pos2, size2)) :
    size2 ≤ size - 8 := by
  unfold read_info_subchunk at h
  cases hr : READCHUNK sffd pos with
  | none => rw [hr] at h; cases h
  | some c =>
    obtain ⟨chunk, p1⟩ := c
    rw [hr] at h
    dsimp only at h
    have hc : (0 : Int) ≤ (chunk.size : Int) := Int.natCast_nonneg _
    repeat' split at h
    all_goals first
      | (cases h; done)
      | (cases h; omega)

theorem read_info_loop_fuel (L : Bool) (sffd : List Nat) :
    ∀ (f1 f2 : Nat) (sf : info_fields) (pos : Nat) (size : Int),
      size.toNat ≤ f1 → size.toNat ≤ f2 →
      read_info_loop L sffd f1 sf pos size = read_info_loop L sffd f2 sf pos size := by
  intro f1
  induction f1 with
  | zero =>
    intro f2 sf pos size h1 h2
    have hs : ¬ size > 0 := by omega
    cases f2 with
    | zero => rfl
    | succ b => simp only [read_info_loop, hs, if_false]
  | succ a ih =>
    intro f2 sf pos size h1 h2
    by_cases hs : size > 0
    · cases f2 with
      | zero => omega
      | succ b =>
        simp only [read_info_loop, hs, if_true]
        cases hb : read_info_subchunk L sffd sf pos size with
        | none => rfl
        | some r =>
          obtain ⟨sf2, pos2, size2⟩ := r
          have := read_info_subchunk_size hb
          exact ih b sf2 pos2 size2 (by omega) (by omega)
    · cases f2 with
      | zero => simp only [read_info_loop, hs, if_false]
      | succ b => simp only [read_info_loop, hs, if_false]

/-- One round of `read_info_subchunks` unfolded. -/
theorem read_info_subchunks_step (L : Bool) (sffd : List Nat) (sf : info_fields) (pos : Nat)
    (size : Int) (hsize : 0 < size) :
    read_info_subchunks L sffd sf pos size =
      match read_info_subchunk L sffd sf pos size with
      | none => none
      | some (sf2, pos2, size2) => read_info_subchunks L sffd sf2 pos2 size2 := by
  unfold read_info_subchunks
  obtain ⟨n, hn⟩ : ∃ n, size.toNat = n + 1 := ⟨size.toNat - 1, by omega⟩
  rw [hn]
  simp only [read_info_loop, gt_iff_lt, hsize, if_true]
  cases hb : read_info_subchunk L sffd sf pos size with
  | none => rfl
  | some r =>
    obtain ⟨sf2, pos2, size2⟩ := r
    have := read_info_subchunk_size hb
    exact read_info_loop_fuel L sffd n size2.toNat sf2 pos2 size2 (by omega) (Nat.le_refl _)

/-- C30 fails as stated: the gate tests the major version where the claim
names the minor version. An ifil chunk with version 2.1 (minor version below
2) is accepted, and one with version 1.4 (minor version not below 2, major
version not above 2) makes the parsing fail, with Ogg Vorbis support or
without. -/
theorem ifil_minor_version_not_tested :
    read_info_subchunks false ("ifil".toList.map Char.toNat ++ [4, 0, 0, 0, 2, 0, 1, 0])
        ⟨⟨0, 0⟩, ⟨0, 0⟩, []⟩ 0 12 = some (⟨⟨2, 1⟩, ⟨0, 0⟩, []⟩, 12) ∧
    read_info_subchunks false ("ifil".toList.map Char.toNat ++ [4, 0, 0, 0, 1, 0, 4, 0])
        ⟨⟨0, 0⟩, ⟨0, 0⟩, []⟩ 0 12 = none ∧
    read_info_subchunks true ("ifil".toList.map Char.toNat ++ [4, 0, 0, 0, 1, 0, 4, 0])
        ⟨⟨0, 0⟩, ⟨0, 0⟩, []⟩ 0 12 = none := by
  decide

/-- C30 (as amended): when `read_info_subchunks` comes to an ifil chunk (of
size 4, with the version words `major` and `minor`), the parsing fails if
`major < 2`, if `major = 3` and Ogg Vorbis support (`LIBSNDFILE_SUPPORT`) is
not compiled in, and if `major > 3`; for every other version, whatever the
minor version, the version is stored and the parsing goes on with the rest
of the INFO list; an INFO list that ends with this chunk is then parsed with
success. -/
theorem ifil_version_gate (L : Bool) (sffd : List Nat) (sf : info_fields) (pos : Nat)
    (size : Int) (chunk : SFChunk) (p1 p2 p3 major minor : Nat)
    (hsize : 0 < size)
    (hchunk : READCHUNK sffd pos = some (chunk, p1))
    (hid : chunkid chunk.id = IFIL_ID) (hsz : chunk.size = 4)
    (hmajor : READW sffd p1 = some (major, p2))
    (hminor : READW sffd p2 = some (minor, p3)) :
    read_info_subchunks L sffd sf pos size =
      (if major < 2 ∨ (major = 3 ∧ L = false) ∨ 3 < major then none
       else read_info_subchunks L sffd { sf with version := ⟨major, minor⟩ } p3 (size - 12)) ∧
    (size = 12 →
      read_info_subchunks L sffd sf pos size =
        if major < 2 ∨ (major = 3 ∧ L = false) ∨ 3 < major then none
        else some ({ sf with version := ⟨major, minor⟩ }, p3)) := by
  have hbody : read_info_subchunk L sffd sf pos size =
      if major < 2 ∨ (major = 3 ∧ L = false) ∨ 3 < major then none
      else some ({ sf with version := ⟨major, minor⟩ }, p3, size - 12) := by
    unfold read_info_subchunk
    simp only [hchunk, hid, if_true, hsz, ne_eq, not_true_eq_false, if_false, hmajor, hminor]
    by_cases h1 : major < 2
    · simp [h1]
    · by_cases h3 : major = 3
      · cases L
        · simp [h3]
        · simp [h3]
          omega
      · by_cases h4 : major > 2
        · have : 3 < major := by omega
          simp [h1, h3, h4, this]
        · have : ¬ 3 < major := by omega
          simp only [h1, h3, h4, this, if_false, false_and, or_self]
          congr 3
          omega
  have hstep := read_info_subchunks_step L sffd sf pos size hsize
  rw [hbody] at hstep
  have hfirst : read_info_subchunks L sffd sf pos size =
      (if major < 2 ∨ (major = 3 ∧ L = false) ∨ 3 < major then none
       else read_info_subchunks L sffd { sf with version := ⟨major, minor⟩ } p3
         (size - 12)) := by
    rw [hstep]
    split_ifs <;> rfl
  refine ⟨hfirst, ?_⟩
  intro h12
  rw [hfirst, h12]
  split_ifs
  · rfl
  · rfl

/-- Instance of C30: version 2.1 at the start of a file. -/
theorem ifil_version_gate_witness :
    read_info_subchunks false ("ifil".toList.map Char.toNat ++ [4, 0, 0, 0, 2, 0, 1, 0])
        ⟨⟨0, 0⟩, ⟨0, 0⟩, []⟩ 0 12 =
      (if 2 < 2 ∨ (2 = 3 ∧ false = false) ∨ 3 < 2 then none
       else some (⟨⟨2, 1⟩, ⟨0, 0⟩, []⟩, 12)) :=
  (ifil_version_gate false ("ifil".toList.map Char.toNat ++ [4, 0, 0, 0, 2, 0, 1, 0])
    ⟨⟨0, 0⟩, ⟨0, 0⟩, []⟩ 0 12 ⟨"ifil".toList.map Char.toNat, 4⟩ 8 10 12 2 1
    (by decide) (by decide) (by decide) rfl (by decide) (by decide)).2 rfl

/-! ## Note on: the calls, pair by pair -/

theorem noteon_inst_loop_calls (alloc : Nat → Bool) (chan key vel : Int)
    (global_preset_zone : Option fluid_preset_zone_t) (preset_zone : fluid_preset_zone_t)
    (global_inst_zone : Option fluid_inst_zone_t) :
    ∀ (zones : List fluid_inst_zone_t) (voices : Nat),
      (noteon_inst_loop alloc chan key vel global_preset_zone preset_zone global_inst_zone
        voices zones).2 =
      pairs_calls alloc chan key vel global_preset_zone voices
        (noteon_inst_pairs key vel preset_zone global_inst_zone zones) := by
  intro zones
  induction zones with
  | nil => intro voices; rfl
  | cons inst_zone next ih =>
    intro voices
    unfold noteon_inst_loop noteon_inst_pairs
    rw [List.filterMap_cons]
    cases hs : inst_zone.sample with
    | none =>
      simp only
      exact ih voices
    | some sample =>
      simp only
      by_cases hrom : fluid_sample_in_rom sample = true
      · simp only [hrom, if_true, Bool.not_true, Bool.false_and, Bool.false_eq_true, if_false]
        exact ih voices
      · have hrom2 : fluid_sample_in_rom sample = false := by
          cases h : fluid_sample_in_rom sample with
          | true => exact absurd h hrom
          | false => rfl
        simp only [hrom2, Bool.false_eq_true, if_false, Bool.not_false, Bool.true_and]
        by_cases hin : (fluid_zone_inside_range inst_zone.range key vel).2 = true
        · simp only [hin, if_true]
          unfold pairs_calls
          by_cases ha : alloc voices = true
          · simp only [ha, if_true]
            have := ih (voices + 1)
            unfold noteon_inst_pairs at this
            rw [← this]
          · simp only [ha, Bool.false_eq_true, if_false]
        · simp only [hin, Bool.false_eq_true, if_false]
          exact ih voices

theorem pairs_calls_append (alloc : Nat → Bool) (chan key vel : Int)
    (global_preset_zone : Option fluid_preset_zone_t) :
    ∀ (l1 l2 : List (fluid_preset_zone_t × Option fluid_inst_zone_t × fluid_inst_zone_t ×
        fluid_sample_t)) (voices : Nat),
      pairs_calls alloc chan key vel global_preset_zone voices (l1 ++ l2) =
        if (pairs_calls alloc chan key vel global_preset_zone voices l1).failed then
          pairs_calls alloc chan key vel global_preset_zone voices l1
        else
          { pairs_calls alloc chan key vel global_preset_zone
              (pairs_calls alloc chan key vel global_preset_zone voices l1).voices l2 with
            requests :=
              (pairs_calls alloc chan key vel global_preset_zone voices l1).requests ++
              (pairs_calls alloc chan key vel global_preset_zone
                (pairs_calls alloc chan key vel global_preset_zone voices l1).voices
                l2).requests } := by
  intro l1
  induction l1 with
  | nil =>
    intro l2 voices
    simp [pairs_calls]
  | cons p rest ih =>
    intro l2 voices
    obtain ⟨pz, giz, iz, sample⟩ := p
    simp only [List.cons_append, pairs_calls, List.append_eq]
    by_cases ha : alloc voices = true
    · simp only [ha, if_true]
      rw [ih l2 (voices + 1)]
      by_cases hf : (pairs_calls alloc chan key vel global_preset_zone (voices + 1) rest).failed
          = true
      · simp only [hf, if_true]
      · simp only [hf, Bool.false_eq_true, if_false, List.append_assoc, List.cons_append]
    · simp only [ha, Bool.false_eq_true, if_false, if_true]

theorem noteon_preset_loop_calls (alloc : Nat → Bool) (chan key vel : Int)
    (global_preset_zone : Option fluid_preset_zone_t) :
    ∀ (zone : List fluid_preset_zone_t) (voices : Nat)
      (done : List fluid_preset_zone_t × noteon_calls),
      noteon_preset_loop alloc chan key vel global_preset_zone voices zone = some done →
      done.2 = pairs_calls alloc chan key vel global_preset_zone voices
        (noteon_pairs key vel zone) := by
  intro zone
  induction zone with
  | nil =>
    intro voices done h
    simp only [noteon_preset_loop, Option.some.injEq] at h
    rw [← h]
    rfl
  | cons preset_zone next ih =>
    intro voices done h
    unfold noteon_preset_loop at h
    unfold noteon_pairs
    by_cases hin : (fluid_zone_inside_range preset_zone.range key vel).2 = true
    · simp only [hin, if_true] at h ⊢
      cases hi : preset_zone.inst with
      | none => rw [hi] at h; cases h
      | some inst =>
        rw [hi] at h
        simp only at h ⊢
        rw [pairs_calls_append, ← noteon_inst_loop_calls]
        by_cases hf : (noteon_inst_loop alloc chan key vel global_preset_zone preset_zone
            inst.global_zone voices inst.zone).2.failed = true
        · simp only [hf, if_true, Option.some.injEq] at h ⊢
          rw [← h]
        · simp only [hf, Bool.false_eq_true, if_false] at h ⊢
          cases hr : noteon_preset_loop alloc chan key vel global_preset_zone
              (noteon_inst_loop alloc chan key vel global_preset_zone preset_zone
                inst.global_zone voices inst.zone).2.voices next with
          | none => rw [hr] at h; cases h
          | some rest =>
            rw [hr] at h
            simp only [Option.some.injEq] at h
            rw [← h, ← ih _ rest hr]
    · simp only [hin, Bool.false_eq_true, if_false, List.nil_append] at h ⊢
      cases hr : noteon_preset_loop alloc chan key vel global_preset_zone voices next with
      | none => rw [hr] at h; cases h
      | some rest =>
        rw [hr] at h
        simp only [Option.some.injEq] at h
        rw [← h]
        exact ih _ rest hr

theorem noteon_preset_loop_some (alloc : Nat → Bool) (chan key vel : Int)
    (global_preset_zone : Option fluid_preset_zone_t) :
    ∀ (zone : List fluid_preset_zone_t) (voices : Nat),
      (∀ pz ∈ zone, (fluid_zone_inside_range pz.range key vel).2 = true → pz.inst ≠ none) →
      ∃ done, noteon_preset_loop alloc chan key vel global_preset_zone voices zone =
        some done := by
  intro zone
  induction zone with
  | nil => intro voices _; exact ⟨_, rfl⟩
  | cons preset_zone next ih =>
    intro voices hall
    have hnext : ∀ pz ∈ next, (fluid_zone_inside_range pz.range key vel).2 = true →
        pz.inst ≠ none := fun pz hpz => hall pz (List.mem_cons_of_mem _ hpz)
    unfold noteon_preset_loop
    by_cases hin : (fluid_zone_inside_range preset_zone.range key vel).2 = true
    · simp only [hin, if_true]
      cases hi : preset_zone.inst with
      | none => exact absurd hi (hall preset_zone (List.mem_cons_self _ _) hin)
      | some inst =>
        simp only
        by_cases hf : (noteon_inst_loop alloc chan key vel global_preset_zone preset_zone
            inst.global_zone voices inst.zone).2.failed = true
        · simp only [hf, if_true]
          exact ⟨_, rfl⟩
        · simp only [hf, Bool.false_eq_true, if_false]
          obtain ⟨rest, hr⟩ := ih (noteon_inst_loop alloc chan key vel global_preset_zone
            preset_zone inst.global_zone voices inst.zone).2.voices hnext
          rw [hr]
          exact ⟨_, rfl⟩
    · simp only [hin, Bool.false_eq_true, if_false]
      obtain ⟨rest, hr⟩ := ih voices hnext
      rw [hr]
      exact ⟨_, rfl⟩

theorem fluid_zone_inside_range_no_ignore (range : fluid_zone_range_t) (key vel : Int)
    (h : range.ignore = false) :
    fluid_zone_inside_range range key vel = (range, decide (range_contains range key vel)) := by
  obtain ⟨kl, kh, vl, vh, ig⟩ := range
  simp only at h
  subst h
  simp [fluid_zone_inside_range]

theorem noteon_inst_loop_zones (alloc : Nat → Bool) (chan key vel : Int)
    (global_preset_zone : Option fluid_preset_zone_t) (preset_zone : fluid_preset_zone_t)
    (global_inst_zone : Option fluid_inst_zone_t) :
    ∀ (zones : List fluid_inst_zone_t) (voices : Nat),
      (∀ iz ∈ zones, iz.range.ignore = false) →
      (noteon_inst_loop alloc chan key vel global_preset_zone preset_zone global_inst_zone
        voices zones).1 = zones := by
  intro zones
  induction zones with
  | nil => intro voices _; rfl
  | cons inst_zone next ih =>
    intro voices hall
    have hz : inst_zone.range.ignore = false := hall inst_zone (List.mem_cons_self _ _)
    have hnext : ∀ iz ∈ next, iz.range.ignore = false :=
      fun iz hiz => hall iz (List.mem_cons_of_mem _ hiz)
    have hsame : ({ inst_zone with
        range := (fluid_zone_inside_range inst_zone.range key vel).1 } : fluid_inst_zone_t) =
        inst_zone := by
      rw [fluid_zone_inside_range_no_ignore _ _ _ hz]
    unfold noteon_inst_loop
    cases hs : inst_zone.sample with
    | none =>
      simp only
      rw [ih voices hnext]
    | some sample =>
      rw [hs] at hsame
      simp only
      split_ifs
      · rw [ih voices hnext]
      · rw [hsame, ih (voices + 1) hnext]
      · rw [hsame]
      · rw [hsame, ih voices hnext]

theorem noteon_preset_loop_zones (alloc : Nat → Bool) (chan key vel : Int)
    (global_preset_zone : Option fluid_preset_zone_t) :
    ∀ (zone : List fluid_preset_zone_t) (voices : Nat)
      (done : List fluid_preset_zone_t × noteon_calls),
      no_ignore zone →
      noteon_preset_loop alloc chan key vel global_preset_zone voices zone = some done →
      done.1 = zone := by
  intro zone
  induction zone with
  | nil =>
    intro voices done _ h
    simp only [noteon_preset_loop, Option.some.injEq] at h
    rw [← h]
  | cons preset_zone next ih =>
    intro voices done hno h
    have hz := hno preset_zone (List.mem_cons_self _ _)
    have hnext : no_ignore next := fun pz hpz => hno pz (List.mem_cons_of_mem _ hpz)
    have hr1 : (fluid_zone_inside_range preset_zone.range key vel).1 = preset_zone.range := by
      rw [fluid_zone_inside_range_no_ignore _ _ _ hz.1]
    unfold noteon_preset_loop at h
    by_cases hin : (fluid_zone_inside_range preset_zone.range key vel).2 = true
    · simp only [hin, if_true] at h
      cases hi : preset_zone.inst with
      | none => rw [hi] at h; cases h
      | some inst =>
        rw [hi] at h
        simp only at h
        have hzones := noteon_inst_loop_zones alloc chan key vel global_preset_zone
          preset_zone inst.global_zone inst.zone voices (hz.2 inst hi)
        have hsame : ({ preset_zone with
            range := (fluid_zone_inside_range preset_zone.range key vel).1,
            inst := some { inst with
              zone := (noteon_inst_loop alloc chan key vel global_preset_zone preset_zone
                inst.global_zone voices inst.zone).1 } } : fluid_preset_zone_t) =
            preset_zone := by
          rw [hr1, hzones]
          obtain ⟨n, i, r, g, m⟩ := preset_zone
          simp only at hi
          subst hi
          rfl
        rw [hsame] at h
        by_cases hf : (noteon_inst_loop alloc chan key vel global_preset_zone preset_zone
            inst.global_zone voices inst.zone).2.failed = true
        · simp only [hf, if_true, Option.some.injEq] at h
          rw [← h]
        · simp only [hf, Bool.false_eq_true, if_false] at h
          cases hr : noteon_preset_loop alloc chan key vel global_preset_zone
              (noteon_inst_loop alloc chan key vel global_preset_zone preset_zone
                inst.global_zone voices inst.zone).2.voices next with
          | none => rw [hr] at h; cases h
          | some rest =>
            rw [hr] at h
            simp only [Option.some.injEq] at h
            rw [← h]
            simp only
            rw [ih _ rest hnext hr]
    · simp only [hin, Bool.false_eq_true, if_false] at h
      cases hr : noteon_preset_loop alloc chan key vel global_preset_zone voices next with
      | none => rw [hr] at h; cases h
      | some rest =>
        rw [hr] at h
        simp only [Option.some.injEq] at h
        rw [← h]
        simp only
        rw [ih _ rest hnext hr, hr1]

/-- The calls of `fluid_defpreset_noteon` are the calls told pair by pair. -/
theorem fluid_defpreset_noteon_calls {global_zone : Option fluid_preset_zone_t}
    {zone : List fluid_preset_zone_t} {alloc : Nat → Bool} {chan key vel : Int}
    {r : noteon_result}
    (h : fluid_defpreset_noteon global_zone zone alloc chan key vel = some r) :
    r.requests = (pairs_calls alloc chan key vel global_zone 0
      (noteon_pairs key vel zone)).requests ∧
    r.voices = (pairs_calls alloc chan key vel global_zone 0
      (noteon_pairs key vel zone)).voices ∧
    r.ret = (if (pairs_calls alloc chan key vel global_zone 0
      (noteon_pairs key vel zone)).failed then .FLUID_FAILED else .FLUID_OK) := by
  unfold fluid_defpreset_noteon at h
  cases hl : noteon_preset_loop alloc chan key vel global_zone 0 zone with
  | none => rw [hl] at h; cases h
  | some done =>
    rw [hl] at h
    simp only [Option.some.injEq] at h
    have := noteon_preset_loop_calls alloc chan key vel global_zone zone 0 done hl
    rw [← h, ← this]
    exact ⟨rfl, rfl, rfl⟩

theorem fluid_defpreset_noteon_some (global_zone : Option fluid_preset_zone_t)
    (zone : List fluid_preset_zone_t) (alloc : Nat → Bool) (chan key vel : Int)
    (h : ∀ pz ∈ zone, (fluid_zone_inside_range pz.range key vel).2 = true → pz.inst ≠ none) :
    ∃ r, fluid_defpreset_noteon global_zone zone alloc chan key vel = some r := by
  obtain ⟨done, hd⟩ := noteon_preset_loop_some alloc chan key vel global_zone zone 0 h
  unfold fluid_defpreset_noteon
  rw [hd]
  exact ⟨_, rfl⟩

theorem fluid_defpreset_noteon_zone {global_zone : Option fluid_preset_zone_t}
    {zone : List fluid_preset_zone_t} {alloc : Nat → Bool} {chan key vel : Int}
    {r : noteon_result} (hno : no_ignore zone)
    (h : fluid_defpreset_noteon global_zone zone alloc chan key vel = some r) :
    r.zone = zone := by
  unfold fluid_defpreset_noteon at h
  cases hl : noteon_preset_loop alloc chan key vel global_zone 0 zone with
  | none => rw [hl] at h; cases h
  | some done =>
    rw [hl] at h
    simp only [Option.some.injEq] at h
    rw [← h]
    exact noteon_preset_loop_zones alloc chan key vel global_zone zone 0 done hno hl

/-! ## Note on: the calls made for one voice -/

theorem filterMap_eq_nil_of_forall {α β : Type} (f : α → Option β) :
    ∀ (l : List α), (∀ q ∈ l, f q = none) → l.filterMap f = [] := by
  intro l
  induction l with
  | nil => intro _; rfl
  | cons a t ih =>
    intro h
    rw [List.filterMap_cons, h a (List.mem_cons_self _ _)]
    exact ih (fun q hq => h q (List.mem_cons_of_mem _ hq))

theorem filter_eq_nil_of_forall {α : Type} (p : α → Bool) :
    ∀ (l : List α), (∀ q ∈ l, p q = false) → l.filter p = [] := by
  intro l
  induction l with
  | nil => intro _; rfl
  | cons a t ih =>
    intro h
    rw [List.filter_cons, h a (List.mem_cons_self _ _)]
    exact ih (fun q hq => h q (List.mem_cons_of_mem _ hq))

theorem filter_eq_self_of_forall {α : Type} (p : α → Bool) :
    ∀ (l : List α), (∀ q ∈ l, p q = true) → l.filter p = l := by
  intro l
  induction l with
  | nil => intro _; rfl
  | cons a t ih =>
    intro h
    rw [List.filter_cons, h a (List.mem_cons_self _ _)]
    simp only [if_true]
    rw [ih (fun q hq => h q (List.mem_cons_of_mem _ hq))]

theorem filterMap_filter_of_imp {α β : Type} (f : α → Option β) (p : α → Bool)
    (h : ∀ q, p q = false → f q = none) :
    ∀ (l : List α), (l.filter p).filterMap f = l.filterMap f := by
  intro l
  induction l with
  | nil => rfl
  | cons a t ih =>
    rw [List.filter_cons]
    cases hp : p a with
    | true =>
      simp only [if_true, List.filterMap_cons]
      rw [ih]
    | false =>
      simp only [Bool.false_eq_true, if_false, List.filterMap_cons, h a hp]
      exact ih

theorem noteon_inst_gens_voice (m : Nat) (giz : Option fluid_inst_zone_t)
    (iz : fluid_inst_zone_t) :
    ∀ q ∈ noteon_inst_gens m giz iz, ∃ i val, q = .fluid_voice_gen_set m i val := by
  intro q hq
  unfold noteon_inst_gens at hq
  rw [List.mem_filterMap] at hq
  obtain ⟨i, _, hi⟩ := hq
  unfold noteon_inst_gen at hi
  split_ifs at hi
  · cases hi; exact ⟨_, _, rfl⟩
  · cases giz with
    | none => cases hi
    | some g =>
      simp only at hi
      split_ifs at hi
      cases hi; exact ⟨_, _, rfl⟩

theorem noteon_preset_gens_voice (m : Nat) (gpz : Option fluid_preset_zone_t)
    (pz : fluid_preset_zone_t) :
    ∀ q ∈ noteon_preset_gens m gpz pz, ∃ i val, q = .fluid_voice_gen_incr m i val := by
  intro q hq
  unfold noteon_preset_gens at hq
  rw [List.mem_filterMap] at hq
  obtain ⟨i, _, hi⟩ := hq
  unfold noteon_preset_gen at hi
  split_ifs at hi
  · cases hi; exact ⟨_, _, rfl⟩
  · cases gpz with
    | none => cases hi
    | some g =>
      simp only at hi
      split_ifs at hi
      cases hi; exact ⟨_, _, rfl⟩

theorem noteon_inst_mods_voice (m : Nat) (giz : Option fluid_inst_zone_t)
    (iz : fluid_inst_zone_t) :
    ∀ q ∈ noteon_inst_mods m giz iz,
      ∃ mod, q = .fluid_voice_add_mod m mod .FLUID_VOICE_OVERWRITE := by
  intro q hq
  unfold noteon_inst_mods at hq
  rw [List.mem_filterMap] at hq
  obtain ⟨e, _, he⟩ := hq
  cases e with
  | none => cases he
  | some mod =>
    simp only [Option.some.injEq] at he
    exact ⟨mod, he.symm⟩

theorem noteon_preset_mods_voice (m : Nat) (gpz : Option fluid_preset_zone_t)
    (pz : fluid_preset_zone_t) :
    ∀ q ∈ noteon_preset_mods m gpz pz,
      ∃ mod, q = .fluid_voice_add_mod m mod .FLUID_VOICE_ADD := by
  intro q hq
  unfold noteon_preset_mods at hq
  rw [List.mem_filterMap] at hq
  obtain ⟨e, _, he⟩ := hq
  cases e with
  | none => cases he
  | some mod =>
    simp only at he
    split_ifs at he
    simp only [Option.some.injEq] at he
    exact ⟨mod, he.symm⟩

theorem noteon_voice_voice (m : Nat) (gpz : Option fluid_preset_zone_t)
    (pz : fluid_preset_zone_t) (giz : Option fluid_inst_zone_t) (iz : fluid_inst_zone_t) :
    ∀ q ∈ noteon_voice m gpz pz giz iz, q.voice = some m := by
  intro q hq
  unfold noteon_voice at hq
  simp only [List.mem_append, List.mem_singleton] at hq
  rcases hq with (((h | h) | h) | h) | h
  · obtain ⟨i, val, rfl⟩ := noteon_inst_gens_voice m giz iz q h; rfl
  · obtain ⟨mod, rfl⟩ := noteon_inst_mods_voice m giz iz q h; rfl
  · obtain ⟨i, val, rfl⟩ := noteon_preset_gens_voice m gpz pz q h; rfl
  · obtain ⟨mod, rfl⟩ := noteon_preset_mods_voice m gpz pz q h; rfl
  · rw [h]; rfl

theorem pairs_calls_voice_ge (alloc : Nat → Bool) (chan key vel : Int)
    (gpz : Option fluid_preset_zone_t) :
    ∀ (pairs : List (fluid_preset_zone_t × Option fluid_inst_zone_t × fluid_inst_zone_t ×
        fluid_sample_t)) (v : Nat),
      ∀ q ∈ (pairs_calls alloc chan key vel gpz v pairs).requests,
        ∀ m, q.voice = some m → v ≤ m := by
  intro pairs
  induction pairs with
  | nil => intro v q hq; simp [pairs_calls] at hq
  | cons p rest ih =>
    intro v q hq m hm
    obtain ⟨pz, giz, iz, sample⟩ := p
    unfold pairs_calls at hq
    by_cases ha : alloc v = true
    · simp only [ha, if_true, List.mem_cons, List.mem_append] at hq
      rcases hq with h | h | h
      · rw [h] at hm; cases hm
      · have := noteon_voice_voice v gpz pz giz iz q h
        rw [this] at hm
        cases hm
        exact Nat.le_refl _
      · have := ih (v + 1) q h m hm
        omega
    · simp only [ha, Bool.false_eq_true, if_false, List.mem_singleton] at hq
      rw [hq] at hm
      cases hm

/-- The counters of the calls told pair by pair. -/
theorem pairs_calls_voices (alloc : Nat → Bool) (chan key vel : Int)
    (gpz : Option fluid_preset_zone_t) :
    ∀ (pairs : List (fluid_preset_zone_t × Option fluid_inst_zone_t × fluid_inst_zone_t ×
        fluid_sample_t)) (v : Nat),
      v ≤ (pairs_calls alloc chan key vel gpz v pairs).voices ∧
      (pairs_calls alloc chan key vel gpz v pairs).voices ≤ v + pairs.length ∧
      (∀ j, v ≤ j → j < (pairs_calls alloc chan key vel gpz v pairs).voices → alloc j = true) ∧
      ((pairs_calls alloc chan key vel gpz v pairs).failed = true →
        (pairs_calls alloc chan key vel gpz v pairs).voices < v + pairs.length ∧
        alloc (pairs_calls alloc chan key vel gpz v pairs).voices = false) ∧
      ((pairs_calls alloc chan key vel gpz v pairs).failed = false →
        (pairs_calls alloc chan key vel gpz v pairs).voices = v + pairs.length) := by
  intro pairs
  induction pairs with
  | nil =>
    intro v
    simp only [pairs_calls]
    exact ⟨Nat.le_refl _, by simp, fun j h1 h2 => by omega,
      fun h => absurd h (by decide), fun _ => by simp⟩
  | cons p rest ih =>
    intro v
    obtain ⟨pz, giz, iz, sample⟩ := p
    unfold pairs_calls
    by_cases ha : alloc v = true
    · simp only [ha, if_true, List.length_cons]
      obtain ⟨h1, h2, h3, h4, h5⟩ := ih (v + 1)
      refine ⟨by omega, by omega, ?_, ?_, ?_⟩
      · intro j hj1 hj2
        by_cases hjv : j = v
        · rw [hjv]; exact ha
        · exact h3 j (by omega) hj2
      · intro hf
        have := h4 hf
        exact ⟨by omega, this.2⟩
      · intro hf
        have := h5 hf
        omega
    · have ha2 : alloc v = false := by
        cases h : alloc v with
        | true => exact absurd h ha
        | false => rfl
      rw [if_neg ha]
      dsimp only
      exact ⟨Nat.le_refl _, by simp, fun j h1 h2 => by omega,
        fun _ => ⟨by simp, ha2⟩, fun h => absurd h (by decide)⟩

/-- The calls made for voice `n` are the calls `noteon_voice` tells for the
pair number `n`. -/
theorem pairs_calls_filter_voice (alloc : Nat → Bool) (chan key vel : Int)
    (gpz : Option fluid_preset_zone_t) :
    ∀ (pairs : List (fluid_preset_zone_t × Option fluid_inst_zone_t × fluid_inst_zone_t ×
        fluid_sample_t)) (v n : Nat),
      v ≤ n → n < (pairs_calls alloc chan key vel gpz v pairs).voices →
      ∃ pz giz iz sample, pairs.get? (n - v) = some (pz, giz, iz, sample) ∧
        (pairs_calls alloc chan key vel gpz v pairs).requests.filter
          (fun q => decide (q.voice = some n)) = noteon_voice n gpz pz giz iz := by
  intro pairs
  induction pairs with
  | nil =>
    intro v n h1 h2
    simp only [pairs_calls] at h2
    omega
  | cons p rest ih =>
    intro v n h1 h2
    obtain ⟨pz, giz, iz, sample⟩ := p
    unfold pairs_calls at h2 ⊢
    by_cases ha : alloc v = true
    · simp only [ha, if_true] at h2 ⊢
      have halloc : decide ((synth_request.fluid_synth_alloc_voice_LOCAL sample chan key vel
          (fluid_zone_inside_range iz.range key vel).1).voice = some n) = false := by
        simp [synth_request.voice]
      rw [List.filter_cons, halloc]
      simp only [Bool.false_eq_true, if_false, List.filter_append]
      by_cases hnv : n = v
      · subst hnv
        refine ⟨pz, giz, iz, sample, by simp, ?_⟩
        rw [filter_eq_self_of_forall _ _ (fun q hq => by
          simp [noteon_voice_voice n gpz pz giz iz q hq])]
        rw [filter_eq_nil_of_forall _ _ (fun q hq => by
          simp only [decide_eq_false_iff_not]
          intro hq2
          have := pairs_calls_voice_ge alloc chan key vel gpz rest (n + 1) q hq n hq2
          omega)]
        simp
      · obtain ⟨pz2, giz2, iz2, sample2, hget, hfil⟩ := ih (v + 1) n (by omega) h2
        refine ⟨pz2, giz2, iz2, sample2, ?_, ?_⟩
        · have : n - v = (n - (v + 1)) + 1 := by omega
          rw [this, List.get?_cons_succ]
          exact hget
        · rw [filter_eq_nil_of_forall _ _ (fun q hq => by
            simp only [decide_eq_false_iff_not]
            rw [noteon_voice_voice v gpz pz giz iz q hq]
            intro hq2
            cases hq2
            exact hnv rfl)]
          rw [List.nil_append]
          exact hfil
    · simp only [ha, Bool.false_eq_true, if_false] at h2
      omega

/-- The calls `fluid_defpreset_noteon` makes for an allocated voice. -/
theorem fluid_defpreset_noteon_voice {global_zone : Option fluid_preset_zone_t}
    {zone : List fluid_preset_zone_t} {alloc : Nat → Bool} {chan key vel : Int}
    {r : noteon_result}
    (h : fluid_defpreset_noteon global_zone zone alloc chan key vel = some r)
    (n : Nat) (hn : n < r.voices) :
    ∃ pz giz iz sample, (noteon_pairs key vel zone).get? n = some (pz, giz, iz, sample) ∧
      r.requests.filter (fun q => decide (q.voice = some n)) =
        noteon_voice n global_zone pz giz iz := by
  obtain ⟨h1, h2, _⟩ := fluid_defpreset_noteon_calls h
  rw [h2] at hn
  rw [h1]
  exact pairs_calls_filter_voice alloc chan key vel global_zone (noteon_pairs key vel zone) 0 n
    (Nat.zero_le _) hn

/-! ## Note on: generators -/

theorem mem_noteon_inst_pairs {key vel : Int} {preset_zone : fluid_preset_zone_t}
    {global_inst_zone : Option fluid_inst_zone_t} {zones : List fluid_inst_zone_t}
    {p : fluid_preset_zone_t × Option fluid_inst_zone_t × fluid_inst_zone_t × fluid_sample_t}
    (h : p ∈ noteon_inst_pairs key vel preset_zone global_inst_zone zones) :
    p.1 = preset_zone ∧ p.2.1 = global_inst_zone ∧ p.2.2.1 ∈ zones ∧
      p.2.2.1.sample = some p.2.2.2 ∧ fluid_sample_in_rom p.2.2.2 = false ∧
      (fluid_zone_inside_range p.2.2.1.range key vel).2 = true := by
  unfold noteon_inst_pairs at h
  rw [List.mem_filterMap] at h
  obtain ⟨iz, hiz, hp⟩ := h
  cases hs : iz.sample with
  | none => rw [hs] at hp; cases hp
  | some sample =>
    rw [hs] at hp
    simp only at hp
    split_ifs at hp with hc
    cases hp
    simp only [Bool.and_eq_true, Bool.not_eq_true'] at hc
    exact ⟨rfl, rfl, hiz, hs, hc.1, hc.2⟩

/-- Where the pairs of a note on come from. -/
theorem mem_noteon_pairs {key vel : Int} :
    ∀ {zone : List fluid_preset_zone_t}
      {p : fluid_preset_zone_t × Option fluid_inst_zone_t × fluid_inst_zone_t × fluid_sample_t},
      p ∈ noteon_pairs key vel zone →
      p.1 ∈ zone ∧ (fluid_zone_inside_range p.1.range key vel).2 = true ∧
      ∃ inst, p.1.inst = some inst ∧ p.2.1 = inst.global_zone ∧ p.2.2.1 ∈ inst.zone ∧
        p.2.2.1.sample = some p.2.2.2 ∧ fluid_sample_in_rom p.2.2.2 = false ∧
        (fluid_zone_inside_range p.2.2.1.range key vel).2 = true := by
  intro zone
  induction zone with
  | nil => intro p h; simp [noteon_pairs] at h
  | cons pz next ih =>
    intro p h
    unfold noteon_pairs at h
    rw [List.mem_append] at h
    rcases h with h | h
    · split_ifs at h with hin
      · cases hi : pz.inst with
        | none => rw [hi] at h; simp at h
        | some inst =>
          rw [hi] at h
          simp only at h
          obtain ⟨h1, h2, h3, h4, h5, h6⟩ := mem_noteon_inst_pairs h
          rw [h1]
          exact ⟨List.mem_cons_self _ _, hin, inst, hi, h2, h3, h4, h5, h6⟩
      · simp at h
    · obtain ⟨h1, h2⟩ := ih h
      exact ⟨List.mem_cons_of_mem _ h1, h2⟩

theorem gen_set_calls_filter (n : Nat) (requests : List synth_request) :
    gen_set_calls n (requests.filter (fun q => decide (q.voice = some n))) =
      gen_set_calls n requests := by
  unfold gen_set_calls
  apply filterMap_filter_of_imp
  intro q hq
  cases q <;> simp [synth_request.voice] at hq ⊢
  intro h
  exact absurd h hq

theorem gen_incr_calls_filter (n : Nat) (requests : List synth_request) :
    gen_incr_calls n (requests.filter (fun q => decide (q.voice = some n))) =
      gen_incr_calls n requests := by
  unfold gen_incr_calls
  apply filterMap_filter_of_imp
  intro q hq
  cases q <;> simp [synth_request.voice] at hq ⊢
  intro h
  exact absurd h hq

theorem add_mod_calls_filter (n : Nat) (mode : fluid_voice_add_mod_mode)
    (requests : List synth_request) :
    add_mod_calls n mode (requests.filter (fun q => decide (q.voice = some n))) =
      add_mod_calls n mode requests := by
  unfold add_mod_calls
  apply filterMap_filter_of_imp
  intro q hq
  cases q <;> simp [synth_request.voice] at hq ⊢
  intro h
  exact absurd h hq

theorem gen_set_calls_append (n : Nat) (a b : List synth_request) :
    gen_set_calls n (a ++ b) = gen_set_calls n a ++ gen_set_calls n b := by
  unfold gen_set_calls
  rw [List.filterMap_append]

theorem gen_incr_calls_append (n : Nat) (a b : List synth_request) :
    gen_incr_calls n (a ++ b) = gen_incr_calls n a ++ gen_incr_calls n b := by
  unfold gen_incr_calls
  rw [List.filterMap_append]

theorem add_mod_calls_append (n : Nat) (mode : fluid_voice_add_mod_mode)
    (a b : List synth_request) :
    add_mod_calls n mode (a ++ b) = add_mod_calls n mode a ++ add_mod_calls n mode b := by
  unfold add_mod_calls
  rw [List.filterMap_append]

/-- The `fluid_voice_gen_set` calls among the calls for a voice are those of
the first generator loop. -/
theorem gen_set_calls_noteon_voice (n : Nat) (gpz : Option fluid_preset_zone_t)
    (pz : fluid_preset_zone_t) (giz : Option fluid_inst_zone_t) (iz : fluid_inst_zone_t) :
    gen_set_calls n (noteon_voice n gpz pz giz iz) =
      (List.range GEN_LAST).filterMap (fun i =>
        if gen_is_set iz.gen i then some (i, (gen_slot iz.gen i).val)
        else giz.bind (fun g =>
          if gen_is_set g.gen i then some (i, (gen_slot g.gen i).val) else none)) := by
  unfold noteon_voice
  simp only [gen_set_calls_append]
  have h2 : gen_set_calls n (noteon_inst_mods n giz iz) = [] :=
    filterMap_eq_nil_of_forall _ _ (fun q hq => by
      obtain ⟨mod, rfl⟩ := noteon_inst_mods_voice n giz iz q hq; rfl)
  have h3 : gen_set_calls n (noteon_preset_gens n gpz pz) = [] :=
    filterMap_eq_nil_of_forall _ _ (fun q hq => by
      obtain ⟨i, val, rfl⟩ := noteon_preset_gens_voice n gpz pz q hq; rfl)
  have h4 : gen_set_calls n (noteon_preset_mods n gpz pz) = [] :=
    filterMap_eq_nil_of_forall _ _ (fun q hq => by
      obtain ⟨mod, rfl⟩ := noteon_preset_mods_voice n gpz pz q hq; rfl)
  have h5 : gen_set_calls n [synth_request.fluid_synth_start_voice n] = [] := rfl
  rw [h2, h3, h4, h5]
  simp only [List.append_nil]
  unfold gen_set_calls noteon_inst_gens
  rw [List.filterMap_filterMap]
  apply List.filterMap_congr
  intro i _
  unfold noteon_inst_gen gen_is_set
  by_cases h1 : (gen_slot iz.gen i).flags ≠ 0
  · simp [h1]
  · cases giz with
    | none => simp [h1]
    | some g =>
      by_cases hg : (gen_slot g.gen i).flags ≠ 0
      · simp [h1, hg]
      · have hg0 : (gen_slot g.gen i).flags = 0 := by simpa using hg
        simp [h1, hg0]

/-- The `fluid_voice_gen_incr` calls among the calls for a voice are those of
the second generator loop. -/
theorem gen_incr_calls_noteon_voice (n : Nat) (gpz : Option fluid_preset_zone_t)
    (pz : fluid_preset_zone_t) (giz : Option fluid_inst_zone_t) (iz : fluid_inst_zone_t) :
    gen_incr_calls n (noteon_voice n gpz pz giz iz) =
      (List.range GEN_LAST).filterMap (fun i =>
        if i ∈ [0, 1, 2, 3, 4, 12, 45, 46, 47, 50, 54, 57, 58] then none
        else if gen_is_set pz.gen i then some (i, (gen_slot pz.gen i).val)
        else gpz.bind (fun g =>
          if gen_is_set g.gen i then some (i, (gen_slot g.gen i).val) else none)) := by
  unfold noteon_voice
  simp only [gen_incr_calls_append]
  have h1 : gen_incr_calls n (noteon_inst_gens n giz iz) = [] :=
    filterMap_eq_nil_of_forall _ _ (fun q hq => by
      obtain ⟨i, val, rfl⟩ := noteon_inst_gens_voice n giz iz q hq; rfl)
  have h2 : gen_incr_calls n (noteon_inst_mods n giz iz) = [] :=
    filterMap_eq_nil_of_forall _ _ (fun q hq => by
      obtain ⟨mod, rfl⟩ := noteon_inst_mods_voice n giz iz q hq; rfl)
  have h4 : gen_incr_calls n (noteon_preset_mods n gpz pz) = [] :=
    filterMap_eq_nil_of_forall _ _ (fun q hq => by
      obtain ⟨mod, rfl⟩ := noteon_preset_mods_voice n gpz pz q hq; rfl)
  have h5 : gen_incr_calls n [synth_request.fluid_synth_start_voice n] = [] := rfl
  rw [h1, h2, h4, h5]
  simp only [List.append_nil, List.nil_append]
  unfold gen_incr_calls noteon_preset_gens
  rw [List.filterMap_filterMap]
  apply List.filterMap_congr
  intro i _
  unfold noteon_preset_gen gen_is_set
  by_cases hex : i ∈ [0, 1, 2, 3, 4, 12, 45, 46, 47, 50, 54, 57, 58]
  · have hc : ¬ (i ≠ GEN_STARTADDROFS ∧ i ≠ GEN_ENDADDROFS ∧ i ≠ GEN_STARTLOOPADDROFS ∧
        i ≠ GEN_ENDLOOPADDROFS ∧ i ≠ GEN_STARTADDRCOARSEOFS ∧ i ≠ GEN_ENDADDRCOARSEOFS ∧
        i ≠ GEN_STARTLOOPADDRCOARSEOFS ∧ i ≠ GEN_KEYNUM ∧ i ≠ GEN_VELOCITY ∧
        i ≠ GEN_ENDLOOPADDRCOARSEOFS ∧ i ≠ GEN_SAMPLEMODE ∧ i ≠ GEN_EXCLUSIVECLASS ∧
        i ≠ GEN_OVERRIDEROOTKEY) := by
      simp only [GEN_STARTADDROFS, GEN_ENDADDROFS, GEN_STARTLOOPADDROFS, GEN_ENDLOOPADDROFS,
        GEN_STARTADDRCOARSEOFS, GEN_ENDADDRCOARSEOFS, GEN_STARTLOOPADDRCOARSEOFS, GEN_KEYNUM,
        GEN_VELOCITY, GEN_ENDLOOPADDRCOARSEOFS, GEN_SAMPLEMODE, GEN_EXCLUSIVECLASS,
        GEN_OVERRIDEROOTKEY]
      simp only [List.mem_cons, List.mem_singleton, List.not_mem_nil, or_false] at hex
      omega
    rw [if_neg hc, if_pos hex]
    rfl
  · have hc : i ≠ GEN_STARTADDROFS ∧ i ≠ GEN_ENDADDROFS ∧ i ≠ GEN_STARTLOOPADDROFS ∧
        i ≠ GEN_ENDLOOPADDROFS ∧ i ≠ GEN_STARTADDRCOARSEOFS ∧ i ≠ GEN_ENDADDRCOARSEOFS ∧
        i ≠ GEN_STARTLOOPADDRCOARSEOFS ∧ i ≠ GEN_KEYNUM ∧ i ≠ GEN_VELOCITY ∧
        i ≠ GEN_ENDLOOPADDRCOARSEOFS ∧ i ≠ GEN_SAMPLEMODE ∧ i ≠ GEN_EXCLUSIVECLASS ∧
        i ≠ GEN_OVERRIDEROOTKEY := by
      simp only [GEN_STARTADDROFS, GEN_ENDADDROFS, GEN_STARTLOOPADDROFS, GEN_ENDLOOPADDROFS,
        GEN_STARTADDRCOARSEOFS, GEN_ENDADDRCOARSEOFS, GEN_STARTLOOPADDRCOARSEOFS, GEN_KEYNUM,
        GEN_VELOCITY, GEN_ENDLOOPADDRCOARSEOFS, GEN_SAMPLEMODE, GEN_EXCLUSIVECLASS,
        GEN_OVERRIDEROOTKEY]
      simp only [List.mem_cons, List.mem_singleton, List.not_mem_nil, or_false] at hex
      omega
    rw [if_pos hc, if_neg hex]
    by_cases h1 : (gen_slot pz.gen i).flags ≠ 0
    · simp [h1]
    · cases gpz with
      | none => simp [h1]
      | some g =>
        by_cases hg : (gen_slot g.gen i).flags ≠ 0
        · simp [h1, hg]
        · have hg0 : (gen_slot g.gen i).flags = 0 := by simpa using hg
          simp [h1, hg0]

theorem pairwise_fst_filterMap_range {β : Type} (f : Nat → Option (Nat × β))
    (hf : ∀ i p, f i = some p → p.1 = i) (N : Nat) :
    (((List.range N).filterMap f).map Prod.fst).Pairwise (· < ·) := by
  have hsub : (((List.range N).filterMap f).map Prod.fst).Sublist (List.range N) := by
    have : ((List.range N).filterMap f).map Prod.fst =
        (List.range N).filterMap (fun i => (f i).map Prod.fst) := by
      rw [List.map_filterMap]
    rw [this]
    have h2 : (List.range N).filterMap (fun i => (f i).map Prod.fst) =
        (List.range N).filter (fun i => (f i).isSome) := by
      induction (List.range N) with
      | nil => rfl
      | cons a t ih =>
        rw [List.filterMap_cons, List.filter_cons]
        cases hfa : f a with
        | none => simp [ih]
        | some p =>
          have := hf a p hfa
          simp [ih, this]
    rw [h2]
    exact List.filter_sublist _
  exact List.Pairwise.sublist hsub (List.pairwise_lt_range N)

/-- The pair a voice of `fluid_defpreset_noteon` was allocated for, and the
calls made for the voice. -/
theorem fluid_defpreset_noteon_pair {global_zone : Option fluid_preset_zone_t}
    {zone : List fluid_preset_zone_t} {alloc : Nat → Bool} {chan key vel : Int}
    {r : noteon_result}
    (h : fluid_defpreset_noteon global_zone zone alloc chan key vel = some r)
    (n : Nat) (hn : n < r.voices) :
    ∃ pz inst iz sample,
      (noteon_pairs key vel zone).get? n = some (pz, inst.global_zone, iz, sample) ∧
      pz ∈ zone ∧ pz.inst = some inst ∧ iz ∈ inst.zone ∧
      r.requests.filter (fun q => decide (q.voice = some n)) =
        noteon_voice n global_zone pz inst.global_zone iz := by
  obtain ⟨pz, giz, iz, sample, hget, hfil⟩ := fluid_defpreset_noteon_voice h n hn
  have hmem : (pz, giz, iz, sample) ∈ noteon_pairs key vel zone := List.get?_mem hget
  obtain ⟨h1, _, inst, h3, h4, h5, _⟩ := mem_noteon_pairs hmem
  simp only at h1 h3 h4 h5
  subst h4
  exact ⟨pz, inst, iz, sample, hget, h1, h3, h5, hfil⟩

theorem mem_filterMap_range {β : Type} (f : Nat → Option (Nat × β))
    (hf : ∀ i p, f i = some p → p.1 = i) (N : Nat) (i : Nat) (val : β) :
    (i, val) ∈ (List.range N).filterMap f ↔ i < N ∧ f i = some (i, val) := by
  rw [List.mem_filterMap]
  constructor
  · rintro ⟨j, hj, hfj⟩
    have := hf j _ hfj
    simp only at this
    subst this
    exact ⟨List.mem_range.mp hj, hfj⟩
  · rintro ⟨h1, h2⟩
    exact ⟨i, List.mem_range.mpr h1, h2⟩

theorem gen_choice_iff {Z : Type} (sel : Z → List fluid_gen_t) (a : List fluid_gen_t)
    (G : Option Z) (i : Nat) (p : Nat × fluid_real_t) :
    (if gen_is_set a i then some (i, (gen_slot a i).val)
      else G.bind (fun g =>
        if gen_is_set (sel g) i then some (i, (gen_slot (sel g) i).val) else none)) = some p ↔
      p.1 = i ∧
        ((gen_is_set a i ∧ p.2 = (gen_slot a i).val) ∨
         (¬ gen_is_set a i ∧ ∃ g, G = some g ∧ gen_is_set (sel g) i ∧
            p.2 = (gen_slot (sel g) i).val)) := by
  obtain ⟨j, val⟩ := p
  by_cases hs : gen_is_set a i
  · simp only [hs, if_true, Option.some.injEq, Prod.mk.injEq, true_and, not_true_eq_false,
      false_and, or_false]
    constructor
    · rintro ⟨h1, h2⟩; exact ⟨h1.symm, h2.symm⟩
    · rintro ⟨h1, h2⟩; exact ⟨h1.symm, h2.symm⟩
  · simp only [hs, if_false, false_and, not_false_eq_true, true_and, false_or]
    cases G with
    | none => simp
    | some g =>
      simp only [Option.some_bind, Option.some.injEq, exists_eq_left']
      by_cases hgs : gen_is_set (sel g) i
      · simp only [hgs, if_true, Option.some.injEq, Prod.mk.injEq, true_and]
        constructor
        · rintro ⟨h1, h2⟩; exact ⟨h1.symm, h2.symm⟩
        · rintro ⟨h1, h2⟩; exact ⟨h1.symm, h2.symm⟩
      · simp [hgs]

/-- C22: for every voice `fluid_defpreset_noteon` allocates, for the preset
zone and the instrument zone it was allocated for, the `fluid_voice_gen_set`
calls made for the voice are, for the indices i below `GEN_LAST` in
increasing order: the value of slot i of the instrument zone if that slot is
set, else the value of slot i of the global instrument zone if there is one
and its slot is set, and no call otherwise; so there is at most one call for
an index. -/
theorem noteon_inst_gen_precedence (global_zone : Option fluid_preset_zone_t)
    (zone : List fluid_preset_zone_t) (alloc : Nat → Bool) (chan key vel : Int) (n : Nat)
    (hn : ∃ r, fluid_defpreset_noteon global_zone zone alloc chan key vel = some r ∧
      n < r.voices) :
    ∃ r pz inst iz sample,
      fluid_defpreset_noteon global_zone zone alloc chan key vel = some r ∧
      (noteon_pairs key vel zone).get? n = some (pz, inst.global_zone, iz, sample) ∧
      pz ∈ zone ∧ pz.inst = some inst ∧ iz ∈ inst.zone ∧
      gen_set_calls n r.requests =
        (List.range GEN_LAST).filterMap (fun i =>
          if gen_is_set iz.gen i then some (i, (gen_slot iz.gen i).val)
          else inst.global_zone.bind (fun g =>
            if gen_is_set g.gen i then some (i, (gen_slot g.gen i).val) else none)) ∧
      (∀ i val, (i, val) ∈ gen_set_calls n r.requests ↔
        i < GEN_LAST ∧
          ((gen_is_set iz.gen i ∧ val = (gen_slot iz.gen i).val) ∨
           (¬ gen_is_set iz.gen i ∧ ∃ g, inst.global_zone = some g ∧ gen_is_set g.gen i ∧
              val = (gen_slot g.gen i).val))) ∧
      ((gen_set_calls n r.requests).map Prod.fst).Pairwise (· < ·) := by
  obtain ⟨r, h, hlt⟩ := hn
  obtain ⟨pz, inst, iz, sample, hget, h1, h2, h3, hfil⟩ := fluid_defpreset_noteon_pair h n hlt
  have hcalls : gen_set_calls n r.requests =
      (List.range GEN_LAST).filterMap (fun i =>
        if gen_is_set iz.gen i then some (i, (gen_slot iz.gen i).val)
        else inst.global_zone.bind (fun g =>
          if gen_is_set g.gen i then some (i, (gen_slot g.gen i).val) else none)) := by
    rw [← gen_set_calls_filter, hfil, gen_set_calls_noteon_voice]
  have hf : ∀ i (p : Nat × fluid_real_t),
      (if gen_is_set iz.gen i then some (i, (gen_slot iz.gen i).val)
        else inst.global_zone.bind (fun g =>
          if gen_is_set g.gen i then some (i, (gen_slot g.gen i).val) else none)) = some p →
        p.1 = i := fun i p hp =>
    ((gen_choice_iff (fun g : fluid_inst_zone_t => g.gen) iz.gen inst.global_zone i p).mp hp).1
  refine ⟨r, pz, inst, iz, sample, h, hget, h1, h2, h3, hcalls, ?_, ?_⟩
  · intro i val
    rw [hcalls, mem_filterMap_range _ hf]
    apply and_congr_right
    intro _
    have := gen_choice_iff (fun g : fluid_inst_zone_t => g.gen) iz.gen inst.global_zone i
      (i, val)
    simp only [true_and] at this
    exact this
  · rw [hcalls]
    exact pairwise_fst_filterMap_range _ hf GEN_LAST

/-- Instance of C22: the first voice of a note on the demo preset. -/
theorem noteon_inst_gen_precedence_witness :
    ∃ r pz inst iz sample,
      fluid_defpreset_noteon (some demo_global_preset_zone) [demo_preset_zone] (fun _ => true)
        0 60 100 = some r ∧
      (noteon_pairs 60 100 [demo_preset_zone]).get? 0 =
        some (pz, inst.global_zone, iz, sample) ∧
      pz ∈ [demo_preset_zone] ∧ pz.inst = some inst ∧ iz ∈ inst.zone ∧
      gen_set_calls 0 r.requests =
        (List.range GEN_LAST).filterMap (fun i =>
          if gen_is_set iz.gen i then some (i, (gen_slot iz.gen i).val)
          else inst.global_zone.bind (fun g =>
            if gen_is_set g.gen i then some (i, (gen_slot g.gen i).val) else none)) ∧
      (∀ i val, (i, val) ∈ gen_set_calls 0 r.requests ↔
        i < GEN_LAST ∧
          ((gen_is_set iz.gen i ∧ val = (gen_slot iz.gen i).val) ∨
           (¬ gen_is_set iz.gen i ∧ ∃ g, inst.global_zone = some g ∧ gen_is_set g.gen i ∧
              val = (gen_slot g.gen i).val))) ∧
      ((gen_set_calls 0 r.requests).map Prod.fst).Pairwise (· < ·) :=
  noteon_inst_gen_precedence (some demo_global_preset_zone) [demo_preset_zone] (fun _ => true)
    0 60 100 0 ⟨_, rfl, by decide⟩

/-- C23: for every voice `fluid_defpreset_noteon` allocates, for the preset
zone it was allocated for, the `fluid_voice_gen_incr` calls made for the voice
are, for the indices i below `GEN_LAST` in increasing order that are not among
0, 1, 2, 3, 4, 12, 45, 46, 47, 50, 54, 57, 58: the value of slot i of the preset
zone if that slot is set, else the value of slot i of the global preset zone
if there is one and its slot is set, and no call otherwise. -/
theorem noteon_preset_gen_added (global_zone : Option fluid_preset_zone_t)
    (zone : List fluid_preset_zone_t) (alloc : Nat → Bool) (chan key vel : Int) (n : Nat)
    (hn : ∃ r, fluid_defpreset_noteon global_zone zone alloc chan key vel = some r ∧
      n < r.voices) :
    ∃ r pz inst iz sample,
      fluid_defpreset_noteon global_zone zone alloc chan key vel = some r ∧
      (noteon_pairs key vel zone).get? n = some (pz, inst.global_zone, iz, sample) ∧
      pz ∈ zone ∧ pz.inst = some inst ∧ iz ∈ inst.zone ∧
      gen_incr_calls n r.requests =
        (List.range GEN_LAST).filterMap (fun i =>
          if i ∈ [0, 1, 2, 3, 4, 12, 45, 46, 47, 50, 54, 57, 58] then none
          else if gen_is_set pz.gen i then some (i, (gen_slot pz.gen i).val)
          else global_zone.bind (fun g =>
            if gen_is_set g.gen i then some (i, (gen_slot g.gen i).val) else none)) ∧
      (∀ i val, (i, val) ∈ gen_incr_calls n r.requests ↔
        i < GEN_LAST ∧ i ∉ [0, 1, 2, 3, 4, 12, 45, 46, 47, 50, 54, 57, 58] ∧
          ((gen_is_set pz.gen i ∧ val = (gen_slot pz.gen i).val) ∨
           (¬ gen_is_set pz.gen i ∧ ∃ g, global_zone = some g ∧ gen_is_set g.gen i ∧
              val = (gen_slot g.gen i).val))) ∧
      ((gen_incr_calls n r.requests).map Prod.fst).Pairwise (· < ·) := by
  obtain ⟨r, h, hlt⟩ := hn
  obtain ⟨pz, inst, iz, sample, hget, h1, h2, h3, hfil⟩ := fluid_defpreset_noteon_pair h n hlt
  have hcalls : gen_incr_calls n r.requests =
      (List.range GEN_LAST).filterMap (fun i =>
        if i ∈ [0, 1, 2, 3, 4, 12, 45, 46, 47, 50, 54, 57, 58] then none
        else if gen_is_set pz.gen i then some (i, (gen_slot pz.gen i).val)
        else global_zone.bind (fun g =>
          if gen_is_set g.gen i then some (i, (gen_slot g.gen i).val) else none)) := by
    rw [← gen_incr_calls_filter, hfil, gen_incr_calls_noteon_voice]
  have hf : ∀ i (p : Nat × fluid_real_t),
      (if i ∈ [0, 1, 2, 3, 4, 12, 45, 46, 47, 50, 54, 57, 58] then none
        else if gen_is_set pz.gen i then some (i, (gen_slot pz.gen i).val)
        else global_zone.bind (fun g =>
          if gen_is_set g.gen i then some (i, (gen_slot g.gen i).val) else none)) = some p →
        p.1 = i := by
    intro i p hp
    by_cases hex : i ∈ [0, 1, 2, 3, 4, 12, 45, 46, 47, 50, 54, 57, 58]
    · rw [if_pos hex] at hp
      cases hp
    · rw [if_neg hex] at hp
      exact ((gen_choice_iff (fun g : fluid_preset_zone_t => g.gen) pz.gen global_zone i
        p).mp hp).1
  refine ⟨r, pz, inst, iz, sample, h, hget, h1, h2, h3, hcalls, ?_, ?_⟩
  · intro i val
    rw [hcalls, mem_filterMap_range _ hf]
    apply and_congr_right
    intro _
    by_cases hex : i ∈ [0, 1, 2, 3, 4, 12, 45, 46, 47, 50, 54, 57, 58]
    · rw [if_pos hex]
      exact ⟨fun h => Option.noConfusion h, fun h => absurd hex h.1⟩
    · rw [if_neg hex]
      have := gen_choice_iff (fun g : fluid_preset_zone_t => g.gen) pz.gen global_zone i
        (i, val)
      simp only [true_and] at this
      rw [this]
      exact ⟨fun h => ⟨hex, h⟩, fun h => h.2⟩
  · rw [hcalls]
    exact pairwise_fst_filterMap_range _ hf GEN_LAST

/-- Instance of C23: the first voice of a note on the demo preset. -/
theorem noteon_preset_gen_added_witness :
    ∃ r pz inst iz sample,
      fluid_defpreset_noteon (some demo_global_preset_zone) [demo_preset_zone] (fun _ => true)
        0 60 100 = some r ∧
      (noteon_pairs 60 100 [demo_preset_zone]).get? 0 =
        some (pz, inst.global_zone, iz, sample) ∧
      pz ∈ [demo_preset_zone] ∧ pz.inst = some inst ∧ iz ∈ inst.zone ∧
      gen_incr_calls 0 r.requests =
        (List.range GEN_LAST).filterMap (fun i =>
          if i ∈ [0, 1, 2, 3, 4, 12, 45, 46, 47, 50, 54, 57, 58] then none
          else if gen_is_set pz.gen i then some (i, (gen_slot pz.gen i).val)
          else (some demo_global_preset_zone).bind (fun g =>
            if gen_is_set g.gen i then some (i, (gen_slot g.gen i).val) else none)) ∧
      (∀ i val, (i, val) ∈ gen_incr_calls 0 r.requests ↔
        i < GEN_LAST ∧ i ∉ [0, 1, 2, 3, 4, 12, 45, 46, 47, 50, 54, 57, 58] ∧
          ((gen_is_set pz.gen i ∧ val = (gen_slot pz.gen i).val) ∨
           (¬ gen_is_set pz.gen i ∧ ∃ g, some demo_global_preset_zone = some g ∧
              gen_is_set g.gen i ∧ val = (gen_slot g.gen i).val))) ∧
      ((gen_incr_calls 0 r.requests).map Prod.fst).Pairwise (· < ·) :=
  noteon_preset_gen_added (some demo_global_preset_zone) [demo_preset_zone] (fun _ => true)
    0 60 100 0 ⟨_, rfl, by decide⟩

/-! ## Note on: modulators -/

theorem filterMap_id_map_some {α : Type} (l : List α) :
    (l.map some).filterMap (fun e => e) = l := by
  induction l with
  | nil => rfl
  | cons a t ih => simp [List.filterMap_cons, ih]

theorem mod_list_kick_somes (mod : fluid_mod_t) (mod_list : List (Option fluid_mod_t)) :
    (mod_list_kick mod mod_list).filterMap (fun e => e) =
      (mod_list.filterMap (fun e => e)).filter (fun g => !fluid_mod_test_identity mod g) := by
  induction mod_list with
  | nil => rfl
  | cons e t ih =>
    have hcons : mod_list_kick mod (e :: t) =
        (match e with
          | some m => if fluid_mod_test_identity mod m then none else some m
          | none => none) :: mod_list_kick mod t := rfl
    rw [hcons]
    cases e with
    | none =>
      simp only [List.filterMap_cons]
      exact ih
    | some m =>
      cases hid : fluid_mod_test_identity mod m with
      | true =>
        simp only [List.filterMap_cons, if_true]
        rw [List.filter_cons, hid]
        simp only [Bool.not_true, Bool.false_eq_true, if_false]
        exact ih
      | false =>
        simp only [List.filterMap_cons, Bool.false_eq_true, if_false]
        rw [List.filter_cons, hid]
        simp only [Bool.not_false, if_true]
        rw [ih]
        simp

/-- The entries of `mod_list` that are not `NULL`, after the modulators of the
local zone were put in. -/
theorem mod_list_add_local_somes :
    ∀ (local_mod : List fluid_mod_t) (mod_list : List (Option fluid_mod_t)),
      (mod_list_add_local mod_list local_mod).filterMap (fun e => e) =
        (mod_list.filterMap (fun e => e)).filter
          (fun g => !local_mod.any (fun l => fluid_mod_test_identity l g)) ++
        drop_superseded local_mod := by
  intro local_mod
  induction local_mod with
  | nil =>
    intro mod_list
    simp [mod_list_add_local, drop_superseded]
  | cons m rest ih =>
    intro mod_list
    unfold mod_list_add_local
    rw [ih, List.filterMap_append, mod_list_kick_somes, List.filter_append, List.filter_filter]
    have h1 : (fun a => (!rest.any (fun l => fluid_mod_test_identity l a)) &&
          !fluid_mod_test_identity m a) =
        (fun g => !(m :: rest).any (fun l => fluid_mod_test_identity l g)) := by
      funext a
      simp only [List.any_cons, Bool.not_or]
      exact Bool.and_comm _ _
    rw [h1, List.append_assoc]
    congr 1
    have hds : drop_superseded (m :: rest) =
        if rest.any (fun later => fluid_mod_test_identity later m) then drop_superseded rest
        else m :: drop_superseded rest := rfl
    rw [hds]
    cases hany : rest.any (fun later => fluid_mod_test_identity later m) with
    | true =>
      simp only [List.filterMap_cons, List.filterMap_nil, List.filter_cons, hany, Bool.not_true,
        Bool.false_eq_true, if_false, List.filter_nil, List.nil_append, if_true]
    | false =>
      simp only [List.filterMap_cons, List.filterMap_nil, List.filter_cons, hany,
        Bool.not_false, if_true, List.filter_nil, List.singleton_append, Bool.false_eq_true,
        if_false]

theorem noteon_mod_list_somes (global_mod : Option (List fluid_mod_t))
    (local_mod : List fluid_mod_t) :
    (noteon_mod_list global_mod local_mod).filterMap (fun e => e) =
      merged_mods global_mod local_mod := by
  unfold noteon_mod_list merged_mods
  rw [mod_list_add_local_somes]
  cases global_mod with
  | none => rfl
  | some mod => simp only [filterMap_id_map_some]

theorem add_mod_calls_inst_mods (n : Nat) (giz : Option fluid_inst_zone_t)
    (iz : fluid_inst_zone_t) :
    add_mod_calls n .FLUID_VOICE_OVERWRITE (noteon_inst_mods n giz iz) =
      merged_mods (giz.map (fun z => z.mod)) iz.mod ∧
    add_mod_calls n .FLUID_VOICE_ADD (noteon_inst_mods n giz iz) = [] := by
  constructor
  · rw [← noteon_mod_list_somes]
    unfold add_mod_calls noteon_inst_mods
    rw [List.filterMap_filterMap]
    apply List.filterMap_congr
    intro e _
    cases e with
    | none => rfl
    | some mod => simp
  · apply filterMap_eq_nil_of_forall
    intro q hq
    obtain ⟨mod, rfl⟩ := noteon_inst_mods_voice n giz iz q hq
    simp

theorem add_mod_calls_preset_mods (n : Nat) (gpz : Option fluid_preset_zone_t)
    (pz : fluid_preset_zone_t) :
    add_mod_calls n .FLUID_VOICE_ADD (noteon_preset_mods n gpz pz) =
      (merged_mods (gpz.map (fun z => z.mod)) pz.mod).filter (fun m => decide (m.amount ≠ 0)) ∧
    add_mod_calls n .FLUID_VOICE_OVERWRITE (noteon_preset_mods n gpz pz) = [] := by
  constructor
  · rw [← noteon_mod_list_somes]
    unfold add_mod_calls noteon_preset_mods
    rw [List.filterMap_filterMap]
    generalize noteon_mod_list (gpz.map (fun z => z.mod)) pz.mod = l
    induction l with
    | nil => rfl
    | cons e t ih =>
      rw [List.filterMap_cons, List.filterMap_cons]
      cases e with
      | none =>
        simp only [Option.none_bind]
        exact ih
      | some mod =>
        by_cases ha : mod.amount ≠ 0
        · simp only [if_pos ha, Option.some_bind, and_self, if_true]
          rw [List.filter_cons, decide_eq_true ha, if_pos rfl, ih]
        · simp only [if_neg ha, Option.none_bind]
          rw [List.filter_cons, decide_eq_false ha]
          simp only [Bool.false_eq_true, if_false]
          exact ih
  · apply filterMap_eq_nil_of_forall
    intro q hq
    obtain ⟨mod, rfl⟩ := noteon_preset_mods_voice n gpz pz q hq
    simp

/-- The `fluid_voice_add_mod` calls among the calls for a voice. -/
theorem add_mod_calls_noteon_voice (n : Nat) (gpz : Option fluid_preset_zone_t)
    (pz : fluid_preset_zone_t) (giz : Option fluid_inst_zone_t) (iz : fluid_inst_zone_t) :
    add_mod_calls n .FLUID_VOICE_OVERWRITE (noteon_voice n gpz pz giz iz) =
      merged_mods (giz.map (fun z => z.mod)) iz.mod ∧
    add_mod_calls n .FLUID_VOICE_ADD (noteon_voice n gpz pz giz iz) =
      (merged_mods (gpz.map (fun z => z.mod)) pz.mod).filter
        (fun m => decide (m.amount ≠ 0)) := by
  have g1 : ∀ mode, add_mod_calls n mode (noteon_inst_gens n giz iz) = [] := fun mode =>
    filterMap_eq_nil_of_forall _ _ (fun q hq => by
      obtain ⟨i, val, rfl⟩ := noteon_inst_gens_voice n giz iz q hq; rfl)
  have g2 : ∀ mode, add_mod_calls n mode (noteon_preset_gens n gpz pz) = [] := fun mode =>
    filterMap_eq_nil_of_forall _ _ (fun q hq => by
      obtain ⟨i, val, rfl⟩ := noteon_preset_gens_voice n gpz pz q hq; rfl)
  have g3 : ∀ mode, add_mod_calls n mode [synth_request.fluid_synth_start_voice n] = [] :=
    fun mode => rfl
  unfold noteon_voice
  constructor
  · simp only [add_mod_calls_append, g1, g2, g3, (add_mod_calls_inst_mods n giz iz).1,
      (add_mod_calls_preset_mods n gpz pz).2, List.append_nil, List.nil_append]
  · simp only [add_mod_calls_append, g1, g2, g3, (add_mod_calls_inst_mods n giz iz).2,
      (add_mod_calls_preset_mods n gpz pz).1, List.append_nil, List.nil_append]

/-- C24 fails as stated: for an instrument zone with two modulators that are
identical (amounts 10 and 20) and no global zone, only the second is added to
the voice, not the two modulators of the local zone. -/
theorem noteon_drops_earlier_identical_local_mod :
    (fluid_defpreset_noteon none
        [{ demo_preset_zone with
            inst := some ⟨"i", none,
              [{ demo_inst_zone with mod := [demo_mod 48 10, demo_mod 48 20] }]⟩ }]
        (fun _ => true) 0 60 100).map
        (fun r => add_mod_calls 0 .FLUID_VOICE_OVERWRITE r.requests) =
      some [demo_mod 48 20] ∧
    [demo_mod 48 20] ≠ ([] : List fluid_mod_t) ++ [demo_mod 48 10, demo_mod 48 20] := by
  refine ⟨by decide, by decide⟩

/-- C24 (as amended): `fluid_mod_test_identity` does not look at the amount,
and for every voice `fluid_defpreset_noteon` allocates, the modulators added to
the voice with `FLUID_VOICE_OVERWRITE` are, in order, the modulators of the
global instrument zone that no modulator of the local instrument zone is
identical to, followed by the modulators of the local zone that no later
modulator of the local zone is identical to; when the global zone has the one
modulator M1 and the local zone the one modulator M2 identical to it, M2 alone
is added. -/
theorem noteon_inst_mod_replacement (global_zone : Option fluid_preset_zone_t)
    (zone : List fluid_preset_zone_t) (alloc : Nat → Bool) (chan key vel : Int) (n : Nat)
    (hn : ∃ r, fluid_defpreset_noteon global_zone zone alloc chan key vel = some r ∧
      n < r.voices) :
    (∀ (m : fluid_mod_t) (amount : Int),
      fluid_mod_test_identity { m with amount := amount } m = true) ∧
    ∃ r pz inst iz sample,
      fluid_defpreset_noteon global_zone zone alloc chan key vel = some r ∧
      (noteon_pairs key vel zone).get? n = some (pz, inst.global_zone, iz, sample) ∧
      pz ∈ zone ∧ pz.inst = some inst ∧ iz ∈ inst.zone ∧
      add_mod_calls n .FLUID_VOICE_OVERWRITE r.requests =
        ((inst.global_zone.map (fun z => z.mod)).getD []).filter
          (fun g => !iz.mod.any (fun l => fluid_mod_test_identity l g)) ++
        drop_superseded iz.mod ∧
      (∀ M1 M2, inst.global_zone.map (fun z => z.mod) = some [M1] → iz.mod = [M2] →
        fluid_mod_test_identity M2 M1 = true →
        add_mod_calls n .FLUID_VOICE_OVERWRITE r.requests = [M2]) := by
  refine ⟨fun m amount => by simp [fluid_mod_test_identity], ?_⟩
  obtain ⟨r, h, hlt⟩ := hn
  obtain ⟨pz, inst, iz, sample, hget, h1, h2, h3, hfil⟩ := fluid_defpreset_noteon_pair h n hlt
  have hcalls : add_mod_calls n .FLUID_VOICE_OVERWRITE r.requests =
      ((inst.global_zone.map (fun z => z.mod)).getD []).filter
        (fun g => !iz.mod.any (fun l => fluid_mod_test_identity l g)) ++
      drop_superseded iz.mod := by
    rw [← add_mod_calls_filter, hfil, (add_mod_calls_noteon_voice n global_zone pz _ iz).1]
    unfold merged_mods
    cases inst.global_zone with
    | none => rfl
    | some g => rfl
  refine ⟨r, pz, inst, iz, sample, h, hget, h1, h2, h3, hcalls, ?_⟩
  intro M1 M2 hg hl hid
  rw [hcalls, hg, hl]
  simp [drop_superseded, hid]

/-- Instance of C24: the first voice of a note on the demo preset, whose
global instrument zone has a modulator of amount 100 and whose instrument zone
has an identical one of amount 50. -/
theorem noteon_inst_mod_replacement_witness :
    (∃ r, fluid_defpreset_noteon (some demo_global_preset_zone) [demo_preset_zone]
      (fun _ => true) 0 60 100 = some r ∧
      add_mod_calls 0 .FLUID_VOICE_OVERWRITE r.requests = [demo_mod 48 50]) ∧
    (∀ (m : fluid_mod_t) (amount : Int),
      fluid_mod_test_identity { m with amount := amount } m = true) ∧
    ∃ r pz inst iz sample,
      fluid_defpreset_noteon (some demo_global_preset_zone) [demo_preset_zone]
        (fun _ => true) 0 60 100 = some r ∧
      (noteon_pairs 60 100 [demo_preset_zone]).get? 0 =
        some (pz, inst.global_zone, iz, sample) ∧
      pz ∈ [demo_preset_zone] ∧ pz.inst = some inst ∧ iz ∈ inst.zone ∧
      add_mod_calls 0 .FLUID_VOICE_OVERWRITE r.requests =
        ((inst.global_zone.map (fun z => z.mod)).getD []).filter
          (fun g => !iz.mod.any (fun l => fluid_mod_test_identity l g)) ++
        drop_superseded iz.mod ∧
      (∀ M1 M2, inst.global_zone.map (fun z => z.mod) = some [M1] → iz.mod = [M2] →
        fluid_mod_test_identity M2 M1 = true →
        add_mod_calls 0 .FLUID_VOICE_OVERWRITE r.requests = [M2]) :=
  ⟨⟨_, rfl, by decide⟩,
    noteon_inst_mod_replacement (some demo_global_preset_zone) [demo_preset_zone]
      (fun _ => true) 0 60 100 0 ⟨_, rfl, by decide⟩⟩

/-- C25: for every voice `fluid_defpreset_noteon` allocates, the modulators
added to the voice with `FLUID_VOICE_ADD` are the modulators left by the merge
of the global and the local preset zone (the global ones that no local one is
identical to, then the local ones that no later local one is identical to)
whose amount is not 0, in order; a local modulator of amount 0 identical to
a global one removes the global one and is not added itself. The modulators
added with `FLUID_VOICE_OVERWRITE` are all those left by the merge of the
instrument zones, whatever their amount. -/
theorem noteon_preset_mod_amount_zero_dropped (global_zone : Option fluid_preset_zone_t)
    (zone : List fluid_preset_zone_t) (alloc : Nat → Bool) (chan key vel : Int) (n : Nat)
    (hn : ∃ r, fluid_defpreset_noteon global_zone zone alloc chan key vel = some r ∧
      n < r.voices) :
    ∃ r pz inst iz sample,
      fluid_defpreset_noteon global_zone zone alloc chan key vel = some r ∧
      (noteon_pairs key vel zone).get? n = some (pz, inst.global_zone, iz, sample) ∧
      pz ∈ zone ∧ pz.inst = some inst ∧ iz ∈ inst.zone ∧
      add_mod_calls n .FLUID_VOICE_ADD r.requests =
        (merged_mods (global_zone.map (fun z => z.mod)) pz.mod).filter
          (fun m => decide (m.amount ≠ 0)) ∧
      (∀ m, m ∈ add_mod_calls n .FLUID_VOICE_ADD r.requests ↔
        m ∈ merged_mods (global_zone.map (fun z => z.mod)) pz.mod ∧ m.amount ≠ 0) ∧
      (∀ P1 P2, global_zone.map (fun z => z.mod) = some [P1] → pz.mod = [P2] →
        fluid_mod_test_identity P2 P1 = true → P2.amount = 0 →
        add_mod_calls n .FLUID_VOICE_ADD r.requests = []) ∧
      add_mod_calls n .FLUID_VOICE_OVERWRITE r.requests =
        merged_mods (inst.global_zone.map (fun z => z.mod)) iz.mod := by
  obtain ⟨r, h, hlt⟩ := hn
  obtain ⟨pz, inst, iz, sample, hget, h1, h2, h3, hfil⟩ := fluid_defpreset_noteon_pair h n hlt
  have hadd : add_mod_calls n .FLUID_VOICE_ADD r.requests =
      (merged_mods (global_zone.map (fun z => z.mod)) pz.mod).filter
        (fun m => decide (m.amount ≠ 0)) := by
    rw [← add_mod_calls_filter, hfil, (add_mod_calls_noteon_voice n global_zone pz _ iz).2]
  have hover : add_mod_calls n .FLUID_VOICE_OVERWRITE r.requests =
      merged_mods (inst.global_zone.map (fun z => z.mod)) iz.mod := by
    rw [← add_mod_calls_filter, hfil, (add_mod_calls_noteon_voice n global_zone pz _ iz).1]
  refine ⟨r, pz, inst, iz, sample, h, hget, h1, h2, h3, hadd, ?_, ?_, hover⟩
  · intro m
    rw [hadd, List.mem_filter]
    simp
  · intro P1 P2 hg hl hid h0
    rw [hadd, hg, hl]
    simp [merged_mods, drop_superseded, hid, h0]

/-- Instance of C25: the first voice of a note on the demo preset, whose
global preset zone has modulators of amounts 30 and 40 and whose preset zone
has a modulator of amount 0 identical to the first. -/
theorem noteon_preset_mod_amount_zero_dropped_witness :
    (∃ r, fluid_defpreset_noteon (some demo_global_preset_zone) [demo_preset_zone]
      (fun _ => true) 0 60 100 = some r ∧
      add_mod_calls 0 .FLUID_VOICE_ADD r.requests = [demo_mod 17 40]) ∧
    ∃ r pz inst iz sample,
      fluid_defpreset_noteon (some demo_global_preset_zone) [demo_preset_zone]
        (fun _ => true) 0 60 100 = some r ∧
      (noteon_pairs 60 100 [demo_preset_zone]).get? 0 =
        some (pz, inst.global_zone, iz, sample) ∧
      pz ∈ [demo_preset_zone] ∧ pz.inst = some inst ∧ iz ∈ inst.zone ∧
      add_mod_calls 0 .FLUID_VOICE_ADD r.requests =
        (merged_mods ((some demo_global_preset_zone).map (fun z => z.mod)) pz.mod).filter
          (fun m => decide (m.amount ≠ 0)) ∧
      (∀ m, m ∈ add_mod_calls 0 .FLUID_VOICE_ADD r.requests ↔
        m ∈ merged_mods ((some demo_global_preset_zone).map (fun z => z.mod)) pz.mod ∧
          m.amount ≠ 0) ∧
      (∀ P1 P2, (some demo_global_preset_zone).map (fun z => z.mod) = some [P1] →
        pz.mod = [P2] → fluid_mod_test_identity P2 P1 = true → P2.amount = 0 →
        add_mod_calls 0 .FLUID_VOICE_ADD r.requests = []) ∧
      add_mod_calls 0 .FLUID_VOICE_OVERWRITE r.requests =
        merged_mods (inst.global_zone.map (fun z => z.mod)) iz.mod :=
  ⟨⟨_, rfl, by decide⟩,
    noteon_preset_mod_amount_zero_dropped (some demo_global_preset_zone) [demo_preset_zone]
      (fun _ => true) 0 60 100 0 ⟨_, rfl, by decide⟩⟩

/-! ## Attenuation: scaled at import -/

theorem noteon_pairs_eq_in_range (key vel : Int) :
    ∀ (zone : List fluid_preset_zone_t), no_ignore zone →
      noteon_pairs key vel zone = pairs_in_range key vel zone := by
  intro zone
  induction zone with
  | nil => intro _; rfl
  | cons pz next ih =>
    intro hno
    have hz := hno pz (List.mem_cons_self _ _)
    have hnext : no_ignore next := fun q hq => hno q (List.mem_cons_of_mem _ hq)
    unfold noteon_pairs pairs_in_range
    rw [ih hnext, fluid_zone_inside_range_no_ignore _ _ _ hz.1]
    congr 1
    by_cases hin : range_contains pz.range key vel
    · simp only [hin, decide_True, if_true]
      cases hi : pz.inst with
      | none => rfl
      | some inst =>
        simp only
        unfold noteon_inst_pairs
        apply List.filterMap_congr
        intro iz hiz
        have hig := hz.2 inst hi iz hiz
        rw [fluid_zone_inside_range_no_ignore _ _ _ hig]
        cases hs : iz.sample with
        | none => rfl
        | some sample =>
          simp only
          cases hrom : fluid_sample_in_rom sample with
          | true => simp
          | false =>
            by_cases hc : range_contains iz.range key vel
            · simp [hc]
            · simp [hc]
    · simp only [hin, decide_False, Bool.false_eq_true, if_false]

theorem mem_pairs_in_range {key vel : Int} :
    ∀ {zone : List fluid_preset_zone_t}
      {p : fluid_preset_zone_t × Option fluid_inst_zone_t × fluid_inst_zone_t × fluid_sample_t},
      p ∈ pairs_in_range key vel zone →
      p.1 ∈ zone ∧ ∃ inst, p.1.inst = some inst ∧ p.2.2.1 ∈ inst.zone ∧
        range_contains p.2.2.1.range key vel := by
  intro zone
  induction zone with
  | nil => intro p h; simp [pairs_in_range] at h
  | cons pz next ih =>
    intro p h
    unfold pairs_in_range at h
    rw [List.mem_append] at h
    rcases h with h | h
    · split_ifs at h with hin
      · cases hi : pz.inst with
        | none => rw [hi] at h; simp at h
        | some inst =>
          rw [hi] at h
          simp only [List.mem_filterMap] at h
          obtain ⟨iz, hiz, hp⟩ := h
          cases hs : iz.sample with
          | none => rw [hs] at hp; cases hp
          | some sample =>
            rw [hs] at hp
            simp only at hp
            split_ifs at hp with hc
            cases hp
            exact ⟨List.mem_cons_self _ _, inst, hi, hiz, hc.2⟩
      · simp at h
    · obtain ⟨h1, h2⟩ := ih h
      exact ⟨List.mem_cons_of_mem _ h1, h2⟩

theorem alloc_calls_noteon_voice (n : Nat) (gpz : Option fluid_preset_zone_t)
    (pz : fluid_preset_zone_t) (giz : Option fluid_inst_zone_t) (iz : fluid_inst_zone_t) :
    alloc_calls (noteon_voice n gpz pz giz iz) = [] := by
  unfold alloc_calls
  apply filter_eq_nil_of_forall
  intro q hq
  rw [noteon_voice_voice n gpz pz giz iz q hq]
  rfl

/-- When every allocation gives a voice, the allocations are one for every
pair, in order, and nothing fails. -/
theorem pairs_calls_all (chan key vel : Int) (gpz : Option fluid_preset_zone_t) :
    ∀ (pairs : List (fluid_preset_zone_t × Option fluid_inst_zone_t × fluid_inst_zone_t ×
        fluid_sample_t)) (v : Nat),
      (pairs_calls (fun _ => true) chan key vel gpz v pairs).failed = false ∧
      (pairs_calls (fun _ => true) chan key vel gpz v pairs).voices = v + pairs.length ∧
      alloc_calls (pairs_calls (fun _ => true) chan key vel gpz v pairs).requests =
        pairs.map (fun p => .fluid_synth_alloc_voice_LOCAL p.2.2.2 chan key vel
          (fluid_zone_inside_range p.2.2.1.range key vel).1) := by
  intro pairs
  induction pairs with
  | nil => intro v; exact ⟨rfl, rfl, rfl⟩
  | cons p rest ih =>
    intro v
    obtain ⟨pz, giz, iz, sample⟩ := p
    obtain ⟨h1, h2, h3⟩ := ih (v + 1)
    unfold pairs_calls
    simp only [if_true, List.length_cons, List.map_cons]
    refine ⟨h1, by omega, ?_⟩
    have hv : (synth_request.fluid_synth_alloc_voice_LOCAL sample chan key vel
        (fluid_zone_inside_range iz.range key vel).1).voice.isNone = true := rfl
    have := alloc_calls_noteon_voice v gpz pz giz iz
    unfold alloc_calls at h3 this ⊢
    rw [List.filter_cons, if_pos hv, List.filter_append, this, List.nil_append, h3]

/-- When an allocation gives `NULL`, it is the last call: the calls are those
made for the pairs before it when every allocation gives a voice, followed by
the allocation that failed. -/
theorem pairs_calls_fail (alloc : Nat → Bool) (chan key vel : Int)
    (gpz : Option fluid_preset_zone_t) :
    ∀ (pairs : List (fluid_preset_zone_t × Option fluid_inst_zone_t × fluid_inst_zone_t ×
        fluid_sample_t)) (v k : Nat)
      (pk : fluid_preset_zone_t × Option fluid_inst_zone_t × fluid_inst_zone_t ×
        fluid_sample_t),
      pairs.get? k = some pk → alloc (v + k) = false → (∀ j, j < k → alloc (v + j) = true) →
      pairs_calls alloc chan key vel gpz v pairs =
        { requests :=
            (pairs_calls (fun _ => true) chan key vel gpz v (pairs.take k)).requests ++
              [.fluid_synth_alloc_voice_LOCAL pk.2.2.2 chan key vel
                (fluid_zone_inside_range pk.2.2.1.range key vel).1],
          voices := v + k, failed := true } := by
  intro pairs
  induction pairs with
  | nil => intro v k pk h; simp at h
  | cons p rest ih =>
    intro v k pk hget hfail hok
    obtain ⟨pz, giz, iz, sample⟩ := p
    cases k with
    | zero =>
      simp only [List.get?_cons_zero, Option.some.injEq] at hget
      subst hget
      simp only [Nat.add_zero] at hfail
      simp only [pairs_calls, hfail, Bool.false_eq_true, if_false, List.take_zero,
        List.nil_append, Nat.add_zero]
    | succ k =>
      simp only [List.get?_cons_succ] at hget
      have h0 : alloc v = true := by
        have := hok 0 (Nat.succ_pos _)
        simpa using this
      have hrec := ih (v + 1) k pk hget (by rw [← hfail]; congr 1; omega)
        (fun j hj => by
          have := hok (j + 1) (by omega)
          rw [← this]; congr 1; omega)
      simp only [List.take_succ_cons]
      unfold pairs_calls
      simp only [h0, if_true]
      rw [hrec]
      simp only [List.append_assoc, List.cons_append, noteon_calls.mk.injEq, and_true, true_and]
      omega

theorem demo_no_ignore : no_ignore [demo_preset_zone] := by
  intro pz hpz
  simp only [List.mem_singleton] at hpz
  subst hpz
  refine ⟨rfl, ?_⟩
  intro inst hinst iz hiz
  simp only [demo_preset_zone, Option.some.injEq] at hinst
  subst hinst
  simp only [List.mem_singleton] at hiz
  subst hiz
  rfl

/-- C26 fails as stated: `fluid_zone_inside_range` resets the `ignore` request
of a range it tests. For a preset whose instrument zone has the request set,
a first note on allocates no voice and makes no call, and a second note on
with the same arguments, on the zones the first one left, allocates one. -/
theorem noteon_resets_ignore_request :
    ∃ r1 r2,
      fluid_defpreset_noteon (some demo_global_preset_zone)
        [{ demo_preset_zone with
            inst := some ⟨"i", some demo_global_inst_zone,
              [{ demo_inst_zone with
                  range := { demo_inst_zone.range with ignore := true } }]⟩ }]
        (fun _ => true) 0 60 100 = some r1 ∧
      fluid_defpreset_noteon (some demo_global_preset_zone) r1.zone (fun _ => true) 0 60 100 =
        some r2 ∧
      r1.voices = 0 ∧ r1.requests = [] ∧ r2.voices = 1 ∧ r2.requests ≠ r1.requests :=
  ⟨_, _, rfl, rfl, by decide, by decide, by decide, by decide⟩

/-- C26 (as amended): when no range of the preset's zones has its `ignore`
request set (as after import), a call of `fluid_defpreset_noteon` that returns
leaves the zones as they were, so that a second call with the same arguments
and the same answers of the allocator returns the same value after the same
sequence of calls to the synthesizer. -/
theorem noteon_repeatable (global_zone : Option fluid_preset_zone_t)
    (zone : List fluid_preset_zone_t) (alloc : Nat → Bool) (chan key vel : Int)
    (hno : no_ignore zone) (r : noteon_result)
    (h : fluid_defpreset_noteon global_zone zone alloc chan key vel = some r) :
    r.zone = zone ∧
    fluid_defpreset_noteon global_zone r.zone alloc chan key vel = some r := by
  have hz := fluid_defpreset_noteon_zone hno h
  exact ⟨hz, by rw [hz]; exact h⟩

/-- Instance of C26: a note on the demo preset, twice. -/
theorem noteon_repeatable_witness :
    ∃ r, fluid_defpreset_noteon (some demo_global_preset_zone) [demo_preset_zone]
        (fun _ => true) 0 60 100 = some r ∧
      r.voices = 1 ∧ r.zone = [demo_preset_zone] ∧
      fluid_defpreset_noteon (some demo_global_preset_zone) r.zone (fun _ => true) 0 60 100 =
        some r :=
  ⟨_, rfl, by decide,
    (noteon_repeatable (some demo_global_preset_zone) [demo_preset_zone] (fun _ => true)
      0 60 100 demo_no_ignore _ rfl).1,
    (noteon_repeatable (some demo_global_preset_zone) [demo_preset_zone] (fun _ => true)
      0 60 100 demo_no_ignore _ rfl).2⟩

/-- C27: when no range has its `ignore` request set and every preset zone
whose range contains the key and the velocity has an instrument, a call of
`fluid_defpreset_noteon` in which every allocation gives a voice returns
`FLUID_OK` and asks for exactly one voice for every pair of a preset zone pz
and a zone iz of pz's instrument such that the range of pz contains the key
and the velocity, iz has a sample that is not in ROM, and the range of iz
contains them, in the order of the zones; when no instrument zone contains
them it makes no call at all. When the allocation for pair number k gives
`NULL` (and the ones before gave a voice), it returns `FLUID_FAILED` with k
voices allocated, and that allocation is the last call. -/
theorem noteon_voice_enumeration (global_zone : Option fluid_preset_zone_t)
    (zone : List fluid_preset_zone_t) (chan key vel : Int)
    (hno : no_ignore zone)
    (hinst : ∀ pz ∈ zone, range_contains pz.range key vel → pz.inst ≠ none) :
    (∃ r, fluid_defpreset_noteon global_zone zone (fun _ => true) chan key vel = some r ∧
      r.ret = .FLUID_OK ∧ r.voices = (pairs_in_range key vel zone).length ∧
      alloc_calls r.requests =
        (pairs_in_range key vel zone).map (pair_alloc_call chan key vel) ∧
      ((∀ pz ∈ zone, ∀ inst, pz.inst = some inst → ∀ iz ∈ inst.zone,
          ¬ range_contains iz.range key vel) →
        r.voices = 0 ∧ r.requests = [])) ∧
    (∀ (alloc : Nat → Bool) (k : Nat)
        (pk : fluid_preset_zone_t × Option fluid_inst_zone_t × fluid_inst_zone_t ×
          fluid_sample_t),
      (pairs_in_range key vel zone).get? k = some pk → alloc k = false →
      (∀ j, j < k → alloc j = true) →
      ∃ r, fluid_defpreset_noteon global_zone zone alloc chan key vel = some r ∧
        r.ret = .FLUID_FAILED ∧ r.voices = k ∧
        r.requests =
          (pairs_calls (fun _ => true) chan key vel global_zone 0
            ((pairs_in_range key vel zone).take k)).requests ++
          [pair_alloc_call chan key vel pk]) := by
  have hsome : ∀ alloc, ∃ r,
      fluid_defpreset_noteon global_zone zone alloc chan key vel = some r := by
    intro alloc
    apply fluid_defpreset_noteon_some
    intro pz hpz hin
    have hz := hno pz hpz
    rw [fluid_zone_inside_range_no_ignore _ _ _ hz.1] at hin
    exact hinst pz hpz (by simpa using hin)
  have hpairs := noteon_pairs_eq_in_range key vel zone hno
  have hrange : ∀ p ∈ pairs_in_range key vel zone,
      (fluid_zone_inside_range p.2.2.1.range key vel).1 = p.2.2.1.range := by
    intro p hp
    obtain ⟨h1, inst, h2, h3, _⟩ := mem_pairs_in_range hp
    rw [fluid_zone_inside_range_no_ignore _ _ _ ((hno p.1 h1).2 inst h2 p.2.2.1 h3)]
  constructor
  · obtain ⟨r, hr⟩ := hsome (fun _ => true)
    obtain ⟨c1, c2, c3⟩ := fluid_defpreset_noteon_calls hr
    rw [hpairs] at c1 c2 c3
    obtain ⟨a1, a2, a3⟩ := pairs_calls_all chan key vel global_zone
      (pairs_in_range key vel zone) 0
    refine ⟨r, hr, ?_, ?_, ?_, ?_⟩
    · rw [c3, a1]
      rfl
    · rw [c2, a2]
      omega
    · rw [c1, a3]
      apply List.map_congr_left
      intro p hp
      unfold pair_alloc_call
      rw [hrange p hp]
    · intro hnone
      have hnil : pairs_in_range key vel zone = [] := by
        apply List.eq_nil_iff_forall_not_mem.mpr
        intro p hp
        obtain ⟨h1, inst, h2, h3, h4⟩ := mem_pairs_in_range hp
        exact hnone p.1 h1 inst h2 p.2.2.1 h3 h4
      rw [c1, c2, hnil]
      exact ⟨rfl, rfl⟩
  · intro alloc k pk hget hfail hok
    obtain ⟨r, hr⟩ := hsome alloc
    obtain ⟨c1, c2, c3⟩ := fluid_defpreset_noteon_calls hr
    rw [hpairs] at c1 c2 c3
    have hf := pairs_calls_fail alloc chan key vel global_zone (pairs_in_range key vel zone)
      0 k pk hget (by simpa using hfail) (fun j hj => by simpa using hok j hj)
    rw [hf] at c1 c2 c3
    refine ⟨r, hr, ?_, ?_, ?_⟩
    · rw [c3]
      rfl
    · rw [c2]
      simp
    · rw [c1]
      simp only
      unfold pair_alloc_call
      rw [hrange pk (List.get?_mem hget)]

/-- Instance of C27: on the demo preset, whose preset zone takes the keys 36
to 72 and whose instrument zone takes the keys 48 to 72, key 60 gives one
voice, or a failure after the first allocation when the allocator gives
`NULL`, and key 40 gives no voice and no call. -/
theorem noteon_voice_enumeration_witness :
    no_ignore [demo_preset_zone] ∧
    (∃ r, fluid_defpreset_noteon (some demo_global_preset_zone) [demo_preset_zone]
        (fun _ => true) 0 60 100 = some r ∧
      r.ret = .FLUID_OK ∧ r.voices = (pairs_in_range 60 100 [demo_preset_zone]).length ∧
      alloc_calls r.requests =
        (pairs_in_range 60 100 [demo_preset_zone]).map (pair_alloc_call 0 60 100) ∧
      ((∀ pz ∈ [demo_preset_zone], ∀ inst, pz.inst = some inst → ∀ iz ∈ inst.zone,
          ¬ range_contains iz.range 60 100) →
        r.voices = 0 ∧ r.requests = [])) ∧
    (pairs_in_range 60 100 [demo_preset_zone]).map (pair_alloc_call 0 60 100) =
      [.fluid_synth_alloc_voice_LOCAL demo_sample 0 60 100 demo_inst_zone.range] ∧
    (∃ r, fluid_defpreset_noteon (some demo_global_preset_zone) [demo_preset_zone]
        (fun _ => false) 0 60 100 = some r ∧
      r.ret = .FLUID_FAILED ∧ r.voices = 0 ∧
      r.requests =
        (pairs_calls (fun _ => true) 0 60 100 (some demo_global_preset_zone) 0
          ((pairs_in_range 60 100 [demo_preset_zone]).take 0)).requests ++
        [pair_alloc_call 0 60 100
          (demo_preset_zone, some demo_global_inst_zone, demo_inst_zone, demo_sample)]) ∧
    (∃ r, fluid_defpreset_noteon (some demo_global_preset_zone) [demo_preset_zone]
        (fun _ => true) 0 40 100 = some r ∧
      r.ret = .FLUID_OK ∧ r.voices = 0 ∧ r.requests = []) ∧
    range_contains demo_preset_zone.range 40 100 ∧
    ¬ range_contains demo_inst_zone.range 40 100 :=
  ⟨demo_no_ignore,
    (noteon_voice_enumeration (some demo_global_preset_zone) [demo_preset_zone] 0 60 100
      demo_no_ignore (fun pz hpz _ => by
        simp only [List.mem_singleton] at hpz
        subst hpz
        simp [demo_preset_zone])).1,
    by decide,
    (noteon_voice_enumeration (some demo_global_preset_zone) [demo_preset_zone] 0 60 100
      demo_no_ignore (fun pz hpz _ => by
        simp only [List.mem_singleton] at hpz
        subst hpz
        simp [demo_preset_zone])).2 (fun _ => false) 0 _ rfl rfl
        (fun j hj => absurd hj (Nat.not_lt_zero j)),
    ⟨_, rfl, by decide, by decide, by decide⟩,
    by decide, by decide⟩

/-! ## The range test -/

/-- C40: `fluid_zone_inside_range` returns true if and only if the `ignore`
flag of the range was false on entry and `keylo ≤ key ≤ keyhi` and
`vello ≤ vel ≤ velhi`; the range it leaves is the range on entry with the
`ignore` flag false, and a second call with the same arguments returns the
range test alone and changes nothing. -/
theorem zone_inside_range_resets_ignore (range : fluid_zone_range_t) (key vel : Int) :
    ((fluid_zone_inside_range range key vel).2 = true ↔
      range.ignore = false ∧ range.keylo ≤ key ∧ key ≤ range.keyhi ∧
        range.vello ≤ vel ∧ vel ≤ range.velhi) ∧
    (fluid_zone_inside_range range key vel).1 = { range with ignore := false } ∧
    (fluid_zone_inside_range range key vel).1.ignore = false ∧
    ((fluid_zone_inside_range (fluid_zone_inside_range range key vel).1 key vel).2 = true ↔
      range.keylo ≤ key ∧ key ≤ range.keyhi ∧ range.vello ≤ vel ∧ vel ≤ range.velhi) ∧
    (fluid_zone_inside_range (fluid_zone_inside_range range key vel).1 key vel).1 =
      (fluid_zone_inside_range range key vel).1 := by
  obtain ⟨keylo, keyhi, vello, velhi, ignore⟩ := range
  refine ⟨?_, rfl, rfl, ?_, rfl⟩
  · cases ignore <;> simp [fluid_zone_inside_range, range_contains]
  · simp [fluid_zone_inside_range, range_contains]

/-! ## The preset list: insertion, iteration, destruction -/

theorem add_preset_loop_eq (preset : fluid_defpreset_t) :
    ∀ l : List fluid_defpreset_t,
      add_preset_loop preset l =
        l.takeWhile (fun cur => !decide (preset_lt preset cur)) ++
          preset :: l.dropWhile (fun cur => !decide (preset_lt preset cur)) := by
  intro l
  induction l with
  | nil => rfl
  | cons cur rest ih =>
    by_cases h : preset_lt preset cur
    · have h2 : preset.bank < cur.bank ∨ (preset.bank = cur.bank ∧ preset.num < cur.num) := h
      simp only [add_preset_loop, if_pos h2, List.takeWhile_cons, List.dropWhile_cons,
        decide_eq_true h, Bool.not_true, Bool.false_eq_true, if_false, List.nil_append]
    · have h2 : ¬ (preset.bank < cur.bank ∨ (preset.bank = cur.bank ∧ preset.num < cur.num)) := h
      simp only [add_preset_loop, if_neg h2, List.takeWhile_cons, List.dropWhile_cons,
        decide_eq_false h, Bool.not_false, if_true, List.cons_append, ih]

theorem fluid_defsfont_add_preset_eq (sfont : fluid_defsfont_t) (preset : fluid_defpreset_t) :
    (fluid_defsfont_add_preset sfont preset).preset = add_preset_loop preset sfont.preset := by
  unfold fluid_defsfont_add_preset
  cases h : sfont.preset with
  | nil => rfl
  | cons cur rest => rfl

/-- C39: after `fluid_defsfont_add_preset` the list of presets is the list of
before with the new preset put in at one place: behind the presets that come
before the first one strictly greater in (bank, num) than the new preset, and
in front of that one, or at the end if there is none. So it is one longer, it
holds the presets of before and the new one with nothing lost or doubled, and
taking the new preset out at its place gives back the list of before, in its
order. -/
theorem add_preset_is_insertion (sfont : fluid_defsfont_t) (preset : fluid_defpreset_t) :
    (fluid_defsfont_add_preset sfont preset).preset =
      sfont.preset.takeWhile (fun cur => !decide (preset_lt preset cur)) ++
        preset :: sfont.preset.dropWhile (fun cur => !decide (preset_lt preset cur)) ∧
    (∀ q ∈ sfont.preset.takeWhile (fun cur => !decide (preset_lt preset cur)),
      ¬ preset_lt preset q) ∧
    (∀ cur, (sfont.preset.dropWhile (fun cur => !decide (preset_lt preset cur))).head? =
      some cur → preset_lt preset cur) ∧
    ((∀ q ∈ sfont.preset, ¬ preset_lt preset q) →
      (fluid_defsfont_add_preset sfont preset).preset = sfont.preset ++ [preset]) ∧
    (fluid_defsfont_add_preset sfont preset).preset.length = sfont.preset.length + 1 ∧
    List.Perm (fluid_defsfont_add_preset sfont preset).preset (preset :: sfont.preset) ∧
    (fluid_defsfont_add_preset sfont preset).preset.eraseIdx
        (sfont.preset.takeWhile (fun cur => !decide (preset_lt preset cur))).length =
      sfont.preset ∧
    List.Sublist sfont.preset (fluid_defsfont_add_preset sfont preset).preset := by
  have heq := (fluid_defsfont_add_preset_eq sfont preset).trans
    (add_preset_loop_eq preset sfont.preset)
  have hsplit := List.takeWhile_append_dropWhile
    (fun cur => !decide (preset_lt preset cur)) sfont.preset
  refine ⟨heq, ?_, ?_, ?_, ?_, ?_, ?_, ?_⟩
  · intro q hq
    have := List.mem_takeWhile_imp hq
    simpa using this
  · intro cur hcur
    have := List.head?_dropWhile_not (fun cur => !decide (preset_lt preset cur)) sfont.preset
    rw [hcur] at this
    simpa using this
  · intro hall
    rw [heq]
    have h1 : sfont.preset.takeWhile (fun cur => !decide (preset_lt preset cur)) =
        sfont.preset := by
      rw [List.takeWhile_eq_self_iff]
      intro q hq
      simpa using hall q hq
    have h2 : sfont.preset.dropWhile (fun cur => !decide (preset_lt preset cur)) = [] := by
      rw [List.dropWhile_eq_nil_iff]
      intro q hq
      simpa using hall q hq
    rw [h1, h2]
  · rw [heq]
    have := congrArg List.length hsplit
    simp only [List.length_append, List.length_cons] at this ⊢
    omega
  · rw [heq]
    refine (List.perm_middle).trans ?_
    rw [hsplit]
  · rw [heq, List.eraseIdx_append_of_length_le (Nat.le_refl _), Nat.sub_self]
    simp [hsplit]
  · rw [heq]
    conv_lhs => rw [← hsplit]
    exact List.Sublist.append (List.Sublist.refl _) (List.sublist_cons_self _ _)

/-- C31: `delete_fluid_defsfont` returns `FLUID_FAILED` if and only if a sample
in the list of the SoundFont has `refcount != 0`, and then leaves the
SoundFont as it was, with every field; otherwise it returns `FLUID_OK`, and
the SoundFont is freed. For a `NULL` argument it returns `FLUID_OK`. -/
theorem delete_fails_iff_sample_in_use (sfont : fluid_defsfont_data) :
    ((delete_fluid_defsfont (some sfont)).1 = .FLUID_FAILED ↔
      ∃ sample ∈ sfont.sample, sample.refcount ≠ 0) ∧
    ((∃ sample ∈ sfont.sample, sample.refcount ≠ 0) →
      delete_fluid_defsfont (some sfont) = (.FLUID_FAILED, some sfont)) ∧
    ((∀ sample ∈ sfont.sample, sample.refcount = 0) →
      delete_fluid_defsfont (some sfont) = (.FLUID_OK, none)) ∧
    ((delete_fluid_defsfont (some sfont)).1 = .FLUID_FAILED ∨
      (delete_fluid_defsfont (some sfont)).1 = .FLUID_OK) ∧
    delete_fluid_defsfont none = (.FLUID_OK, none) ∧
    delete_fluid_defsfont (some demo_sfont) = (.FLUID_OK, none) ∧
    delete_fluid_defsfont
        (some { demo_sfont with sample := [demo_sample, { demo_sample with refcount := 2 }] }) =
      (.FLUID_FAILED,
        some { demo_sfont with sample := [demo_sample, { demo_sample with refcount := 2 }] }) := by
  have hloop : ∀ l : List fluid_sample_t,
      sample_in_use l = true ↔ ∃ sample ∈ l, sample.refcount ≠ 0 := by
    intro l
    induction l with
    | nil => simp [sample_in_use]
    | cons s rest ih =>
      by_cases h : s.refcount ≠ 0
      · simp only [sample_in_use, if_pos h, true_iff]
        exact ⟨s, List.mem_cons_self _ _, h⟩
      · simp only [sample_in_use, if_neg h, ih, List.mem_cons, exists_eq_or_imp]
        constructor
        · intro hr; exact Or.inr hr
        · rintro (hl | hr)
          · exact absurd hl h
          · exact hr
  have hcases : (∃ sample ∈ sfont.sample, sample.refcount ≠ 0) →
      delete_fluid_defsfont (some sfont) = (.FLUID_FAILED, some sfont) := by
    intro hex
    have := (hloop sfont.sample).mpr hex
    simp only [delete_fluid_defsfont, this, if_true]
  have hok : (∀ sample ∈ sfont.sample, sample.refcount = 0) →
      delete_fluid_defsfont (some sfont) = (.FLUID_OK, none) := by
    intro hall
    have : sample_in_use sfont.sample = false := by
      cases hb : sample_in_use sfont.sample with
      | false => rfl
      | true =>
        obtain ⟨s, hs, hne⟩ := (hloop sfont.sample).mp hb
        exact absurd (hall s hs) hne
    simp only [delete_fluid_defsfont, this, Bool.false_eq_true, if_false]
  refine ⟨?_, hcases, hok, ?_, rfl, by decide, by decide⟩
  · constructor
    · intro hf
      by_contra hne
      have hall : ∀ sample ∈ sfont.sample, sample.refcount = 0 := by
        intro s hs
        by_contra h0
        exact hne ⟨s, hs, h0⟩
      rw [hok hall] at hf
      cases hf
    · intro hex
      rw [hcases hex]
  · by_cases hex : ∃ sample ∈ sfont.sample, sample.refcount ≠ 0
    · left; rw [hcases hex]
    · right
      have hall : ∀ sample ∈ sfont.sample, sample.refcount = 0 := by
        intro s hs
        by_contra h0
        exact hex ⟨s, hs, h0⟩
      rw [hok hall]

theorem iteration_calls_eq :
    ∀ (k : Nat) (sfont : fluid_defsfont_data),
      iteration_calls k sfont =
        ((sfont.iter_cur.take k).map (fun p => ((1 : Int), some p)) ++
            List.replicate (k - sfont.iter_cur.length) ((0 : Int), none),
          { sfont with iter_cur := sfont.iter_cur.drop k }) := by
  intro k
  induction k with
  | zero => intro sfont; simp [iteration_calls]
  | succ n ih =>
    intro sfont
    cases hc : sfont.iter_cur with
    | nil =>
      have hnext : fluid_defsfont_iteration_next sfont { data := none } =
          (sfont, { data := none }, 0) := by
        simp only [fluid_defsfont_iteration_next, hc]
      simp only [iteration_calls, hnext, ih, hc, List.take_nil, List.map_nil, List.nil_append,
        List.length_nil, Nat.sub_zero, List.drop_nil, List.replicate_succ]
    | cons cur next =>
      have hnext : fluid_defsfont_iteration_next sfont { data := none } =
          ({ sfont with iter_cur := next }, { data := some cur }, 1) := by
        simp only [fluid_defsfont_iteration_next, hc]
      simp only [iteration_calls, hnext, ih, List.take_succ_cons, List.map_cons,
        List.cons_append, List.length_cons, Nat.add_sub_add_right, List.drop_succ_cons]

/-- C32: after `fluid_defsfont_iteration_start`, k successive calls of
`fluid_defsfont_iteration_next` on a SoundFont with n presets return 1 and
hand out the presets in list order for the first n calls and return 0 for
every later call; they leave every field but `iter_cur` as it was, the list of
presets among them, and a new `fluid_defsfont_iteration_start` then gives the
same state as the first, so that the traversal starts again at the first
preset. The list order is ascending in (bank, num) for a list built by
`fluid_defsfont_add_preset`. -/
theorem iteration_is_in_order_traversal (sfont : fluid_defsfont_data) (k : Nat) :
    (iteration_calls k (fluid_defsfont_iteration_start sfont)).1 =
      (sfont.preset.take k).map (fun p => ((1 : Int), some p)) ++
        List.replicate (k - sfont.preset.length) ((0 : Int), none) ∧
    (iteration_calls sfont.preset.length (fluid_defsfont_iteration_start sfont)).1 =
      sfont.preset.map (fun p => ((1 : Int), some p)) ∧
    (iteration_calls k (fluid_defsfont_iteration_start sfont)).2 =
      { sfont with iter_cur := sfont.preset.drop k } ∧
    (iteration_calls k (fluid_defsfont_iteration_start sfont)).2.preset = sfont.preset ∧
    fluid_defsfont_iteration_start (iteration_calls k (fluid_defsfont_iteration_start sfont)).2 =
      fluid_defsfont_iteration_start sfont ∧
    (∀ seq : List fluid_defpreset_t,
      sfont.preset = (add_presets ⟨[]⟩ seq).preset → sfont.preset.Pairwise preset_le) ∧
    (iteration_calls 5 (fluid_defsfont_iteration_start demo_sfont)).1 =
      [(1, some ⟨"a", 0, 0⟩), (1, some ⟨"b", 0, 5⟩), (1, some ⟨"c", 1, 2⟩), (0, none),
        (0, none)] := by
  have h := iteration_calls_eq k (fluid_defsfont_iteration_start sfont)
  have hn := iteration_calls_eq sfont.preset.length (fluid_defsfont_iteration_start sfont)
  have hcur : (fluid_defsfont_iteration_start sfont).iter_cur = sfont.preset := rfl
  rw [hcur] at h hn
  refine ⟨?_, ?_, ?_, ?_, ?_, ?_, by decide⟩
  · rw [h]
  · rw [hn]
    simp
  · rw [h]
    rfl
  · rw [h]
    rfl
  · rw [h]
    rfl
  · intro seq hseq
    rw [hseq]
    exact add_presets_pairwise seq ⟨[]⟩ List.Pairwise.nil

/-! ## Import of modulators: the source words -/

theorem and_bit_ne_zero (src i : Nat) : src &&& (1 <<< i) ≠ 0 ↔ src / 2 ^ i % 2 = 1 := by
  rw [Nat.one_shiftLeft, Nat.and_two_pow]
  have h := @Nat.testBit_to_div_mod i src
  cases hb : src.testBit i with
  | false =>
    rw [hb] at h
    have h2 : ¬ (src / 2 ^ i % 2 = 1) := by
      intro hc
      have := decide_eq_true hc
      rw [← h] at this
      cases this
    simp [h2]
  | true =>
    rw [hb] at h
    have h2 : src / 2 ^ i % 2 = 1 := of_decide_eq_true h.symm
    simp [h2]

theorem import_mod_flags_eq (src : Nat) :
    (src &&& 127, import_mod_flags src) = decode_source src := by
  have h7 := and_bit_ne_zero src 7
  have h8 := and_bit_ne_zero src 8
  have h9 := and_bit_ne_zero src 9
  have hidx : src &&& 127 = src % 128 := Nat.and_pow_two_sub_one_eq_mod src 7
  have hty := source_type_eq src
  have hlt : src / 1024 % 64 < 64 := Nat.mod_lt _ (by decide)
  unfold import_mod_flags decode_source
  rw [hidx, hty]
  simp only [h7, h8, h9]
  norm_num
  generalize src / 1024 % 64 = ty at hlt ⊢
  match ty with
  | 0 => rfl
  | 1 => rfl
  | 2 => rfl
  | 3 => rfl
  | n + 4 => simp

/-- C33: the modulator imported from a record has `src1 = src & 0x7F`, and
`flags1` is made of one flag of each pair by the bits of `src` (bit 7: CC,
else general controller; bit 8: negative, else positive; bit 9: bipolar, else
unipolar) and of the curve flag linear, concave, convex or switch for the
value 0, 1, 2 or 3 of bits 10 to 15, and of no curve flag for another value;
`dest` is the record's, and `src2` and `flags2` come from `amtsrc` in the same
way. This holds for every modulator of a zone imported by
`fluid_preset_zone_import_sfont` and by `fluid_inst_zone_import_sfont`. -/
theorem import_mod_source_decoding :
    (∀ mod_src : SFMod,
      ((import_mod mod_src).src1, (import_mod mod_src).flags1) = decode_source mod_src.src ∧
      (import_mod mod_src).src1 = mod_src.src % 128 ∧
      (import_mod mod_src).dest = mod_src.dest ∧
      ((import_mod mod_src).src2, (import_mod mod_src).flags2) = decode_source mod_src.amtsrc) ∧
    (∀ (name : String) (sfzone : SFPresetZone) (sf : SFData)
        (sfont_sample : List fluid_sample_t) (k : Nat) (mod_src : SFMod),
      sfzone.mod.get? k = some mod_src →
      ∃ mod_dest,
        (fluid_preset_zone_import_sfont (new_fluid_preset_zone name) sfzone sf
          sfont_sample).mod.get? k = some mod_dest ∧
        (mod_dest.src1, mod_dest.flags1) = decode_source mod_src.src ∧
        mod_dest.dest = mod_src.dest ∧
        (mod_dest.src2, mod_dest.flags2) = decode_source mod_src.amtsrc) ∧
    (∀ (name : String) (preset_zone : fluid_preset_zone_t) (sfzone : SFInstZone)
        (sf_sample : List SFSample) (sfont_sample : List fluid_sample_t) (k : Nat)
        (mod_src : SFMod),
      sfzone.mod.get? k = some mod_src →
      ∃ mod_dest,
        (fluid_inst_zone_import_sfont preset_zone (new_fluid_inst_zone name) sfzone sf_sample
          sfont_sample).mod.get? k = some mod_dest ∧
        (mod_dest.src1, mod_dest.flags1) = decode_source mod_src.src ∧
        mod_dest.dest = mod_src.dest ∧
        (mod_dest.src2, mod_dest.flags2) = decode_source mod_src.amtsrc) ∧
    (decode_source (2 + 128 + 512 + 1024) =
        (2, [.FLUID_MOD_CC, .FLUID_MOD_POSITIVE, .FLUID_MOD_BIPOLAR, .FLUID_MOD_CONCAVE]) ∧
      decode_source (5 + 256 + 3 * 1024) =
        (5, [.FLUID_MOD_GC, .FLUID_MOD_NEGATIVE, .FLUID_MOD_UNIPOLAR, .FLUID_MOD_SWITCH]) ∧
      decode_source (7 + 4 * 1024) =
        (7, [.FLUID_MOD_GC, .FLUID_MOD_POSITIVE, .FLUID_MOD_UNIPOLAR])) ∧
    (import_mod ⟨2 + 128 + 512 + 1024, 48, 100, 5 + 256 + 3 * 1024, 0⟩ =
      ⟨48, 2, [.FLUID_MOD_CC, .FLUID_MOD_POSITIVE, .FLUID_MOD_BIPOLAR, .FLUID_MOD_CONCAVE],
        5, [.FLUID_MOD_GC, .FLUID_MOD_NEGATIVE, .FLUID_MOD_UNIPOLAR, .FLUID_MOD_SWITCH], 100⟩) := by
  have hone : ∀ mod_src : SFMod,
      ((import_mod mod_src).src1, (import_mod mod_src).flags1) = decode_source mod_src.src ∧
      (import_mod mod_src).src1 = mod_src.src % 128 ∧
      (import_mod mod_src).dest = mod_src.dest ∧
      ((import_mod mod_src).src2, (import_mod mod_src).flags2) =
        decode_source mod_src.amtsrc := by
    intro mod_src
    refine ⟨import_mod_flags_eq mod_src.src, Nat.and_pow_two_sub_one_eq_mod mod_src.src 7, rfl,
      import_mod_flags_eq mod_src.amtsrc⟩
  have hlist : ∀ (mods : List SFMod) (k : Nat) (mod_src : SFMod),
      mods.get? k = some mod_src →
      ∃ mod_dest, (zone_import_mods [] mods 0).get? k = some mod_dest ∧
        (mod_dest.src1, mod_dest.flags1) = decode_source mod_src.src ∧
        mod_dest.dest = mod_src.dest ∧
        (mod_dest.src2, mod_dest.flags2) = decode_source mod_src.amtsrc := by
    intro mods k mod_src hk
    refine ⟨import_mod mod_src, ?_, (hone mod_src).1, (hone mod_src).2.2.1, (hone mod_src).2.2.2⟩
    rw [zone_import_mods_zero]
    by_cases hnil : mods = []
    · rw [hnil] at hk
      simp at hk
    · rw [if_neg hnil, List.get?_eq_getElem?, List.getElem?_map]
      rw [List.get?_eq_getElem?] at hk
      rw [hk]
      rfl
  refine ⟨hone, ?_, ?_, ⟨by decide, by decide, by decide⟩, by decide⟩
  · intro name sfzone sf sfont_sample k mod_src hk
    rw [fluid_preset_zone_import_sfont_mod]
    exact hlist sfzone.mod k mod_src hk
  · intro name preset_zone sfzone sf_sample sfont_sample k mod_src hk
    rw [fluid_inst_zone_import_sfont_mod]
    exact hlist sfzone.mod k mod_src hk

/-! ## Note on: the writes to `mod_list` -/

theorem mod_list_kick_length (mod : fluid_mod_t) (mod_list : List (Option fluid_mod_t)) :
    (mod_list_kick mod mod_list).length = mod_list.length := by
  simp [mod_list_kick]

theorem mod_list_put_global_spec (mods : List fluid_mod_t) :
    ∀ st : List (Option fluid_mod_t) × List Nat,
      (mod_list_put_global st mods).1 = st.1 ++ mods.map some ∧
      (∀ i, i ∈ (mod_list_put_global st mods).2 ↔
        i ∈ st.2 ∨ (st.1.length ≤ i ∧ i < st.1.length + mods.length)) := by
  induction mods with
  | nil => intro st; simp [mod_list_put_global]
  | cons mod next ih =>
    intro st
    obtain ⟨h1, h2⟩ := ih (st.1 ++ [some mod], st.2 ++ [st.1.length])
    refine ⟨?_, ?_⟩
    · simp only [mod_list_put_global, h1, List.map_cons, List.append_assoc, List.singleton_append]
    · intro i
      simp only [mod_list_put_global, h2, List.mem_append, List.mem_singleton,
        List.length_append, List.length_singleton, List.length_cons, List.length_nil]
      constructor
      · rintro ((h | h) | h)
        · exact Or.inl h
        · exact Or.inr (by omega)
        · exact Or.inr (by omega)
      · rintro (h | h)
        · exact Or.inl (Or.inl h)
        · by_cases hi : i = st.1.length
          · exact Or.inl (Or.inr hi)
          · exact Or.inr (by omega)

theorem mem_mod_list_kicked {mod : fluid_mod_t} {mod_list : List (Option fluid_mod_t)} {i : Nat}
    (h : i ∈ mod_list_kicked mod mod_list) : i < mod_list.length := by
  unfold mod_list_kicked at h
  rw [List.mem_filter, List.mem_range] at h
  exact h.1

theorem mod_list_put_local_mono :
    ∀ (l : List fluid_mod_t) (s : List (Option fluid_mod_t) × List Nat) (j : Nat),
      j ∈ s.2 → j ∈ (mod_list_put_local s l).2 := by
  intro l
  induction l with
  | nil => intro s j hj; exact hj
  | cons m l2 ih2 =>
    intro s j hj
    simp only [mod_list_put_local]
    apply ih2
    simp [hj]

theorem mod_list_put_local_spec (mods : List fluid_mod_t) :
    ∀ st : List (Option fluid_mod_t) × List Nat,
      (mod_list_put_local st mods).1 = mod_list_add_local st.1 mods ∧
      (mod_list_put_local st mods).1.length = st.1.length + mods.length ∧
      (∀ i, st.1.length ≤ i → i < st.1.length + mods.length →
        i ∈ (mod_list_put_local st mods).2) ∧
      (∀ i, i ∈ (mod_list_put_local st mods).2 →
        i ∈ st.2 ∨ i < st.1.length + mods.length) := by
  induction mods with
  | nil =>
    intro st
    refine ⟨rfl, rfl, ?_, ?_⟩
    · intro i h1 h2
      simp only [List.length_nil, Nat.add_zero] at h2
      omega
    · intro i hi
      exact Or.inl hi
  | cons mod next ih =>
    intro st
    obtain ⟨h1, h2, h3, h4⟩ := ih (mod_list_kick mod st.1 ++ [some mod],
      st.2 ++ mod_list_kicked mod st.1 ++ [st.1.length])
    simp only [List.length_append, mod_list_kick_length, List.length_singleton] at h2 h3 h4
    refine ⟨?_, ?_, ?_, ?_⟩
    · simp only [mod_list_put_local, h1, mod_list_add_local]
    · simp only [mod_list_put_local, h2, List.length_cons]
      omega
    · intro i hi1 hi2
      simp only [List.length_cons] at hi2
      simp only [mod_list_put_local]
      by_cases hi : i = st.1.length
      · have hmem : i ∈ st.2 ++ mod_list_kicked mod st.1 ++ [st.1.length] := by
          simp [hi]
        exact mod_list_put_local_mono next _ i hmem
      · exact h3 i (by omega) (by omega)
    · intro i hi
      simp only [mod_list_put_local] at hi
      rcases h4 i hi with h | h
      · simp only [List.mem_append, List.mem_singleton] at h
        rcases h with (h | h) | h
        · exact Or.inl h
        · right
          have := mem_mod_list_kicked h
          simp only [List.length_cons]
          omega
        · right
          simp only [List.length_cons]
          omega
      · right
        simp only [List.length_cons]
        omega

theorem mod_list_writes_eq (global_mod : Option (List fluid_mod_t))
    (local_mod : List fluid_mod_t) :
    mod_list_writes global_mod local_mod =
      mod_list_put_local (mod_list_put_global ([], []) (global_mod.getD [])) local_mod := by
  cases global_mod <;> rfl

theorem noteon_mod_list_eq (global_mod : Option (List fluid_mod_t))
    (local_mod : List fluid_mod_t) :
    noteon_mod_list global_mod local_mod =
      mod_list_add_local ((global_mod.getD []).map some) local_mod := by
  cases global_mod <;> rfl

theorem mod_list_writes_fst (global_mod : Option (List fluid_mod_t))
    (local_mod : List fluid_mod_t) :
    (mod_list_writes global_mod local_mod).1 = noteon_mod_list global_mod local_mod := by
  rw [mod_list_writes_eq, noteon_mod_list_eq,
    (mod_list_put_local_spec local_mod _).1, (mod_list_put_global_spec _ _).1]
  rfl

theorem noteon_mod_list_length (global_mod : Option (List fluid_mod_t))
    (local_mod : List fluid_mod_t) :
    (noteon_mod_list global_mod local_mod).length =
      (global_mod.getD []).length + local_mod.length := by
  rw [← mod_list_writes_fst, mod_list_writes_eq, (mod_list_put_local_spec local_mod _).2.1,
    (mod_list_put_global_spec _ _).1]
  simp

theorem mem_mod_list_writes (global_mod : Option (List fluid_mod_t))
    (local_mod : List fluid_mod_t) (i : Nat) :
    i ∈ (mod_list_writes global_mod local_mod).2 ↔
      i < (global_mod.getD []).length + local_mod.length := by
  obtain ⟨g1, g2⟩ := mod_list_put_global_spec (global_mod.getD []) ([], [])
  obtain ⟨_, _, l3, l4⟩ := mod_list_put_local_spec local_mod
    (mod_list_put_global ([], []) (global_mod.getD []))
  simp only [g1, List.nil_append, List.length_map] at l3 l4
  simp only [List.length_nil, Nat.zero_add, List.not_mem_nil, false_or, Nat.zero_le,
    true_and] at g2
  rw [mod_list_writes_eq]
  constructor
  · intro hi
    rcases l4 i hi with h | h
    · have := (g2 i).mp h
      omega
    · exact h
  · intro hi
    by_cases hlt : i < (global_mod.getD []).length
    · exact mod_list_put_local_mono _ _ i ((g2 i).mpr hlt)
    · exact l3 i (by omega) hi

/-- C38: in the merge of the modulators of a global zone and of a local zone
in `fluid_defpreset_noteon`, the same at instrument level and at preset level,
the number of entries of `mod_list` in use at the end is the number of
modulators of the global zone plus the number of modulators of the local zone,
whatever entries were set to `NULL`; the indices written are the numbers below
that sum, so that every write is at an index below a bound `FLUID_NUM_MOD` of
the array if and only if the sum is at most that bound. -/
theorem mod_list_writes_bound (global_mod : Option (List fluid_mod_t))
    (local_mod : List fluid_mod_t) (FLUID_NUM_MOD : Nat) :
    (mod_list_writes global_mod local_mod).1 = noteon_mod_list global_mod local_mod ∧
    (noteon_mod_list global_mod local_mod).length =
      (global_mod.getD []).length + local_mod.length ∧
    (∀ i, i ∈ (mod_list_writes global_mod local_mod).2 ↔
      i < (global_mod.getD []).length + local_mod.length) ∧
    ((∀ i ∈ (mod_list_writes global_mod local_mod).2, i < FLUID_NUM_MOD) ↔
      (global_mod.getD []).length + local_mod.length ≤ FLUID_NUM_MOD) ∧
    (∀ (global_inst_zone : Option fluid_inst_zone_t) (inst_zone : fluid_inst_zone_t),
      (noteon_mod_list (global_inst_zone.map (fun z => z.mod)) inst_zone.mod).length =
        ((global_inst_zone.map (fun z => z.mod.length)).getD 0) + inst_zone.mod.length) ∧
    (∀ (global_preset_zone : Option fluid_preset_zone_t) (preset_zone : fluid_preset_zone_t),
      (noteon_mod_list (global_preset_zone.map (fun z => z.mod)) preset_zone.mod).length =
        ((global_preset_zone.map (fun z => z.mod.length)).getD 0) + preset_zone.mod.length) ∧
    (mod_list_writes (some [demo_mod 48 100, demo_mod 17 40]) [demo_mod 48 50] =
      ([none, some (demo_mod 17 40), some (demo_mod 48 50)], [0, 1, 0, 2])) := by
  have h3 := mem_mod_list_writes global_mod local_mod
  refine ⟨mod_list_writes_fst global_mod local_mod, noteon_mod_list_length global_mod local_mod,
    h3, ?_, ?_, ?_, by decide⟩
  · constructor
    · intro hall
      by_contra hgt
      have hsum : FLUID_NUM_MOD < (global_mod.getD []).length + local_mod.length := by omega
      have := hall FLUID_NUM_MOD ((h3 _).mpr hsum)
      omega
    · intro hle i hi
      have := (h3 i).mp hi
      omega
  · intro global_inst_zone inst_zone
    rw [noteon_mod_list_length]
    cases global_inst_zone <;> rfl
  · intro global_preset_zone preset_zone
    rw [noteon_mod_list_length]
    cases global_preset_zone <;> rfl

/-! ## Import: the order of the zones -/

theorem fluid_inst_import_zones_succ (zonePZ : fluid_preset_zone_t) (sf_sample : List SFSample)
    (sfont_sample : List fluid_sample_t) :
    ∀ (p : List SFInstZone) (inst : fluid_inst_t) (count : Nat),
      fluid_inst_import_zones zonePZ sf_sample sfont_sample inst p (count + 1) =
        { inst with
          zone := ((p.enumFrom (count + 1)).map (fun q =>
            fluid_inst_zone_import_sfont zonePZ
              (new_fluid_inst_zone (inst.name ++ "/" ++ toString q.1)) q.2 sf_sample
              sfont_sample)).reverse ++ inst.zone } := by
  intro p
  induction p with
  | nil => intro inst count; rfl
  | cons sfzone rest ih =>
    intro inst count
    have hne : ¬ (count + 1 = 0 ∧
        (fluid_inst_zone_import_sfont zonePZ
          (new_fluid_inst_zone (inst.name ++ "/" ++ toString (count + 1))) sfzone sf_sample
          sfont_sample).sample = none) := fun h => absurd h.1 (Nat.succ_ne_zero count)
    simp only [fluid_inst_import_zones, if_neg hne, ih, fluid_inst_add_zone, List.enumFrom_cons,
      List.map_cons, List.reverse_cons, List.append_assoc, List.singleton_append]

theorem fluid_defpreset_import_zones_succ (sf : SFData) (sfont_sample : List fluid_sample_t) :
    ∀ (p : List SFPresetZone) (preset : fluid_defpreset_data) (count : Nat),
      fluid_defpreset_import_zones sf sfont_sample preset p (count + 1) =
        { preset with
          zone := ((p.enumFrom (count + 1)).map (fun q =>
            fluid_preset_zone_import_sfont
              (new_fluid_preset_zone (preset.name ++ "/" ++ toString q.1)) q.2 sf
              sfont_sample)).reverse ++ preset.zone } := by
  intro p
  induction p with
  | nil => intro preset count; rfl
  | cons sfzone rest ih =>
    intro preset count
    have hne : ¬ (count + 1 = 0 ∧
        (fluid_preset_zone_import_sfont
          (new_fluid_preset_zone (preset.name ++ "/" ++ toString (count + 1))) sfzone sf
          sfont_sample).inst = none) := fun h => absurd h.1 (Nat.succ_ne_zero count)
    simp only [fluid_defpreset_import_zones, if_neg hne, ih, fluid_defpreset_add_zone,
      List.enumFrom_cons, List.map_cons, List.reverse_cons, List.append_assoc,
      List.singleton_append]

theorem fluid_inst_import_zones_zero (zonePZ : fluid_preset_zone_t) (sf_sample : List SFSample)
    (sfont_sample : List fluid_sample_t) (inst : fluid_inst_t) (p : List SFInstZone) :
    fluid_inst_import_zones zonePZ sf_sample sfont_sample inst p 0 =
      match imported_inst_zones zonePZ inst.name sf_sample sfont_sample p with
      | [] => inst
      | zone :: rest =>
        if zone.sample = none then
          { inst with global_zone := some zone, zone := rest.reverse ++ inst.zone }
        else { inst with zone := (zone :: rest).reverse ++ inst.zone } := by
  cases p with
  | nil => rfl
  | cons sfzone rest =>
    simp only [imported_inst_zones, List.enum, List.enumFrom_cons, List.map_cons, Nat.zero_add]
    by_cases hs : (fluid_inst_zone_import_sfont zonePZ
        (new_fluid_inst_zone (inst.name ++ "/" ++ toString 0)) sfzone sf_sample
        sfont_sample).sample = none
    · have hc : (0 = 0 ∧ (fluid_inst_zone_import_sfont zonePZ
          (new_fluid_inst_zone (inst.name ++ "/" ++ toString 0)) sfzone sf_sample
          sfont_sample).sample = none) := ⟨rfl, hs⟩
      have hstep : fluid_inst_import_zones zonePZ sf_sample sfont_sample inst (sfzone :: rest) 0 =
          fluid_inst_import_zones zonePZ sf_sample sfont_sample
            (if 0 = 0 ∧ (fluid_inst_zone_import_sfont zonePZ
                (new_fluid_inst_zone (inst.name ++ "/" ++ toString 0)) sfzone sf_sample
                sfont_sample).sample = none then
              fluid_inst_set_global_zone inst (fluid_inst_zone_import_sfont zonePZ
                (new_fluid_inst_zone (inst.name ++ "/" ++ toString 0)) sfzone sf_sample
                sfont_sample)
            else fluid_inst_add_zone inst (fluid_inst_zone_import_sfont zonePZ
                (new_fluid_inst_zone (inst.name ++ "/" ++ toString 0)) sfzone sf_sample
                sfont_sample)) rest (0 + 1) := rfl
      rw [hstep, if_pos hc, if_pos hs, fluid_inst_import_zones_succ]
      rfl
    · have hc : ¬ (0 = 0 ∧ (fluid_inst_zone_import_sfont zonePZ
          (new_fluid_inst_zone (inst.name ++ "/" ++ toString 0)) sfzone sf_sample
          sfont_sample).sample = none) := fun h => hs h.2
      have hstep : fluid_inst_import_zones zonePZ sf_sample sfont_sample inst (sfzone :: rest) 0 =
          fluid_inst_import_zones zonePZ sf_sample sfont_sample
            (if 0 = 0 ∧ (fluid_inst_zone_import_sfont zonePZ
                (new_fluid_inst_zone (inst.name ++ "/" ++ toString 0)) sfzone sf_sample
                sfont_sample).sample = none then
              fluid_inst_set_global_zone inst (fluid_inst_zone_import_sfont zonePZ
                (new_fluid_inst_zone (inst.name ++ "/" ++ toString 0)) sfzone sf_sample
                sfont_sample)
            else fluid_inst_add_zone inst (fluid_inst_zone_import_sfont zonePZ
                (new_fluid_inst_zone (inst.name ++ "/" ++ toString 0)) sfzone sf_sample
                sfont_sample)) rest (0 + 1) := rfl
      rw [hstep, if_neg hc, if_neg hs, fluid_inst_import_zones_succ]
      simp only [fluid_inst_add_zone, List.reverse_cons, List.append_assoc,
        List.singleton_append]

theorem fluid_defpreset_import_zones_zero (sf : SFData) (sfont_sample : List fluid_sample_t)
    (preset : fluid_defpreset_data) (p : List SFPresetZone) :
    fluid_defpreset_import_zones sf sfont_sample preset p 0 =
      match imported_preset_zones preset.name sf sfont_sample p with
      | [] => preset
      | zone :: rest =>
        if zone.inst = none then
          { preset with global_zone := some zone, zone := rest.reverse ++ preset.zone }
        else { preset with zone := (zone :: rest).reverse ++ preset.zone } := by
  cases p with
  | nil => rfl
  | cons sfzone rest =>
    simp only [imported_preset_zones, List.enum, List.enumFrom_cons, List.map_cons, Nat.zero_add]
    by_cases hs : (fluid_preset_zone_import_sfont
        (new_fluid_preset_zone (preset.name ++ "/" ++ toString 0)) sfzone sf
        sfont_sample).inst = none
    · have hc : (0 = 0 ∧ (fluid_preset_zone_import_sfont
          (new_fluid_preset_zone (preset.name ++ "/" ++ toString 0)) sfzone sf
          sfont_sample).inst = none) := ⟨rfl, hs⟩
      have hstep : fluid_defpreset_import_zones sf sfont_sample preset (sfzone :: rest) 0 =
          fluid_defpreset_import_zones sf sfont_sample
            (if 0 = 0 ∧ (fluid_preset_zone_import_sfont
                (new_fluid_preset_zone (preset.name ++ "/" ++ toString 0)) sfzone sf
                sfont_sample).inst = none then
              fluid_defpreset_set_global_zone preset (fluid_preset_zone_import_sfont
                (new_fluid_preset_zone (preset.name ++ "/" ++ toString 0)) sfzone sf
                sfont_sample)
            else fluid_defpreset_add_zone preset (fluid_preset_zone_import_sfont
                (new_fluid_preset_zone (preset.name ++ "/" ++ toString 0)) sfzone sf
                sfont_sample)) rest (0 + 1) := rfl
      rw [hstep, if_pos hc, if_pos hs, fluid_defpreset_import_zones_succ]
      rfl
    · have hc : ¬ (0 = 0 ∧ (fluid_preset_zone_import_sfont
          (new_fluid_preset_zone (preset.name ++ "/" ++ toString 0)) sfzone sf
          sfont_sample).inst = none) := fun h => hs h.2
      have hstep : fluid_defpreset_import_zones sf sfont_sample preset (sfzone :: rest) 0 =
          fluid_defpreset_import_zones sf sfont_sample
            (if 0 = 0 ∧ (fluid_preset_zone_import_sfont
                (new_fluid_preset_zone (preset.name ++ "/" ++ toString 0)) sfzone sf
                sfont_sample).inst = none then
              fluid_defpreset_set_global_zone preset (fluid_preset_zone_import_sfont
                (new_fluid_preset_zone (preset.name ++ "/" ++ toString 0)) sfzone sf
                sfont_sample)
            else fluid_defpreset_add_zone preset (fluid_preset_zone_import_sfont
                (new_fluid_preset_zone (preset.name ++ "/" ++ toString 0)) sfzone sf
                sfont_sample)) rest (0 + 1) := rfl
      rw [hstep, if_neg hc, if_neg hs, fluid_defpreset_import_zones_succ]
      simp only [fluid_defpreset_add_zone, List.reverse_cons, List.append_assoc,
        List.singleton_append]

theorem imported_inst_zones_length (zonePZ : fluid_preset_zone_t) (name : String)
    (sf_sample : List SFSample) (sfont_sample : List fluid_sample_t) (zones : List SFInstZone) :
    (imported_inst_zones zonePZ name sf_sample sfont_sample zones).length = zones.length := by
  simp [imported_inst_zones, List.enum]

theorem imported_preset_zones_length (name : String) (sf : SFData)
    (sfont_sample : List fluid_sample_t) (zones : List SFPresetZone) :
    (imported_preset_zones name sf sfont_sample zones).length = zones.length := by
  simp [imported_preset_zones, List.enum]

theorem fluid_preset_zone_import_sfont_inst (name : String) (sfzone : SFPresetZone)
    (sf : SFData) (sfont_sample : List fluid_sample_t) :
    (fluid_preset_zone_import_sfont (new_fluid_preset_zone name) sfzone sf sfont_sample).inst =
        none ↔
      sfzone.ref.bind (fun k => sf.inst.get? k) = none := by
  unfold fluid_preset_zone_import_sfont
  cases h : sfzone.ref.bind (fun k => sf.inst.get? k) with
  | none => simp [new_fluid_preset_zone]
  | some sfinst => simp

theorem fluid_inst_zone_import_sfont_sample (name : String) (preset_zone : fluid_preset_zone_t)
    (sfzone : SFInstZone) (sf_sample : List SFSample) (sfont_sample : List fluid_sample_t) :
    (fluid_inst_zone_import_sfont preset_zone (new_fluid_inst_zone name) sfzone sf_sample
        sfont_sample).sample =
      (sfzone.ref.bind (fun k => sf_sample.get? k)).bind
        (fun sfsample => fluid_defsfont_sample_by_idx sfont_sample sfsample.idx) := by
  unfold fluid_inst_zone_import_sfont
  cases h : sfzone.ref.bind (fun k => sf_sample.get? k) with
  | none => simp [new_fluid_inst_zone]
  | some sfsample => simp

/-- C37: `fluid_inst_add_zone` and `fluid_defpreset_add_zone` link a zone in
front of the list. After `fluid_inst_import_sfont` into a new instrument the
first imported zone is the global zone, and not in the list of zones, when it
has no sample, and the list of zones is the reverse of the list of the
other imported zones; the number of zones of the list, plus one if there is a
global zone, is the number of intermediate zones. The same holds for
`fluid_defpreset_import_sfont` into a new preset, with the instrument in the
place of the sample. The imported first zone has no instrument exactly when
the intermediate zone refers to none; it has no sample when the intermediate
zone refers to none, and has one when the sample referred to is found in the
list of samples of the SoundFont. -/
theorem import_reverses_zone_order :
    (∀ (inst : fluid_inst_t) (zone : fluid_inst_zone_t),
      (fluid_inst_add_zone inst zone).zone = zone :: inst.zone) ∧
    (∀ (preset : fluid_defpreset_data) (zone : fluid_preset_zone_t),
      (fluid_defpreset_add_zone preset zone).zone = zone :: preset.zone) ∧
    (∀ (zonePZ : fluid_preset_zone_t) (sfinst : SFInst) (sf_sample : List SFSample)
        (sfont_sample : List fluid_sample_t),
      (fluid_inst_import_sfont zonePZ new_fluid_inst sfinst sf_sample sfont_sample).name =
        (if sfinst.name.length > 0 then sfinst.name else "<untitled>") ∧
      ((fluid_inst_import_sfont zonePZ new_fluid_inst sfinst sf_sample sfont_sample).global_zone =
        (imported_inst_zones zonePZ
          (if sfinst.name.length > 0 then sfinst.name else "<untitled>") sf_sample sfont_sample
          sfinst.zone).head?.bind (fun zone => if zone.sample = none then some zone else none)) ∧
      ((fluid_inst_import_sfont zonePZ new_fluid_inst sfinst sf_sample sfont_sample).zone =
        ((imported_inst_zones zonePZ
          (if sfinst.name.length > 0 then sfinst.name else "<untitled>") sf_sample sfont_sample
          sfinst.zone).drop
          (if (fluid_inst_import_sfont zonePZ new_fluid_inst sfinst sf_sample
            sfont_sample).global_zone.isSome then 1 else 0)).reverse) ∧
      ((fluid_inst_import_sfont zonePZ new_fluid_inst sfinst sf_sample sfont_sample).zone.length +
          (if (fluid_inst_import_sfont zonePZ new_fluid_inst sfinst sf_sample
            sfont_sample).global_zone.isSome then 1 else 0) =
        sfinst.zone.length)) ∧
    (∀ (sfpreset : SFPreset) (sf : SFData) (sfont_sample : List fluid_sample_t),
      (fluid_defpreset_import_sfont new_fluid_defpreset sfpreset sf sfont_sample).name =
        (if sfpreset.name.length > 0 then sfpreset.name
          else "Bank" ++ toString sfpreset.bank ++ ",Pre" ++ toString sfpreset.prenum) ∧
      ((fluid_defpreset_import_sfont new_fluid_defpreset sfpreset sf sfont_sample).global_zone =
        (imported_preset_zones
          (if sfpreset.name.length > 0 then sfpreset.name
            else "Bank" ++ toString sfpreset.bank ++ ",Pre" ++ toString sfpreset.prenum) sf
          sfont_sample sfpreset.zone).head?.bind
          (fun zone => if zone.inst = none then some zone else none)) ∧
      ((fluid_defpreset_import_sfont new_fluid_defpreset sfpreset sf sfont_sample).zone =
        ((imported_preset_zones
          (if sfpreset.name.length > 0 then sfpreset.name
            else "Bank" ++ toString sfpreset.bank ++ ",Pre" ++ toString sfpreset.prenum) sf
          sfont_sample sfpreset.zone).drop
          (if (fluid_defpreset_import_sfont new_fluid_defpreset sfpreset sf
            sfont_sample).global_zone.isSome then 1 else 0)).reverse) ∧
      ((fluid_defpreset_import_sfont new_fluid_defpreset sfpreset sf sfont_sample).zone.length +
          (if (fluid_defpreset_import_sfont new_fluid_defpreset sfpreset sf
            sfont_sample).global_zone.isSome then 1 else 0) =
        sfpreset.zone.length)) ∧
    (∀ (name : String) (sfzone : SFPresetZone) (sf : SFData)
        (sfont_sample : List fluid_sample_t),
      (fluid_preset_zone_import_sfont (new_fluid_preset_zone name) sfzone sf
          sfont_sample).inst = none ↔
        sfzone.ref.bind (fun k => sf.inst.get? k) = none) ∧
    (∀ (name : String) (preset_zone : fluid_preset_zone_t) (sfzone : SFInstZone)
        (sf_sample : List SFSample) (sfont_sample : List fluid_sample_t),
      (sfzone.ref.bind (fun k => sf_sample.get? k) = none →
        (fluid_inst_zone_import_sfont preset_zone (new_fluid_inst_zone name) sfzone sf_sample
          sfont_sample).sample = none) ∧
      (∀ sfsample sample, sfzone.ref.bind (fun k => sf_sample.get? k) = some sfsample →
        fluid_defsfont_sample_by_idx sfont_sample sfsample.idx = some sample →
        (fluid_inst_zone_import_sfont preset_zone (new_fluid_inst_zone name) sfzone sf_sample
          sfont_sample).sample = some sample)) ∧
    ((fluid_inst_import_sfont (new_fluid_preset_zone "p") new_fluid_inst
          ⟨"i", 0, 0, 3,
            [⟨[], [], 0, 0, 0, 0, none⟩, ⟨[], [], 0, 0, 0, 0, some 0⟩,
              ⟨[], [], 0, 0, 0, 0, some 0⟩]⟩
          [⟨"s", 0, 0, 100, 10, 90, 44100, 60, 0, 1⟩] [demo_sample]).zone.map
        (fun zone => zone.name) = ["i/2", "i/1"] ∧
      (fluid_inst_import_sfont (new_fluid_preset_zone "p") new_fluid_inst
          ⟨"i", 0, 0, 3,
            [⟨[], [], 0, 0, 0, 0, none⟩, ⟨[], [], 0, 0, 0, 0, some 0⟩,
              ⟨[], [], 0, 0, 0, 0, some 0⟩]⟩
          [⟨"s", 0, 0, 100, 10, 90, 44100, 60, 0, 1⟩] [demo_sample]).global_zone.map
        (fun zone => zone.name) = some "i/0") := by
  refine ⟨fun _ _ => rfl, fun _ _ => rfl, ?_, ?_, fluid_preset_zone_import_sfont_inst, ?_,
    ⟨by decide, by decide⟩⟩
  · intro zonePZ sfinst sf_sample sfont_sample
    have hlen := imported_inst_zones_length zonePZ
      (if sfinst.name.length > 0 then sfinst.name else "<untitled>") sf_sample sfont_sample
      sfinst.zone
    unfold fluid_inst_import_sfont
    dsimp only
    rw [fluid_inst_import_zones_zero]
    dsimp only [new_fluid_inst]
    cases hz : imported_inst_zones zonePZ
        (if sfinst.name.length > 0 then sfinst.name else "<untitled>") sf_sample sfont_sample
        sfinst.zone with
    | nil =>
      rw [hz] at hlen
      simp only [List.length_nil] at hlen
      refine ⟨rfl, rfl, rfl, ?_⟩
      simp only [Option.isSome_none, Bool.false_eq_true, if_false, List.length_nil]
      omega
    | cons zone rest =>
      rw [hz] at hlen
      simp only [List.length_cons] at hlen
      by_cases hs : zone.sample = none
      · simp only [if_pos hs, List.head?_cons, Option.some_bind, Option.isSome_some, if_true,
          List.drop_succ_cons, List.drop_zero, List.append_nil, List.length_reverse, true_and]
        omega
      · simp only [if_neg hs, List.head?_cons, Option.some_bind, Option.isSome_none,
          Bool.false_eq_true, if_false, List.drop_zero, List.append_nil, List.length_reverse,
          List.length_cons, true_and]
        omega
  · intro sfpreset sf sfont_sample
    have hlen := imported_preset_zones_length
      (if sfpreset.name.length > 0 then sfpreset.name
        else "Bank" ++ toString sfpreset.bank ++ ",Pre" ++ toString sfpreset.prenum) sf
      sfont_sample sfpreset.zone
    unfold fluid_defpreset_import_sfont
    dsimp only
    rw [fluid_defpreset_import_zones_zero]
    dsimp only [new_fluid_defpreset]
    cases hz : imported_preset_zones
        (if sfpreset.name.length > 0 then sfpreset.name
          else "Bank" ++ toString sfpreset.bank ++ ",Pre" ++ toString sfpreset.prenum) sf
        sfont_sample sfpreset.zone with
    | nil =>
      rw [hz] at hlen
      simp only [List.length_nil] at hlen
      refine ⟨rfl, rfl, rfl, ?_⟩
      simp only [Option.isSome_none, Bool.false_eq_true, if_false, List.length_nil]
      omega
    | cons zone rest =>
      rw [hz] at hlen
      simp only [List.length_cons] at hlen
      by_cases hs : zone.inst = none
      · simp only [if_pos hs, List.head?_cons, Option.some_bind, Option.isSome_some, if_true,
          List.drop_succ_cons, List.drop_zero, List.append_nil, List.length_reverse, true_and]
        omega
      · simp only [if_neg hs, List.head?_cons, Option.some_bind, Option.isSome_none,
          Bool.false_eq_true, if_false, List.drop_zero, List.append_nil, List.length_reverse,
          List.length_cons, true_and]
        omega
  · intro name preset_zone sfzone sf_sample sfont_sample
    rw [fluid_inst_zone_import_sfont_sample]
    constructor
    · intro h
      rw [h]
      rfl
    · intro sfsample sample h1 h2
      rw [h1]
      exact h2

/-! ## The generator ids the loaders store -/

theorem valid_inst_genid_bound (g : Nat) (h : valid_inst_genid g = true) :
    g ≤ 58 ∧ g ∉ unused_reserved_gens := by
  have hle : g ≤ 58 := by
    by_contra hgt
    have : g > Gen_MaxValid := by
      have : Gen_MaxValid = 58 := rfl
      omega
    simp [valid_inst_genid, this] at h
  refine ⟨hle, ?_⟩
  have hall : ∀ k, k ≤ 58 → valid_inst_genid k = true → k ∉ unused_reserved_gens := by
    decide
  exact hall g hle h

theorem valid_preset_genid_bound (g : Nat) (h : valid_preset_genid g = true) :
    g ≤ 58 ∧ g ∉ unused_reserved_gens := by
  apply valid_inst_genid_bound
  unfold valid_preset_genid at h
  by_cases hv : valid_inst_genid g = true
  · exact hv
  · simp [hv] at h

theorem load_gen_record_ids {terminal : Nat} {valid : Nat → Bool} {chunk : List GenRecord}
    {gen_idx : Nat} {ld ld' : GenLoaderVars} {level level' : Nat} {zgen zgen' : List SFGen}
    (Q : Nat → Prop) (hterm : Q terminal) (hk : Q Gen_KeyRange) (hv : Q Gen_VelRange)
    (hvalid : ∀ g, valid g = true → Q g)
    (hz : ∀ id ∈ gen_ids zgen, Q id)
    (h : load_gen_record terminal valid chunk gen_idx ld level zgen = some (ld', level', zgen')) :
    ∀ id ∈ gen_ids zgen', Q id := by
  have hstore : ∀ (l : GenLoaderVars) (genid : Nat) (v : SFGenAmount), Q genid →
      ∀ id ∈ gen_ids (store_gen l genid v zgen).2, Q id := by
    intro l genid v hq id hid
    rw [store_gen_ids] at hid
    split_ifs at hid
    · rw [List.mem_append, List.mem_singleton] at hid
      rcases hid with hid | hid
      · exact hz id hid
      · rw [hid]; exact hq
    · exact hz id hid
  rcases load_gen_record_cases terminal valid chunk gen_idx ld level zgen with
    ⟨_, hnone⟩ | ⟨r, _, hcase⟩
  · rw [hnone] at h
    cases h
  · rcases hcase with ⟨hc, heq⟩ | ⟨_, hc, heq⟩ | ⟨_, _, hc, heq⟩ | ⟨_, _, _, heq⟩
    · rw [heq] at h
      cases h
      apply hstore
      rcases hc with ⟨_, hid⟩ | ⟨_, hid⟩
      · rw [hid]; exact hk
      · rw [hid]; exact hv
    · rw [heq] at h
      cases h
      apply hstore
      rw [hc.2]
      exact hterm
    · rw [heq] at h
      cases h
      apply hstore
      exact hvalid _ hc.2
    · rw [heq] at h
      cases h
      exact hz

theorem load_zone_loop_ids {terminal : Nat} {valid : Nat → Bool} {chunk : List GenRecord}
    {gen_idx : Nat} (Q : Nat → Prop) (hterm : Q terminal) (hk : Q Gen_KeyRange)
    (hv : Q Gen_VelRange) (hvalid : ∀ g, valid g = true → Q g) :
    ∀ (n : Nat) {ld ld' : GenLoaderVars} {level level' : Nat} {zgen zgen' : List SFGen},
      (∀ id ∈ gen_ids zgen, Q id) →
      load_zone_loop terminal valid chunk gen_idx n ld level zgen = some (ld', level', zgen') →
      ∀ id ∈ gen_ids zgen', Q id := by
  intro n
  induction n with
  | zero =>
    intro ld ld' level level' zgen zgen' hz h
    simp only [load_zone_loop, Option.some.injEq, Prod.mk.injEq] at h
    obtain ⟨_, _, h3⟩ := h
    rw [← h3]
    exact hz
  | succ n ih =>
    intro ld ld' level level' zgen zgen' hz h
    cases hr : load_gen_record terminal valid chunk gen_idx ld level zgen with
    | none =>
      simp only [load_zone_loop, hr] at h
      cases h
    | some r =>
      obtain ⟨ld1, level1, zgen1⟩ := r
      simp only [load_zone_loop, hr] at h
      exact ih (load_gen_record_ids Q hterm hk hv hvalid hz hr) h

theorem fixup_zone_list_gens {terminal nrefs : Nat} {f : Bool} {zones res : List SFZone}
    (Q : Nat → Prop)
    (h : fixup_zone_list terminal nrefs f zones = some res)
    (hz : ∀ z ∈ zones, ∀ g ∈ z.gen, Q g.id) :
    ∀ z ∈ res, ∀ g ∈ z.gen, Q g.id := by
  obtain ⟨pre, hpre, hres⟩ := fixup_zone_list_shape terminal nrefs f zones res h
  intro z hzr g hg
  rw [hres, List.mem_append] at hzr
  rcases hzr with hzr | hzr
  · exact hz z (hpre z hzr).1 g hg
  · rw [List.mem_map] at hzr
    obtain ⟨z0, hz0, hzeq⟩ := hzr
    rw [← hzeq] at hg
    have hg2 : g ∈ z0.gen := List.mem_of_mem_dropLast hg
    exact hz z0 (List.mem_of_mem_filter hz0) g hg2

theorem zone_import_gen_writes_lt {sfgens : List SFGen}
    (h : ∀ g ∈ sfgens, g.id ≤ 58 ∧ g.id ∉ unused_reserved_gens) :
    ∀ i ∈ zone_import_gen_writes sfgens, i < GEN_LAST := by
  intro i hi
  unfold zone_import_gen_writes at hi
  rw [List.mem_map] at hi
  obtain ⟨g, hg, hgi⟩ := hi
  have := (h g (List.mem_of_mem_filter hg)).1
  have hl : GEN_LAST = 59 := rfl
  omega

/-- C36: every generator in the list of a zone after `load_preset_generators`
or `load_inst_generators` (called, as the loader does, on zones whose lists
are empty) has an id of at most 58, `Gen_Dummy - 1`, that is none of the
unused or reserved ids 14, 18, 19, 20, 42, 49, 55; the fixup of the zones
keeps this, as it only takes generators away; and so every index `sfgen->id`
at which `fluid_preset_zone_import_sfont` and `fluid_inst_zone_import_sfont`
write into `zone->gen` is below `GEN_LAST`, the length of the array. Of the
records with the ids 8, 59, 14 and 41 of a preset zone, 8 and 41 are stored. -/
theorem stored_generator_ids_in_bounds :
    (∀ (sf sf' : SFData) (pgen : List GenRecord) (pos num_presets : Nat),
      (∀ p ∈ sf.preset, ∀ z ∈ p.zone, z.gen = []) →
      load_preset_generators sf pgen pos num_presets = some sf' →
      ∀ p ∈ sf'.preset, ∀ z ∈ p.zone,
        (∀ g ∈ z.gen, g.id ≤ Gen_Dummy - 1 ∧ g.id ≤ 58 ∧ g.id ∉ unused_reserved_gens) ∧
        ∀ i ∈ zone_import_gen_writes z.gen, i < GEN_LAST) ∧
    (∀ (sf sf' : SFData) (igen : List GenRecord) (pos num_insts : Nat),
      (∀ p ∈ sf.inst, ∀ z ∈ p.zone, z.gen = []) →
      load_inst_generators sf igen pos num_insts = some sf' →
      ∀ p ∈ sf'.inst, ∀ z ∈ p.zone,
        (∀ g ∈ z.gen, g.id ≤ Gen_Dummy - 1 ∧ g.id ≤ 58 ∧ g.id ∉ unused_reserved_gens) ∧
        ∀ i ∈ zone_import_gen_writes z.gen, i < GEN_LAST) ∧
    (∀ (terminal nrefs : Nat) (f : Bool) (zones res : List SFZone),
      fixup_zone_list terminal nrefs f zones = some res →
      (∀ z ∈ zones, ∀ g ∈ z.gen, g.id ≤ 58 ∧ g.id ∉ unused_reserved_gens) →
      ∀ z ∈ res,
        (∀ g ∈ z.gen, g.id ≤ 58 ∧ g.id ∉ unused_reserved_gens) ∧
        ∀ i ∈ zone_import_gen_writes z.gen, i < GEN_LAST) ∧
    (GEN_LAST = Gen_Dummy ∧ fluid_gen_set_default_values.length = GEN_LAST) ∧
    load_preset_generators
        ⟨[⟨"p", 0, 0, 0, 1, [⟨[], [], 0, 4, 0, 0, none⟩]⟩], [], []⟩
        [⟨8, 5, 0⟩, ⟨59, 1, 0⟩, ⟨14, 1, 0⟩, ⟨41, 0, 0⟩] 0 1 =
      some ⟨[⟨"p", 0, 0, 0, 1,
        [⟨[⟨8, .sword 5⟩, ⟨41, .uword 0⟩], [], 0, 4, 0, 0, none⟩]⟩], [], []⟩ := by
  have hq : ∀ n : Nat, (n ≤ 58 ∧ n ∉ unused_reserved_gens) →
      n ≤ Gen_Dummy - 1 ∧ n ≤ 58 ∧ n ∉ unused_reserved_gens := by
    intro n hn
    exact ⟨hn.1, hn.1, hn.2⟩
  have hP : ∀ (terminal : Nat) (valid : Nat → Bool) (chunk : List GenRecord),
      (terminal ≤ 58 ∧ terminal ∉ unused_reserved_gens) →
      (∀ g, valid g = true → g ≤ 58 ∧ g ∉ unused_reserved_gens) →
      ∀ (gen_idx n : Nat) (ld ld' : GenLoaderVars) (level' : Nat) (zgen' : List SFGen),
        ld.duplicate_gen = none →
        load_zone_loop terminal valid chunk gen_idx n ld 0 [] = some (ld', level', zgen') →
        ∀ g ∈ zgen', g.id ≤ 58 ∧ g.id ∉ unused_reserved_gens := by
    intro terminal valid chunk hterm hvalid gen_idx n ld ld' level' zgen' _ h g hg
    have := load_zone_loop_ids (fun id => id ≤ 58 ∧ id ∉ unused_reserved_gens) hterm
      (by decide) (by decide) hvalid n (by intro id hid; simp [gen_ids] at hid) h
    exact this g.id (List.mem_map_of_mem _ hg)
  refine ⟨?_, ?_, ?_, ⟨rfl, by decide⟩, by decide⟩
  · intro sf sf' pgen pos num_presets hall h p hp z hz
    have := load_preset_generators_forall
      (fun zgen => ∀ g ∈ zgen, g.id ≤ 58 ∧ g.id ∉ unused_reserved_gens)
      (hP Gen_Instrument valid_preset_genid pgen (by decide) valid_preset_genid_bound)
      hall h p hp z hz
    exact ⟨fun g hg => hq _ (this g hg), zone_import_gen_writes_lt this⟩
  · intro sf sf' igen pos num_insts hall h p hp z hz
    have := load_inst_generators_forall
      (fun zgen => ∀ g ∈ zgen, g.id ≤ 58 ∧ g.id ∉ unused_reserved_gens)
      (hP Gen_SampleId valid_inst_genid igen (by decide) valid_inst_genid_bound)
      hall h p hp z hz
    exact ⟨fun g hg => hq _ (this g hg), zone_import_gen_writes_lt this⟩
  · intro terminal nrefs f zones res h hz z hzr
    have := fixup_zone_list_gens (fun id => id ≤ 58 ∧ id ∉ unused_reserved_gens) h hz z hzr
    exact ⟨this, zone_import_gen_writes_lt this⟩

/-! ## The sub-chunks of the pdta list -/

theorem fread_length {sffd : List Nat} {pos n : Nat} {b : List Nat}
    (h : fread sffd pos n = some b) : b.length = n ∧ ∀ x ∈ b, x < 256 := by
  unfold fread at h
  split_ifs at h with hle
  cases h
  refine ⟨?_, ?_⟩
  · simp only [List.length_map, List.length_take, List.length_drop]
    omega
  · intro x hx
    rw [List.mem_map] at hx
    obtain ⟨y, _, hy⟩ := hx
    rw [← hy]
    exact Nat.mod_lt _ (by decide)

theorem getD_lt_256 {b : List Nat} (hb : ∀ x ∈ b, x < 256) (i : Nat) : b.getD i 0 < 256 := by
  rw [List.getD_eq_getElem?_getD]
  cases h : b[i]? with
  | none => simp
  | some x =>
    simp only [Option.getD_some]
    exact hb x (List.mem_iff_getElem?.mpr ⟨i, h⟩)

theorem READCHUNK_pos {sffd : List Nat} {pos p1 : Nat} {chunk : SFChunk}
    (h : READCHUNK sffd pos = some (chunk, p1)) :
    p1 = pos + 8 ∧ chunk.size < 4294967296 := by
  unfold READCHUNK at h
  cases hr : fread sffd pos 8 with
  | none => rw [hr] at h; cases h
  | some b =>
    rw [hr] at h
    simp only [Option.some.injEq, Prod.mk.injEq] at h
    obtain ⟨hc, hp⟩ := h
    refine ⟨hp.symm, ?_⟩
    rw [← hc]
    have hb := (fread_length hr).2
    have hd : ∀ x ∈ b.drop 4, x < 256 := fun x hx => hb x (List.mem_of_mem_drop hx)
    have h0 := getD_lt_256 hd 0
    have h1 := getD_lt_256 hd 1
    have h2 := getD_lt_256 hd 2
    have h3 := getD_lt_256 hd 3
    simp only [FLUID_LE32TOH]
    omega

theorem int_sub_unsigned_eq {a : Int} {b : Nat} (h1 : -2147483648 ≤ a - b)
    (h2 : a - b < 2147483648) : int_sub_unsigned a b = a - b := by
  unfold int_sub_unsigned to_int
  by_cases hn : 0 ≤ a - (b : Int)
  · have hm : (a - (b : Int)) % 4294967296 = a - b := Int.emod_eq_of_lt hn (by omega)
    rw [hm]
    have ht : ((a - (b : Int)).toNat : Int) = a - b := Int.toNat_of_nonneg hn
    have hlt : (a - (b : Int)).toNat < 2147483648 := by omega
    have hmod : (a - (b : Int)).toNat % 4294967296 = (a - (b : Int)).toNat :=
      Nat.mod_eq_of_lt (by omega)
    rw [hmod, if_pos hlt]
    exact ht
  · have hm : (a - (b : Int)) % 4294967296 = a - b + 4294967296 := by
      have : (a - (b : Int)) % 4294967296 = (a - b + 4294967296) % 4294967296 := by
        rw [Int.add_emod_self]
      rw [this]
      exact Int.emod_eq_of_lt (by omega) (by omega)
    rw [hm]
    have ht : ((a - (b : Int) + 4294967296).toNat : Int) = a - b + 4294967296 :=
      Int.toNat_of_nonneg (by omega)
    have hge : ¬ (a - (b : Int) + 4294967296).toNat < 2147483648 := by omega
    have hmod : (a - (b : Int) + 4294967296).toNat % 4294967296 =
        (a - (b : Int) + 4294967296).toNat := Nat.mod_eq_of_lt (by omega)
    rw [hmod, if_neg hge]
    omega

theorem process_pdta_eq_apply (sffd : List Nat) (pos : Nat) (size : Int) :
    process_pdta sffd pos size =
      (pdta_apply sffd pdta_subchunks pos size).bind
        (fun r => (pdta_fields_of r.1).map (fun fields => (fields, r.2))) := by
  unfold process_pdta pdta_subchunks
  simp only [pdta_apply, SF_PHDR_SIZE, SF_BAG_SIZE, SF_MOD_SIZE, SF_GEN_SIZE, SF_IHDR_SIZE,
    SF_SHDR_SIZE]
  cases pdtahelper sffd pos PHDR_ID 38 1 size with
  | none => rfl
  | some phdr =>
    simp only [Option.some_bind]
    cases pdtahelper sffd phdr.pos PBAG_ID 4 1 phdr.available_size with
    | none => rfl
    | some pbag =>
      simp only [Option.some_bind]
      cases pdtahelper sffd pbag.pos PMOD_ID 10 0 pbag.available_size with
      | none => rfl
      | some pmod =>
        simp only [Option.some_bind]
        cases pdtahelper sffd pmod.pos PGEN_ID 4 0 pmod.available_size with
        | none => rfl
        | some pgen =>
          simp only [Option.some_bind]
          cases pdtahelper sffd pgen.pos IHDR_ID 22 1 pgen.available_size with
          | none => rfl
          | some ihdr =>
            simp only [Option.some_bind]
            cases pdtahelper sffd ihdr.pos IBAG_ID 4 1 ihdr.available_size with
            | none => rfl
            | some ibag =>
              simp only [Option.some_bind]
              cases pdtahelper sffd ibag.pos IMOD_ID 10 0 ibag.available_size with
              | none => rfl
              | some imod =>
                simp only [Option.some_bind]
                cases pdtahelper sffd imod.pos IGEN_ID 4 0 imod.available_size with
                | none => rfl
                | some igen =>
                  simp only [Option.some_bind]
                  cases pdtahelper sffd igen.pos SHDR_ID 46 1 igen.available_size with
                  | none => rfl
                  | some shdr =>
                    rfl

set_option maxRecDepth 100000 in
/-- C34, the size test of `pdtahelper` is defeated by a size of 2^31 or more:
`*available_size -= chunk.size` subtracts an `unsigned int` from an `int`, and
for a sub-chunk far larger than what is left of the pdta list the result
wraps around to a value that is not negative. A pbag header with the size
4294967292 is accepted with 12 bytes left, and leaves 8; a pdta list of 186
bytes whose last sub-chunk claims 4294967284 bytes is accepted by
`process_pdta`, with 93368854 sample headers. For a sub-chunk size of at most
2147483640 (and 0 to 2^31 - 1 bytes left, records of 2 bytes or more)
`pdtahelper` accepts a header it could read if and only if the id is the
expected one, the size is a multiple of the record size, there are at least
the required number of records and 8 + size is not more than what is left;
it then leaves the number of records, and 8 + size less. `process_pdta`
applies it to the nine sub-chunks in the order of `pdta_subchunks` and fails
as soon as one is rejected. -/
theorem pdtahelper_size_check_wraps :
    (pdtahelper (chunk_header "pbag" 4294967292) 0 PBAG_ID SF_BAG_SIZE 1 12 =
        some ⟨8, 1073741823, 8, 8 + 4294967292⟩ ∧
      (12 : Int) - (8 + 4294967292) < 0) ∧
    ((process_pdta demo_pdta_oversized 0 186).map
        (fun r => (r.1.shdr_pos, r.1.shdr_count, r.2)) =
        some (140, 93368854, 140 + 4294967284) ∧
      demo_pdta_oversized.length = 140 ∧
      (pdta_apply demo_pdta_oversized pdta_subchunks 0 186).map
        (fun r => r.1.map (fun c => c.available_size)) =
        some [140, 128, 120, 112, 82, 70, 62, 54, 58]) ∧
    (∀ (sffd : List Nat) (pos chunk_id record_size : Nat) (min_record_count : Int)
        (available_size : Int) (chunk : SFChunk) (p1 : Nat),
      READCHUNK sffd pos = some (chunk, p1) → 2 ≤ record_size →
      0 ≤ available_size → available_size < 2147483648 → chunk.size ≤ 2147483640 →
      pdtahelper sffd pos chunk_id record_size min_record_count available_size =
        if chunkid chunk.id = chunk_id ∧ chunk.size % record_size = 0 ∧
            min_record_count ≤ ((chunk.size / record_size : Nat) : Int) ∧
            0 ≤ available_size - (8 + (chunk.size : Int)) then
          some ⟨p1, ((chunk.size / record_size : Nat) : Int),
            available_size - (8 + (chunk.size : Int)), p1 + chunk.size⟩
        else none) ∧
    (∀ (sffd : List Nat) (pos : Nat) (size : Int),
      process_pdta sffd pos size =
        (pdta_apply sffd pdta_subchunks pos size).bind
          (fun r => (pdta_fields_of r.1).map (fun fields => (fields, r.2)))) ∧
    (pdta_subchunks =
      [(PHDR_ID, SF_PHDR_SIZE, 1), (PBAG_ID, SF_BAG_SIZE, 1), (PMOD_ID, SF_MOD_SIZE, 0),
        (PGEN_ID, SF_GEN_SIZE, 0), (IHDR_ID, SF_IHDR_SIZE, 1), (IBAG_ID, SF_BAG_SIZE, 1),
        (IMOD_ID, SF_MOD_SIZE, 0), (IGEN_ID, SF_GEN_SIZE, 0), (SHDR_ID, SF_SHDR_SIZE, 1)]) ∧
    ((process_pdta demo_pdta 0 186).map (fun r => (r.1.shdr_pos, r.1.shdr_count, r.2)) =
        some (140, 1, 186) ∧
      process_pdta demo_pdta 0 185 = none) := by
  refine ⟨⟨by decide, by decide⟩, ⟨by decide, by decide, by decide⟩, ?_, process_pdta_eq_apply,
    rfl, ⟨by decide, by decide⟩⟩
  intro sffd pos chunk_id record_size min_record_count available_size chunk p1 hr hrs ha0 ha1 hcs
  have hdiv : chunk.size / record_size < 2147483648 := by
    have : chunk.size / record_size ≤ chunk.size := Nat.div_le_self _ _
    omega
  have hti : to_int (chunk.size / record_size) = ((chunk.size / record_size : Nat) : Int) :=
    to_int_eq hdiv
  have hsub : int_sub_unsigned (available_size - 8) chunk.size =
      available_size - (8 + (chunk.size : Int)) := by
    rw [int_sub_unsigned_eq (by omega) (by omega)]
    omega
  unfold pdtahelper
  rw [hr]
  dsimp only
  rw [hti, hsub]
  by_cases h1 : chunkid chunk.id = chunk_id
  · by_cases h2 : chunk.size % record_size = 0
    · by_cases h3 : min_record_count ≤ ((chunk.size / record_size : Nat) : Int)
      · by_cases h4 : 0 ≤ available_size - (8 + (chunk.size : Int))
        · have hc : chunkid chunk.id = chunk_id ∧ chunk.size % record_size = 0 ∧
              min_record_count ≤ ((chunk.size / record_size : Nat) : Int) ∧
              0 ≤ available_size - (8 + (chunk.size : Int)) := ⟨h1, h2, h3, h4⟩
          rw [if_pos hc, if_neg (not_not.mpr h1), if_neg (not_not.mpr h2),
            if_neg (not_lt.mpr h3), if_neg (not_lt.mpr h4)]
        · have hc : ¬ (chunkid chunk.id = chunk_id ∧ chunk.size % record_size = 0 ∧
              min_record_count ≤ ((chunk.size / record_size : Nat) : Int) ∧
              0 ≤ available_size - (8 + (chunk.size : Int))) := fun h => h4 h.2.2.2
          rw [if_neg hc, if_neg (not_not.mpr h1), if_neg (not_not.mpr h2),
            if_neg (not_lt.mpr h3), if_pos (not_le.mp h4)]
      · have hc : ¬ (chunkid chunk.id = chunk_id ∧ chunk.size % record_size = 0 ∧
            min_record_count ≤ ((chunk.size / record_size : Nat) : Int) ∧
            0 ≤ available_size - (8 + (chunk.size : Int))) := fun h => h3 h.2.2.1
        rw [if_neg hc, if_neg (not_not.mpr h1), if_neg (not_not.mpr h2),
          if_pos (not_le.mp h3)]
    · have hc : ¬ (chunkid chunk.id = chunk_id ∧ chunk.size % record_size = 0 ∧
          min_record_count ≤ ((chunk.size / record_size : Nat) : Int) ∧
          0 ≤ available_size - (8 + (chunk.size : Int))) := fun h => h2 h.2.1
      rw [if_neg hc, if_neg (not_not.mpr h1), if_pos h2]
  · have hc : ¬ (chunkid chunk.id = chunk_id ∧ chunk.size % record_size = 0 ∧
        min_record_count ≤ ((chunk.size / record_size : Nat) : Int) ∧
        0 ≤ available_size - (8 + (chunk.size : Int))) := fun h => h1 h.1
    rw [if_neg hc, if_pos h1]

/-! ## The INFO list: validation of the sub-chunks -/

theorem READW_pos {sffd : List Nat} {pos p1 w : Nat} (h : READW sffd pos = some (w, p1)) :
    p1 = pos + 2 := by
  unfold READW at h
  cases hr : fread sffd pos 2 with
  | none => rw [hr] at h; cases h
  | some b =>
    rw [hr] at h
    simp only [Option.some.injEq, Prod.mk.injEq] at h
    exact h.2.symm

theorem read_info_subchunk_pos {L : Bool} {sffd : List Nat} {sf sf2 : info_fields}
    {pos pos2 : Nat} {size size2 : Int}
    (h : read_info_subchunk L sffd sf pos size = some (sf2, pos2, size2)) :
    (pos2 : Int) - pos = size - size2 := by
  unfold read_info_subchunk at h
  cases hr : READCHUNK sffd pos with
  | none => rw [hr] at h; cases h
  | some c =>
    obtain ⟨chunk, p1⟩ := c
    rw [hr] at h
    dsimp only at h
    have hp1 := (READCHUNK_pos hr).1
    by_cases hifil : chunkid chunk.id = IFIL_ID
    · rw [if_pos hifil] at h
      by_cases h4 : chunk.size ≠ 4
      · rw [if_pos h4] at h
        cases h
      · rw [if_neg h4] at h
        have h4e : chunk.size = 4 := not_not.mp h4
        cases hw1 : READW sffd p1 with
        | none => rw [hw1] at h; cases h
        | some a =>
          obtain ⟨major, p2⟩ := a
          rw [hw1] at h
          dsimp only at h
          cases hw2 : READW sffd p2 with
          | none => rw [hw2] at h; cases h
          | some b =>
            obtain ⟨minor, p3⟩ := b
            rw [hw2] at h
            dsimp only at h
            have e1 := READW_pos hw1
            have e2 := READW_pos hw2
            repeat' split at h
            all_goals first
              | (cases h; done)
              | (cases h; omega)
    · rw [if_neg hifil] at h
      by_cases hiver : chunkid chunk.id = IVER_ID
      · rw [if_pos hiver] at h
        by_cases h4 : chunk.size ≠ 4
        · rw [if_pos h4] at h
          cases h
        · rw [if_neg h4] at h
          have h4e : chunk.size = 4 := not_not.mp h4
          cases hw1 : READW sffd p1 with
          | none => rw [hw1] at h; cases h
          | some a =>
            obtain ⟨major, p2⟩ := a
            rw [hw1] at h
            dsimp only at h
            cases hw2 : READW sffd p2 with
            | none => rw [hw2] at h; cases h
            | some b =>
              obtain ⟨minor, p3⟩ := b
              rw [hw2] at h
              dsimp only at h
              have e1 := READW_pos hw1
              have e2 := READW_pos hw2
              cases h
              omega
      · rw [if_neg hiver] at h
        repeat' split at h
        all_goals first
          | (cases h; done)
          | (cases h; push_cast; omega)

theorem read_info_loop_pos (L : Bool) (sffd : List Nat) :
    ∀ (fuel : Nat) (sf : info_fields) (pos : Nat) (size : Int) (r : info_fields × Nat),
      read_info_loop L sffd fuel sf pos size = some r → (r.2 : Int) = pos + size := by
  intro fuel
  induction fuel with
  | zero =>
    intro sf pos size r h
    unfold read_info_loop at h
    split_ifs at h with h1 h2
    cases h
    simp only [Int.natCast_add]
    omega
  | succ n ih =>
    intro sf pos size r h
    unfold read_info_loop at h
    split_ifs at h with h1 h2
    · cases hb : read_info_subchunk L sffd sf pos size with
      | none => rw [hb] at h; cases h
      | some x =>
        obtain ⟨sf2, pos2, size2⟩ := x
        rw [hb] at h
        have h3 := ih sf2 pos2 size2 r h
        have h4 := read_info_subchunk_pos hb
        omega
    · cases h
      omega

theorem read_info_subchunks_neg (L : Bool) (sffd : List Nat) (sf : info_fields) (pos : Nat)
    (size : Int) (h : size < 0) : read_info_subchunks L sffd sf pos size = none := by
  unfold read_info_subchunks
  have : size.toNat = 0 := by omega
  rw [this]
  have h1 : ¬ size > 0 := by omega
  simp only [read_info_loop, h1, if_false, h, if_true]

/-- C35: in `read_info_subchunks`, for a sub-chunk whose header could be read:
an id that is not in the table of chunk ids makes the parsing fail; an ifil
or iver sub-chunk of a size other than 4 makes it fail, and an iver sub-chunk
of size 4 is read and the parsing goes on; a sub-chunk with another id of the
table is accepted if and only if its size is even and at most 256, or at most
65536 for the id ICMT, and is then stored if its text can be read, and the
parsing goes on behind it; the parsing fails when 8 + size of a sub-chunk
accepted is more than what is left of the INFO list, and a parsing that
succeeds ends exactly at the end of the list, the sizes of the sub-chunks
with their headers adding up to its size. -/
theorem info_subchunk_validation (L : Bool) (sffd : List Nat) (sf : info_fields) (pos : Nat)
    (size : Int) (chunk : SFChunk) (p1 : Nat)
    (hsize : 0 < size)
    (hchunk : READCHUNK sffd pos = some (chunk, p1)) :
    (chunkid chunk.id = UNKN_ID → read_info_subchunks L sffd sf pos size = none) ∧
    ((chunkid chunk.id = IFIL_ID ∨ chunkid chunk.id = IVER_ID) → chunk.size ≠ 4 →
      read_info_subchunks L sffd sf pos size = none) ∧
    (chunkid chunk.id = IVER_ID → chunk.size = 4 →
      ∀ major minor p2 p3, READW sffd p1 = some (major, p2) →
        READW sffd p2 = some (minor, p3) →
        read_info_subchunks L sffd sf pos size =
          read_info_subchunks L sffd { sf with romver := ⟨major, minor⟩ } p3 (size - 12)) ∧
    (chunkid chunk.id ≠ UNKN_ID → chunkid chunk.id ≠ IFIL_ID → chunkid chunk.id ≠ IVER_ID →
      (¬ (chunk.size % 2 = 0 ∧
          (chunk.size ≤ 256 ∨ (chunkid chunk.id = ICMT_ID ∧ chunk.size ≤ 65536))) →
        read_info_subchunks L sffd sf pos size = none) ∧
      (chunk.size % 2 = 0 ∧
          (chunk.size ≤ 256 ∨ (chunkid chunk.id = ICMT_ID ∧ chunk.size ≤ 65536)) →
        (fread sffd p1 chunk.size = none →
          read_info_subchunks L sffd sf pos size = none) ∧
        ∀ text, fread sffd p1 chunk.size = some text →
          read_info_subchunks L sffd sf pos size =
            read_info_subchunks L sffd
              { sf with info := sf.info ++ [(chunkid chunk.id :: text).set chunk.size 0] }
              (p1 + chunk.size) (size - 8 - chunk.size))) ∧
    (∀ sf2 pos2 size2, read_info_subchunk L sffd sf pos size = some (sf2, pos2, size2) →
      size < 8 + (chunk.size : Int) → read_info_subchunks L sffd sf pos size = none) ∧
    (∀ r, read_info_subchunks L sffd sf pos size = some r → (r.2 : Int) = pos + size) := by
  have hstep := read_info_subchunks_step L sffd sf pos size hsize
  refine ⟨?_, ?_, ?_, ?_, ?_, ?_⟩
  · intro hid
    have hb : read_info_subchunk L sffd sf pos size = none := by
      unfold read_info_subchunk
      rw [hchunk]
      dsimp only
      have h1 : ¬ chunkid chunk.id = IFIL_ID := by rw [hid]; decide
      have h2 : ¬ chunkid chunk.id = IVER_ID := by rw [hid]; decide
      rw [if_neg h1, if_neg h2, if_neg (not_not.mpr hid)]
    rw [hstep, hb]
  · intro hid h4
    have hb : read_info_subchunk L sffd sf pos size = none := by
      unfold read_info_subchunk
      rw [hchunk]
      dsimp only
      rcases hid with hid | hid
      · rw [if_pos hid, if_pos h4]
      · have h1 : ¬ chunkid chunk.id = IFIL_ID := by rw [hid]; decide
        rw [if_neg h1, if_pos hid, if_pos h4]
    rw [hstep, hb]
  · intro hid h4 major minor p2 p3 hw1 hw2
    have hb : read_info_subchunk L sffd sf pos size =
        some ({ sf with romver := ⟨major, minor⟩ }, p3, size - 12) := by
      unfold read_info_subchunk
      rw [hchunk]
      dsimp only
      have h1 : ¬ chunkid chunk.id = IFIL_ID := by rw [hid]; decide
      rw [if_neg h1, if_pos hid, if_neg (not_not.mpr h4), hw1]
      dsimp only
      rw [hw2]
      dsimp only
      rw [h4]
      congr 3
      omega
    rw [hstep, hb]
  · intro hu hi hv
    have hcond : ((chunkid chunk.id ≠ ICMT_ID ∧ chunk.size > 256) ∨ chunk.size > 65536 ∨
        chunk.size % 2 ≠ 0) ↔
        ¬ (chunk.size % 2 = 0 ∧
          (chunk.size ≤ 256 ∨ (chunkid chunk.id = ICMT_ID ∧ chunk.size ≤ 65536))) := by
      by_cases hc : chunkid chunk.id = ICMT_ID
      · simp only [hc, ne_eq, not_true_eq_false, false_and, false_or, true_and]
        omega
      · simp only [hc, ne_eq, not_false_eq_true, true_and, false_and, or_false]
        omega
    constructor
    · intro hbad
      have hb : read_info_subchunk L sffd sf pos size = none := by
        unfold read_info_subchunk
        rw [hchunk]
        dsimp only
        rw [if_neg hi, if_neg hv, if_pos hu, if_pos (hcond.mpr hbad)]
      rw [hstep, hb]
    · intro hgood
      have hnb : ¬ ((chunkid chunk.id ≠ ICMT_ID ∧ chunk.size > 256) ∨ chunk.size > 65536 ∨
          chunk.size % 2 ≠ 0) := fun h => (hcond.mp h) hgood
      constructor
      · intro hf
        have hb : read_info_subchunk L sffd sf pos size = none := by
          unfold read_info_subchunk
          rw [hchunk]
          dsimp only
          rw [if_neg hi, if_neg hv, if_pos hu, if_neg hnb, hf]
        rw [hstep, hb]
      · intro text hf
        have hb : read_info_subchunk L sffd sf pos size =
            some ({ sf with info := sf.info ++ [(chunkid chunk.id :: text).set chunk.size 0] },
              p1 + chunk.size, size - 8 - chunk.size) := by
          unfold read_info_subchunk
          rw [hchunk]
          dsimp only
          rw [if_neg hi, if_neg hv, if_pos hu, if_neg hnb, hf]
        rw [hstep, hb]
  · intro sf2 pos2 size2 hb hlt
    rw [hstep, hb]
    dsimp only
    apply read_info_subchunks_neg
    have h1 := read_info_subchunk_pos hb
    have h2 : size2 ≤ size - 8 - chunk.size := by
      unfold read_info_subchunk at hb
      rw [hchunk] at hb
      dsimp only at hb
      repeat' split at hb
      all_goals first
        | (cases hb; done)
        | (cases hb; omega)
    omega
  · intro r hr
    exact read_info_loop_pos L sffd _ sf pos size r hr

/-- Instance of C35: an INFO list that is an INAM sub-chunk of 4 bytes is
parsed, the same sub-chunk in a list of size 10 is not, and a sub-chunk of 3
bytes is not. -/
theorem info_subchunk_validation_witness :
    (read_info_subchunks false (chunk_header "INAM" 4 ++ [97, 98, 99, 0]) ⟨⟨0, 0⟩, ⟨0, 0⟩, []⟩
        0 12 =
      read_info_subchunks false (chunk_header "INAM" 4 ++ [97, 98, 99, 0])
        ⟨⟨0, 0⟩, ⟨0, 0⟩, [[9, 97, 98, 99, 0]]⟩ 12 0) ∧
    read_info_subchunks false (chunk_header "INAM" 4 ++ [97, 98, 99, 0]) ⟨⟨0, 0⟩, ⟨0, 0⟩, []⟩
        0 12 = some (⟨⟨0, 0⟩, ⟨0, 0⟩, [[9, 97, 98, 99, 0]]⟩, 12) ∧
    read_info_subchunks false (chunk_header "INAM" 4 ++ [97, 98, 99, 0]) ⟨⟨0, 0⟩, ⟨0, 0⟩, []⟩
        0 10 = none ∧
    read_info_subchunks false (chunk_header "INAM" 3 ++ [97, 98, 0]) ⟨⟨0, 0⟩, ⟨0, 0⟩, []⟩
        0 11 = none ∧
    read_info_subchunks false (chunk_header "abcd" 4 ++ [97, 98, 99, 0]) ⟨⟨0, 0⟩, ⟨0, 0⟩, []⟩
        0 12 = none :=
  ⟨(((info_subchunk_validation false (chunk_header "INAM" 4 ++ [97, 98, 99, 0])
      ⟨⟨0, 0⟩, ⟨0, 0⟩, []⟩ 0 12 ⟨"INAM".toList.map Char.toNat, 4⟩ 8 (by decide)
      (by decide)).2.2.2.1 (by decide) (by decide) (by decide)).2 (by decide)).2
      [97, 98, 99, 0] (by decide),
    by decide, by decide, by decide, by decide⟩

end FluidSynth
